import Mathlib

/-!
# C-subset compiler middle end: symbol table, semantic analysis, IR generation

A shallow embedding of `symbol_table.c`, `semantic.c`, `ir.c` and `ir_gen.c`.

Conventions of the embedding.

* A `char *` holding an identifier is a `String`; `strcmp(a, b) == 0` is `a = b`.
* A linked list threaded through a `next` field (the symbols of one hash bucket, the
  instructions of a function) is a `List`, head first.
* `Scope` objects live in a heap (`SymTab.heap`); a `Scope *` is the index of the scope in
  the heap, `none` is `NULL`.  `enter_scope` is the only allocator, it appends to the heap.
* C `int` values that are only counted up from zero are `Nat`/`Int` without wrap-around.
-/

namespace CompilerDesign

/-! ## symbol_table.h -/

/-- `#define TABLE_SIZE 200`. -/
def TABLE_SIZE : Nat := 200

/-- `enum DataType`. -/
inductive DataType where
  | TYPE_INT
  | TYPE_CHAR
  | TYPE_VOID
  deriving DecidableEq, Inhabited

/-- `enum SymbolKind`. -/
inductive SymbolKind where
  | SYM_VARIABLE
  | SYM_FUNCTION
  | SYM_PARAMETER
  | SYM_CONSTANT
  | SYM_KEYWORD
  deriving DecidableEq, Inhabited

/-- `struct Symbol` without its `next` field: the chain of a bucket is a `List Symbol`.
`param_types == NULL` is the empty list. -/
structure Symbol where
  name : String
  type : DataType
  kind : SymbolKind
  line_number : Int
  scope_level : Int
  param_count : Nat
  param_types : List DataType
  deriving DecidableEq, Inhabited

/-- `struct Scope`: `table[i]` is the chain of bucket `i`; `parent` and `next_scope` are
heap addresses. -/
structure Scope where
  table : List (List Symbol)
  level : Int
  parent : Option Nat
  next_scope : Option Nat
  deriving DecidableEq, Inhabited

/-- The globals of `symbol_table.c` (`current_scope`, `all_scopes`) and the heap of the
scopes allocated so far. -/
structure SymTab where
  heap : List Scope
  current_scope : Option Nat
  all_scopes : Option Nat
  deriving DecidableEq, Inhabited

/-- The state at program start: no scope allocated, both globals `NULL`. -/
def SymTab.empty : SymTab := { heap := [], current_scope := none, all_scopes := none }

/-! ## symbol_table.c -/

/-- `hash`: `h = (h << 4) + c` on a 32-bit `unsigned int`, reduced modulo `TABLE_SIZE`.
Characters are taken with their code (identifiers are ASCII, where `char` is
non-negative). -/
def hash (key : String) : Nat :=
  (key.data.foldl (fun h c => (h * 16 + c.toNat) % 4294967296) 0) % TABLE_SIZE

/-- The object `enter_scope` allocates: zeroed buckets, `parent` the current scope, `level`
one more than the level of the current scope (0 without one), linked in front of the
`all_scopes` list. -/
def new_scope (st : SymTab) : Scope :=
  { table := List.replicate TABLE_SIZE [],
    level :=
      match st.current_scope with
      | some a =>
        match st.heap[a]? with
        | some sc => sc.level + 1
        | none => 0
      | none => 0,
    parent := st.current_scope,
    next_scope := st.all_scopes }

/-- `enter_scope`: the new scope gets the next free address. -/
def enter_scope (st : SymTab) : SymTab :=
  { heap := st.heap ++ [new_scope st],
    current_scope := some st.heap.length,
    all_scopes := some st.heap.length }

/-- `exit_scope`: only the `current_scope` global moves, nothing is freed. -/
def exit_scope (st : SymTab) : SymTab :=
  match st.current_scope with
  | none => st
  | some a =>
    match st.heap[a]? with
    | some sc => { st with current_scope := sc.parent }
    | none => { st with current_scope := none }

/-- `init_symbol_table`. -/
def init_symbol_table (st : SymTab) : SymTab := enter_scope st

/-- `create_symbol`; `scope_level` is read from the current scope (level 0 stands for the
read through a `NULL` current scope, which C leaves undefined). -/
def create_symbol (st : SymTab) (name : String) (type : DataType) (kind : SymbolKind)
    (line : Int) : Symbol :=
  { name := name,
    type := type,
    kind := kind,
    line_number := line,
    scope_level :=
      match st.current_scope with
      | some a =>
        match st.heap[a]? with
        | some sc => sc.level
        | none => 0
      | none => 0,
    param_count := 0,
    param_types := [] }

/-- The loop `while (sym) { if (strcmp(sym->name, name) == 0) return sym; sym = sym->next; }`
shared by `insert_symbol`, `lookup_current` and `lookup`. -/
def find_symbol (name : String) : List Symbol → Option Symbol
  | [] => none
  | s :: rest => if s.name = name then some s else find_symbol name rest

/-- The two stores `sym->next = table[index]; table[index] = sym;` of `insert_symbol`:
`sym` becomes the head of the bucket of its hash. -/
def Scope.push (sc : Scope) (sym : Symbol) : Scope :=
  { sc with table := sc.table.set (hash sym.name) (sym :: sc.table.getD (hash sym.name) []) }

/-- A write through a `Scope *`: the scope at address `a` becomes `sc`. -/
def SymTab.store (st : SymTab) (a : Nat) (sc : Scope) : SymTab :=
  { st with heap := st.heap.set a sc }

/-- `insert_symbol`: the returned flag is `true` for 1 (success) and `false` for 0. -/
def insert_symbol (st : SymTab) (sym : Symbol) : SymTab × Bool :=
  match st.current_scope with
  | none => (st, false)
  | some a =>
    match st.heap[a]? with
    | none => (st, false)
    | some sc =>
      match find_symbol sym.name (sc.table.getD (hash sym.name) []) with
      | some _ => (st, false)
      | none => (st.store a (sc.push sym), true)

/-- `lookup_current`. -/
def lookup_current (st : SymTab) (name : String) : Option Symbol :=
  match st.current_scope with
  | none => none
  | some a =>
    match st.heap[a]? with
    | none => none
    | some sc => find_symbol name (sc.table.getD (hash name) [])

/-- The outer loop of `lookup`, `while (scope) { ...; scope = scope->parent; }`, with a
bound on the number of scopes visited. -/
def lookup_from (heap : List Scope) (name : String) : Nat → Option Nat → Option Symbol
  | 0, _ => none
  | _ + 1, none => none
  | fuel + 1, some a =>
    match heap[a]? with
    | none => none
    | some sc =>
      match find_symbol name (sc.table.getD (hash name) []) with
      | some s => some s
      | none => lookup_from heap name fuel sc.parent

/-- `lookup`: a parent is allocated before its children, so a walk from the current scope
visits at most as many scopes as the heap holds. -/
def lookup (st : SymTab) (name : String) : Option Symbol :=
  lookup_from st.heap name st.heap.length st.current_scope

/-! ### Representation invariant of the symbol table -/

/-- All symbols stored in a scope, bucket after bucket. -/
def Scope.symbols (sc : Scope) : List Symbol := sc.table.flatten

/-- A scope has `TABLE_SIZE` buckets and keeps every symbol in the bucket of its hash. -/
def Scope.wf (sc : Scope) : Prop :=
  sc.table.length = TABLE_SIZE ∧ ∀ i s, s ∈ sc.table.getD i [] → hash s.name = i

/-- Each bucket of the scope holds pairwise different names. -/
def Scope.unique (sc : Scope) : Prop :=
  ∀ b ∈ sc.table, (b.map Symbol.name).Nodup

/-- Pointers are valid and a parent has a smaller address than its children. -/
structure SymTab.wf (st : SymTab) : Prop where
  current_valid : ∀ a, st.current_scope = some a → a < st.heap.length
  parent_lt : ∀ (a : Nat) (sc : Scope), st.heap[a]? = some sc → ∀ p, sc.parent = some p → p < a
  scope_wf : ∀ (a : Nat) (sc : Scope), st.heap[a]? = some sc → sc.wf

/-- The scopes met when following `parent` from a pointer down to `NULL`. -/
inductive Chain (heap : List Scope) : Option Nat → List Scope → Prop where
  | nil : Chain heap none []
  | cons {a : Nat} {sc : Scope} {l : List Scope} :
      heap[a]? = some sc → Chain heap sc.parent l → Chain heap (some a) (sc :: l)

/-- States built from the empty table by the four operations of the interface. -/
inductive Reachable : SymTab → Prop where
  | empty : Reachable SymTab.empty
  | init {st : SymTab} : Reachable st → Reachable (init_symbol_table st)
  | enter {st : SymTab} : Reachable st → Reachable (enter_scope st)
  | exit {st : SymTab} : Reachable st → Reachable (exit_scope st)
  | insert {st : SymTab} (sym : Symbol) : Reachable st → Reachable (insert_symbol st sym).1


/-! ### Sample tables -/

/-- The table after `init_symbol_table()` at program start: one global scope. -/
def demo_global : SymTab := init_symbol_table SymTab.empty

/-- A variable `int x` declared on line 1 of the global scope. -/
def demo_sym_x : Symbol :=
  create_symbol demo_global "x" DataType.TYPE_INT SymbolKind.SYM_VARIABLE 1

/-- A variable `char x` declared on line 2, for an inner scope. -/
def demo_sym_x_inner : Symbol :=
  create_symbol demo_global "x" DataType.TYPE_CHAR SymbolKind.SYM_VARIABLE 2

/-- The global scope holding `int x`. -/
def demo_with_x : SymTab := (insert_symbol demo_global demo_sym_x).1


/-! ## ast.h, ast.c -/

/-- Modelled from the spec: `ast.h` is not among the sources.  `enum NodeType`, with the
kinds named in `ast.c`, `semantic.c` and `ir_gen.c`. -/
inductive NodeType where
  | NODE_FUNC_DEF
  | NODE_VAR_DECL
  | NODE_PARAM
  | NODE_BLOCK
  | NODE_IF
  | NODE_WHILE
  | NODE_FOR
  | NODE_RETURN
  | NODE_ASSIGN
  | NODE_BIN_OP
  | NODE_UN_OP
  | NODE_CONST_INT
  | NODE_CONST_CHAR
  | NODE_VAR
  | NODE_FUNC_CALL
  | NODE_TYPE
  | NODE_STR_LIT
  | NODE_EMPTY
  deriving DecidableEq, Inhabited

/-- The scalar fields of `struct ASTNode`; `str_val = none` is a `NULL` string. -/
structure NodeData where
  type : NodeType
  data_type : DataType
  line_number : Int
  int_val : Int
  str_val : Option String
  deriving DecidableEq, Inhabited

/-- Modelled from the spec: `ast.h` is not among the sources.  `ASTNode *`, with the fields
that `create_node` initialises: `null` is the `NULL` pointer, `node` a pointer to a node
with its scalar fields and its eight child pointers `left`, `right`, `cond`, `body`, `init`,
`incr`, `params`, `next`.  The tree is held by value (the parser shares no node). -/
inductive ASTNode where
  | null : ASTNode
  | node (d : NodeData) (left right cond body init incr params next : ASTNode) : ASTNode
  deriving DecidableEq, Inhabited

namespace ASTNode

/-- `node->type` (no caller reads it through `NULL`). -/
def type : ASTNode → NodeType
  | null => NodeType.NODE_EMPTY
  | node d _ _ _ _ _ _ _ _ => d.type

/-- `node->data_type`; the read through `NULL`, undefined in C, yields `TYPE_VOID`. -/
def data_type : ASTNode → DataType
  | null => DataType.TYPE_VOID
  | node d _ _ _ _ _ _ _ _ => d.data_type

/-- `node->line_number`. -/
def line_number : ASTNode → Int
  | null => 0
  | node d _ _ _ _ _ _ _ _ => d.line_number

/-- `node->int_val`. -/
def int_val : ASTNode → Int
  | null => 0
  | node d _ _ _ _ _ _ _ _ => d.int_val

/-- `node->str_val`. -/
def str_val : ASTNode → Option String
  | null => none
  | node d _ _ _ _ _ _ _ _ => d.str_val

/-- `node->str_val` where the code passes it on as a C string; the `NULL` string, on which
`strdup`, `hash` and `strcmp` are undefined, is read as the empty string. -/
def name (n : ASTNode) : String := n.str_val.getD ""

/-- `node->left`. -/
def left : ASTNode → ASTNode
  | null => null
  | node _ l _ _ _ _ _ _ _ => l

/-- `node->right`. -/
def right : ASTNode → ASTNode
  | null => null
  | node _ _ r _ _ _ _ _ _ => r

/-- `node->cond`. -/
def cond : ASTNode → ASTNode
  | null => null
  | node _ _ _ c _ _ _ _ _ => c

/-- `node->body`. -/
def body : ASTNode → ASTNode
  | null => null
  | node _ _ _ _ b _ _ _ _ => b

/-- `node->init`. -/
def init : ASTNode → ASTNode
  | null => null
  | node _ _ _ _ _ i _ _ _ => i

/-- `node->incr`. -/
def incr : ASTNode → ASTNode
  | null => null
  | node _ _ _ _ _ _ i _ _ => i

/-- `node->params`. -/
def params : ASTNode → ASTNode
  | null => null
  | node _ _ _ _ _ _ _ p _ => p

/-- `node->next`. -/
def next : ASTNode → ASTNode
  | null => null
  | node _ _ _ _ _ _ _ _ n => n

/-- The test `if (node)`. -/
def isNull : ASTNode → Bool
  | null => true
  | node _ _ _ _ _ _ _ _ _ => false

/-- `node->data_type = t`. -/
def set_data_type (t : DataType) : ASTNode → ASTNode
  | null => null
  | node d l r c b i inc p n => node { d with data_type := t } l r c b i inc p n

/-- `node->line_number = line` (done by the parser). -/
def set_line (line : Int) : ASTNode → ASTNode
  | null => null
  | node d l r c b i inc p n => node { d with line_number := line } l r c b i inc p n

/-- `node->left = x`. -/
def set_left : ASTNode → ASTNode → ASTNode
  | null, _ => null
  | node d _ r c b i inc p n, x => node d x r c b i inc p n

/-- `node->right = x`. -/
def set_right : ASTNode → ASTNode → ASTNode
  | null, _ => null
  | node d l _ c b i inc p n, x => node d l x c b i inc p n

/-- `node->cond = x`. -/
def set_cond : ASTNode → ASTNode → ASTNode
  | null, _ => null
  | node d l r _ b i inc p n, x => node d l r x b i inc p n

/-- `node->body = x`. -/
def set_body : ASTNode → ASTNode → ASTNode
  | null, _ => null
  | node d l r c _ i inc p n, x => node d l r c x i inc p n

/-- `node->init = x`. -/
def set_init : ASTNode → ASTNode → ASTNode
  | null, _ => null
  | node d l r c b _ inc p n, x => node d l r c b x inc p n

/-- `node->incr = x`. -/
def set_incr : ASTNode → ASTNode → ASTNode
  | null, _ => null
  | node d l r c b i _ p n, x => node d l r c b i x p n

/-- `node->params = x`. -/
def set_params : ASTNode → ASTNode → ASTNode
  | null, _ => null
  | node d l r c b i inc _ n, x => node d l r c b i inc x n

/-- `node->next = x`. -/
def set_next : ASTNode → ASTNode → ASTNode
  | null, _ => null
  | node d l r c b i inc p _, x => node d l r c b i inc p x

end ASTNode

/-- Modelled from the spec: `y.tab.h` is generated by the parser generator and is not among
the sources.  The token codes the middle end compares operators and types with; the
single-character operators are their character codes. -/
structure Tokens where
  T_EQ : Int
  T_NEQ : Int
  T_LE : Int
  T_GE : Int
  T_AND : Int
  T_OR : Int
  T_INT : Int
  T_CHAR : Int
  T_VOID : Int
  deriving DecidableEq, Inhabited

/-- `create_node` (`int_val`, which `malloc` leaves unset, is 0). -/
def create_node (type : NodeType) : ASTNode :=
  ASTNode.node
    { type := type, data_type := DataType.TYPE_VOID, line_number := 0, int_val := 0,
      str_val := none }
    ASTNode.null ASTNode.null ASTNode.null ASTNode.null ASTNode.null ASTNode.null
    ASTNode.null ASTNode.null

/-- `node->int_val = v`. -/
def ASTNode.set_int_val (v : Int) : ASTNode → ASTNode
  | ASTNode.null => ASTNode.null
  | ASTNode.node d l r c b i inc p n => ASTNode.node { d with int_val := v } l r c b i inc p n

/-- `node->str_val = strdup(s)`. -/
def ASTNode.set_str_val (s : String) : ASTNode → ASTNode
  | ASTNode.null => ASTNode.null
  | ASTNode.node d l r c b i inc p n =>
    ASTNode.node { d with str_val := some s } l r c b i inc p n

/-- `create_int_node`. -/
def create_int_node (val : Int) : ASTNode :=
  ((create_node NodeType.NODE_CONST_INT).set_int_val val).set_data_type DataType.TYPE_INT

/-- `create_char_node`. -/
def create_char_node (val : Int) : ASTNode :=
  ((create_node NodeType.NODE_CONST_CHAR).set_int_val val).set_data_type DataType.TYPE_CHAR

/-- `create_str_node`. -/
def create_str_node (val : String) : ASTNode :=
  (create_node NodeType.NODE_STR_LIT).set_str_val val

/-- `create_var_node`. -/
def create_var_node (name : String) : ASTNode :=
  (create_node NodeType.NODE_VAR).set_str_val name

/-- `create_type_node`. -/
def create_type_node (tk : Tokens) (type_token : Int) : ASTNode :=
  ((create_node NodeType.NODE_TYPE).set_int_val type_token).set_data_type
    (if type_token = tk.T_INT then DataType.TYPE_INT
     else if type_token = tk.T_CHAR then DataType.TYPE_CHAR
     else DataType.TYPE_VOID)

/-- `create_binary_node`. -/
def create_binary_node (op : Int) (left right : ASTNode) : ASTNode :=
  (((create_node NodeType.NODE_BIN_OP).set_int_val op).set_left left).set_right right

/-- `create_unary_node`. -/
def create_unary_node (op : Int) (child : ASTNode) : ASTNode :=
  ((create_node NodeType.NODE_UN_OP).set_int_val op).set_left child

/-- `create_if_node`; the `next` of each child is cleared. -/
def create_if_node (cond then_stmt else_stmt : ASTNode) : ASTNode :=
  (((create_node NodeType.NODE_IF).set_cond (cond.set_next ASTNode.null)).set_left
    (then_stmt.set_next ASTNode.null)).set_right (else_stmt.set_next ASTNode.null)

/-- `create_while_node`. -/
def create_while_node (cond body : ASTNode) : ASTNode :=
  ((create_node NodeType.NODE_WHILE).set_cond (cond.set_next ASTNode.null)).set_body
    (body.set_next ASTNode.null)

/-- `create_for_node`. -/
def create_for_node (init cond incr body : ASTNode) : ASTNode :=
  ((((create_node NodeType.NODE_FOR).set_init (init.set_next ASTNode.null)).set_cond
    (cond.set_next ASTNode.null)).set_incr (incr.set_next ASTNode.null)).set_body
    (body.set_next ASTNode.null)

/-- `create_func_def`. -/
def create_func_def (ret_type : ASTNode) (name : String) (params body : ASTNode) : ASTNode :=
  ((((create_node NodeType.NODE_FUNC_DEF).set_left ret_type).set_str_val name).set_params
    params).set_body body

/-- `append_node`: `new_node`, its `next` cleared, is linked behind the last node of the
list that starts at `head`; nothing happens when either pointer is `NULL`. -/
def append_node : ASTNode → ASTNode → ASTNode
  | ASTNode.null, _ => ASTNode.null
  | ASTNode.node d l r c b i inc p ASTNode.null, new_node =>
    ASTNode.node d l r c b i inc p (new_node.set_next ASTNode.null)
  | ASTNode.node d l r c b i inc p (ASTNode.node d1 l1 r1 c1 b1 i1 inc1 p1 n1), new_node =>
    match new_node with
    | ASTNode.null => ASTNode.node d l r c b i inc p (ASTNode.node d1 l1 r1 c1 b1 i1 inc1 p1 n1)
    | ASTNode.node _ _ _ _ _ _ _ _ _ =>
      ASTNode.node d l r c b i inc p
        (append_node (ASTNode.node d1 l1 r1 c1 b1 i1 inc1 p1 n1) new_node)

/-! ## semantic.c -/

/-- The globals of `semantic.c` (`current_function`, `semantic_errors`), the symbol table,
and the lines `semantic_error` has printed, each as the pair of its line number and message.
`current_function` is held by value: only its `type`, fixed at creation, is ever read. -/
structure AnState where
  symtab : SymTab
  current_function : Option Symbol
  semantic_errors : Nat
  diagnostics : List (Int × String)
  deriving DecidableEq, Inhabited

/-- What a call of an `analyze_*` function leaves behind: the globals, the node with the
annotations written into it, and the returned flag (`false` for a `void` function, whose
caller `analyze_node` returns 0). -/
structure AnResult where
  st : AnState
  node : ASTNode
  returns : Bool
  deriving DecidableEq, Inhabited

/-- `semantic_error`. -/
def semantic_error (st : AnState) (line : Int) (msg : String) : AnState :=
  { st with diagnostics := st.diagnostics ++ [(line, msg)],
            semantic_errors := st.semantic_errors + 1 }

/-- `current_function->type`; the read through `NULL`, undefined in C, yields `TYPE_VOID`. -/
def AnState.function_type (st : AnState) : DataType :=
  match st.current_function with
  | some f => f.type
  | none => DataType.TYPE_VOID

/-- The child of a node on which a recursive call is made. -/
inductive Child where
  | left
  | right
  | cond
  | body
  | init
  | incr
  deriving DecidableEq, Inhabited

/-- The three ways the analyzer visits a node:
`single` is `analyze_node(node)`;
`stmts` is the loop `while (stmt) { returns = analyze_node(stmt); if (returns) break;
stmt = stmt->next; }` of `analyze_block` and `analyze_list`, entered at `stmt = node`;
`args sym i line` is the argument loop of `analyze_function_call`, entered at `arg = node`
with counter `i`, for callee `sym` and a call on line `line`. -/
inductive Walk where
  | single
  | stmts
  | args (sym : Symbol) (i : Nat) (line : Int)
  deriving DecidableEq, Inhabited

/-- The first loop of `analyze_function`: `count++` for each parameter. -/
def count_params : ASTNode → Nat
  | ASTNode.null => 0
  | ASTNode.node _ _ _ _ _ _ _ _ next => count_params next + 1

/-- The second loop of `analyze_function`: `param_types[i++] = param->left->data_type`. -/
def collect_param_types : ASTNode → List DataType
  | ASTNode.null => []
  | ASTNode.node _ left _ _ _ _ _ _ next => left.data_type :: collect_param_types next

/-- The third loop of `analyze_function`: each parameter is inserted into the function
scope, `"Parameter redeclared"` is reported when the insert fails. -/
def insert_params : ASTNode → AnState → AnState
  | ASTNode.null, st => st
  | ASTNode.node d left _ _ _ _ _ _ next, st =>
    let sym := create_symbol st.symtab (d.str_val.getD "") left.data_type
      SymbolKind.SYM_PARAMETER d.line_number
    let ins := insert_symbol st.symtab sym
    let st1 : AnState := { st with symtab := ins.1 }
    let st2 := if ins.2 then st1 else semantic_error st1 d.line_number "Parameter redeclared"
    insert_params next st2

/-- The stores `func->param_count = count; func->param_types = ...` of `analyze_function`,
made through the pointer `func` after the symbol has been inserted: `func` is then the head
of the bucket of its name in the current scope. -/
def set_signature (tab : SymTab) (name : String) (count : Nat) (types : List DataType) :
    SymTab :=
  match tab.current_scope with
  | none => tab
  | some a =>
    match tab.heap[a]? with
    | none => tab
    | some sc =>
      match sc.table.getD (hash name) [] with
      | [] => tab
      | func :: rest =>
        let func1 : Symbol := { func with param_count := count, param_types := types }
        let sc1 : Scope := { sc with table := sc.table.set (hash name) (func1 :: rest) }
        tab.store a sc1

/-- `analyze_function`; `sub` stands for the recursive calls on the children of `node`. -/
def analyze_function (sub : Child → Walk → AnState → AnResult) (node : ASTNode)
    (st : AnState) : AnResult :=
  let func := create_symbol st.symtab node.name node.left.data_type
    SymbolKind.SYM_FUNCTION node.line_number
  let ins := insert_symbol st.symtab func
  if ins.2 = false then
    { st := semantic_error { st with symtab := ins.1 } node.line_number "Function redeclared",
      node := node, returns := false }
  else
    let count := count_params node.params
    let types := collect_param_types node.params
    let func1 : Symbol := { func with param_count := count, param_types := types }
    let st1 : AnState :=
      { st with symtab := set_signature ins.1 node.name count types,
                current_function := some func1 }
    let st2 : AnState := { st1 with symtab := enter_scope st1.symtab }
    let st3 := insert_params node.params st2
    let rb := sub Child.body Walk.single st3
    let node1 := node.set_body rb.node
    let st4 :=
      if rb.st.function_type ≠ DataType.TYPE_VOID ∧ rb.returns = false then
        semantic_error rb.st node.line_number "Non-void function must return a value"
      else rb.st
    let st5 : AnState := { st4 with symtab := exit_scope st4.symtab }
    { st := { st5 with current_function := none }, node := node1, returns := false }

/-- `analyze_declaration` (the trace line it prints is not a diagnostic and is left out). -/
def analyze_declaration (sub : Child → Walk → AnState → AnResult) (node : ASTNode)
    (st : AnState) : AnResult :=
  let sym := create_symbol st.symtab node.name node.left.data_type
    SymbolKind.SYM_VARIABLE node.line_number
  let ins := insert_symbol st.symtab sym
  let st1 : AnState := { st with symtab := ins.1 }
  let st2 := if ins.2 then st1 else semantic_error st1 node.line_number "Variable redeclared"
  if node.right.isNull then
    { st := st2, node := node, returns := false }
  else
    let rr := sub Child.right Walk.single st2
    let node1 := node.set_right rr.node
    let st3 :=
      if node1.left.data_type ≠ node1.right.data_type then
        semantic_error rr.st node1.line_number "Type mismatch in initialization"
      else rr.st
    { st := st3, node := node1, returns := false }

/-- `analyze_block`. -/
def analyze_block (sub : Child → Walk → AnState → AnResult) (node : ASTNode)
    (st : AnState) : AnResult :=
  let st1 : AnState := { st with symtab := enter_scope st.symtab }
  let rl := sub Child.left Walk.stmts st1
  { st := { rl.st with symtab := exit_scope rl.st.symtab },
    node := node.set_left rl.node,
    returns := rl.returns }

/-- `analyze_variable`. -/
def analyze_variable (node : ASTNode) (st : AnState) : AnResult :=
  match lookup st.symtab node.name with
  | none =>
    { st := semantic_error st node.line_number "Undeclared variable",
      node := node.set_data_type DataType.TYPE_INT, returns := false }
  | some sym => { st := st, node := node.set_data_type sym.type, returns := false }

/-- `analyze_assignment`. -/
def analyze_assignment (sub : Child → Walk → AnState → AnResult) (node : ASTNode)
    (st : AnState) : AnResult :=
  let rl := sub Child.left Walk.single st
  let rr := sub Child.right Walk.single rl.st
  let node1 := (node.set_left rl.node).set_right rr.node
  if node1.left.data_type = DataType.TYPE_VOID ∨ node1.right.data_type = DataType.TYPE_VOID then
    { st := rr.st, node := node1, returns := false }
  else
    let st1 :=
      if node1.left.data_type ≠ node1.right.data_type then
        semantic_error rr.st node1.line_number "Assignment type mismatch"
      else rr.st
    { st := st1, node := node1.set_data_type node1.left.data_type, returns := false }

/-- `analyze_binary`. -/
def analyze_binary (sub : Child → Walk → AnState → AnResult) (node : ASTNode)
    (st : AnState) : AnResult :=
  let rl := sub Child.left Walk.single st
  let rr := sub Child.right Walk.single rl.st
  let node1 := (node.set_left rl.node).set_right rr.node
  if node1.left.data_type = DataType.TYPE_VOID ∨ node1.right.data_type = DataType.TYPE_VOID then
    { st := rr.st, node := node1, returns := false }
  else
    let st1 :=
      if node1.left.data_type ≠ node1.right.data_type then
        semantic_error rr.st node1.line_number "Binary operand type mismatch"
      else rr.st
    { st := st1, node := node1.set_data_type node1.left.data_type, returns := false }

/-- `analyze_unary`. -/
def analyze_unary (sub : Child → Walk → AnState → AnResult) (node : ASTNode)
    (st : AnState) : AnResult :=
  let rl := sub Child.left Walk.single st
  let node1 := node.set_left rl.node
  { st := rl.st, node := node1.set_data_type node1.left.data_type, returns := false }

/-- `analyze_function_call`; after the argument loop the counter `i` is the number of
arguments. -/
def analyze_function_call (sub : Child → Walk → AnState → AnResult) (node : ASTNode)
    (st : AnState) : AnResult :=
  match lookup st.symtab node.name with
  | none =>
    { st := semantic_error st node.line_number "Undeclared function",
      node := node, returns := false }
  | some sym =>
    if sym.kind ≠ SymbolKind.SYM_FUNCTION then
      { st := semantic_error st node.line_number "Undeclared function",
        node := node, returns := false }
    else
      let ra := sub Child.left (Walk.args sym 0 node.line_number) st
      let node1 := node.set_left ra.node
      let st1 :=
        if count_params node.left < sym.param_count then
          semantic_error ra.st node.line_number "Too few arguments"
        else ra.st
      { st := st1, node := node1.set_data_type sym.type, returns := false }

/-- `analyze_return`. -/
def analyze_return (sub : Child → Walk → AnState → AnResult) (node : ASTNode)
    (st : AnState) : AnResult :=
  match st.current_function with
  | none =>
    { st := semantic_error st node.line_number "Return outside function",
      node := node, returns := false }
  | some _ =>
    if node.left.isNull then
      let st1 :=
        if st.function_type ≠ DataType.TYPE_VOID then
          semantic_error st node.line_number "Return type mismatch"
        else st
      { st := st1, node := node, returns := true }
    else
      let rl := sub Child.left Walk.single st
      let node1 := node.set_left rl.node
      let st1 :=
        if node1.left.data_type ≠ rl.st.function_type then
          semantic_error rl.st node1.line_number "Return type mismatch"
        else rl.st
      { st := st1, node := node1, returns := true }

/-- `analyze_if`. -/
def analyze_if (sub : Child → Walk → AnState → AnResult) (node : ASTNode)
    (st : AnState) : AnResult :=
  let rc := sub Child.cond Walk.single st
  let node1 := node.set_cond rc.node
  let st1 :=
    if node1.cond.data_type = DataType.TYPE_VOID then
      semantic_error rc.st node1.line_number "Invalid condition type"
    else rc.st
  let rt := sub Child.left Walk.single st1
  let node2 := node1.set_left rt.node
  if node2.right.isNull then
    { st := rt.st, node := node2, returns := rt.returns && false }
  else
    let re := sub Child.right Walk.single rt.st
    { st := re.st, node := node2.set_right re.node, returns := rt.returns && re.returns }

/-- `analyze_while`. -/
def analyze_while (sub : Child → Walk → AnState → AnResult) (node : ASTNode)
    (st : AnState) : AnResult :=
  let rc := sub Child.cond Walk.single st
  let node1 := node.set_cond rc.node
  let st1 :=
    if node1.cond.data_type = DataType.TYPE_VOID then
      semantic_error rc.st node1.line_number "Invalid condition type"
    else rc.st
  let rb := sub Child.body Walk.single st1
  { st := rb.st, node := node1.set_body rb.node, returns := false }

/-- `analyze_for`. -/
def analyze_for (sub : Child → Walk → AnState → AnResult) (node : ASTNode)
    (st : AnState) : AnResult :=
  let ri : AnResult :=
    if node.init.isNull then { st := st, node := node.init, returns := false }
    else sub Child.init Walk.single st
  let node1 := node.set_init ri.node
  let rc : AnResult :=
    if node1.cond.isNull then { st := ri.st, node := node1.cond, returns := false }
    else
      let r := sub Child.cond Walk.single ri.st
      { r with st :=
          if r.node.data_type = DataType.TYPE_VOID then
            semantic_error r.st node1.line_number "Invalid condition type"
          else r.st }
  let node2 := node1.set_cond rc.node
  let rn : AnResult :=
    if node2.incr.isNull then { st := rc.st, node := node2.incr, returns := false }
    else sub Child.incr Walk.single rc.st
  let node3 := node2.set_incr rn.node
  let rb := sub Child.body Walk.single rn.st
  { st := rb.st, node := node3.set_body rb.node, returns := false }

/-- The `switch` of `analyze_node` on a node that is not `NULL`. -/
def analyze_switch (sub : Child → Walk → AnState → AnResult) (node : ASTNode)
    (st : AnState) : AnResult :=
  match node.type with
  | NodeType.NODE_FUNC_DEF => { analyze_function sub node st with returns := false }
  | NodeType.NODE_VAR_DECL => { analyze_declaration sub node st with returns := false }
  | NodeType.NODE_BLOCK => analyze_block sub node st
  | NodeType.NODE_IF => analyze_if sub node st
  | NodeType.NODE_WHILE => analyze_while sub node st
  | NodeType.NODE_FOR => analyze_for sub node st
  | NodeType.NODE_RETURN => analyze_return sub node st
  | NodeType.NODE_ASSIGN => { analyze_assignment sub node st with returns := false }
  | NodeType.NODE_BIN_OP => { analyze_binary sub node st with returns := false }
  | NodeType.NODE_UN_OP => { analyze_unary sub node st with returns := false }
  | NodeType.NODE_CONST_INT =>
    { st := st, node := node.set_data_type DataType.TYPE_INT, returns := false }
  | NodeType.NODE_CONST_CHAR =>
    { st := st, node := node.set_data_type DataType.TYPE_CHAR, returns := false }
  | NodeType.NODE_STR_LIT =>
    { st := st, node := node.set_data_type DataType.TYPE_CHAR, returns := false }
  | NodeType.NODE_VAR => { analyze_variable node st with returns := false }
  | NodeType.NODE_FUNC_CALL => { analyze_function_call sub node st with returns := false }
  | NodeType.NODE_TYPE => { st := st, node := node, returns := false }
  | NodeType.NODE_EMPTY => { st := st, node := node, returns := false }
  | NodeType.NODE_PARAM => { st := st, node := node, returns := false }

/-- One step of the argument loop of `analyze_function_call`, after `analyze_node(arg)`:
the arity and type checks for argument number `i`. -/
def check_argument (sym : Symbol) (i : Nat) (line : Int) (arg : ASTNode) (st : AnState) :
    AnState :=
  if i ≥ sym.param_count then semantic_error st line "Too many arguments"
  else if arg.data_type ≠ sym.param_types.getD i DataType.TYPE_VOID then
    semantic_error st line "Argument type mismatch"
  else st

/-- The recursion of the analyzer over the tree, in the three ways of `Walk`.  On `NULL`
`analyze_node` returns 0 and either loop ends. -/
def analyze_walk : ASTNode → Walk → AnState → AnResult
  | ASTNode.null, _, st => { st := st, node := ASTNode.null, returns := false }
  | ASTNode.node d l r c b ini inc p nx, w, st =>
    let sub : Child → Walk → AnState → AnResult := fun ch w1 st1 =>
      match ch with
      | Child.left => analyze_walk l w1 st1
      | Child.right => analyze_walk r w1 st1
      | Child.cond => analyze_walk c w1 st1
      | Child.body => analyze_walk b w1 st1
      | Child.init => analyze_walk ini w1 st1
      | Child.incr => analyze_walk inc w1 st1
    let r1 := analyze_switch sub (ASTNode.node d l r c b ini inc p nx) st
    match w with
    | Walk.single => r1
    | Walk.stmts =>
      if r1.returns then r1
      else
        let r2 := analyze_walk nx Walk.stmts r1.st
        { st := r2.st, node := r1.node.set_next r2.node, returns := r2.returns }
    | Walk.args sym i line =>
      let st1 := check_argument sym i line r1.node r1.st
      let r2 := analyze_walk nx (Walk.args sym (i + 1) line) st1
      { st := r2.st, node := r1.node.set_next r2.node, returns := false }

/-- `analyze_node`. -/
def analyze_node (node : ASTNode) (st : AnState) : AnResult :=
  analyze_walk node Walk.single st

/-- `analyze_list`. -/
def analyze_list (node : ASTNode) (st : AnState) : AnResult :=
  analyze_walk node Walk.stmts st

/-- `semantic_analyze`: the globals and the annotated tree after the pass. -/
def semantic_analyze (node : ASTNode) (st : AnState) : AnState × ASTNode :=
  if node.isNull then (st, node)
  else ((analyze_list node st).st, (analyze_list node st).node)

/-- The state in which the driver starts the pass: `init_symbol_table()` done, no current
function, no error counted. -/
def AnState.initial : AnState :=
  { symtab := init_symbol_table SymTab.empty, current_function := none,
    semantic_errors := 0, diagnostics := [] }

/-! ## ir.h, ir.c -/

/-- `enum IROpKind`. -/
inductive IROpKind where
  | IR_ASSIGN
  | IR_BINOP
  | IR_UNOP
  | IR_PARAM
  | IR_CALL
  | IR_RETURN
  | IR_LABEL
  | IR_GOTO
  | IR_IF
  deriving DecidableEq, Inhabited

/-- `enum IRRelop`. -/
inductive IRRelop where
  | IR_LT
  | IR_GT
  | IR_LE
  | IR_GE
  | IR_EQ
  | IR_NE
  deriving DecidableEq, Inhabited

/-- `struct IROperand`; `name = none` is the `NULL` name, `is_const` is the flag 0/1. -/
structure IROperand where
  name : Option String
  const_val : Int
  is_const : Bool
  deriving DecidableEq, Inhabited

/-- The operand `{0}`. -/
def IROperand.zero : IROperand := { name := none, const_val := 0, is_const := false }

/-- `struct IRInstr` without its `next` field: an instruction list is a `List IRInstr`. -/
structure IRInstr where
  kind : IROpKind
  line : Int
  result : Option String
  src : IROperand
  left : IROperand
  right : IROperand
  binop : Int
  unop_src : IROperand
  unop : Int
  call_fn : Option String
  arg_count : Int
  label : Option String
  if_left : IROperand
  if_right : IROperand
  relop : IRRelop
  deriving DecidableEq, Inhabited

/-- The instruction `calloc(1, sizeof(IRInstr))` returns, with `kind` and `line` stored. -/
def IRInstr.blank (kind : IROpKind) (line : Int) : IRInstr :=
  { kind := kind, line := line, result := none, src := IROperand.zero,
    left := IROperand.zero, right := IROperand.zero, binop := 0,
    unop_src := IROperand.zero, unop := 0, call_fn := none, arg_count := 0, label := none,
    if_left := IROperand.zero, if_right := IROperand.zero, relop := IRRelop.IR_LT }

/-- `struct IRFunc` without its `next` field. -/
structure IRFunc where
  name : Option String
  ret_type : DataType
  instrs : List IRInstr
  deriving DecidableEq, Inhabited

/-- `struct IRProgram`. -/
structure IRProgram where
  funcs : List IRFunc
  global_instrs : List IRInstr
  deriving DecidableEq, Inhabited

/-- The counters `temp_counter` and `label_counter` of `ir.c`, and the instruction list
`*list` the generator is appending to. -/
structure GenState where
  temp_counter : Nat
  label_counter : Nat
  list : List IRInstr
  deriving DecidableEq, Inhabited

/-- The name `snprintf(buf, 16, "t%d", k)` writes. -/
def temp_name (k : Nat) : String := "t" ++ toString k

/-- The name `snprintf(buf, 16, "L%d", k)` writes. -/
def label_name (k : Nat) : String := "L" ++ toString k

/-- `ir_new_temp`. -/
def ir_new_temp (st : GenState) : String × GenState :=
  (temp_name st.temp_counter, { st with temp_counter := st.temp_counter + 1 })

/-- `ir_new_label`. -/
def ir_new_label (st : GenState) : String × GenState :=
  (label_name st.label_counter, { st with label_counter := st.label_counter + 1 })

/-- `ir_reset_temps`: both counters go back to 0. -/
def ir_reset_temps (st : GenState) : GenState :=
  { st with temp_counter := 0, label_counter := 0 }

/-- `ir_op_name`. -/
def ir_op_name (name : Option String) : IROperand :=
  { name := name, const_val := 0, is_const := false }

/-- `ir_op_const`. -/
def ir_op_const (val : Int) : IROperand :=
  { name := none, const_val := val, is_const := true }

/-- `ast_relop_to_ir`. -/
def ast_relop_to_ir (tk : Tokens) (ast_op : Int) : IRRelop :=
  if ast_op = 60 then IRRelop.IR_LT
  else if ast_op = 62 then IRRelop.IR_GT
  else if ast_op = tk.T_LE then IRRelop.IR_LE
  else if ast_op = tk.T_GE then IRRelop.IR_GE
  else if ast_op = tk.T_EQ then IRRelop.IR_EQ
  else if ast_op = tk.T_NEQ then IRRelop.IR_NE
  else IRRelop.IR_EQ

/-- `ir_make_assign`. -/
def ir_make_assign (dst : Option String) (src : IROperand) (line : Int) : IRInstr :=
  { IRInstr.blank IROpKind.IR_ASSIGN line with result := dst, src := src }

/-- `ir_make_binop`. -/
def ir_make_binop (dst : Option String) (left right : IROperand) (op : Int) (line : Int) :
    IRInstr :=
  { IRInstr.blank IROpKind.IR_BINOP line with
    result := dst, left := left, right := right, binop := op }

/-- `ir_make_unop`. -/
def ir_make_unop (dst : Option String) (src : IROperand) (op : Int) (line : Int) : IRInstr :=
  { IRInstr.blank IROpKind.IR_UNOP line with result := dst, unop_src := src, unop := op }

/-- `ir_make_param`. -/
def ir_make_param (op : IROperand) (line : Int) : IRInstr :=
  { IRInstr.blank IROpKind.IR_PARAM line with src := op }

/-- `ir_make_call`. -/
def ir_make_call (dst : Option String) (fn : Option String) (nargs : Int) (line : Int) :
    IRInstr :=
  { IRInstr.blank IROpKind.IR_CALL line with result := dst, call_fn := fn, arg_count := nargs }

/-- `ir_make_call_void`. -/
def ir_make_call_void (fn : Option String) (nargs : Int) (line : Int) : IRInstr :=
  { IRInstr.blank IROpKind.IR_CALL line with result := none, call_fn := fn, arg_count := nargs }

/-- `ir_make_return_val`. -/
def ir_make_return_val (op : IROperand) (line : Int) : IRInstr :=
  { IRInstr.blank IROpKind.IR_RETURN line with src := op }

/-- `ir_make_return`. -/
def ir_make_return (line : Int) : IRInstr :=
  IRInstr.blank IROpKind.IR_RETURN line

/-- `ir_make_label`. -/
def ir_make_label (label : Option String) (line : Int) : IRInstr :=
  { IRInstr.blank IROpKind.IR_LABEL line with label := label }

/-- `ir_make_goto`. -/
def ir_make_goto (label : Option String) (line : Int) : IRInstr :=
  { IRInstr.blank IROpKind.IR_GOTO line with label := label }

/-- `ir_make_if`. -/
def ir_make_if (left right : IROperand) (relop : IRRelop) (label : Option String)
    (line : Int) : IRInstr :=
  { IRInstr.blank IROpKind.IR_IF line with
    if_left := left, if_right := right, relop := relop, label := label }

/-- `ir_append` on the list of the state: the instruction goes to the end. -/
def ir_append (st : GenState) (instr : IRInstr) : GenState :=
  { st with list := st.list ++ [instr] }

/-- `ir_append_list`: `list` is put in front of `*head`. -/
def ir_append_list (head : List IRInstr) (list : List IRInstr) : List IRInstr :=
  list ++ head

/-- `ir_program_create`. -/
def ir_program_create : IRProgram := { funcs := [], global_instrs := [] }

/-- `ir_program_add_func`: the function is linked at the head of the list. -/
def ir_program_add_func (prog : IRProgram) (f : IRFunc) : IRProgram :=
  { prog with funcs := f :: prog.funcs }

/-- `ir_func_create`. -/
def ir_func_create (name : Option String) (ret_type : DataType) : IRFunc :=
  { name := name, ret_type := ret_type, instrs := [] }

/-! ## ir_gen.c -/

/-- The ways the generator visits a node:
`expr` is `gen_expr(node, list)`;
`cond t f line` is `gen_cond(node, list, t, f, line)`;
`stmt` is `gen_stmt(node, list)`;
`stmts` is the loop `for (s = node; s; s = s->next) gen_stmt(s, list)` of a block;
`args line` is the argument loop of a call on line `line`, entered at `arg = node`. -/
inductive GenMode where
  | expr
  | cond (true_label false_label : String) (line : Int)
  | stmt
  | stmts
  | args (line : Int)
  deriving DecidableEq, Inhabited

/-- The test `op == '<' || op == '>' || op == T_LE || op == T_GE || op == T_EQ ||
op == T_NEQ` of `gen_cond` and `gen_expr`. -/
def is_relational (tk : Tokens) (op : Int) : Bool :=
  op = 60 ∨ op = 62 ∨ op = tk.T_LE ∨ op = tk.T_GE ∨ op = tk.T_EQ ∨ op = tk.T_NEQ

/-- The tail `ir_make_if(place, 0, IR_NE, true_label); ir_make_goto(false_label)` shared by
the branches of `gen_cond` that test a value against zero. -/
def branch_on_nonzero (st : GenState) (place : IROperand) (true_label false_label : String)
    (line : Int) : GenState :=
  let st1 := ir_append st
    (ir_make_if place (ir_op_const 0) IRRelop.IR_NE (some true_label) line)
  ir_append st1 (ir_make_goto (some false_label) line)

/-- The two branches of `gen_cond` for a `NODE_BIN_OP` whose operator is `&&` or `||`. -/
def gen_cond_logical (tk : Tokens) (sub : Child → GenMode → GenState → GenState × IROperand)
    (node : ASTNode) (true_label false_label : String) (st : GenState) : GenState :=
  let line := node.line_number
  if node.int_val = tk.T_AND then
    let mid := ir_new_label st
    let st1 := (sub Child.left (GenMode.cond mid.1 false_label line) mid.2).1
    let st2 := ir_append st1 (ir_make_label (some mid.1) line)
    (sub Child.right (GenMode.cond true_label false_label line) st2).1
  else
    let mid := ir_new_label st
    let st1 := (sub Child.left (GenMode.cond true_label mid.1 line) mid.2).1
    let st2 := ir_append st1 (ir_make_label (some mid.1) line)
    (sub Child.right (GenMode.cond true_label false_label line) st2).1

/-- `gen_cond` on a node that is not `NULL` (the `line` argument is overwritten with the
line of the node); `sub` stands for the recursive calls on the children and `self_expr` for
`gen_expr(node, list)` on the node itself. -/
def gen_cond (tk : Tokens) (sub : Child → GenMode → GenState → GenState × IROperand)
    (self_expr : GenState → GenState × IROperand) (node : ASTNode)
    (true_label false_label : String) (st : GenState) : GenState :=
  let line := node.line_number
  match node.type with
  | NodeType.NODE_CONST_INT =>
    if node.int_val ≠ 0 then ir_append st (ir_make_goto (some true_label) line)
    else ir_append st (ir_make_goto (some false_label) line)
  | NodeType.NODE_CONST_CHAR =>
    if node.int_val ≠ 0 then ir_append st (ir_make_goto (some true_label) line)
    else ir_append st (ir_make_goto (some false_label) line)
  | NodeType.NODE_VAR =>
    branch_on_nonzero st (ir_op_name node.str_val) true_label false_label line
  | NodeType.NODE_BIN_OP =>
    if node.int_val = tk.T_AND ∨ node.int_val = tk.T_OR then
      gen_cond_logical tk sub node true_label false_label st
    else if is_relational tk node.int_val then
      let l := sub Child.left GenMode.expr st
      let r := sub Child.right GenMode.expr l.1
      let st1 := ir_append r.1
        (ir_make_if l.2 r.2 (ast_relop_to_ir tk node.int_val) (some true_label) line)
      ir_append st1 (ir_make_goto (some false_label) line)
    else
      let place := self_expr st
      branch_on_nonzero place.1 place.2 true_label false_label line
  | NodeType.NODE_UN_OP =>
    if node.int_val = 33 then
      (sub Child.left (GenMode.cond false_label true_label line) st).1
    else
      let place := self_expr st
      branch_on_nonzero place.1 place.2 true_label false_label line
  | _ =>
    let place := self_expr st
    branch_on_nonzero place.1 place.2 true_label false_label line

/-- `gen_expr` on a node that is not `NULL`.  For `&&` and `||` the call
`gen_cond(node, list, L_true, L_false, line)` on the node itself runs the branches of
`gen_cond_logical`. -/
def gen_expr (tk : Tokens) (sub : Child → GenMode → GenState → GenState × IROperand)
    (node : ASTNode) (st : GenState) : GenState × IROperand :=
  let line := node.line_number
  match node.type with
  | NodeType.NODE_CONST_INT => (st, ir_op_const node.int_val)
  | NodeType.NODE_CONST_CHAR => (st, ir_op_const node.int_val)
  | NodeType.NODE_STR_LIT => (st, ir_op_const 0)
  | NodeType.NODE_VAR => (st, ir_op_name node.str_val)
  | NodeType.NODE_BIN_OP =>
    if node.int_val = tk.T_AND ∨ node.int_val = tk.T_OR then
      let t := ir_new_temp st
      let l_true := ir_new_label t.2
      let l_false := ir_new_label l_true.2
      let l_end := ir_new_label l_false.2
      let st1 := ir_append l_end.2 (ir_make_assign (some t.1) (ir_op_const 0) line)
      let st2 := gen_cond_logical tk sub node l_true.1 l_false.1 st1
      let st3 := ir_append st2 (ir_make_label (some l_true.1) line)
      let st4 := ir_append st3 (ir_make_assign (some t.1) (ir_op_const 1) line)
      let st5 := ir_append st4 (ir_make_goto (some l_end.1) line)
      let st6 := ir_append st5 (ir_make_label (some l_false.1) line)
      let st7 := ir_append st6 (ir_make_label (some l_end.1) line)
      (st7, ir_op_name (some t.1))
    else if is_relational tk node.int_val then
      let l := sub Child.left GenMode.expr st
      let r := sub Child.right GenMode.expr l.1
      let t := ir_new_temp r.1
      let l_true := ir_new_label t.2
      let l_end := ir_new_label l_true.2
      let st1 := ir_append l_end.2 (ir_make_assign (some t.1) (ir_op_const 0) line)
      let st2 := ir_append st1
        (ir_make_if l.2 r.2 (ast_relop_to_ir tk node.int_val) (some l_true.1) line)
      let st3 := ir_append st2 (ir_make_goto (some l_end.1) line)
      let st4 := ir_append st3 (ir_make_label (some l_true.1) line)
      let st5 := ir_append st4 (ir_make_assign (some t.1) (ir_op_const 1) line)
      let st6 := ir_append st5 (ir_make_label (some l_end.1) line)
      (st6, ir_op_name (some t.1))
    else
      let left := sub Child.left GenMode.expr st
      let right := sub Child.right GenMode.expr left.1
      let t := ir_new_temp right.1
      (ir_append t.2 (ir_make_binop (some t.1) left.2 right.2 node.int_val line),
        ir_op_name (some t.1))
  | NodeType.NODE_UN_OP =>
    let child := sub Child.left GenMode.expr st
    let t := ir_new_temp child.1
    (ir_append t.2 (ir_make_unop (some t.1) child.2 node.int_val line), ir_op_name (some t.1))
  | NodeType.NODE_ASSIGN =>
    let val := sub Child.right GenMode.expr st
    let target := node.left.str_val
    (ir_append val.1 (ir_make_assign target val.2 line), ir_op_name target)
  | NodeType.NODE_FUNC_CALL =>
    let st1 := (sub Child.left (GenMode.args line) st).1
    let nargs : Int := count_params node.left
    if node.data_type = DataType.TYPE_VOID then
      (ir_append st1 (ir_make_call_void node.str_val nargs line), ir_op_const 0)
    else
      let t := ir_new_temp st1
      (ir_append t.2 (ir_make_call (some t.1) node.str_val nargs line), ir_op_name (some t.1))
  | _ => (st, ir_op_const 0)

/-- `gen_stmt` on a node that is not `NULL`; `self_expr` stands for `gen_expr(node, list)`
on the node itself. -/
def gen_stmt (sub : Child → GenMode → GenState → GenState × IROperand)
    (self_expr : GenState → GenState × IROperand) (node : ASTNode) (st : GenState) :
    GenState :=
  let line := node.line_number
  match node.type with
  | NodeType.NODE_EMPTY => st
  | NodeType.NODE_TYPE => st
  | NodeType.NODE_BLOCK => (sub Child.left GenMode.stmts st).1
  | NodeType.NODE_IF =>
    let l_then := ir_new_label st
    let l_else := ir_new_label l_then.2
    let l_end := ir_new_label l_else.2
    let st1 := (sub Child.cond
      (GenMode.cond l_then.1 (if node.right.isNull then l_end.1 else l_else.1) line)
      l_end.2).1
    let st2 := ir_append st1 (ir_make_label (some l_then.1) line)
    let st3 := (sub Child.left GenMode.stmt st2).1
    let st4 :=
      if node.right.isNull then st3
      else
        let st31 := ir_append st3 (ir_make_goto (some l_end.1) line)
        let st32 := ir_append st31 (ir_make_label (some l_else.1) line)
        (sub Child.right GenMode.stmt st32).1
    ir_append st4 (ir_make_label (some l_end.1) line)
  | NodeType.NODE_WHILE =>
    let l_cond := ir_new_label st
    let l_body := ir_new_label l_cond.2
    let l_end := ir_new_label l_body.2
    let st1 := ir_append l_end.2 (ir_make_label (some l_cond.1) line)
    let st2 := (sub Child.cond (GenMode.cond l_body.1 l_end.1 line) st1).1
    let st3 := ir_append st2 (ir_make_label (some l_body.1) line)
    let st4 := (sub Child.body GenMode.stmt st3).1
    let st5 := ir_append st4 (ir_make_goto (some l_cond.1) line)
    ir_append st5 (ir_make_label (some l_end.1) line)
  | NodeType.NODE_FOR =>
    let l_cond := ir_new_label st
    let l_body := ir_new_label l_cond.2
    let l_end := ir_new_label l_body.2
    let st1 :=
      if ¬ node.init.isNull ∧ node.init.type ≠ NodeType.NODE_EMPTY then
        (sub Child.init GenMode.stmt l_end.2).1
      else l_end.2
    let st2 := ir_append st1 (ir_make_label (some l_cond.1) line)
    let st3 :=
      if ¬ node.cond.isNull ∧ node.cond.type ≠ NodeType.NODE_EMPTY then
        (sub Child.cond (GenMode.cond l_body.1 l_end.1 line) st2).1
      else ir_append st2 (ir_make_goto (some l_body.1) line)
    let st4 := ir_append st3 (ir_make_label (some l_body.1) line)
    let st5 := (sub Child.body GenMode.stmt st4).1
    let st6 := if node.incr.isNull then st5 else (sub Child.incr GenMode.expr st5).1
    let st7 := ir_append st6 (ir_make_goto (some l_cond.1) line)
    ir_append st7 (ir_make_label (some l_end.1) line)
  | NodeType.NODE_RETURN =>
    if node.left.isNull then ir_append st (ir_make_return line)
    else
      let val := sub Child.left GenMode.expr st
      ir_append val.1 (ir_make_return_val val.2 line)
  | NodeType.NODE_ASSIGN => (self_expr st).1
  | NodeType.NODE_VAR_DECL =>
    if node.right.isNull then st
    else
      let init := sub Child.right GenMode.expr st
      ir_append init.1 (ir_make_assign node.str_val init.2 line)
  | _ => (self_expr st).1

/-- The recursion of the generator over the tree, in the ways of `GenMode`.  On `NULL`
`gen_expr` returns the constant 0, `gen_cond` emits `goto true_label`, `gen_stmt` returns and
both loops end.  The operand is meaningful for `expr` only. -/
def gen_walk (tk : Tokens) : ASTNode → GenMode → GenState → GenState × IROperand
  | ASTNode.null, mode, st =>
    match mode with
    | GenMode.cond true_label _ line =>
      (ir_append st (ir_make_goto (some true_label) line), ir_op_const 0)
    | _ => (st, ir_op_const 0)
  | ASTNode.node d l r c b ini inc p nx, mode, st =>
    let sub : Child → GenMode → GenState → GenState × IROperand := fun ch m1 st1 =>
      match ch with
      | Child.left => gen_walk tk l m1 st1
      | Child.right => gen_walk tk r m1 st1
      | Child.cond => gen_walk tk c m1 st1
      | Child.body => gen_walk tk b m1 st1
      | Child.init => gen_walk tk ini m1 st1
      | Child.incr => gen_walk tk inc m1 st1
    let node := ASTNode.node d l r c b ini inc p nx
    match mode with
    | GenMode.expr => gen_expr tk sub node st
    | GenMode.cond true_label false_label _ =>
      (gen_cond tk sub (gen_expr tk sub node) node true_label false_label st, ir_op_const 0)
    | GenMode.stmt => (gen_stmt sub (gen_expr tk sub node) node st, ir_op_const 0)
    | GenMode.stmts =>
      gen_walk tk nx GenMode.stmts (gen_stmt sub (gen_expr tk sub node) node st)
    | GenMode.args line =>
      let a := gen_expr tk sub node st
      gen_walk tk nx (GenMode.args line) (ir_append a.1 (ir_make_param a.2 line))

/-- The state in which `gen_func` starts the body: `ir_reset_temps()` done, and `f->instrs`,
the list to append to, empty. -/
def gen_func_start (st : GenState) : GenState :=
  { temp_counter := (ir_reset_temps st).temp_counter,
    label_counter := (ir_reset_temps st).label_counter,
    list := [] }

/-- `gen_func`: the counters are reset, the instructions of the body go to a fresh list and
the function is linked into the program.  The state carries the counters across calls. -/
def gen_func (tk : Tokens) (node : ASTNode) (st : GenState) (prog : IRProgram) :
    GenState × IRProgram :=
  if node.isNull ∨ node.type ≠ NodeType.NODE_FUNC_DEF then (st, prog)
  else
    let ret_type := if node.left.isNull then DataType.TYPE_VOID else node.left.data_type
    let f := ir_func_create node.str_val ret_type
    let st2 := (gen_walk tk node.body GenMode.stmt (gen_func_start st)).1
    (st2, ir_program_add_func prog { f with instrs := st2.list })

/-- The loop `for (n = ast_root; n; n = n->next)` of `ir_generate`. -/
def ir_generate_loop (tk : Tokens) : ASTNode → GenState → IRProgram → GenState × IRProgram
  | ASTNode.null, st, prog => (st, prog)
  | ASTNode.node d l r c b ini inc p nx, st, prog =>
    let n := ASTNode.node d l r c b ini inc p nx
    if d.type = NodeType.NODE_FUNC_DEF then
      let res := gen_func tk n st prog
      ir_generate_loop tk nx res.1 res.2
    else if d.type = NodeType.NODE_VAR_DECL then
      if r.isNull then ir_generate_loop tk nx st prog
      else
        let val := gen_walk tk r GenMode.expr { st with list := [] }
        let init := ir_append val.1 (ir_make_assign d.str_val val.2 d.line_number)
        ir_generate_loop tk nx init
          { prog with global_instrs := ir_append_list prog.global_instrs init.list }
    else ir_generate_loop tk nx st prog

/-- The counters at program start. -/
def GenState.initial : GenState := { temp_counter := 0, label_counter := 0, list := [] }

/-- `ir_generate`, started with the counters `st`; `none` is the `NULL` result. -/
def ir_generate (tk : Tokens) (ast_root : ASTNode) (st : GenState) : Option IRProgram :=
  if ast_root.isNull then none
  else some (ir_generate_loop tk ast_root st ir_program_create).2

/-! ## Notions used to state the properties -/

/-- The diagnostics added between two states of the analyzer. -/
def reported (before after : AnState) : List (Int × String) :=
  after.diagnostics.drop before.diagnostics.length

/-- Sequencing of syntactic paths: a path of the first statement that ends in a `return`
is complete, any other one goes on with a path of what follows.  A path is recorded as the
flag "ends in a `return`". -/
def seq_paths (ps qs : List Bool) : List Bool :=
  ps.flatMap (fun p => if p then [true] else qs)

/-- The syntactic paths through a statement (`as_list = false`) or through the statement
list that starts at it (`as_list = true`).  A `return` is one path that returns; an `if`
has the paths of its branches, the missing `else` being a path that falls through; a loop
has the path that skips its body, which falls through; a block has the paths of its
statement list; any other statement, and the end of a list, is one path that falls
through. -/
def syntactic_paths : ASTNode → Bool → List Bool
  | ASTNode.null, _ => [false]
  | ASTNode.node d l r _ b _ _ _ nx, as_list =>
    let self : List Bool :=
      match d.type with
      | NodeType.NODE_RETURN => [true]
      | NodeType.NODE_IF =>
        if r.isNull then syntactic_paths l false ++ [false]
        else syntactic_paths l false ++ syntactic_paths r false
      | NodeType.NODE_BLOCK => syntactic_paths l true
      | NodeType.NODE_WHILE => false :: syntactic_paths b false
      | NodeType.NODE_FOR => false :: syntactic_paths b false
      | _ => [false]
    if as_list then seq_paths self (syntactic_paths nx true) else self

/-- Every syntactic path through the statement ends in a `return`. -/
def all_paths_return (n : ASTNode) : Prop :=
  ∀ p ∈ syntactic_paths n false, p = true

/-- Some node of the tree (children and siblings included) is a function definition. -/
def has_func_def : ASTNode → Bool
  | ASTNode.null => false
  | ASTNode.node d l r c b ini inc p nx =>
    d.type = NodeType.NODE_FUNC_DEF || has_func_def l || has_func_def r || has_func_def c ||
      has_func_def b || has_func_def ini || has_func_def inc || has_func_def p ||
      has_func_def nx

instance (n : ASTNode) : Decidable (all_paths_return n) := by
  unfold all_paths_return
  infer_instance

/-! ### Sample programs

The trees below are what the parser builds with `create_node` and the `create_*` helpers of
`ast.c`; the line numbers are those of the source text shown. -/

/-- A type node carrying `t`, as `create_type_node` leaves it. -/
def type_node (t : DataType) : ASTNode :=
  (create_node NodeType.NODE_TYPE).set_data_type t

/-- A parameter `t name`. -/
def param_node (t : DataType) (name : String) (line : Int) : ASTNode :=
  (((create_node NodeType.NODE_PARAM).set_left (type_node t)).set_str_val name).set_line line

/-- A declaration `t name;` or `t name = init;`. -/
def var_decl_node (t : DataType) (name : String) (init : ASTNode) (line : Int) : ASTNode :=
  ((((create_node NodeType.NODE_VAR_DECL).set_left (type_node t)).set_str_val name).set_right
    init).set_line line

/-- A block whose statement list starts at `stmts`. -/
def block_node (stmts : ASTNode) (line : Int) : ASTNode :=
  ((create_node NodeType.NODE_BLOCK).set_left stmts).set_line line

/-- A statement `return e;` (`return;` for `e = NULL`). -/
def return_node (e : ASTNode) (line : Int) : ASTNode :=
  ((create_node NodeType.NODE_RETURN).set_left e).set_line line

/-- An assignment `target = value`. -/
def assign_node (target value : ASTNode) (line : Int) : ASTNode :=
  (((create_node NodeType.NODE_ASSIGN).set_left target).set_right value).set_line line

/-- A call `name(args)`. -/
def call_node (name : String) (args : ASTNode) (line : Int) : ASTNode :=
  (((create_node NodeType.NODE_FUNC_CALL).set_str_val name).set_left args).set_line line

/-- A function definition `t name(params) body`. -/
def func_node (t : DataType) (name : String) (params body : ASTNode) (line : Int) : ASTNode :=
  (create_func_def (type_node t) name params body).set_line line

/-- Line 1: `int f(){ return 1; }`. -/
def sample_f_returns : ASTNode :=
  func_node DataType.TYPE_INT "f" ASTNode.null
    (block_node (return_node ((create_int_node 1).set_line 1) 1) 1) 1

/-- Line 1: `int f(){ return 1; }`, line 2: `int f(){ }`. -/
def sample_redefined : ASTNode :=
  append_node sample_f_returns
    (func_node DataType.TYPE_INT "f" ASTNode.null (block_node ASTNode.null 2) 2)

/-- The node kinds that stand for expressions. -/
def is_expr_kind (t : NodeType) : Bool :=
  t = NodeType.NODE_ASSIGN || t = NodeType.NODE_BIN_OP || t = NodeType.NODE_UN_OP ||
    t = NodeType.NODE_CONST_INT || t = NodeType.NODE_CONST_CHAR || t = NodeType.NODE_VAR ||
    t = NodeType.NODE_FUNC_CALL || t = NodeType.NODE_STR_LIT

/-- The tree with `t` stored in the `data_type` field of every expression node: what the
analyzer is handed when the field holds `t` before the pass. -/
def overwrite_types (t : DataType) : ASTNode → ASTNode
  | ASTNode.null => ASTNode.null
  | ASTNode.node d l r c b ini inc p nx =>
    ASTNode.node (if is_expr_kind d.type then { d with data_type := t } else d)
      (overwrite_types t l) (overwrite_types t r) (overwrite_types t c) (overwrite_types t b)
      (overwrite_types t ini) (overwrite_types t inc) (overwrite_types t p)
      (overwrite_types t nx)

/-- Every expression node of the program has its `data_type` set by the pass: the annotated
tree does not depend on what the `data_type` fields of the expression nodes held before. -/
def annotations_set (ast : ASTNode) (st : AnState) : Prop :=
  ∀ t1 t2 : DataType,
    (semantic_analyze (overwrite_types t1 ast) st).2 =
      (semantic_analyze (overwrite_types t2 ast) st).2

/-- Line 1: `int f(){ return 1; int x; int x; }`. -/
def sample_dead_redeclaration : ASTNode :=
  func_node DataType.TYPE_INT "f" ASTNode.null
    (block_node
      (append_node
        (append_node (return_node ((create_int_node 1).set_line 1) 1)
          (var_decl_node DataType.TYPE_INT "x" ASTNode.null 1))
        (var_decl_node DataType.TYPE_INT "x" ASTNode.null 1)) 1) 1

/-- Line 1: `int f(){ int x; int x; return 1; }`. -/
def sample_live_redeclaration : ASTNode :=
  func_node DataType.TYPE_INT "f" ASTNode.null
    (block_node
      (append_node
        (append_node (var_decl_node DataType.TYPE_INT "x" ASTNode.null 1)
          (var_decl_node DataType.TYPE_INT "x" ASTNode.null 1))
        (return_node ((create_int_node 1).set_line 1) 1)) 1) 1

/-- The diagnostics the parameter loop of `analyze_function` adds when the names in `seen`
are already in the function scope: one `"Parameter redeclared"`, on the line of the
parameter, for each parameter whose name is in the scope when its turn comes. -/
def param_redeclarations (seen : List String) : ASTNode → List (Int × String)
  | ASTNode.null => []
  | ASTNode.node d _ _ _ _ _ _ _ nx =>
    if d.str_val.getD "" ∈ seen then
      (d.line_number, "Parameter redeclared") :: param_redeclarations seen nx
    else param_redeclarations (d.str_val.getD "" :: seen) nx

/-- What a scope keeps while the analyzer runs: its parent, its number of buckets, and every
name it holds. -/
def ScopeKeeps (sc0 sc1 : Scope) : Prop :=
  sc1.parent = sc0.parent ∧ sc1.table.length = sc0.table.length ∧
    ∀ name, find_symbol name (sc0.table.getD (hash name) []) ≠ none →
      find_symbol name (sc1.table.getD (hash name) []) ≠ none

/-- What a balanced run of the analyzer leaves of the symbol table it started with: the same
current scope, and every scope that existed with its parent and its names. -/
structure Frame (t0 t1 : SymTab) : Prop where
  current : t1.current_scope = t0.current_scope
  scopes : ∀ (a : Nat) (sc0 : Scope), t0.heap[a]? = some sc0 →
    ∃ sc1, t1.heap[a]? = some sc1 ∧ ScopeKeeps sc0 sc1

/-- The frame property between two states of the analyzer. -/
def AnFrame (s0 s1 : AnState) : Prop := Frame s0.symtab s1.symtab

/-- The current scope is allocated and has `TABLE_SIZE` buckets. -/
def current_scope_ok (t : SymTab) : Prop :=
  ∃ a sc, t.current_scope = some a ∧ t.heap[a]? = some sc ∧ sc.table.length = TABLE_SIZE

/-- The globals when the loop `while (stmt) { returns = analyze_node(stmt); if (returns)
break; stmt = stmt->next; }` reaches the statement number `k` of the list, none of the
earlier statements having ended the loop. -/
def state_before : ASTNode → Nat → AnState → AnState
  | _, 0, st => st
  | ASTNode.null, _ + 1, st => st
  | ASTNode.node d l r c b ini inc p nx, k + 1, st =>
    state_before nx k (analyze_node (ASTNode.node d l r c b ini inc p nx) st).st

/-- The message of the redeclaration error for a declaration of the given kind. -/
def redeclared_message (d : ASTNode) : String :=
  if d.type = NodeType.NODE_FUNC_DEF then "Function redeclared" else "Variable redeclared"

/-- Lines 1 to 3: `int x;  int f(){ return 1; }  char x;`. -/
def sample_global_redeclaration : ASTNode :=
  append_node
    (append_node (var_decl_node DataType.TYPE_INT "x" ASTNode.null 1)
      (func_node DataType.TYPE_INT "f" ASTNode.null
        (block_node (return_node ((create_int_node 1).set_line 2) 2) 2) 2))
    (var_decl_node DataType.TYPE_CHAR "x" ASTNode.null 3)

/-! ### Labels and temporaries of an instruction list -/

/-- The label an instruction defines: the `label` of an `IR_LABEL`. -/
def IRInstr.defined_label (i : IRInstr) : Option String :=
  if i.kind = IROpKind.IR_LABEL then i.label else none

/-- The label an instruction jumps to: the `label` of an `IR_GOTO` or `IR_IF`. -/
def IRInstr.target_label (i : IRInstr) : Option String :=
  if i.kind = IROpKind.IR_GOTO ∨ i.kind = IROpKind.IR_IF then i.label else none

/-- The labels defined in a list, in order, with repetitions. -/
def label_defs (l : List IRInstr) : List String := l.filterMap IRInstr.defined_label

/-- The labels jumped to in a list. -/
def label_refs (l : List IRInstr) : List String := l.filterMap IRInstr.target_label

/-- The child of a node a recursive call is made on. -/
def child_of (ch : Child) (n : ASTNode) : ASTNode :=
  match ch with
  | Child.left => n.left
  | Child.right => n.right
  | Child.cond => n.cond
  | Child.body => n.body
  | Child.init => n.init
  | Child.incr => n.incr

/-- The invariant of the generator on labels, for a set `E` of pending label numbers
(allocated, jumped to, not yet defined) and a set `D` of label numbers known to be defined:
the defined labels are pairwise different names `L<k>` below the counter, every jump goes to
a defined or a pending label, and no pending label is defined. -/
structure LabelInv (st : GenState) (E D : Nat → Prop) : Prop where
  defs_lt : ∀ x ∈ label_defs st.list, ∃ k, k < st.label_counter ∧ x = label_name k
  defs_nodup : (label_defs st.list).Nodup
  refs_ok : ∀ x ∈ label_refs st.list,
    x ∈ label_defs st.list ∨ ∃ k, E k ∧ x = label_name k
  pending : ∀ k, E k → k < st.label_counter ∧ label_name k ∉ label_defs st.list
  defined : ∀ k, D k → label_name k ∈ label_defs st.list

/-- A generator step keeps the label invariant, given that the targets of a condition are
pending labels. -/
def LabelGood (mode : GenMode) (st : GenState) (res : GenState × IROperand) : Prop :=
  ∀ E D : Nat → Prop, LabelInv st E D →
    (∀ t f line, mode = GenMode.cond t f line →
      ∃ kt kf, t = label_name kt ∧ f = label_name kf ∧ E kt ∧ E kf) →
    LabelInv res.1 E D

/-- The nodes of the sibling list that starts at a node. -/
def siblings : ASTNode → List ASTNode
  | ASTNode.null => []
  | ASTNode.node d l r c b ini inc p nx => ASTNode.node d l r c b ini inc p nx :: siblings nx

/-- Line 1: `int f(int a){ return a < 1; }`. -/
def sample_relational : ASTNode :=
  func_node DataType.TYPE_INT "f" (param_node DataType.TYPE_INT "a" 1)
    (block_node
      (return_node
        ((create_binary_node 60 ((create_var_node "a").set_line 1)
          ((create_int_node 1).set_line 1)).set_line 1) 1) 1) 1

/-- Line 1: `int f(int t0){ return t0 + 1; }`. -/
def sample_capture : ASTNode :=
  func_node DataType.TYPE_INT "f" (param_node DataType.TYPE_INT "t0" 1)
    (block_node
      (return_node
        ((create_binary_node 43 ((create_var_node "t0").set_line 1)
          ((create_int_node 1).set_line 1)).set_line 1) 1) 1) 1

/-- Line 1: `int f(int a){ while (a < 3 && a) { a = a + 1; } return a; }`. -/
def sample_loop (tk : Tokens) : ASTNode :=
  func_node DataType.TYPE_INT "f" (param_node DataType.TYPE_INT "a" 1)
    (block_node
      (append_node
        ((create_while_node
          ((create_binary_node tk.T_AND
            ((create_binary_node 60 ((create_var_node "a").set_line 1)
              ((create_int_node 3).set_line 1)).set_line 1)
            ((create_var_node "a").set_line 1)).set_line 1)
          (block_node
            (assign_node ((create_var_node "a").set_line 1)
              ((create_binary_node 43 ((create_var_node "a").set_line 1)
                ((create_int_node 1).set_line 1)).set_line 1) 1) 1)).set_line 1)
        (return_node ((create_var_node "a").set_line 1) 1)) 1) 1

/-- Token codes in the range a parser generator hands out (above the character codes). -/
def sample_tokens : Tokens :=
  { T_EQ := 258, T_NEQ := 259, T_LE := 260, T_GE := 261, T_AND := 262, T_OR := 263,
    T_INT := 264, T_CHAR := 265, T_VOID := 266 }

/-- The name an instruction assigns: its `result` (`NULL` for the kinds without one). -/
def assigned_names (l : List IRInstr) : List String := l.filterMap IRInstr.result

/-- The destination of a `BinOp`, `UnOp` or `Call` instruction. -/
def IRInstr.op_result (i : IRInstr) : Option String :=
  if i.kind = IROpKind.IR_BINOP ∨ i.kind = IROpKind.IR_UNOP ∨ i.kind = IROpKind.IR_CALL then
    i.result
  else none

/-- The destinations of the `BinOp`, `UnOp` and `Call` instructions of a list. -/
def op_results (l : List IRInstr) : List String := l.filterMap IRInstr.op_result

/-- The invariant of the generator on the destinations of `BinOp`, `UnOp` and `Call`
instructions: pairwise different names `t<k>` below the counter. -/
structure TempInv (st : GenState) : Prop where
  lt : ∀ x ∈ op_results st.list, ∃ k, k < st.temp_counter ∧ x = temp_name k
  nodup : (op_results st.list).Nodup

/-- The names an instruction reads: the names of its operand fields (a constant operand and
an unused field have no name). -/
def IRInstr.operand_names (i : IRInstr) : List String :=
  [i.src.name, i.left.name, i.right.name, i.unop_src.name, i.if_left.name,
    i.if_right.name].filterMap id

/-- The string is a name `t<k>` that `ir_new_temp` mints. -/
def is_temp_name (s : String) : Prop := ∃ k, s = temp_name k

/-- Every temporary read by an instruction is assigned by an earlier instruction of the
list. -/
def temps_defined_before_use (l : List IRInstr) : Prop :=
  ∀ l1 i l2, l = l1 ++ i :: l2 → ∀ x ∈ i.operand_names, is_temp_name x →
    x ∈ assigned_names l1

/-- All the strings stored in the `str_val` fields of a tree. -/
def ASTNode.names : ASTNode → List String
  | ASTNode.null => []
  | ASTNode.node d l r c b ini inc p nx =>
    d.str_val.toList ++ l.names ++ r.names ++ c.names ++ b.names ++ ini.names ++ inc.names ++
      p.names ++ nx.names

/-- No identifier of the tree has the form `t<k>`. -/
def no_temp_identifier (n : ASTNode) : Prop := ∀ s ∈ n.names, ¬ is_temp_name s

/-- A temporary named by the operand is assigned in the list. -/
def OpOk (op : IROperand) (l : List IRInstr) : Prop :=
  ∀ x, op.name = some x → is_temp_name x → x ∈ assigned_names l

/-- A generator step only appends, and keeps "defined before use". -/
def UseStep (st st1 : GenState) : Prop :=
  st.list <+: st1.list ∧ (temps_defined_before_use st.list → temps_defined_before_use st1.list)

/-! ### The example programs of the specification -/

/-- Line 1: `int f(int x){ return x + 1; }`. -/
def sample_add_one : ASTNode :=
  func_node DataType.TYPE_INT "f" (param_node DataType.TYPE_INT "x" 1)
    (block_node
      (return_node
        ((create_binary_node 43 ((create_var_node "x").set_line 1)
          ((create_int_node 1).set_line 1)).set_line 1) 1) 1) 1

/-- Line 1: `int f(){}`. -/
def sample_empty_body : ASTNode :=
  func_node DataType.TYPE_INT "f" ASTNode.null (block_node ASTNode.null 1) 1

/-- Line 1: `int main(){`, line 2: `int x;`, line 3: `x = y;`, line 4: `return 0; }`. -/
def sample_undeclared_y : ASTNode :=
  func_node DataType.TYPE_INT "main" ASTNode.null
    (block_node
      (append_node
        (append_node (var_decl_node DataType.TYPE_INT "x" ASTNode.null 2)
          (assign_node ((create_var_node "x").set_line 3) ((create_var_node "y").set_line 3)
            3))
        (return_node ((create_int_node 0).set_line 4) 4)) 1) 1

/-- Line 1: `void g(){ if (1 && 0) { return; } }`. -/
def sample_dead_then (tk : Tokens) : ASTNode :=
  func_node DataType.TYPE_VOID "g" ASTNode.null
    (block_node
      ((create_if_node
        ((create_binary_node tk.T_AND ((create_int_node 1).set_line 1)
          ((create_int_node 0).set_line 1)).set_line 1)
        (block_node (return_node ASTNode.null 1) 1) ASTNode.null).set_line 1) 1) 1

/-- Line 1: `int f(int a){ return 1; }`, line 2: `int main(){ return f(1,2); }`. -/
def sample_too_many : ASTNode :=
  append_node
    (func_node DataType.TYPE_INT "f" (param_node DataType.TYPE_INT "a" 1)
      (block_node (return_node ((create_int_node 1).set_line 1) 1) 1) 1)
    (func_node DataType.TYPE_INT "main" ASTNode.null
      (block_node
        (return_node
          (call_node "f"
            (append_node ((create_int_node 1).set_line 2) ((create_int_node 2).set_line 2))
            2) 2) 2) 2)

/-- Line 1: `int main(){ int i; for (i=0; i<3; i=i+1) { } return 0; }`. -/
def sample_for_loop : ASTNode :=
  func_node DataType.TYPE_INT "main" ASTNode.null
    (block_node
      (append_node
        (append_node (var_decl_node DataType.TYPE_INT "i" ASTNode.null 1)
          ((create_for_node
            (assign_node ((create_var_node "i").set_line 1) ((create_int_node 0).set_line 1)
              1)
            ((create_binary_node 60 ((create_var_node "i").set_line 1)
              ((create_int_node 3).set_line 1)).set_line 1)
            (assign_node ((create_var_node "i").set_line 1)
              ((create_binary_node 43 ((create_var_node "i").set_line 1)
                ((create_int_node 1).set_line 1)).set_line 1) 1)
            (block_node ASTNode.null 1)).set_line 1))
        (return_node ((create_int_node 0).set_line 1) 1)) 1) 1

/-- Line 1: `int main(){`, line 2: `int x;`, line 3: `x = y; }`: the program of
`sample_undeclared_y` without its `return 0;`. -/
def sample_undeclared_y_no_return : ASTNode :=
  func_node DataType.TYPE_INT "main" ASTNode.null
    (block_node
      (append_node (var_decl_node DataType.TYPE_INT "x" ASTNode.null 2)
        (assign_node ((create_var_node "x").set_line 3) ((create_var_node "y").set_line 3)
          3)) 1) 1

/-- The diagnostics of the analysis of a program from the initial state, and the name and
instruction list of each function of the IR generated from the annotated tree (`none` when
`ir_generate` returns `NULL`). -/
def compile (tk : Tokens) (ast : ASTNode) :
    List (Int × String) × Option (List (Option String × List IRInstr)) :=
  ((semantic_analyze ast AnState.initial).1.diagnostics,
    (ir_generate tk (semantic_analyze ast AnState.initial).2 GenState.initial).map
      (fun prog => prog.funcs.map (fun f => (f.name, f.instrs))))

/-- Line 1: `int main(){`, line 2: `char c;`, line 3: `c = y;`, line 4: `return 0; }`. -/
def sample_undeclared_char : ASTNode :=
  func_node DataType.TYPE_INT "main" ASTNode.null
    (block_node
      (append_node
        (append_node (var_decl_node DataType.TYPE_CHAR "c" ASTNode.null 2)
          (assign_node ((create_var_node "c").set_line 3) ((create_var_node "y").set_line 3)
            3))
        (return_node ((create_int_node 0).set_line 4) 4)) 1) 1

/-- The message of the type check of an assignment or a binary operation. -/
def mismatch_message (t : NodeType) : String :=
  if t = NodeType.NODE_ASSIGN then "Assignment type mismatch"
  else "Binary operand type mismatch"

/-! ### The checks of a call -/

/-- What the call on line `line` reports for its argument number `i` (counted from 0), of
analysed type `t`: `"Too many arguments"` when the function has no parameter number `i`,
`"Argument type mismatch"` when `t` differs from the type of parameter `i`. -/
def argument_check (sym : Symbol) (line : Int) (i : Nat) (t : DataType) :
    List (Int × String) :=
  if sym.param_count ≤ i then [(line, "Too many arguments")]
  else if t ≠ sym.param_types.getD i DataType.TYPE_VOID then
    [(line, "Argument type mismatch")]
  else []

/-- The arguments of a call as the loop of `analyze_function_call` meets them, the first
one with the counter at `i`: for each argument, the diagnostics its own analysis adds and
its analysed type. -/
def analysed_args (sym : Symbol) (line : Int) :
    Nat → ASTNode → AnState → List (List (Int × String) × DataType)
  | _, ASTNode.null, _ => []
  | i, ASTNode.node d l r c b ini inc p nx, st =>
    (reported st (analyze_node (ASTNode.node d l r c b ini inc p nx) st).st,
      (analyze_node (ASTNode.node d l r c b ini inc p nx) st).node.data_type) ::
      analysed_args sym line (i + 1) nx
        (check_argument sym i line (analyze_node (ASTNode.node d l r c b ini inc p nx) st).node
          (analyze_node (ASTNode.node d l r c b ini inc p nx) st).st)

/-- The diagnostics of the argument loop: for each argument in turn, what its analysis
reports and then what the call reports for it. -/
def call_report (sym : Symbol) (line : Int) :
    Nat → List (List (Int × String) × DataType) → List (Int × String)
  | _, [] => []
  | i, a :: rest => a.1 ++ argument_check sym line i a.2 ++ call_report sym line (i + 1) rest

/-- The symbol of `f` after `int f(int a){ return 1; }` on line 1 of the global scope. -/
def sample_symbol_f : Symbol :=
  { name := "f", type := DataType.TYPE_INT, kind := SymbolKind.SYM_FUNCTION, line_number := 1,
    scope_level := 0, param_count := 1, param_types := [DataType.TYPE_INT] }

/-! ### The code a visit of the generator emits -/

/-- The state with the instructions `l` put in front of its list. -/
def GenState.lift (l : List IRInstr) (s : GenState) : GenState :=
  { s with list := l ++ s.list }

/-- A step of the generator that only appends to the list: started with more instructions
in front, it gives the same counters, the same operand and the same appended
instructions. -/
def Local (F : GenState → GenState × IROperand) : Prop :=
  ∀ (l : List IRInstr) (s : GenState), F (s.lift l) = ((F s).1.lift l, (F s).2)

/-- The instructions a visit appends to the list: what it emits when it is started with the
counters of `st` and an empty list. -/
def emitted (tk : Tokens) (n : ASTNode) (mode : GenMode) (st : GenState) : List IRInstr :=
  (gen_walk tk n mode { st with list := [] }).1.list

/-- The condition `0 && x` on line 1. -/
def sample_and_zero (tk : Tokens) : ASTNode :=
  (create_binary_node tk.T_AND ((create_int_node 0).set_line 1)
    ((create_var_node "x").set_line 1)).set_line 1

/-- Counters after the three labels of an `if` have been allocated, and an empty list. -/
def sample_gen_state : GenState := { temp_counter := 0, label_counter := 3, list := [] }

/-! ### Scopes as objects -/

/-- The scope `current_scope` points to, `none` for `NULL`. -/
def SymTab.current (st : SymTab) : Option Scope :=
  match st.current_scope with
  | none => none
  | some a => st.heap[a]?

/-- The table after `init_symbol_table()` and one `enter_scope()`: the global scope, which
holds `int x`, and an empty scope inside it. -/
def demo_nested : SymTab := enter_scope demo_with_x

/-! ### Statements and operators -/

/-- The globals after `analyze_if` has analysed the condition `c` of an `if` on line `line`
and checked its type. -/
def state_after_condition (c : ASTNode) (line : Int) (st : AnState) : AnState :=
  if (analyze_node c st).node.data_type = DataType.TYPE_VOID then
    semantic_error (analyze_node c st).st line "Invalid condition type"
  else (analyze_node c st).st

/-- A state inside the function `f` of `sample_symbol_f`, with the global scope only. -/
def sample_inside_f : AnState := { AnState.initial with current_function := some sample_symbol_f }

/-- The node data of a statement or expression of the given kind on line 1. -/
def sample_data (t : NodeType) : NodeData :=
  { type := t, data_type := DataType.TYPE_VOID, line_number := 1, int_val := 0, str_val := none }

/-! ### Scopes a run does not write to -/

/-- What a balanced run of the analyzer leaves of the symbol table it started with: the
frame property, and every scope other than the current one exactly as it was, symbol for
symbol. -/
structure Kept (t0 t1 : SymTab) : Prop where
  frame : Frame t0 t1
  others : ∀ a, a < t0.heap.length → t0.current_scope ≠ some a → t1.heap[a]? = t0.heap[a]?

/-- Line 1: `int f(int a, char b){ return 1; }`. -/
def sample_two_params : ASTNode :=
  func_node DataType.TYPE_INT "f"
    (append_node (param_node DataType.TYPE_INT "a" 1) (param_node DataType.TYPE_CHAR "b" 1))
    (block_node (return_node ((create_int_node 1).set_line 1) 1) 1) 1

/-- Line 1: `return 1;`, line 2: `y;`, with no `y` declared. -/
def sample_return_then_use : ASTNode :=
  append_node (return_node ((create_int_node 1).set_line 1) 1)
    ((create_var_node "y").set_line 2)

/-! ### Conditional jumps -/

/-- Every `IR_IF` of the list has a next instruction, and that one is an `IR_GOTO`. -/
def if_followed_by_goto (l : List IRInstr) : Prop :=
  ∀ (k : Nat) (i : IRInstr), l[k]? = some i → i.kind = IROpKind.IR_IF →
    ∃ j, l[k + 1]? = some j ∧ j.kind = IROpKind.IR_GOTO

/-- Line 1: `int g = 1 < 2;`, line 2: `int f(int a){ if (a < 1) return 1; return a; }`. -/
def sample_global_relational : ASTNode :=
  append_node
    (var_decl_node DataType.TYPE_INT "g"
      ((create_binary_node 60 ((create_int_node 1).set_line 1)
        ((create_int_node 2).set_line 1)).set_line 1) 1)
    (func_node DataType.TYPE_INT "f" (param_node DataType.TYPE_INT "a" 2)
      (block_node
        (append_node
          ((create_if_node
            ((create_binary_node 60 ((create_var_node "a").set_line 2)
              ((create_int_node 1).set_line 2)).set_line 2)
            (return_node ((create_int_node 1).set_line 2) 2) ASTNode.null).set_line 2)
          (return_node ((create_var_node "a").set_line 2) 2)) 2) 2)

/-! ## ir.c: the text form of an instruction -/

/-- The text `printf("%d", v)` writes. -/
def print_int (v : Int) : String := toString v

/-- The text `printf("%c", c)` writes: the one character whose code is `(unsigned char) c`. -/
def print_char (c : Int) : String := String.singleton (Char.ofNat (c % 256).toNat)

/-- `print_operand`. -/
def print_operand (op : IROperand) : String :=
  if op.is_const then print_int op.const_val
  else
    match op.name with
    | some s => s
    | none => "?"

/-- `binop_str`; the character constants are written with their codes. -/
def binop_str (tk : Tokens) (op : Int) : String :=
  if op = 43 then "+"
  else if op = 45 then "-"
  else if op = 42 then "*"
  else if op = 47 then "/"
  else if op = 37 then "%"
  else if op = 60 then "<"
  else if op = 62 then ">"
  else if op = tk.T_EQ then "=="
  else if op = tk.T_NEQ then "!="
  else if op = tk.T_LE then "<="
  else if op = tk.T_GE then ">="
  else if op = tk.T_AND then "&&"
  else if op = tk.T_OR then "||"
  else "?"

/-- `relop_str`. -/
def relop_str : IRRelop → String
  | IRRelop.IR_LT => "<"
  | IRRelop.IR_GT => ">"
  | IRRelop.IR_LE => "<="
  | IRRelop.IR_GE => ">="
  | IRRelop.IR_EQ => "=="
  | IRRelop.IR_NE => "!="

/-- `ir_print_instr` on an instruction that is not `NULL`: the text its `printf` calls write
to the standard output, one after the other; `none` when a `NULL` string is passed to `%s`,
which C leaves undefined. -/
def ir_print_instr (tk : Tokens) (instr : IRInstr) : Option String :=
  match instr.kind with
  | IROpKind.IR_ASSIGN =>
    instr.result.map (fun x => "  " ++ x ++ " := " ++ print_operand instr.src ++ "\n")
  | IROpKind.IR_BINOP =>
    instr.result.map (fun x => "  " ++ x ++ " := " ++ print_operand instr.left ++
      (" " ++ binop_str tk instr.binop ++ " ") ++ print_operand instr.right ++ "\n")
  | IROpKind.IR_UNOP =>
    instr.result.map (fun x => "  " ++ x ++ " := " ++ print_char instr.unop ++
      print_operand instr.unop_src ++ "\n")
  | IROpKind.IR_PARAM => some ("  param " ++ print_operand instr.src ++ "\n")
  | IROpKind.IR_CALL =>
    match instr.result with
    | some x =>
      instr.call_fn.map (fun f => "  " ++ x ++ " := call " ++ f ++ ", " ++
        print_int instr.arg_count ++ "\n")
    | none =>
      instr.call_fn.map (fun f => "  call " ++ f ++ ", " ++ print_int instr.arg_count ++ "\n")
  | IROpKind.IR_RETURN =>
    if instr.src.name.isSome ∨ instr.src.is_const then
      some ("  return " ++ print_operand instr.src ++ "\n")
    else some "  return\n"
  | IROpKind.IR_LABEL => instr.label.map (fun l => l ++ ":\n")
  | IROpKind.IR_GOTO => instr.label.map (fun l => "  goto " ++ l ++ "\n")
  | IROpKind.IR_IF =>
    instr.label.map (fun l => "  if " ++ print_operand instr.if_left ++
      (" " ++ relop_str instr.relop ++ " ") ++ print_operand instr.if_right ++ " goto " ++
      l ++ "\n")

/-! ### The forms of the specification -/

/-- The name a pointer to a string stands for, empty for `NULL`. -/
def name_text (s : Option String) : String := s.getD ""

/-- Words put one after the other with one blank between them. -/
def join_words : List String → String
  | [] => ""
  | [w] => w
  | w :: v :: rest => w ++ " " ++ join_words (v :: rest)

/-- The words of the form the specification lists for the kind of the instruction, `x := y`,
`x := y op z`, `x := op y`, `param y`, `x := call f, n`, `call f, n`, `return y`, `return`,
`L:`, `goto L`, `if x rel y goto L`, with the texts of the instruction in the place of the
letters.  A call has the first form when it has a result, a return the first form when it
has an operand. -/
def spec_words (tk : Tokens) (i : IRInstr) : List String :=
  match i.kind with
  | IROpKind.IR_ASSIGN => [name_text i.result, ":=", print_operand i.src]
  | IROpKind.IR_BINOP =>
    [name_text i.result, ":=", print_operand i.left, binop_str tk i.binop,
      print_operand i.right]
  | IROpKind.IR_UNOP =>
    [name_text i.result, ":=", print_char i.unop, print_operand i.unop_src]
  | IROpKind.IR_PARAM => ["param", print_operand i.src]
  | IROpKind.IR_CALL =>
    match i.result with
    | some x => [x, ":=", "call", name_text i.call_fn ++ ",", print_int i.arg_count]
    | none => ["call", name_text i.call_fn ++ ",", print_int i.arg_count]
  | IROpKind.IR_RETURN =>
    if i.src.name.isSome ∨ i.src.is_const then ["return", print_operand i.src]
    else ["return"]
  | IROpKind.IR_LABEL => [name_text i.label ++ ":"]
  | IROpKind.IR_GOTO => ["goto", name_text i.label]
  | IROpKind.IR_IF =>
    ["if", print_operand i.if_left, relop_str i.relop, print_operand i.if_right, "goto",
      name_text i.label]

/-- The line of the specification for an instruction: the words of its form, behind two
blanks unless it is a label, and the end of the line. -/
def spec_line (tk : Tokens) (i : IRInstr) : String :=
  (if i.kind = IROpKind.IR_LABEL then "" else "  ") ++ join_words (spec_words tk i) ++ "\n"

/-- The strings of the instruction that `ir_print_instr` passes to `%s` are not `NULL`. -/
def IRInstr.printable (i : IRInstr) : Bool :=
  match i.kind with
  | IROpKind.IR_ASSIGN => i.result.isSome
  | IROpKind.IR_BINOP => i.result.isSome
  | IROpKind.IR_UNOP => i.result.isSome
  | IROpKind.IR_CALL => i.call_fn.isSome
  | IROpKind.IR_LABEL => i.label.isSome
  | IROpKind.IR_GOTO => i.label.isSome
  | IROpKind.IR_IF => i.label.isSome
  | _ => true

/-- The line feed. -/
def line_feed : Char := Char.ofNat 10

/-- The number of line feeds in a text. -/
def line_feeds (s : String) : Nat := s.data.count line_feed

/-- No name of the instruction holds a line feed, and the character of its operator is not
one when it is a unary operation. -/
def IRInstr.single_line (i : IRInstr) : Prop :=
  (∀ s ∈ [i.result, i.call_fn, i.label, i.src.name, i.left.name, i.right.name,
      i.unop_src.name, i.if_left.name, i.if_right.name], line_feeds (name_text s) = 0) ∧
    line_feeds (print_char i.unop) = 0

/-- The `case` labels of the `switch` of `binop_str`, which C requires to be pairwise
different. -/
def Tokens.case_labels (tk : Tokens) : List Int :=
  [43, 45, 42, 47, 37, 60, 62, tk.T_EQ, tk.T_NEQ, tk.T_LE, tk.T_GE, tk.T_AND, tk.T_OR]

/-- Line 1: `int f(int x){ return -x; }`. -/
def sample_negate : ASTNode :=
  func_node DataType.TYPE_INT "f" (param_node DataType.TYPE_INT "x" 1)
    (block_node
      (return_node
        ((create_unary_node 45 ((create_var_node "x").set_line 1)).set_line 1) 1) 1) 1

/-- The lines `ir_print_instr` writes for the instructions of each function of the IR
generated from the analysed program. -/
def printed_lines (tk : Tokens) (ast : ASTNode) : Option (List (List (Option String))) :=
  (compile tk ast).2.map (fun fs => fs.map (fun f => f.2.map (ir_print_instr tk)))

/-- The names the generator copies into instructions are present in the tree: the name of
the target of each assignment, of each declaration and of each call. -/
def names_present : ASTNode → Bool
  | ASTNode.null => true
  | ASTNode.node d l r c b ini inc p nx =>
    (if d.type = NodeType.NODE_ASSIGN then l.str_val.isSome else true) &&
    (if d.type = NodeType.NODE_VAR_DECL ∨ d.type = NodeType.NODE_FUNC_CALL
      then d.str_val.isSome else true) &&
    names_present l && names_present r && names_present c && names_present b &&
    names_present ini && names_present inc && names_present p && names_present nx

/-- Every instruction of the list can be printed. -/
def all_printable (l : List IRInstr) : Prop := ∀ i ∈ l, i.printable = true

/-! ### More sample programs -/

/-- Line 1: `int f(){ return 1; }`, line 2: `int g(){ return f; }`. -/
def sample_function_as_variable : ASTNode :=
  append_node sample_f_returns
    (func_node DataType.TYPE_INT "g" ASTNode.null
      (block_node (return_node ((create_var_node "f").set_line 2) 2) 2) 2)

/-- The condition `!x` on line 1. -/
def sample_not_x : ASTNode :=
  (create_unary_node 33 ((create_var_node "x").set_line 1)).set_line 1

/-- The globals after the analysis of `int f(int a){ return 1; }` on line 1. -/
def demo_with_f : AnState :=
  (analyze_node
    (func_node DataType.TYPE_INT "f" (param_node DataType.TYPE_INT "a" 1)
      (block_node (return_node ((create_int_node 1).set_line 1) 1) 1) 1)
    AnState.initial).st

/-- The call `f(1, x)` on line 1, with the type `t` the analysis has written into it. -/
def sample_call (t : DataType) : ASTNode :=
  (call_node "f"
    (append_node ((create_int_node 1).set_line 1) ((create_var_node "x").set_line 1))
    1).set_data_type t

/-! ### The functions and the global initialisers of a program -/

/-- The entry `gen_func` makes for a function definition: its name, the type of its Type
child (`TYPE_VOID` without one) and the instructions `gen_stmt` emits for its body from
reset counters. -/
def func_entry (tk : Tokens) (fn : ASTNode) : IRFunc :=
  { name := fn.str_val,
    ret_type := if fn.left.isNull then DataType.TYPE_VOID else fn.left.data_type,
    instrs := emitted tk fn.body GenMode.stmt GenState.initial }

/-- The function definitions of a sibling list, in source order. -/
def function_defs (root : ASTNode) : List ASTNode :=
  (siblings root).filter (fun n => decide (n.type = NodeType.NODE_FUNC_DEF))

/-- The variable declarations with an initialiser of a sibling list, in source order. -/
def initialised_globals (root : ASTNode) : List ASTNode :=
  (siblings root).filter
    (fun n => decide (n.type = NodeType.NODE_VAR_DECL) && !n.right.isNull)

/-- The instructions of the initialisers of the top-level list, one block for each
initialised global in source order: the code of the initialiser followed by the assignment
to the name of the global.  The counters run on from one top-level node to the next, through
the function definitions too. -/
def global_blocks (tk : Tokens) : ASTNode → GenState → List (List IRInstr)
  | ASTNode.null, _ => []
  | ASTNode.node d l r c b ini inc p nx, st =>
    if d.type = NodeType.NODE_FUNC_DEF then
      global_blocks tk nx
        (gen_func tk (ASTNode.node d l r c b ini inc p nx) st ir_program_create).1
    else if d.type = NodeType.NODE_VAR_DECL ∧ r.isNull = false then
      (emitted tk r GenMode.expr st ++
          [ir_make_assign d.str_val (gen_walk tk r GenMode.expr st).2 d.line_number]) ::
        global_blocks tk nx (gen_walk tk r GenMode.expr st).1
    else global_blocks tk nx st

/-- Line 1: `int g = 1;`, line 2: `int f(){ return 1; }`, line 3: `int h = g + 2;`. -/
def sample_two_globals : ASTNode :=
  append_node
    (append_node
      (var_decl_node DataType.TYPE_INT "g" ((create_int_node 1).set_line 1) 1)
      (func_node DataType.TYPE_INT "f" ASTNode.null
        (block_node (return_node ((create_int_node 1).set_line 2) 2) 2) 2))
    (var_decl_node DataType.TYPE_INT "h"
      ((create_binary_node 43 ((create_var_node "g").set_line 3)
        ((create_int_node 2).set_line 3)).set_line 3) 3)

/-- Line 1: `int f(int a){ return a + 1; }`, line 2: `void g(int a){ a = a * 2 - 1; }`. -/
def sample_two_functions : ASTNode :=
  append_node
    (func_node DataType.TYPE_INT "f" (param_node DataType.TYPE_INT "a" 1)
      (block_node
        (return_node
          ((create_binary_node 43 ((create_var_node "a").set_line 1)
            ((create_int_node 1).set_line 1)).set_line 1) 1) 1) 1)
    (func_node DataType.TYPE_VOID "g" (param_node DataType.TYPE_INT "a" 2)
      (block_node
        (assign_node ((create_var_node "a").set_line 2)
          ((create_binary_node 45
            ((create_binary_node 42 ((create_var_node "a").set_line 2)
              ((create_int_node 2).set_line 2)).set_line 2)
            ((create_int_node 1).set_line 2)).set_line 2) 2) 2) 2)

/-! ### The numbering of temporaries -/

/-- The invariant of the generator on the numbering of temporaries: the destinations of the
`BinOp`, `UnOp` and `Call` instructions are names `t<k>` whose numbers increase along the
list and stay below the counter, and every number below the counter is the name of a
temporary that the list assigns. -/
structure TempOrder (st : GenState) : Prop where
  sorted : ∃ ks : List Nat, op_results st.list = ks.map temp_name ∧
    ks.Pairwise (fun a b => a < b) ∧ ∀ k ∈ ks, k < st.temp_counter
  assigned : ∀ k, k < st.temp_counter → temp_name k ∈ assigned_names st.list

/-- The number of temporaries `gen_func` allocates for a function definition. -/
def temps_allocated (tk : Tokens) (fn : ASTNode) : Nat :=
  (gen_walk tk fn.body GenMode.stmt GenState.initial).1.temp_counter

/-! ### Parameters and the locals of the body -/

/-- What a balanced run of the analyzer leaves of the symbols of the current scope: a name
found in it is still found, with the same symbol. -/
def Holds (t0 t1 : SymTab) : Prop :=
  ∀ (x : String) (sym : Symbol), lookup_current t0 x = some sym →
    lookup_current t1 x = some sym

/-- The globals when `analyze_function` calls `analyze_node` on the body of an accepted
definition: the symbol of the function is in the scope of the definition, the function
scope is entered and the parameters are inserted. -/
def function_scope_state (node : ASTNode) (st : AnState) : AnState :=
  insert_params node.params
    { st with
      symtab := enter_scope
        (set_signature
          (insert_symbol st.symtab
            (create_symbol st.symtab node.name node.left.data_type SymbolKind.SYM_FUNCTION
              node.line_number)).1
          node.name (count_params node.params) (collect_param_types node.params)),
      current_function := some
        { create_symbol st.symtab node.name node.left.data_type SymbolKind.SYM_FUNCTION
            node.line_number with
          param_count := count_params node.params,
          param_types := collect_param_types node.params } }

/-- The globals when `analyze_block`, called on the body of the function, starts its loop:
the scope of the block is entered. -/
def body_block_state (node : ASTNode) (st : AnState) : AnState :=
  { function_scope_state node st with
    symtab := enter_scope (function_scope_state node st).symtab }

/-- Line 1: `int f(int a){`, line 2: `char a;`, line 3: `return a; }`. -/
def sample_shadow : ASTNode :=
  func_node DataType.TYPE_INT "f" (param_node DataType.TYPE_INT "a" 1)
    (block_node
      (append_node (var_decl_node DataType.TYPE_CHAR "a" ASTNode.null 2)
        (return_node ((create_var_node "a").set_line 3) 3)) 1) 1

/-- The level and the parent of the scope `current_scope` points to. -/
def SymTab.current_place (t : SymTab) : Option (Int × Option Nat) :=
  t.current.map (fun sc => (sc.level, sc.parent))

/-- Line 1: `int f;`, line 2: `int f(int a){ char a; return a; }`. -/
def sample_rejected_params : ASTNode :=
  append_node (var_decl_node DataType.TYPE_INT "f" ASTNode.null 1)
    (func_node DataType.TYPE_INT "f" (param_node DataType.TYPE_INT "a" 2)
      (block_node
        (append_node (var_decl_node DataType.TYPE_CHAR "a" ASTNode.null 2)
          (return_node ((create_var_node "a").set_line 2) 2)) 2) 2)

/-- The globals after `analyze_declaration` has inserted the symbol of the declaration
`dcl` into the current scope, before it looks at the initialiser. -/
def declared_state (dcl : ASTNode) (st : AnState) : AnState :=
  { st with
    symtab := (insert_symbol st.symtab
      (create_symbol st.symtab dcl.name dcl.left.data_type SymbolKind.SYM_VARIABLE
        dcl.line_number)).1 }

/-! ### The instructions that write a temporary -/

/-- The instructions of a list whose `result` is the name `x`, in order. -/
def writes (x : String) (l : List IRInstr) : List IRInstr :=
  l.filter (fun i => decide (i.result = some x))

/-- The two ways a list writes a temporary `x`: by exactly one instruction, a `BinOp`,
`UnOp` or `Call` with destination `x`, or by exactly the two instructions `x := 0` and
`x := 1`, in this order and with the line of one node, with which `gen_expr` materialises
the value of a relational or logical expression. -/
def written_as_temp (x : String) (l : List IRInstr) : Prop :=
  (∃ i, writes x l = [i] ∧ i.op_result = some x) ∨
  ∃ line, writes x l =
    [ir_make_assign (some x) (ir_op_const 0) line,
      ir_make_assign (some x) (ir_op_const 1) line]

/-- A generator step only appends and allocates; the instructions it appends write each
temporary it allocates in one of the two ways of `written_as_temp` and no other
temporary. -/
def WriteStep (st st1 : GenState) : Prop :=
  st.temp_counter ≤ st1.temp_counter ∧
  ∃ e, st1.list = st.list ++ e ∧
    ∀ k, (st.temp_counter ≤ k ∧ k < st1.temp_counter → written_as_temp (temp_name k) e) ∧
      (¬ (st.temp_counter ≤ k ∧ k < st1.temp_counter) → writes (temp_name k) e = [])

/-- Line 1: `int f(int t0){ t0 = t0 + 1; return t0; }`. -/
def sample_capture_assign : ASTNode :=
  func_node DataType.TYPE_INT "f" (param_node DataType.TYPE_INT "t0" 1)
    (block_node
      (append_node
        (assign_node ((create_var_node "t0").set_line 1)
          ((create_binary_node 43 ((create_var_node "t0").set_line 1)
            ((create_int_node 1).set_line 1)).set_line 1) 1)
        (return_node ((create_var_node "t0").set_line 1) 1)) 1) 1

/-- Line 1: `int f(int a){ return (a < 1) + a; }`. -/
def sample_flag_sum : ASTNode :=
  func_node DataType.TYPE_INT "f" (param_node DataType.TYPE_INT "a" 1)
    (block_node
      (return_node
        ((create_binary_node 43
          ((create_binary_node 60 ((create_var_node "a").set_line 1)
            ((create_int_node 1).set_line 1)).set_line 1)
          ((create_var_node "a").set_line 1)).set_line 1) 1) 1) 1
/-! ### Lemmas on the symbol table -/

theorem hash_lt (key : String) : hash key < TABLE_SIZE :=
  Nat.mod_lt _ (by decide)

theorem find_symbol_eq_none {name : String} {l : List Symbol} :
    find_symbol name l = none ↔ ∀ s ∈ l, s.name ≠ name := by
  induction l with
  | nil => simp [find_symbol]
  | cons s rest ih =>
    by_cases h : s.name = name
    · simp [find_symbol, h]
    · simp [find_symbol, h, ih]

theorem find_symbol_some {name : String} {l : List Symbol} {s : Symbol}
    (h : find_symbol name l = some s) : s ∈ l ∧ s.name = name := by
  induction l with
  | nil => simp [find_symbol] at h
  | cons t rest ih =>
    by_cases ht : t.name = name
    · simp [find_symbol, ht] at h
      subst h
      exact ⟨List.mem_cons_self _ _, ht⟩
    · simp [find_symbol, ht] at h
      exact ⟨List.mem_cons_of_mem _ (ih h).1, (ih h).2⟩

theorem mem_symbols_iff {sc : Scope} {s : Symbol} :
    s ∈ sc.symbols ↔ ∃ i, s ∈ sc.table.getD i [] := by
  unfold Scope.symbols
  rw [List.mem_flatten]
  constructor
  · rintro ⟨b, hb, hs⟩
    obtain ⟨i, hi, rfl⟩ := List.getElem_of_mem hb
    exact ⟨i, by simpa [List.getD_eq_getElem?_getD, List.getElem?_eq_getElem hi] using hs⟩
  · rintro ⟨i, hs⟩
    by_cases hi : i < sc.table.length
    · refine ⟨sc.table[i], List.getElem_mem _, ?_⟩
      simpa [List.getD_eq_getElem?_getD, List.getElem?_eq_getElem hi] using hs
    · simp [List.getD_eq_getElem?_getD, List.getElem?_eq_none (Nat.le_of_not_lt hi)] at hs

/-- In a well-formed scope the bucket of `hash name` decides whether the scope holds a
symbol called `name`. -/
theorem find_symbol_bucket_none {sc : Scope} (hw : sc.wf) (name : String) :
    find_symbol name (sc.table.getD (hash name) []) = none ↔
      ∀ s ∈ sc.symbols, s.name ≠ name := by
  rw [find_symbol_eq_none]
  constructor
  · intro h s hs hn
    obtain ⟨i, hi⟩ := mem_symbols_iff.1 hs
    have := hw.2 i s hi
    rw [hn] at this
    subst this
    exact h s hi hn
  · intro h s hs
    exact h s (mem_symbols_iff.2 ⟨_, hs⟩)


theorem getD_set_self {α : Type} (l : List α) (i : Nat) (x d : α) (h : i < l.length) :
    (l.set i x).getD i d = x := by
  simp [List.getD_eq_getElem?_getD, List.getElem?_set, h]

theorem getD_set_ne {α : Type} (l : List α) (i j : Nat) (x d : α) (h : i ≠ j) :
    (l.set i x).getD j d = l.getD j d := by
  simp [List.getD_eq_getElem?_getD, List.getElem?_set, h]

theorem insert_symbol_unfold {st : SymTab} {a : Nat} {sc : Scope} (sym : Symbol)
    (hc : st.current_scope = some a) (hs : st.heap[a]? = some sc) :
    insert_symbol st sym =
      match find_symbol sym.name (sc.table.getD (hash sym.name) []) with
      | some _ => (st, false)
      | none => (st.store a (sc.push sym), true) := by
  simp [insert_symbol, hc, hs]

theorem insert_symbol_current (st : SymTab) (sym : Symbol) :
    (insert_symbol st sym).1.current_scope = st.current_scope := by
  unfold insert_symbol
  split
  · rfl
  · split
    · rfl
    · split <;> rfl

theorem insert_symbol_all_scopes (st : SymTab) (sym : Symbol) :
    (insert_symbol st sym).1.all_scopes = st.all_scopes := by
  unfold insert_symbol
  split
  · rfl
  · split
    · rfl
    · split <;> rfl

theorem insert_symbol_heap_length (st : SymTab) (sym : Symbol) :
    (insert_symbol st sym).1.heap.length = st.heap.length := by
  unfold insert_symbol
  split
  · rfl
  · split
    · rfl
    · split
      · rfl
      · simp [SymTab.store]

theorem insert_symbol_false_eq (st : SymTab) (sym : Symbol)
    (h : (insert_symbol st sym).2 = false) : (insert_symbol st sym).1 = st := by
  cases hc : st.current_scope with
  | none => simp [insert_symbol, hc]
  | some a =>
    cases hs : st.heap[a]? with
    | none => simp [insert_symbol, hc, hs]
    | some sc =>
      rw [insert_symbol_unfold sym hc hs] at h ⊢
      cases hf : find_symbol sym.name (sc.table.getD (hash sym.name) []) with
      | none => simp only [hf] at h; exact absurd h (by decide)
      | some s => simp only [hf]

/-- Adding a symbol at the head of the bucket of its hash keeps a scope well formed. -/
theorem Scope.wf_push {sc : Scope} (hw : sc.wf) (sym : Symbol) : (sc.push sym).wf := by
  refine ⟨by simpa [Scope.push] using hw.1, ?_⟩
  intro i s hs
  simp only [Scope.push] at hs
  by_cases hi : hash sym.name = i
  · subst hi
    have hlt : hash sym.name < sc.table.length := by rw [hw.1]; exact hash_lt _
    simp only [getD_set_self _ _ _ _ hlt, List.mem_cons] at hs
    rcases hs with rfl | hs
    · rfl
    · exact hw.2 _ s hs
  · simp only [getD_set_ne _ _ _ _ _ hi] at hs
    exact hw.2 i s hs

theorem wf_empty : SymTab.empty.wf :=
  ⟨by simp [SymTab.empty], by simp [SymTab.empty], by simp [SymTab.empty]⟩

theorem new_scope_bucket (st : SymTab) (i : Nat) : (new_scope st).table.getD i [] = [] := by
  simp only [new_scope, List.getD_eq_getElem?_getD, List.getElem?_replicate]
  split <;> rfl

theorem Scope.wf_new (st : SymTab) : (new_scope st).wf := by
  refine ⟨by simp [new_scope], ?_⟩
  intro i s hs
  rw [new_scope_bucket] at hs
  cases hs

theorem heap_getElem?_enter {st : SymTab} {a : Nat} {sc : Scope}
    (h : (enter_scope st).heap[a]? = some sc) :
    st.heap[a]? = some sc ∨ (a = st.heap.length ∧ sc = new_scope st) := by
  simp only [enter_scope] at h
  by_cases ha : a < st.heap.length
  · rw [List.getElem?_append_left ha] at h
    exact Or.inl h
  · have hge : st.heap.length ≤ a := Nat.le_of_not_lt ha
    rw [List.getElem?_append_right hge] at h
    have h0 : a - st.heap.length = 0 := by
      by_contra hne
      rw [List.getElem?_eq_none (by simp; omega)] at h
      simp at h
    rw [h0] at h
    simp at h
    exact Or.inr ⟨by omega, h.symm⟩

theorem heap_getElem?_enter_old {st : SymTab} {a : Nat} (ha : a < st.heap.length) :
    (enter_scope st).heap[a]? = st.heap[a]? := by
  simp only [enter_scope]
  exact List.getElem?_append_left ha

theorem heap_getElem?_enter_new (st : SymTab) :
    (enter_scope st).heap[st.heap.length]? = some (new_scope st) := by
  simp [enter_scope]

theorem wf_enter_scope {st : SymTab} (hw : st.wf) : (enter_scope st).wf := by
  refine ⟨?_, ?_, ?_⟩
  · intro a ha
    simp [enter_scope] at ha ⊢
    omega
  · intro a sc hsc p hp
    rcases heap_getElem?_enter hsc with h1 | ⟨h1, rfl⟩
    · exact hw.parent_lt a sc h1 p hp
    · have := hw.current_valid p hp
      omega
  · intro a sc hsc
    rcases heap_getElem?_enter hsc with h1 | ⟨_, rfl⟩
    · exact hw.scope_wf a sc h1
    · exact Scope.wf_new st

theorem wf_exit_scope {st : SymTab} (hw : st.wf) : (exit_scope st).wf := by
  unfold exit_scope
  split
  · exact hw
  · rename_i a hc
    split
    · rename_i sc hsc
      refine ⟨?_, hw.parent_lt, hw.scope_wf⟩
      intro p hp
      have h1 := hw.parent_lt a sc hsc p hp
      have h2 := hw.current_valid a hc
      show p < st.heap.length
      omega
    · exact ⟨by simp, hw.parent_lt, hw.scope_wf⟩

theorem wf_insert_symbol {st : SymTab} (hw : st.wf) (sym : Symbol) :
    (insert_symbol st sym).1.wf := by
  unfold insert_symbol
  split
  · exact hw
  · rename_i a hc
    split
    · exact hw
    · rename_i sc hsc
      split
      · exact hw
      · refine ⟨?_, ?_, ?_⟩
        · intro b hb
          simpa [SymTab.store] using hw.current_valid b (by simpa [SymTab.store] using hb)
        · intro b sb hb p hp
          simp only [SymTab.store, List.getElem?_set] at hb
          split at hb
          · split at hb
            · simp at hb
              subst hb
              rename_i hab _
              subst hab
              exact hw.parent_lt _ sc hsc p hp
            · simp at hb
          · exact hw.parent_lt b sb hb p hp
        · intro b sb hb
          simp only [SymTab.store, List.getElem?_set] at hb
          split at hb
          · split at hb
            · simp at hb
              subst hb
              exact Scope.wf_push (hw.scope_wf a sc hsc) sym
            · simp at hb
          · exact hw.scope_wf b sb hb

theorem wf_of_reachable {st : SymTab} (h : Reachable st) : st.wf := by
  induction h with
  | empty => exact wf_empty
  | init _ ih => exact wf_enter_scope ih
  | enter _ ih => exact wf_enter_scope ih
  | exit _ ih => exact wf_exit_scope ih
  | insert sym _ ih => exact wf_insert_symbol ih sym

/-! ### Walks along the parent chain -/

theorem Chain.mono {heap heap1 : List Scope} {p : Option Nat} {l : List Scope}
    (h : Chain heap p l)
    (hh : ∀ (a : Nat) (sc : Scope), heap[a]? = some sc → heap1[a]? = some sc) :
    Chain heap1 p l := by
  induction h with
  | nil => exact Chain.nil
  | cons hsc _ ih => exact Chain.cons (hh _ _ hsc) ih

theorem Chain.length_le {heap : List Scope}
    (hp : ∀ (a : Nat) (sc : Scope), heap[a]? = some sc → ∀ p, sc.parent = some p → p < a)
    {p : Option Nat} {l : List Scope} (h : Chain heap p l) :
    ∀ a, p = some a → l.length ≤ a + 1 := by
  induction h with
  | nil => intro a ha; simp at ha
  | @cons b sc l1 hsc hch ih =>
    intro a ha
    simp at ha
    subst ha
    cases hpar : sc.parent with
    | none =>
      rw [hpar] at hch
      cases hch
      simp
    | some q =>
      have h1 := ih q hpar
      have h2 := hp b sc hsc q hpar
      simp
      omega

theorem Chain.exists_of_lt {heap : List Scope}
    (hp : ∀ (a : Nat) (sc : Scope), heap[a]? = some sc → ∀ p, sc.parent = some p → p < a) :
    ∀ a, a < heap.length → ∃ l, Chain heap (some a) l := by
  intro a
  induction a using Nat.strong_induction_on with
  | _ a ih =>
    intro ha
    have hsc : heap[a]? = some heap[a] := List.getElem?_eq_getElem ha
    cases hpar : (heap[a]).parent with
    | none =>
      refine ⟨[heap[a]], Chain.cons hsc ?_⟩
      rw [hpar]
      exact Chain.nil
    | some q =>
      have hq := hp a _ hsc q hpar
      obtain ⟨l, hl⟩ := ih q hq (by omega)
      refine ⟨heap[a] :: l, Chain.cons hsc ?_⟩
      rw [hpar]
      exact hl

theorem Chain.exists_of_wf {st : SymTab} (hw : st.wf) :
    ∃ l, Chain st.heap st.current_scope l := by
  cases hc : st.current_scope with
  | none => exact ⟨[], Chain.nil⟩
  | some a => exact Chain.exists_of_lt hw.parent_lt a (hw.current_valid a hc)

/-- With enough fuel the walk of `lookup` returns the first hit along the chain. -/
theorem lookup_from_eq_findSome {heap : List Scope} (name : String) {p : Option Nat}
    {l : List Scope} (h : Chain heap p l) :
    ∀ fuel, l.length ≤ fuel →
      lookup_from heap name fuel p =
        l.findSome? (fun sc => find_symbol name (sc.table.getD (hash name) [])) := by
  induction h with
  | nil =>
    intro fuel _
    cases fuel <;> simp [lookup_from]
  | @cons b sc l1 hsc hch ih =>
    intro fuel hf
    cases fuel with
    | zero => simp at hf
    | succ n =>
      simp only [lookup_from, hsc, List.findSome?_cons]
      cases hfind : find_symbol name (sc.table.getD (hash name) []) with
      | some s => rfl
      | none => exact ih n (by simpa using hf)

theorem lookup_eq_findSome {st : SymTab} (hw : st.wf) (name : String) {l : List Scope}
    (h : Chain st.heap st.current_scope l) :
    lookup st name = l.findSome? (fun sc => find_symbol name (sc.table.getD (hash name) [])) := by
  apply lookup_from_eq_findSome name h
  cases hc : st.current_scope with
  | none =>
    rw [hc] at h
    cases h
    simp
  | some a =>
    have h1 := Chain.length_le hw.parent_lt h a hc
    have h2 := hw.current_valid a hc
    omega

theorem Chain.scope_wf {st : SymTab} (hw : st.wf) {p : Option Nat} {l : List Scope}
    (h : Chain st.heap p l) : ∀ sc ∈ l, sc.wf := by
  induction h with
  | nil => simp
  | cons hsc _ ih =>
    intro sc1 hmem
    rcases List.mem_cons.1 hmem with rfl | hmem
    · exact hw.scope_wf _ _ hsc
    · exact ih sc1 hmem

theorem findSome_chain_none {name : String} {l : List Scope} (hl : ∀ sc ∈ l, sc.wf) :
    l.findSome? (fun sc => find_symbol name (sc.table.getD (hash name) [])) = none ↔
      ∀ sc ∈ l, ∀ s ∈ sc.symbols, s.name ≠ name := by
  rw [List.findSome?_eq_none_iff]
  constructor
  · intro h sc hsc
    exact (find_symbol_bucket_none (hl sc hsc) name).1 (h sc hsc)
  · intro h sc hsc
    exact (find_symbol_bucket_none (hl sc hsc) name).2 (h sc hsc)

theorem findSome_chain_some {name : String} {l : List Scope} (hl : ∀ sc ∈ l, sc.wf)
    {s : Symbol}
    (h : l.findSome? (fun sc => find_symbol name (sc.table.getD (hash name) [])) = some s) :
    ∃ l1 sc l2, l = l1 ++ sc :: l2 ∧ s ∈ sc.symbols ∧ s.name = name ∧
      ∀ sc1 ∈ l1, ∀ s1 ∈ sc1.symbols, s1.name ≠ name := by
  induction l with
  | nil => simp at h
  | cons sc rest ih =>
    rw [List.findSome?_cons] at h
    cases hfind : find_symbol name (sc.table.getD (hash name) []) with
    | some t =>
      rw [hfind] at h
      simp at h
      subst h
      have := find_symbol_some hfind
      exact ⟨[], sc, rest, rfl, mem_symbols_iff.2 ⟨_, this.1⟩, this.2, by simp⟩
    | none =>
      rw [hfind] at h
      obtain ⟨l1, sc1, l2, hl1, hs, hn, hno⟩ :=
        ih (fun x hx => hl x (List.mem_cons_of_mem _ hx)) h
      refine ⟨sc :: l1, sc1, l2, by simp [hl1], hs, hn, ?_⟩
      intro x hx
      rcases List.mem_cons.1 hx with rfl | hx
      · exact (find_symbol_bucket_none (hl x (List.mem_cons_self _ _)) name).1 hfind
      · exact hno x hx

/-! ### Uniqueness of names inside a scope -/

theorem heap_getElem?_insert {st : SymTab} (sym : Symbol) {b : Nat} {sb : Scope}
    (h : (insert_symbol st sym).1.heap[b]? = some sb) :
    st.heap[b]? = some sb ∨
      ∃ sc, st.current_scope = some b ∧ st.heap[b]? = some sc ∧
        find_symbol sym.name (sc.table.getD (hash sym.name) []) = none ∧ sb = sc.push sym := by
  cases hc : st.current_scope with
  | none =>
    simp only [insert_symbol, hc] at h
    exact Or.inl h
  | some a =>
    cases hs : st.heap[a]? with
    | none =>
      simp only [insert_symbol, hc, hs] at h
      exact Or.inl h
    | some sc =>
      rw [insert_symbol_unfold sym hc hs] at h
      cases hf : find_symbol sym.name (sc.table.getD (hash sym.name) []) with
      | some s =>
        simp only [hf] at h
        exact Or.inl h
      | none =>
        simp only [hf, SymTab.store, List.getElem?_set] at h
        split at h
        · rename_i hab
          subst hab
          split at h
          · simp at h
            exact Or.inr ⟨sc, rfl, hs, hf, h.symm⟩
          · simp at h
        · exact Or.inl h

/-- Names are pairwise different: inside each bucket by the check of `insert_symbol`,
across buckets because a symbol sits in the bucket of its hash. -/
theorem nodup_names_flatten (tbl : List (List Symbol)) :
    ∀ k : Nat, (∀ i s, s ∈ tbl.getD i [] → hash s.name = k + i) →
      (∀ b ∈ tbl, (b.map Symbol.name).Nodup) →
      ((tbl.flatten).map Symbol.name).Nodup := by
  induction tbl with
  | nil => intro k _ _; simp
  | cons b t ih =>
    intro k hb hn
    rw [List.flatten_cons, List.map_append, List.nodup_append]
    refine ⟨hn b (List.mem_cons_self _ _), ?_, ?_⟩
    · apply ih (k + 1)
      · intro i s hs
        have := hb (i + 1) s (by simpa using hs)
        omega
      · intro c hc
        exact hn c (List.mem_cons_of_mem _ hc)
    · intro n h1 h2
      obtain ⟨s1, hs1, rfl⟩ := List.mem_map.1 h1
      obtain ⟨s2, hs2, hname⟩ := List.mem_map.1 h2
      obtain ⟨c, hc, hs2c⟩ := List.mem_flatten.1 hs2
      obtain ⟨j, hj, rfl⟩ := List.getElem_of_mem hc
      have e1 := hb 0 s1 (by simpa using hs1)
      have e2 := hb (j + 1) s2 (by
        simpa [List.getD_eq_getElem?_getD, List.getElem?_eq_getElem hj] using hs2c)
      rw [hname] at e2
      omega

theorem Scope.unique_push {sc : Scope} (hw : sc.wf) (hu : sc.unique) (sym : Symbol)
    (hf : find_symbol sym.name (sc.table.getD (hash sym.name) []) = none) :
    (sc.push sym).unique := by
  intro b hb
  simp only [Scope.push] at hb
  rcases List.mem_or_eq_of_mem_set hb with hb | rfl
  · exact hu b hb
  · rw [List.map_cons, List.nodup_cons]
    have hlt : hash sym.name < sc.table.length := by rw [hw.1]; exact hash_lt _
    refine ⟨?_, ?_⟩
    · intro hmem
      obtain ⟨s, hs, hname⟩ := List.mem_map.1 hmem
      exact find_symbol_eq_none.1 hf s hs hname
    · apply hu
      rw [List.getD_eq_getElem?_getD, List.getElem?_eq_getElem hlt]
      exact List.getElem_mem _

theorem unique_of_reachable {st : SymTab} (h : Reachable st) :
    ∀ (a : Nat) (sc : Scope), st.heap[a]? = some sc → sc.unique := by
  have enter : ∀ {st : SymTab},
      (∀ (a : Nat) (sc : Scope), st.heap[a]? = some sc → sc.unique) →
      ∀ (a : Nat) (sc : Scope), (enter_scope st).heap[a]? = some sc → sc.unique := by
    intro st ih a sc hsc
    rcases heap_getElem?_enter hsc with h1 | ⟨_, rfl⟩
    · exact ih a sc h1
    · intro b hb
      simp only [new_scope] at hb
      rw [List.eq_of_mem_replicate hb]
      simp
  induction h with
  | empty => intro a sc hsc; simp [SymTab.empty] at hsc
  | init _ ih => exact enter ih
  | enter _ ih => exact enter ih
  | @exit st hr ih =>
    intro a sc hsc
    have hheap : (exit_scope st).heap = st.heap := by
      unfold exit_scope
      split
      · rfl
      · split <;> rfl
    rw [hheap] at hsc
    exact ih a sc hsc
  | @insert st sym hr ih =>
    intro a sc hsc
    rcases heap_getElem?_insert sym hsc with h1 | ⟨sc0, _, h0, hf, rfl⟩
    · exact ih a sc h1
    · exact Scope.unique_push ((wf_of_reachable hr).scope_wf a sc0 h0) (ih a sc0 h0) sym hf

/-! ### The contract of the symbol table interface -/

theorem demo_global_wf : demo_global.wf := wf_enter_scope wf_empty

theorem demo_with_x_wf : demo_with_x.wf := wf_insert_symbol demo_global_wf demo_sym_x

theorem insert_symbol_fails_iff_bucket {st : SymTab} {a : Nat} {sc : Scope} (hw : st.wf)
    (hc : st.current_scope = some a) (hs : st.heap[a]? = some sc) (sym : Symbol) :
    (insert_symbol st sym).2 = false ↔ ∃ s ∈ sc.symbols, s.name = sym.name := by
  rw [insert_symbol_unfold sym hc hs]
  have hb := find_symbol_bucket_none (hw.scope_wf a sc hs) sym.name
  cases hf : find_symbol sym.name (sc.table.getD (hash sym.name) []) with
  | none =>
    simp only [Bool.true_eq_false, false_iff, not_exists, not_and]
    intro s hs1 hs2
    exact (hb.1 hf) s hs1 hs2
  | some t =>
    simp only [true_iff]
    by_contra hno
    have : find_symbol sym.name (sc.table.getD (hash sym.name) []) = none := by
      apply hb.2
      intro s hs1 hs2
      exact hno ⟨s, hs1, hs2⟩
    rw [hf] at this
    cases this

/-- C1: in a well-formed table `insert_symbol` fails (returns 0) without a current scope;
with a current scope it fails exactly when that scope, and no other, already holds a symbol
of the same name; a failed insert leaves the whole table unchanged. -/
theorem insert_symbol_fails_iff_redeclared (st : SymTab) (sym : Symbol) (hw : st.wf) :
    (st.current_scope = none → (insert_symbol st sym).2 = false) ∧
    (∀ a sc, st.current_scope = some a → st.heap[a]? = some sc →
      ((insert_symbol st sym).2 = false ↔ ∃ s ∈ sc.symbols, s.name = sym.name)) ∧
    ((insert_symbol st sym).2 = false → (insert_symbol st sym).1 = st) := by
  refine ⟨?_, ?_, insert_symbol_false_eq st sym⟩
  · intro hc
    simp [insert_symbol, hc]
  · intro a sc hc hs
    exact insert_symbol_fails_iff_bucket hw hc hs sym

theorem insert_symbol_fails_iff_redeclared_witness :
    demo_with_x.wf ∧ (insert_symbol demo_with_x demo_sym_x_inner).2 = false ∧
      (insert_symbol demo_with_x demo_sym_x_inner).1 = demo_with_x :=
  ⟨demo_with_x_wf, by decide,
    (insert_symbol_fails_iff_redeclared demo_with_x demo_sym_x_inner demo_with_x_wf).2.2
      (by decide)⟩

/-- C2: after a successful `insert_symbol(sym)` the symbol is the head of the bucket of
`hash(sym.name)` in the current scope, `lookup_current(sym.name)` returns it, and
`lookup_current` of every other name returns what it returned before the insert, colliding
names included. -/
theorem insert_symbol_then_lookup_current (st : SymTab) (sym : Symbol) (hw : st.wf)
    (hok : (insert_symbol st sym).2 = true) :
    lookup_current (insert_symbol st sym).1 sym.name = some sym ∧
    (∃ a sc, (insert_symbol st sym).1.current_scope = some a ∧
      (insert_symbol st sym).1.heap[a]? = some sc ∧
      (sc.table.getD (hash sym.name) []).head? = some sym) ∧
    (∀ m, m ≠ sym.name →
      lookup_current (insert_symbol st sym).1 m = lookup_current st m) := by
  cases hc : st.current_scope with
  | none => simp [insert_symbol, hc] at hok
  | some a =>
    cases hs : st.heap[a]? with
    | none => simp [insert_symbol, hc, hs] at hok
    | some sc =>
      rw [insert_symbol_unfold sym hc hs] at hok ⊢
      cases hf : find_symbol sym.name (sc.table.getD (hash sym.name) []) with
      | some t => simp only [hf] at hok; exact absurd hok (by decide)
      | none =>
        simp only []
        have ha : a < st.heap.length := hw.current_valid a hc
        have hlt : hash sym.name < sc.table.length := by
          rw [(hw.scope_wf a sc hs).1]; exact hash_lt _
        have hheap : (st.store a (sc.push sym)).heap[a]? = some (sc.push sym) := by
          simp [SymTab.store, List.getElem?_set, ha]
        have hcur : (st.store a (sc.push sym)).current_scope = some a := hc
        have hbucket : (sc.push sym).table.getD (hash sym.name) [] =
            sym :: sc.table.getD (hash sym.name) [] := getD_set_self _ _ _ _ hlt
        refine ⟨?_, ⟨a, sc.push sym, hcur, hheap, ?_⟩, ?_⟩
        · simp only [lookup_current, hcur, hheap, hbucket, find_symbol, if_true]
        · rw [hbucket]; rfl
        · intro m hm
          simp only [lookup_current, hcur, hheap, hc, hs]
          by_cases hh : hash sym.name = hash m
          · rw [← hh, hbucket]
            simp only [find_symbol, if_neg (Ne.symm hm)]
          · simp only [Scope.push, getD_set_ne _ _ _ _ _ hh]

theorem insert_symbol_then_lookup_current_witness :
    demo_global.wf ∧ (insert_symbol demo_global demo_sym_x).2 = true ∧
      lookup_current (insert_symbol demo_global demo_sym_x).1 demo_sym_x.name =
        some demo_sym_x :=
  ⟨demo_global_wf, by decide,
    (insert_symbol_then_lookup_current demo_global demo_sym_x demo_global_wf (by decide)).1⟩

theorem insert_after_enter (st : SymTab) (sym : Symbol) :
    insert_symbol (enter_scope st) sym =
      ((enter_scope st).store st.heap.length ((new_scope st).push sym), true) := by
  rw [insert_symbol_unfold sym rfl (heap_getElem?_enter_new st), new_scope_bucket]
  rfl

theorem lookup_enter_insert (st : SymTab) (sym : Symbol) (hw : st.wf) :
    (insert_symbol (enter_scope st) sym).2 = true ∧
    lookup (insert_symbol (enter_scope st) sym).1 sym.name = some sym ∧
    (∀ m, lookup (exit_scope (insert_symbol (enter_scope st) sym).1) m = lookup st m) := by
  rw [insert_after_enter]
  have hlen : (enter_scope st).heap.length = st.heap.length + 1 := by simp [enter_scope]
  have hlt : hash sym.name < (new_scope st).table.length := by
    rw [(Scope.wf_new st).1]; exact hash_lt _
  have hget : ((enter_scope st).store st.heap.length ((new_scope st).push sym)).heap[
      st.heap.length]? = some ((new_scope st).push sym) := by
    simp [SymTab.store, List.getElem?_set, hlen]
  have hfuel : ((enter_scope st).store st.heap.length
      ((new_scope st).push sym)).heap.length = st.heap.length + 1 := by
    simp [SymTab.store, hlen]
  have hcur : ((enter_scope st).store st.heap.length
      ((new_scope st).push sym)).current_scope = some st.heap.length := rfl
  refine ⟨rfl, ?_, ?_⟩
  · unfold lookup
    rw [hfuel, hcur]
    simp only [lookup_from, hget]
    have hb : ((new_scope st).push sym).table.getD (hash sym.name) [] =
        sym :: (new_scope st).table.getD (hash sym.name) [] := getD_set_self _ _ _ _ hlt
    simp only [hb, find_symbol, if_true]
  · intro m
    obtain ⟨l, hl⟩ := Chain.exists_of_wf hw
    have hl2 : Chain ((enter_scope st).store st.heap.length
        ((new_scope st).push sym)).heap st.current_scope l := by
      apply hl.mono
      intro a sc hsc
      have ha : a < st.heap.length := by
        by_contra hna
        rw [List.getElem?_eq_none (Nat.le_of_not_lt hna)] at hsc
        cases hsc
      simp only [SymTab.store]
      rw [List.getElem?_set_ne (by omega), heap_getElem?_enter_old ha]
      exact hsc
    have hbound : l.length ≤ st.heap.length := by
      cases hcur : st.current_scope with
      | none =>
        rw [hcur] at hl
        cases hl
        simp
      | some a =>
        have h1 := Chain.length_le hw.parent_lt hl a hcur
        have h2 := hw.current_valid a hcur
        omega
    rw [lookup_eq_findSome hw m hl]
    have hexit : exit_scope ((enter_scope st).store st.heap.length ((new_scope st).push sym)) =
        { (enter_scope st).store st.heap.length ((new_scope st).push sym) with
          current_scope := st.current_scope } := by
      simp only [exit_scope, hcur, hget]
      rfl
    rw [hexit]
    unfold lookup
    apply lookup_from_eq_findSome m hl2
    show l.length ≤ ((enter_scope st).store st.heap.length ((new_scope st).push sym)).heap.length
    rw [hfuel]
    omega

/-- C3: in a well-formed table `lookup(name)` is `NULL` exactly when no scope on the chain
from the current scope to the outermost one holds the name, and otherwise returns a symbol of
that name held by the innermost scope of the chain that has one.  Hence after `enter_scope`
an insert of `sym` succeeds and `lookup(sym.name)` returns `sym`, and after the matching
`exit_scope` every `lookup` returns what it returned before the scope was entered. -/
theorem lookup_innermost (st : SymTab) (name : String) (hw : st.wf) :
    (∃ l, Chain st.heap st.current_scope l ∧
      (lookup st name = none ↔ ∀ sc ∈ l, ∀ s ∈ sc.symbols, s.name ≠ name) ∧
      (∀ s, lookup st name = some s →
        ∃ l1 sc l2, l = l1 ++ sc :: l2 ∧ s ∈ sc.symbols ∧ s.name = name ∧
          ∀ sc1 ∈ l1, ∀ s1 ∈ sc1.symbols, s1.name ≠ name)) ∧
    (∀ sym : Symbol, sym.name = name →
      (insert_symbol (enter_scope st) sym).2 = true ∧
      lookup (insert_symbol (enter_scope st) sym).1 name = some sym ∧
      lookup (exit_scope (insert_symbol (enter_scope st) sym).1) name = lookup st name) := by
  constructor
  · obtain ⟨l, hl⟩ := Chain.exists_of_wf hw
    refine ⟨l, hl, ?_, ?_⟩
    · rw [lookup_eq_findSome hw name hl]
      exact findSome_chain_none (hl.scope_wf hw)
    · intro s hs
      rw [lookup_eq_findSome hw name hl] at hs
      exact findSome_chain_some (hl.scope_wf hw) hs
  · intro sym hname
    subst hname
    have h := lookup_enter_insert st sym hw
    exact ⟨h.1, h.2.1, h.2.2 _⟩

theorem lookup_innermost_witness :
    demo_with_x.wf ∧
      lookup (insert_symbol (enter_scope demo_with_x) demo_sym_x_inner).1 "x" =
        some demo_sym_x_inner ∧
      lookup (exit_scope (insert_symbol (enter_scope demo_with_x) demo_sym_x_inner).1) "x" =
        some demo_sym_x :=
  ⟨demo_with_x_wf,
    ((lookup_innermost demo_with_x "x" demo_with_x_wf).2 demo_sym_x_inner rfl).2.1,
    by decide⟩

/-- C4: in every table reachable from the empty one by `init_symbol_table`, `enter_scope`,
`exit_scope` and `insert_symbol`, the names of the symbols of any one scope are pairwise
different, whatever the kinds of the symbols. -/
theorem reachable_scope_names_unique (st : SymTab) (h : Reachable st) :
    ∀ sc ∈ st.heap, (sc.symbols.map Symbol.name).Nodup := by
  intro sc hsc
  obtain ⟨a, ha, rfl⟩ := List.getElem_of_mem hsc
  have hget : st.heap[a]? = some st.heap[a] := List.getElem?_eq_getElem ha
  have hw := (wf_of_reachable h).scope_wf a _ hget
  have hu := unique_of_reachable h a _ hget
  apply nodup_names_flatten _ 0
  · intro i s hs
    simpa using hw.2 i s hs
  · exact hu

theorem reachable_scope_names_unique_witness :
    Reachable demo_with_x ∧ ∀ sc ∈ demo_with_x.heap, (sc.symbols.map Symbol.name).Nodup :=
  ⟨Reachable.insert demo_sym_x (Reachable.init Reachable.empty),
    reachable_scope_names_unique demo_with_x
      (Reachable.insert demo_sym_x (Reachable.init Reachable.empty))⟩

/-! ## Semantic analysis -/

theorem analyze_walk_null (w : Walk) (st : AnState) :
    analyze_walk ASTNode.null w st = { st := st, node := ASTNode.null, returns := false } := by
  rw [analyze_walk]

theorem seq_paths_all_left {ps qs : List Bool} (h : ∀ p ∈ ps, p = true) :
    ∀ p ∈ seq_paths ps qs, p = true := by
  intro p hp
  simp only [seq_paths, List.mem_flatMap] at hp
  obtain ⟨q, hq, hp⟩ := hp
  rw [h q hq] at hp
  simpa using hp

theorem seq_paths_all_right {ps qs : List Bool} (h : ∀ p ∈ qs, p = true) :
    ∀ p ∈ seq_paths ps qs, p = true := by
  intro p hp
  simp only [seq_paths, List.mem_flatMap] at hp
  obtain ⟨q, hq, hp⟩ := hp
  cases q
  · exact h p (by simpa using hp)
  · simpa using hp

/-- The flag returned for a node (or a statement list) is sound: when it is 1, every
syntactic path through the node (the list) ends in a `return`. -/
theorem analyze_walk_returns_sound (n : ASTNode) :
    ∀ (w : Walk) (st : AnState), (analyze_walk n w st).returns = true →
      match w with
      | Walk.single => ∀ p ∈ syntactic_paths n false, p = true
      | Walk.stmts => ∀ p ∈ syntactic_paths n true, p = true
      | Walk.args _ _ _ => False := by
  induction n with
  | null =>
    intro w st h
    rw [analyze_walk_null] at h
    cases h
  | node d l r c b ini inc p nx ihl ihr ihc ihb ihini ihinc ihp ihnx =>
    have single : ∀ st : AnState,
        (analyze_walk (ASTNode.node d l r c b ini inc p nx) Walk.single st).returns = true →
        ∀ q ∈ syntactic_paths (ASTNode.node d l r c b ini inc p nx) false, q = true := by
      intro st h
      rw [analyze_walk] at h
      simp only [analyze_switch, ASTNode.type] at h
      simp only [syntactic_paths, Bool.false_eq_true, if_false]
      cases hty : d.type <;> simp only [hty] at h ⊢ <;> try (exact absurd h (by decide))
      · -- NODE_BLOCK
        simp only [analyze_block] at h
        exact ihl Walk.stmts _ h
      · -- NODE_IF
        simp only [analyze_if, ASTNode.right, ASTNode.set_left, ASTNode.set_cond] at h
        cases hr : r.isNull
        · simp only [hr, Bool.false_eq_true, if_false, Bool.and_eq_true] at h ⊢
          intro q hq
          rcases List.mem_append.1 hq with hq | hq
          · exact ihl Walk.single _ h.1 q hq
          · exact ihr Walk.single _ h.2 q hq
        · simp [hr] at h
      · -- NODE_WHILE
        simp [analyze_while] at h
      · -- NODE_FOR
        simp [analyze_for] at h
      · -- NODE_RETURN
        simp
    intro w st h
    cases w with
    | single => exact single st h
    | stmts =>
      rw [analyze_walk] at h
      simp only at h
      simp only [syntactic_paths, if_true]
      split at h
      · rename_i h1
        apply seq_paths_all_left
        have := single st (by rw [analyze_walk]; exact h1)
        simpa only [syntactic_paths, Bool.false_eq_true, if_false] using this
      · apply seq_paths_all_right
        exact ihnx Walk.stmts _ h
    | args sym i line =>
      rw [analyze_walk] at h
      simp at h

/-! ### The diagnostics only grow -/

theorem insert_params_diag (ps : ASTNode) :
    ∀ st : AnState, st.diagnostics <+: (insert_params ps st).diagnostics := by
  induction ps with
  | null => intro st; exact List.prefix_refl _
  | node d l r c b ini inc p nx _ _ _ _ _ _ _ ihnx =>
    intro st
    rw [insert_params]
    refine List.IsPrefix.trans ?_ (ihnx _)
    split
    · exact List.prefix_refl _
    · exact List.prefix_append _ _

theorem analyze_switch_diag (sub : Child → Walk → AnState → AnResult)
    (hsub : ∀ ch w st, st.diagnostics <+: (sub ch w st).st.diagnostics)
    (node : ASTNode) (st : AnState) :
    st.diagnostics <+: (analyze_switch sub node st).st.diagnostics := by
  have hsub1 : ∀ ch w st, ∃ e, (sub ch w st).st.diagnostics = st.diagnostics ++ e :=
    fun ch w st => let ⟨e, he⟩ := hsub ch w st; ⟨e, he.symm⟩
  choose ε hε using hsub1
  have hp : ∀ st : AnState, ∃ e,
      (insert_params node.params st).diagnostics = st.diagnostics ++ e :=
    fun st => let ⟨e, he⟩ := insert_params_diag node.params st; ⟨e, he.symm⟩
  choose π hπ using hp
  unfold analyze_switch
  cases node.type <;> simp only
  · unfold analyze_function
    simp only
    split_ifs <;>
      simp only [hε, hπ, semantic_error, List.append_assoc] <;>
      first | exact List.prefix_append _ _ | exact List.prefix_refl _
  · unfold analyze_declaration
    simp only
    split_ifs <;>
      simp only [hε, semantic_error, List.append_assoc] <;>
      first | exact List.prefix_append _ _ | exact List.prefix_refl _
  · exact List.prefix_refl _
  · unfold analyze_block
    simp only [hε]
    exact List.prefix_append _ _
  · unfold analyze_if
    simp only
    split_ifs <;>
      simp only [hε, semantic_error, List.append_assoc] <;>
      first | exact List.prefix_append _ _ | exact List.prefix_refl _
  · unfold analyze_while
    simp only
    split_ifs <;>
      simp only [hε, semantic_error, List.append_assoc] <;>
      first | exact List.prefix_append _ _ | exact List.prefix_refl _
  · unfold analyze_for
    simp only
    split_ifs <;>
      simp only [hε, semantic_error, List.append_assoc] <;>
      first | exact List.prefix_append _ _ | exact List.prefix_refl _
  · unfold analyze_return
    split
    · exact List.prefix_append _ _
    · simp only
      split_ifs <;>
        simp only [hε, semantic_error, List.append_assoc] <;>
        first | exact List.prefix_append _ _ | exact List.prefix_refl _
  · unfold analyze_assignment
    simp only
    split_ifs <;>
      simp only [hε, semantic_error, List.append_assoc] <;>
      first | exact List.prefix_append _ _ | exact List.prefix_refl _
  · unfold analyze_binary
    simp only
    split_ifs <;>
      simp only [hε, semantic_error, List.append_assoc] <;>
      first | exact List.prefix_append _ _ | exact List.prefix_refl _
  · unfold analyze_unary
    simp only [hε]
    exact List.prefix_append _ _
  · exact List.prefix_refl _
  · exact List.prefix_refl _
  · unfold analyze_variable
    split
    · exact List.prefix_append _ _
    · exact List.prefix_refl _
  · unfold analyze_function_call
    split
    · exact List.prefix_append _ _
    · simp only
      split_ifs <;>
        simp only [hε, semantic_error, List.append_assoc] <;>
        first | exact List.prefix_append _ _ | exact List.prefix_refl _
  · exact List.prefix_refl _
  · exact List.prefix_refl _
  · exact List.prefix_refl _

theorem check_argument_diag (sym : Symbol) (i : Nat) (line : Int) (arg : ASTNode)
    (st : AnState) : st.diagnostics <+: (check_argument sym i line arg st).diagnostics := by
  unfold check_argument
  split_ifs <;> first | exact List.prefix_append _ _ | exact List.prefix_refl _

/-- Whatever is analysed, the diagnostics already printed stay and new ones follow them. -/
theorem analyze_walk_diag (n : ASTNode) :
    ∀ (w : Walk) (st : AnState), st.diagnostics <+: (analyze_walk n w st).st.diagnostics := by
  induction n with
  | null =>
    intro w st
    rw [analyze_walk_null]
  | node d l r c b ini inc p nx ihl ihr ihc ihb ihini ihinc ihp ihnx =>
    intro w st
    have h1 := analyze_switch_diag
      (fun ch w1 st1 =>
        match ch with
        | Child.left => analyze_walk l w1 st1
        | Child.right => analyze_walk r w1 st1
        | Child.cond => analyze_walk c w1 st1
        | Child.body => analyze_walk b w1 st1
        | Child.init => analyze_walk ini w1 st1
        | Child.incr => analyze_walk inc w1 st1)
      (by intro ch w1 st1; cases ch <;> simp only <;> apply_assumption)
      (ASTNode.node d l r c b ini inc p nx) st
    cases w with
    | single =>
      rw [analyze_walk]
      exact h1
    | stmts =>
      rw [analyze_walk]
      simp only
      split
      · exact h1
      · exact h1.trans (ihnx _ _)
    | args sym i line =>
      rw [analyze_walk]
      simp only
      exact h1.trans ((check_argument_diag _ _ _ _ _).trans (ihnx _ _))

/-! ### The current function is only changed by a function definition -/

theorem analyze_switch_current_function (sub : Child → Walk → AnState → AnResult)
    (hsub : ∀ ch w st, (sub ch w st).st.current_function = st.current_function)
    (node : ASTNode) (hty : node.type ≠ NodeType.NODE_FUNC_DEF) (st : AnState) :
    (analyze_switch sub node st).st.current_function = st.current_function := by
  unfold analyze_switch
  cases hn : node.type <;> simp only
  · exact absurd hn hty
  · unfold analyze_declaration
    simp only
    split_ifs <;> simp only [hsub, semantic_error]
  · unfold analyze_block
    simp only [hsub]
  · unfold analyze_if
    simp only
    split_ifs <;> simp only [hsub, semantic_error]
  · unfold analyze_while
    simp only
    split_ifs <;> simp only [hsub, semantic_error]
  · unfold analyze_for
    simp only
    split_ifs <;> simp only [hsub, semantic_error]
  · unfold analyze_return
    split
    · rfl
    · simp only
      split_ifs <;> simp only [hsub, semantic_error]
  · unfold analyze_assignment
    simp only
    split_ifs <;> simp only [hsub, semantic_error]
  · unfold analyze_binary
    simp only
    split_ifs <;> simp only [hsub, semantic_error]
  · unfold analyze_unary
    simp only [hsub]
  · unfold analyze_variable
    split <;> rfl
  · unfold analyze_function_call
    split
    · rfl
    · simp only
      split_ifs <;> simp only [hsub, semantic_error]

theorem check_argument_current_function (sym : Symbol) (i : Nat) (line : Int)
    (arg : ASTNode) (st : AnState) :
    (check_argument sym i line arg st).current_function = st.current_function := by
  unfold check_argument
  split_ifs <;> rfl

/-- Analysing a tree without a function definition leaves `current_function` as it was. -/
theorem analyze_walk_current_function (n : ASTNode) :
    has_func_def n = false → ∀ (w : Walk) (st : AnState),
      (analyze_walk n w st).st.current_function = st.current_function := by
  induction n with
  | null =>
    intro _ w st
    rw [analyze_walk_null]
  | node d l r c b ini inc p nx ihl ihr ihc ihb ihini ihinc ihp ihnx =>
    intro hfd w st
    simp only [has_func_def, Bool.or_eq_false_iff, decide_eq_false_iff_not] at hfd
    obtain ⟨⟨⟨⟨⟨⟨⟨⟨hd, hl⟩, hr⟩, hc⟩, hb⟩, hini⟩, hinc⟩, _⟩, hnx⟩ := hfd
    have h1 := analyze_switch_current_function
      (fun ch w1 st1 =>
        match ch with
        | Child.left => analyze_walk l w1 st1
        | Child.right => analyze_walk r w1 st1
        | Child.cond => analyze_walk c w1 st1
        | Child.body => analyze_walk b w1 st1
        | Child.init => analyze_walk ini w1 st1
        | Child.incr => analyze_walk inc w1 st1)
      (by
        intro ch w1 st1
        cases ch <;> simp only
        · exact ihl hl _ _
        · exact ihr hr _ _
        · exact ihc hc _ _
        · exact ihb hb _ _
        · exact ihini hini _ _
        · exact ihinc hinc _ _)
      (ASTNode.node d l r c b ini inc p nx) hd st
    cases w with
    | single =>
      rw [analyze_walk]
      exact h1
    | stmts =>
      rw [analyze_walk]
      simp only
      split
      · exact h1
      · simp only [ihnx hnx, h1]
    | args sym i line =>
      rw [analyze_walk]
      simp only [ihnx hnx, check_argument_current_function, h1]

theorem insert_params_current_function (ps : ASTNode) :
    ∀ st : AnState, (insert_params ps st).current_function = st.current_function := by
  induction ps with
  | null => intro st; rfl
  | node d l r c b ini inc p nx _ _ _ _ _ _ _ ihnx =>
    intro st
    rw [insert_params, ihnx]
    split <;> rfl

/-! ### Definite return -/

theorem insert_params_diag_of_eq (ps : ASTNode) (st0 st : AnState)
    (h : st.diagnostics = st0.diagnostics) :
    st0.diagnostics <+: (insert_params ps st).diagnostics :=
  h ▸ insert_params_diag ps st

theorem mem_reported_of_last (st : AnState) {before after : AnState} {e : Int × String}
    (h1 : before.diagnostics <+: st.diagnostics)
    (h2 : after.diagnostics = st.diagnostics ++ [e]) : e ∈ reported before after := by
  unfold reported
  rw [h2, List.drop_append_of_le_length h1.length_le]
  exact List.mem_append_right _ (List.mem_singleton_self e)

/-- C5, amended: for a function definition whose declared return type is not `void`, whose
symbol is accepted by `insert_symbol` (the name is not yet in the current scope) and whose
body holds no nested function definition, `analyze_node` reports `"Non-void function must
return a value"` on the line of the definition unless every syntactic path through the
body ends in a `return`; loops contribute no returning path. -/
theorem definite_return_sound (st : AnState) (d : NodeData)
    (l r c b ini inc p nx : ASTNode)
    (hty : d.type = NodeType.NODE_FUNC_DEF)
    (hnonvoid : l.data_type ≠ DataType.TYPE_VOID)
    (hins : (insert_symbol st.symtab
      (create_symbol st.symtab (d.str_val.getD "") l.data_type SymbolKind.SYM_FUNCTION
        d.line_number)).2 = true)
    (hnest : has_func_def b = false)
    (hno : (d.line_number, "Non-void function must return a value") ∉
      reported st (analyze_node (ASTNode.node d l r c b ini inc p nx) st).st) :
    all_paths_return b := by
  by_contra hnot
  apply hno
  unfold analyze_node
  rw [analyze_walk]
  simp only [analyze_switch, ASTNode.type, hty, analyze_function, ASTNode.name,
    ASTNode.str_val, ASTNode.left, ASTNode.line_number, ASTNode.params, hins,
    Bool.true_eq_false, if_false]
  have hret : (analyze_walk b Walk.single
      (insert_params p
        { symtab := enter_scope (set_signature
            (insert_symbol st.symtab
              (create_symbol st.symtab (d.str_val.getD "") l.data_type
                SymbolKind.SYM_FUNCTION d.line_number)).1
            (d.str_val.getD "") (count_params p) (collect_param_types p)),
          current_function := some
            { create_symbol st.symtab (d.str_val.getD "") l.data_type
                SymbolKind.SYM_FUNCTION d.line_number with
              param_count := count_params p, param_types := collect_param_types p },
          semantic_errors := st.semantic_errors,
          diagnostics := st.diagnostics })).returns = false := by
    cases hr : (analyze_walk b Walk.single _).returns
    · rfl
    · exact absurd (analyze_walk_returns_sound b Walk.single _ hr) hnot
  have hfn : (analyze_walk b Walk.single
      (insert_params p
        { symtab := enter_scope (set_signature
            (insert_symbol st.symtab
              (create_symbol st.symtab (d.str_val.getD "") l.data_type
                SymbolKind.SYM_FUNCTION d.line_number)).1
            (d.str_val.getD "") (count_params p) (collect_param_types p)),
          current_function := some
            { create_symbol st.symtab (d.str_val.getD "") l.data_type
                SymbolKind.SYM_FUNCTION d.line_number with
              param_count := count_params p, param_types := collect_param_types p },
          semantic_errors := st.semantic_errors,
          diagnostics := st.diagnostics })).st.function_type = l.data_type := by
    unfold AnState.function_type
    rw [analyze_walk_current_function b hnest, insert_params_current_function]
    rfl
  simp only [hret, hfn, ne_eq, hnonvoid, not_false_eq_true, and_self, if_true]
  refine mem_reported_of_last (analyze_walk b Walk.single _).st ?_ rfl
  refine List.IsPrefix.trans ?_ (analyze_walk_diag b _ _)
  exact insert_params_diag_of_eq p st _ rfl

theorem definite_return_sound_witness :
    all_paths_return sample_f_returns.body :=
  definite_return_sound AnState.initial
    { type := NodeType.NODE_FUNC_DEF, data_type := DataType.TYPE_VOID, line_number := 1,
      int_val := 0, str_val := some "f" }
    (type_node DataType.TYPE_INT) ASTNode.null ASTNode.null sample_f_returns.body
    ASTNode.null ASTNode.null ASTNode.null ASTNode.null
    rfl (by decide) (by decide) (by decide) (by decide)

/-- C5 as stated fails: in `int f(){ return 1; }  int f(){ }` the only diagnostic is
`"Function redeclared"` on line 2, so no `"Non-void function must return a value"` error is
reported for the second definition, which is not `void` and whose body has a path (the
empty one) that does not end in a `return`. -/
theorem definite_return_counterexample :
    (semantic_analyze sample_redefined AnState.initial).1.diagnostics =
        [(2, "Function redeclared")] ∧
      sample_redefined.next.type = NodeType.NODE_FUNC_DEF ∧
      sample_redefined.next.left.data_type = DataType.TYPE_INT ∧
      ¬ all_paths_return sample_redefined.next.body := by
  decide

/-! ### Type annotation -/

/-- The analyzer never writes the `next` field of the node it is called on. -/
theorem analyze_switch_next (sub : Child → Walk → AnState → AnResult) (node : ASTNode)
    (st : AnState) : (analyze_switch sub node st).node.next = node.next := by
  cases node with
  | null =>
    unfold analyze_switch
    simp only [ASTNode.type, ASTNode.set_data_type]
  | node d l r c b ini inc p nx =>
    unfold analyze_switch
    cases hn : d.type <;> simp only [ASTNode.type, hn, ASTNode.set_data_type, ASTNode.next]
    · unfold analyze_function
      simp only
      split_ifs <;> simp only [ASTNode.set_body, ASTNode.next]
    · unfold analyze_declaration
      simp only
      split_ifs <;> simp only [ASTNode.set_right, ASTNode.next]
    · simp only [analyze_block, ASTNode.set_left, ASTNode.next]
    · unfold analyze_if
      simp only [ASTNode.set_cond, ASTNode.set_left, ASTNode.right]
      split_ifs <;> simp only [ASTNode.set_right, ASTNode.next]
    · simp only [analyze_while, ASTNode.set_cond, ASTNode.set_body, ASTNode.next]
    · simp only [analyze_for, ASTNode.set_init, ASTNode.set_cond, ASTNode.set_incr,
        ASTNode.set_body, ASTNode.next]
    · unfold analyze_return
      cases st.current_function with
      | none => rfl
      | some f =>
        simp only
        split_ifs <;> simp only [ASTNode.set_left, ASTNode.next]
    · unfold analyze_assignment
      simp only [ASTNode.set_left, ASTNode.set_right]
      split_ifs <;> simp only [ASTNode.set_data_type, ASTNode.next]
    · unfold analyze_binary
      simp only [ASTNode.set_left, ASTNode.set_right]
      split_ifs <;> simp only [ASTNode.set_data_type, ASTNode.next]
    · simp only [analyze_unary, ASTNode.set_left, ASTNode.set_data_type, ASTNode.next]
    · unfold analyze_variable
      cases lookup st.symtab (ASTNode.node d l r c b ini inc p nx).name <;>
        simp only [ASTNode.set_data_type, ASTNode.next]
    · unfold analyze_function_call
      cases lookup st.symtab (ASTNode.node d l r c b ini inc p nx).name with
      | none => rfl
      | some sym =>
        simp only
        split_ifs <;> simp only [ASTNode.set_left, ASTNode.set_data_type, ASTNode.next]

theorem annotations_set_sample : annotations_set sample_f_returns AnState.initial := by
  intro t1 t2
  cases t1 <;> cases t2 <;> decide

theorem insert_symbol_of_lookup_current {st : SymTab} {sym : Symbol}
    (h : lookup_current st sym.name ≠ none) : insert_symbol st sym = (st, false) := by
  unfold lookup_current at h
  unfold insert_symbol
  cases hc : st.current_scope with
  | none => rfl
  | some a =>
    rw [hc] at h
    simp only at h ⊢
    cases hs : st.heap[a]? with
    | none => rfl
    | some sc =>
      rw [hs] at h
      simp only at h ⊢
      cases hf : find_symbol sym.name (sc.table.getD (hash sym.name) []) with
      | none => exact absurd hf h
      | some s => rfl

theorem create_symbol_name (st : SymTab) (name : String) (t : DataType) (k : SymbolKind)
    (line : Int) : (create_symbol st name t k line).name = name := rfl

theorem mem_symbols_push {sc : Scope} (hw : sc.wf) (sym s : Symbol) :
    s ∈ (sc.push sym).symbols ↔ s = sym ∨ s ∈ sc.symbols := by
  have hlt : hash sym.name < sc.table.length := by rw [hw.1]; exact hash_lt _
  rw [mem_symbols_iff, mem_symbols_iff]
  constructor
  · rintro ⟨i, hi⟩
    simp only [Scope.push] at hi
    by_cases h : hash sym.name = i
    · subst h
      rw [getD_set_self _ _ _ _ hlt] at hi
      rcases List.mem_cons.1 hi with rfl | hi
      · exact Or.inl rfl
      · exact Or.inr ⟨_, hi⟩
    · rw [getD_set_ne _ _ _ _ _ h] at hi
      exact Or.inr ⟨i, hi⟩
  · rintro (rfl | ⟨i, hi⟩)
    · refine ⟨hash s.name, ?_⟩
      simp only [Scope.push]
      rw [getD_set_self _ _ _ _ hlt]
      exact List.mem_cons_self _ _
    · refine ⟨i, ?_⟩
      simp only [Scope.push]
      by_cases h : hash sym.name = i
      · subst h
        rw [getD_set_self _ _ _ _ hlt]
        exact List.mem_cons_of_mem _ hi
      · rw [getD_set_ne _ _ _ _ _ h]
        exact hi

/-- The parameter loop reports exactly the parameters whose name is already in the scope
when they are inserted. -/
theorem insert_params_diagnostics (ps : ASTNode) :
    ∀ (st : AnState) (seen : List String) (a : Nat) (sc : Scope), st.symtab.wf →
      st.symtab.current_scope = some a → st.symtab.heap[a]? = some sc →
      (∀ m, m ∈ seen ↔ ∃ s ∈ sc.symbols, s.name = m) →
      (insert_params ps st).diagnostics = st.diagnostics ++ param_redeclarations seen ps := by
  induction ps with
  | null =>
    intro st seen a sc _ _ _ _
    simp [insert_params, param_redeclarations]
  | node d l r c b ini inc p nx _ _ _ _ _ _ _ ihnx =>
    intro st seen a sc hw hc hs hseen
    rw [insert_params, param_redeclarations]
    have hiff := (insert_symbol_fails_iff_bucket hw hc hs
      (create_symbol st.symtab (d.str_val.getD "") l.data_type SymbolKind.SYM_PARAMETER
        d.line_number))
    rw [create_symbol_name] at hiff
    by_cases hmem : d.str_val.getD "" ∈ seen
    · have hfail := hiff.2 ((hseen _).1 hmem)
      have heq := insert_symbol_false_eq _ _ hfail
      simp only [hfail, heq, Bool.false_eq_true, if_false, hmem, if_true]
      refine Eq.trans (ihnx _ seen a sc hw hc hs hseen) ?_
      simp [semantic_error]
    · have hok : (insert_symbol st.symtab
          (create_symbol st.symtab (d.str_val.getD "") l.data_type SymbolKind.SYM_PARAMETER
            d.line_number)).2 = true := by
        cases hb : (insert_symbol st.symtab _).2
        · exact absurd ((hseen _).2 (hiff.1 hb)) hmem
        · rfl
      simp only [hok, if_true, hmem, if_false]
      have hun := insert_symbol_unfold
        (create_symbol st.symtab (d.str_val.getD "") l.data_type SymbolKind.SYM_PARAMETER
          d.line_number) hc hs
      cases hf : find_symbol
          (create_symbol st.symtab (d.str_val.getD "") l.data_type SymbolKind.SYM_PARAMETER
            d.line_number).name
          (sc.table.getD (hash (create_symbol st.symtab (d.str_val.getD "") l.data_type
            SymbolKind.SYM_PARAMETER d.line_number).name) []) with
      | some s0 =>
        rw [hf] at hun
        rw [hun] at hok
        simp at hok
      | none =>
        rw [hf] at hun
        simp only at hun
        have hlen : a < st.symtab.heap.length := hw.current_valid a hc
        refine ihnx _ (d.str_val.getD "" :: seen) a
          (sc.push (create_symbol st.symtab (d.str_val.getD "") l.data_type
            SymbolKind.SYM_PARAMETER d.line_number)) ?_ ?_ ?_ ?_
        · exact wf_insert_symbol hw _
        · rw [hun]; exact hc
        · rw [hun]
          simp [SymTab.store, List.getElem?_set, hlen]
        · intro m
          simp only [List.mem_cons, mem_symbols_push (hw.scope_wf a sc hs)]
          constructor
          · rintro (rfl | hm)
            · exact ⟨_, Or.inl rfl, rfl⟩
            · obtain ⟨s, hs1, hs2⟩ := (hseen m).1 hm
              exact ⟨s, Or.inr hs1, hs2⟩
          · rintro ⟨s, rfl | hs1, hs2⟩
            · exact Or.inl hs2.symm
            · exact Or.inr ((hseen m).2 ⟨s, hs1, hs2⟩)

theorem new_scope_symbols (st : SymTab) : (new_scope st).symbols = [] := by
  simp [Scope.symbols, new_scope]

/-- A declaration analysed while the current scope already holds a symbol of its name
draws exactly one redeclaration error, on its own line: `"Variable redeclared"` for a
variable declaration (the only diagnostic when it has no initialiser, the first one
otherwise), `"Function redeclared"` for a function definition, which is then left
unanalysed; and the parameter loop, run in the scope entered for the function, reports
`"Parameter redeclared"` once for each parameter whose name occurs earlier in the list and
nothing else. -/
theorem declaration_in_scope_reported (st : AnState) (d : NodeData)
    (l r c b ini inc p nx : ASTNode) :
    (lookup_current st.symtab (d.str_val.getD "") ≠ none →
      (d.type = NodeType.NODE_VAR_DECL → r = ASTNode.null →
        (analyze_node (ASTNode.node d l r c b ini inc p nx) st).st.diagnostics =
          st.diagnostics ++ [(d.line_number, "Variable redeclared")]) ∧
      (d.type = NodeType.NODE_VAR_DECL →
        ∃ rest, (analyze_node (ASTNode.node d l r c b ini inc p nx) st).st.diagnostics =
          st.diagnostics ++ (d.line_number, "Variable redeclared") :: rest) ∧
      (d.type = NodeType.NODE_FUNC_DEF →
        (analyze_node (ASTNode.node d l r c b ini inc p nx) st).st.diagnostics =
          st.diagnostics ++ [(d.line_number, "Function redeclared")] ∧
        (analyze_node (ASTNode.node d l r c b ini inc p nx) st).node =
          ASTNode.node d l r c b ini inc p nx)) ∧
    (st.symtab.wf →
      (insert_params p { st with symtab := enter_scope st.symtab }).diagnostics =
        st.diagnostics ++ param_redeclarations [] p) := by
  constructor
  · intro hdup
    have hvar : insert_symbol st.symtab
        (create_symbol st.symtab (d.str_val.getD "") l.data_type SymbolKind.SYM_VARIABLE
          d.line_number) = (st.symtab, false) :=
      insert_symbol_of_lookup_current (by rw [create_symbol_name]; exact hdup)
    have hfun : insert_symbol st.symtab
        (create_symbol st.symtab (d.str_val.getD "") l.data_type SymbolKind.SYM_FUNCTION
          d.line_number) = (st.symtab, false) :=
      insert_symbol_of_lookup_current (by rw [create_symbol_name]; exact hdup)
    refine ⟨?_, ?_, ?_⟩
    · intro hty hr
      subst hr
      unfold analyze_node
      rw [analyze_walk]
      simp [analyze_switch, ASTNode.type, hty, analyze_declaration, ASTNode.name,
        ASTNode.str_val, ASTNode.left, ASTNode.line_number, ASTNode.right, ASTNode.isNull,
        hvar, semantic_error]
    · intro hty
      unfold analyze_node
      rw [analyze_walk]
      simp only [analyze_switch, ASTNode.type, hty, analyze_declaration, ASTNode.name,
        ASTNode.str_val, ASTNode.left, ASTNode.line_number, ASTNode.right, hvar,
        Bool.false_eq_true, if_false]
      split_ifs
      · exact ⟨[], by simp [semantic_error]⟩
      · obtain ⟨e, he⟩ := analyze_walk_diag r Walk.single
          (semantic_error { st with symtab := st.symtab } d.line_number "Variable redeclared")
        refine ⟨e ++ [(d.line_number, "Type mismatch in initialization")], ?_⟩
        simp only [semantic_error, ASTNode.set_right, ASTNode.line_number] at he ⊢
        rw [← he]
        simp
      · obtain ⟨e, he⟩ := analyze_walk_diag r Walk.single
          (semantic_error { st with symtab := st.symtab } d.line_number "Variable redeclared")
        refine ⟨e, ?_⟩
        simp only [semantic_error] at he ⊢
        rw [← he]
        simp
    · intro hty
      unfold analyze_node
      rw [analyze_walk]
      simp [analyze_switch, ASTNode.type, hty, analyze_function, ASTNode.name,
        ASTNode.str_val, ASTNode.left, ASTNode.line_number, hfun, semantic_error]
  · intro hw
    have h := insert_params_diagnostics p { st with symtab := enter_scope st.symtab } []
      st.symtab.heap.length (new_scope st.symtab) (wf_enter_scope hw) rfl
      (heap_getElem?_enter_new st.symtab) (by simp [new_scope_symbols])
    exact h

/-! ### The analyzer leaves the scopes balanced and keeps the names -/

theorem ScopeKeeps.keeps_same (sc : Scope) : ScopeKeeps sc sc := ⟨rfl, rfl, fun _ h => h⟩

theorem ScopeKeeps.keeps_comp {a b c : Scope} (h1 : ScopeKeeps a b) (h2 : ScopeKeeps b c) :
    ScopeKeeps a c :=
  ⟨h2.1.trans h1.1, h2.2.1.trans h1.2.1, fun name h => h2.2.2 name (h1.2.2 name h)⟩

theorem Frame.frame_same (t : SymTab) : Frame t t :=
  ⟨rfl, fun _ sc h => ⟨sc, h, ScopeKeeps.keeps_same sc⟩⟩

theorem Frame.frame_comp {a b c : SymTab} (h1 : Frame a b) (h2 : Frame b c) : Frame a c := by
  refine ⟨h2.current.trans h1.current, ?_⟩
  intro x sc0 h
  obtain ⟨sc1, hsc1, hk1⟩ := h1.scopes x sc0 h
  obtain ⟨sc2, hsc2, hk2⟩ := h2.scopes x sc1 hsc1
  exact ⟨sc2, hsc2, hk1.keeps_comp hk2⟩

theorem getD_set_of_not_lt {α : Type} (l : List α) (i j : Nat) (x d : α)
    (h : ¬ i < l.length) : (l.set i x).getD j d = l.getD j d := by
  rw [List.set_eq_of_length_le (Nat.le_of_not_lt h)]

/-- A store into an allocated scope that keeps its names. -/
theorem Frame.of_store {t : SymTab} {a : Nat} {sc sc1 : Scope} (hs : t.heap[a]? = some sc)
    (hk : ScopeKeeps sc sc1) : Frame t (t.store a sc1) := by
  refine ⟨rfl, ?_⟩
  intro b sc0 hb
  have hlen : a < t.heap.length := by
    by_contra hcon
    rw [List.getElem?_eq_none (Nat.le_of_not_lt hcon)] at hs
    cases hs
  by_cases hab : a = b
  · subst hab
    rw [hs] at hb
    cases hb
    exact ⟨sc1, by simp [SymTab.store, List.getElem?_set, hlen], hk⟩
  · exact ⟨sc0, by simp [SymTab.store, List.getElem?_set, hab, hb], ScopeKeeps.keeps_same sc0⟩

theorem ScopeKeeps.push (sc : Scope) (sym : Symbol) : ScopeKeeps sc (sc.push sym) := by
  refine ⟨rfl, by simp [Scope.push], ?_⟩
  intro name h
  simp only [Scope.push]
  by_cases hlt : hash sym.name < sc.table.length
  · by_cases hh : hash sym.name = hash name
    · rw [← hh, getD_set_self _ _ _ _ hlt]
      rw [← hh] at h
      unfold find_symbol
      split_ifs
      · exact Option.some_ne_none _
      · exact h
    · rw [getD_set_ne _ _ _ _ _ hh]
      exact h
  · rw [getD_set_of_not_lt _ _ _ _ _ hlt]
    exact h

theorem Frame.insert (t : SymTab) (sym : Symbol) : Frame t (insert_symbol t sym).1 := by
  unfold insert_symbol
  cases hc : t.current_scope with
  | none => exact Frame.frame_same _
  | some a =>
    simp only
    cases hs : t.heap[a]? with
    | none => exact Frame.frame_same _
    | some sc =>
      simp only
      cases hf : find_symbol sym.name (sc.table.getD (hash sym.name) []) with
      | some s => exact Frame.frame_same _
      | none => exact Frame.of_store hs (ScopeKeeps.push sc sym)

theorem Frame.signature (t : SymTab) (name : String) (count : Nat)
    (types : List DataType) : Frame t (set_signature t name count types) := by
  unfold set_signature
  cases hc : t.current_scope with
  | none => exact Frame.frame_same _
  | some a =>
    simp only
    cases hs : t.heap[a]? with
    | none => exact Frame.frame_same _
    | some sc =>
      simp only
      cases hb : sc.table.getD (hash name) [] with
      | nil => exact Frame.frame_same _
      | cons func rest =>
        simp only
        refine Frame.of_store hs ⟨rfl, by simp, ?_⟩
        intro nm h
        simp only
        by_cases hlt : hash name < sc.table.length
        · by_cases hh : hash name = hash nm
          · rw [← hh, getD_set_self _ _ _ _ hlt]
            rw [← hh, hb] at h
            unfold find_symbol at h ⊢
            simp only at h ⊢
            split_ifs at h ⊢ with h1
            · exact Option.some_ne_none _
            · exact h
          · rw [getD_set_ne _ _ _ _ _ hh]
            exact h
        · rw [getD_set_of_not_lt _ _ _ _ _ hlt]
          exact h

/-- Entering a scope, running a balanced piece and leaving the scope is balanced. -/
theorem Frame.block {t0 t1 : SymTab} (h : Frame (enter_scope t0) t1) :
    Frame t0 (exit_scope t1) := by
  obtain ⟨sc1, hsc1, hk1⟩ := h.scopes t0.heap.length (new_scope t0)
    (heap_getElem?_enter_new t0)
  have hcur : t1.current_scope = some t0.heap.length := h.current
  have hexit : exit_scope t1 = { t1 with current_scope := sc1.parent } := by
    unfold exit_scope
    rw [hcur]
    simp only [hsc1]
  rw [hexit]
  refine ⟨?_, ?_⟩
  · show sc1.parent = t0.current_scope
    rw [hk1.1]
    rfl
  · intro a sc0 ha
    have hlt : a < t0.heap.length := by
      by_contra hcon
      rw [List.getElem?_eq_none (Nat.le_of_not_lt hcon)] at ha
      cases ha
    exact h.scopes a sc0 (by rw [heap_getElem?_enter_old hlt]; exact ha)

theorem AnFrame.an_same (st : AnState) : AnFrame st st := Frame.frame_same _

theorem AnFrame.an_comp {a b c : AnState} (h1 : AnFrame a b) (h2 : AnFrame b c) :
    AnFrame a c := Frame.frame_comp h1 h2

theorem AnFrame.error (st : AnState) (line : Int) (msg : String) :
    AnFrame st (semantic_error st line msg) := Frame.frame_same _

theorem AnFrame.ite_error {c : Prop} [Decidable c] (st : AnState) (line : Int)
    (msg : String) : AnFrame st (if c then semantic_error st line msg else st) := by
  split_ifs
  · exact AnFrame.error _ _ _
  · exact AnFrame.an_same _

theorem insert_params_frame (ps : ASTNode) :
    ∀ st : AnState, AnFrame st (insert_params ps st) := by
  induction ps with
  | null => intro st; exact AnFrame.an_same _
  | node d l r c b ini inc p nx _ _ _ _ _ _ _ ihnx =>
    intro st
    rw [insert_params]
    refine AnFrame.an_comp ?_ (ihnx _)
    split
    · exact Frame.insert _ _
    · exact Frame.insert _ _

theorem check_argument_frame (sym : Symbol) (i : Nat) (line : Int) (arg : ASTNode)
    (st : AnState) : AnFrame st (check_argument sym i line arg st) := by
  unfold check_argument
  split_ifs
  · exact AnFrame.error _ _ _
  · exact AnFrame.error _ _ _
  · exact AnFrame.an_same _

theorem insert_params_frame_to (ps : ASTNode) (t0 : SymTab) (st : AnState)
    (h : Frame t0 st.symtab) : Frame t0 (insert_params ps st).symtab :=
  h.frame_comp (insert_params_frame ps st)

theorem Frame.to_insert {t0 t : SymTab} (sym : Symbol) (h : Frame t0 t) :
    Frame t0 (insert_symbol t sym).1 := h.frame_comp (Frame.insert t sym)

theorem Frame.to_signature {t0 t : SymTab} (name : String) (count : Nat)
    (types : List DataType) (h : Frame t0 t) : Frame t0 (set_signature t name count types) :=
  h.frame_comp (Frame.signature t name count types)

theorem Frame.to_block {t0 s t : SymTab} (h2 : Frame (enter_scope s) t) (h1 : Frame t0 s) :
    Frame t0 (exit_scope t) := h1.frame_comp (Frame.block h2)

theorem Frame.to_error {t0 : SymTab} (st : AnState) (line : Int) (msg : String)
    (h : Frame t0 st.symtab) : Frame t0 (semantic_error st line msg).symtab := h

theorem Frame.to_ite {c : Prop} [Decidable c] {t0 : SymTab} {a b : AnState}
    (ha : Frame t0 a.symtab) (hb : Frame t0 b.symtab) :
    Frame t0 (if c then a else b).symtab := by
  split_ifs
  · exact ha
  · exact hb

theorem Frame.to_ite_result {c : Prop} [Decidable c] {t0 : SymTab} {a b : AnResult}
    (ha : Frame t0 a.st.symtab) (hb : Frame t0 b.st.symtab) :
    Frame t0 (if c then a else b).st.symtab := by
  split_ifs
  · exact ha
  · exact hb

/-- Each `analyze_*` function is balanced when the recursive calls are. -/
theorem analyze_switch_frame (sub : Child → Walk → AnState → AnResult)
    (hsub : ∀ ch w st, AnFrame st (sub ch w st).st) (node : ASTNode) (st : AnState) :
    AnFrame st (analyze_switch sub node st).st := by
  have to_sub : ∀ (t0 : SymTab) (ch : Child) (w : Walk) (s : AnState),
      Frame t0 s.symtab → Frame t0 (sub ch w s).st.symtab :=
    fun t0 ch w s h => h.frame_comp (hsub ch w s)
  show Frame st.symtab (analyze_switch sub node st).st.symtab
  unfold analyze_switch
  cases node.type <;> simp only
  · -- NODE_FUNC_DEF
    unfold analyze_function
    simp only
    apply Frame.to_ite_result
    · exact Frame.to_error _ _ _ (Frame.to_insert _ (Frame.frame_same _))
    · simp only
      apply Frame.to_block
      · apply Frame.to_ite
        · apply Frame.to_error
          apply to_sub
          apply insert_params_frame_to
          exact Frame.frame_same _
        · apply to_sub
          apply insert_params_frame_to
          exact Frame.frame_same _
      · exact Frame.to_signature _ _ _ (Frame.to_insert _ (Frame.frame_same _))
  · -- NODE_VAR_DECL
    unfold analyze_declaration
    simp only
    have h2 : Frame st.symtab
        (if (insert_symbol st.symtab (create_symbol st.symtab node.name node.left.data_type
            SymbolKind.SYM_VARIABLE node.line_number)).2 = true
          then ({ st with symtab := (insert_symbol st.symtab (create_symbol st.symtab node.name
            node.left.data_type SymbolKind.SYM_VARIABLE node.line_number)).1 } : AnState)
          else semantic_error { st with symtab := (insert_symbol st.symtab
            (create_symbol st.symtab node.name node.left.data_type SymbolKind.SYM_VARIABLE
              node.line_number)).1 } node.line_number "Variable redeclared").symtab :=
      Frame.to_ite (Frame.to_insert _ (Frame.frame_same _))
        (Frame.to_error _ _ _ (Frame.to_insert _ (Frame.frame_same _)))
    apply Frame.to_ite_result
    · exact h2
    · simp only
      apply Frame.to_ite
      · exact Frame.to_error _ _ _ (to_sub _ _ _ _ h2)
      · exact to_sub _ _ _ _ h2
  · -- NODE_PARAM
    exact Frame.frame_same _
  · -- NODE_BLOCK
    unfold analyze_block
    simp only
    exact Frame.to_block (to_sub _ _ _ _ (Frame.frame_same _)) (Frame.frame_same _)
  · -- NODE_IF
    unfold analyze_if
    simp only
    have h1 : Frame st.symtab
        (if (node.set_cond (sub Child.cond Walk.single st).node).cond.data_type =
            DataType.TYPE_VOID
          then semantic_error (sub Child.cond Walk.single st).st
            (node.set_cond (sub Child.cond Walk.single st).node).line_number
            "Invalid condition type"
          else (sub Child.cond Walk.single st).st).symtab :=
      Frame.to_ite (Frame.to_error _ _ _ (to_sub _ _ _ _ (Frame.frame_same _)))
        (to_sub _ _ _ _ (Frame.frame_same _))
    apply Frame.to_ite_result
    · exact to_sub _ _ _ _ h1
    · exact to_sub _ _ _ _ (to_sub _ _ _ _ h1)
  · -- NODE_WHILE
    unfold analyze_while
    simp only
    exact to_sub _ _ _ _ (Frame.to_ite (Frame.to_error _ _ _ (to_sub _ _ _ _ (Frame.frame_same _)))
      (to_sub _ _ _ _ (Frame.frame_same _)))
  · -- NODE_FOR
    unfold analyze_for
    simp only
    apply to_sub
    apply Frame.to_ite_result
    · apply Frame.to_ite_result
      · apply Frame.to_ite_result
        · exact Frame.frame_same _
        · exact to_sub _ _ _ _ (Frame.frame_same _)
      · simp only
        apply Frame.to_ite
        · apply Frame.to_error
          apply to_sub
          apply Frame.to_ite_result
          · exact Frame.frame_same _
          · exact to_sub _ _ _ _ (Frame.frame_same _)
        · apply to_sub
          apply Frame.to_ite_result
          · exact Frame.frame_same _
          · exact to_sub _ _ _ _ (Frame.frame_same _)
    · apply to_sub
      apply Frame.to_ite_result
      · apply Frame.to_ite_result
        · exact Frame.frame_same _
        · exact to_sub _ _ _ _ (Frame.frame_same _)
      · simp only
        apply Frame.to_ite
        · apply Frame.to_error
          apply to_sub
          apply Frame.to_ite_result
          · exact Frame.frame_same _
          · exact to_sub _ _ _ _ (Frame.frame_same _)
        · apply to_sub
          apply Frame.to_ite_result
          · exact Frame.frame_same _
          · exact to_sub _ _ _ _ (Frame.frame_same _)
  · -- NODE_RETURN
    unfold analyze_return
    split
    · exact Frame.frame_same _
    · simp only
      apply Frame.to_ite_result
      · exact Frame.to_ite (Frame.frame_same _) (Frame.frame_same _)
      · exact Frame.to_ite (Frame.to_error _ _ _ (to_sub _ _ _ _ (Frame.frame_same _)))
          (to_sub _ _ _ _ (Frame.frame_same _))
  · -- NODE_ASSIGN
    unfold analyze_assignment
    simp only
    apply Frame.to_ite_result
    · exact to_sub _ _ _ _ (to_sub _ _ _ _ (Frame.frame_same _))
    · exact Frame.to_ite (Frame.to_error _ _ _ (to_sub _ _ _ _ (to_sub _ _ _ _ (Frame.frame_same _))))
        (to_sub _ _ _ _ (to_sub _ _ _ _ (Frame.frame_same _)))
  · -- NODE_BIN_OP
    unfold analyze_binary
    simp only
    apply Frame.to_ite_result
    · exact to_sub _ _ _ _ (to_sub _ _ _ _ (Frame.frame_same _))
    · exact Frame.to_ite (Frame.to_error _ _ _ (to_sub _ _ _ _ (to_sub _ _ _ _ (Frame.frame_same _))))
        (to_sub _ _ _ _ (to_sub _ _ _ _ (Frame.frame_same _)))
  · -- NODE_UN_OP
    unfold analyze_unary
    simp only
    exact to_sub _ _ _ _ (Frame.frame_same _)
  · -- NODE_CONST_INT
    exact Frame.frame_same _
  · -- NODE_CONST_CHAR
    exact Frame.frame_same _
  · -- NODE_VAR
    unfold analyze_variable
    split
    · exact Frame.frame_same _
    · exact Frame.frame_same _
  · -- NODE_FUNC_CALL
    unfold analyze_function_call
    split
    · exact Frame.frame_same _
    · simp only
      apply Frame.to_ite_result
      · exact Frame.frame_same _
      · exact Frame.to_ite (Frame.to_error _ _ _ (to_sub _ _ _ _ (Frame.frame_same _)))
          (to_sub _ _ _ _ (Frame.frame_same _))
  · -- NODE_TYPE
    exact Frame.frame_same _
  · -- NODE_STR_LIT
    exact Frame.frame_same _
  · -- NODE_EMPTY
    exact Frame.frame_same _

/-- Whatever is analysed, the current scope is the same afterwards and every scope keeps
its names. -/
theorem analyze_walk_frame (n : ASTNode) :
    ∀ (w : Walk) (st : AnState), AnFrame st (analyze_walk n w st).st := by
  induction n with
  | null =>
    intro w st
    rw [analyze_walk_null]
    exact AnFrame.an_same _
  | node d l r c b ini inc p nx ihl ihr ihc ihb ihini ihinc ihp ihnx =>
    intro w st
    have h1 := analyze_switch_frame
      (fun ch w1 st1 =>
        match ch with
        | Child.left => analyze_walk l w1 st1
        | Child.right => analyze_walk r w1 st1
        | Child.cond => analyze_walk c w1 st1
        | Child.body => analyze_walk b w1 st1
        | Child.init => analyze_walk ini w1 st1
        | Child.incr => analyze_walk inc w1 st1)
      (by intro ch w1 st1; cases ch <;> simp only <;> apply_assumption)
      (ASTNode.node d l r c b ini inc p nx) st
    cases w with
    | single =>
      rw [analyze_walk]
      exact h1
    | stmts =>
      rw [analyze_walk]
      simp only
      split
      · exact h1
      · exact h1.an_comp (ihnx _ _)
    | args sym i line =>
      rw [analyze_walk]
      simp only
      exact h1.an_comp ((check_argument_frame _ _ _ _ _).an_comp (ihnx _ _))

theorem state_before_frame (n : ASTNode) :
    ∀ (k : Nat) (st : AnState), AnFrame st (state_before n k st) := by
  induction n with
  | null =>
    intro k st
    cases k <;> exact AnFrame.an_same _
  | node d l r c b ini inc p nx _ _ _ _ _ _ _ ihnx =>
    intro k st
    cases k with
    | zero => exact AnFrame.an_same _
    | succ k =>
      rw [state_before]
      exact (analyze_walk_frame _ Walk.single st).an_comp (ihnx k _)

theorem state_before_diag (n : ASTNode) :
    ∀ (k : Nat) (st : AnState), st.diagnostics <+: (state_before n k st).diagnostics := by
  induction n with
  | null =>
    intro k st
    cases k <;> exact List.prefix_refl _
  | node d l r c b ini inc p nx _ _ _ _ _ _ _ ihnx =>
    intro k st
    cases k with
    | zero => exact List.prefix_refl _
    | succ k =>
      rw [state_before]
      exact (analyze_walk_diag _ Walk.single st).trans (ihnx k _)

theorem Frame.keeps_lookup {t0 t1 : SymTab} (h : Frame t0 t1) {name : String}
    (hl : lookup_current t0 name ≠ none) : lookup_current t1 name ≠ none := by
  unfold lookup_current at hl ⊢
  rw [h.current]
  cases hc : t0.current_scope with
  | none => rw [hc] at hl; exact absurd rfl hl
  | some a =>
    rw [hc] at hl
    simp only at hl ⊢
    cases hs : t0.heap[a]? with
    | none => rw [hs] at hl; exact absurd rfl hl
    | some sc0 =>
      rw [hs] at hl
      obtain ⟨sc1, hsc1, hk⟩ := h.scopes a sc0 hs
      rw [hsc1]
      exact hk.2.2 name hl

theorem Frame.keeps_ok {t0 t1 : SymTab} (h : Frame t0 t1)
    (hok : current_scope_ok t0) : current_scope_ok t1 := by
  obtain ⟨a, sc, hc, hs, hlen⟩ := hok
  obtain ⟨sc1, hsc1, hk⟩ := h.scopes a sc hs
  exact ⟨a, sc1, h.current.trans hc, hsc1, hk.2.1.trans hlen⟩

/-- After an insert into a good current scope the name is in the current scope, whether
the insert succeeded or not. -/
theorem lookup_current_insert {t : SymTab} (hok : current_scope_ok t) (sym : Symbol) :
    lookup_current (insert_symbol t sym).1 sym.name ≠ none := by
  obtain ⟨a, sc, hc, hs, hlen⟩ := hok
  rw [insert_symbol_unfold sym hc hs]
  cases hf : find_symbol sym.name (sc.table.getD (hash sym.name) []) with
  | some s =>
    simp only [lookup_current, hc, hs, hf]
    exact Option.some_ne_none _
  | none =>
    have hlt : a < t.heap.length := by
      by_contra hcon
      rw [List.getElem?_eq_none (Nat.le_of_not_lt hcon)] at hs
      cases hs
    have hh : hash sym.name < sc.table.length := by rw [hlen]; exact hash_lt _
    simp only [lookup_current, SymTab.store, hc, List.getElem?_set, hlt, if_true, Scope.push]
    rw [getD_set_self _ _ _ _ hh]
    simp [find_symbol]

theorem wf_current_scope_ok {t : SymTab} (hw : t.wf) (hc : t.current_scope ≠ none) :
    current_scope_ok t := by
  cases hcur : t.current_scope with
  | none => exact absurd hcur hc
  | some a =>
    have hlt := hw.current_valid a hcur
    refine ⟨a, t.heap[a], hcur, List.getElem?_eq_getElem hlt, ?_⟩
    exact (hw.scope_wf a _ (List.getElem?_eq_getElem hlt)).1

/-! ### Two declarations of one name in a statement list -/

theorem analyze_declaration_keeps (sub : Child → Walk → AnState → AnResult)
    (hsub : ∀ ch w st, AnFrame st (sub ch w st).st) (node : ASTNode) (st : AnState) :
    Frame (insert_symbol st.symtab (create_symbol st.symtab node.name node.left.data_type
        SymbolKind.SYM_VARIABLE node.line_number)).1
      (analyze_declaration sub node st).st.symtab := by
  have to_sub : ∀ (t0 : SymTab) (ch : Child) (w : Walk) (s : AnState),
      Frame t0 s.symtab → Frame t0 (sub ch w s).st.symtab :=
    fun t0 ch w s h => h.frame_comp (hsub ch w s)
  unfold analyze_declaration
  simp only
  have h2 : Frame (insert_symbol st.symtab (create_symbol st.symtab node.name
        node.left.data_type SymbolKind.SYM_VARIABLE node.line_number)).1
      (if (insert_symbol st.symtab (create_symbol st.symtab node.name node.left.data_type
          SymbolKind.SYM_VARIABLE node.line_number)).2 = true
        then ({ st with symtab := (insert_symbol st.symtab (create_symbol st.symtab node.name
          node.left.data_type SymbolKind.SYM_VARIABLE node.line_number)).1 } : AnState)
        else semantic_error { st with symtab := (insert_symbol st.symtab
          (create_symbol st.symtab node.name node.left.data_type SymbolKind.SYM_VARIABLE
            node.line_number)).1 } node.line_number "Variable redeclared").symtab :=
    Frame.to_ite (Frame.frame_same _) (Frame.to_error _ _ _ (Frame.frame_same _))
  apply Frame.to_ite_result
  · exact h2
  · simp only
    apply Frame.to_ite
    · exact Frame.to_error _ _ _ (to_sub _ _ _ _ h2)
    · exact to_sub _ _ _ _ h2

theorem analyze_function_keeps (sub : Child → Walk → AnState → AnResult)
    (hsub : ∀ ch w st, AnFrame st (sub ch w st).st) (node : ASTNode) (st : AnState) :
    Frame (insert_symbol st.symtab (create_symbol st.symtab node.name node.left.data_type
        SymbolKind.SYM_FUNCTION node.line_number)).1
      (analyze_function sub node st).st.symtab := by
  have to_sub : ∀ (t0 : SymTab) (ch : Child) (w : Walk) (s : AnState),
      Frame t0 s.symtab → Frame t0 (sub ch w s).st.symtab :=
    fun t0 ch w s h => h.frame_comp (hsub ch w s)
  unfold analyze_function
  simp only
  apply Frame.to_ite_result
  · exact Frame.to_error _ _ _ (Frame.frame_same _)
  · simp only
    apply Frame.to_block
    · apply Frame.to_ite
      · apply Frame.to_error
        apply to_sub
        apply insert_params_frame_to
        exact Frame.frame_same _
      · apply to_sub
        apply insert_params_frame_to
        exact Frame.frame_same _
    · exact Frame.to_signature _ _ _ (Frame.frame_same _)

/-- After a variable declaration or a function definition has been analysed in a good
current scope, its name is in that scope. -/
theorem analyze_node_declares (d : ASTNode) (st : AnState)
    (hok : current_scope_ok st.symtab)
    (hty : d.type = NodeType.NODE_VAR_DECL ∨ d.type = NodeType.NODE_FUNC_DEF) :
    lookup_current (analyze_node d st).st.symtab d.name ≠ none := by
  cases d with
  | null => simp [ASTNode.type] at hty
  | node dd l r c b ini inc p nx =>
    simp only [ASTNode.type] at hty
    have hsub : ∀ (ch : Child) (w : Walk) (s : AnState), AnFrame s
        ((fun (ch : Child) (w1 : Walk) (st1 : AnState) =>
          match ch with
          | Child.left => analyze_walk l w1 st1
          | Child.right => analyze_walk r w1 st1
          | Child.cond => analyze_walk c w1 st1
          | Child.body => analyze_walk b w1 st1
          | Child.init => analyze_walk ini w1 st1
          | Child.incr => analyze_walk inc w1 st1) ch w s).st := by
      intro ch w s
      cases ch <;> exact analyze_walk_frame _ _ _
    unfold analyze_node
    rw [analyze_walk]
    rcases hty with hty | hty
    · simp only [analyze_switch, ASTNode.type, hty]
      exact Frame.keeps_lookup (analyze_declaration_keeps _ hsub _ _)
        (lookup_current_insert hok _)
    · simp only [analyze_switch, ASTNode.type, hty]
      exact Frame.keeps_lookup (analyze_function_keeps _ hsub _ _)
        (lookup_current_insert hok _)

theorem siblings_getElem_zero {n d : ASTNode} (h : (siblings n)[0]? = some d) : d = n := by
  cases n with
  | null => simp [siblings] at h
  | node dd l r c b ini inc p nx =>
    simp only [siblings, List.getElem?_cons_zero, Option.some.injEq] at h
    exact h.symm

/-- When the loop reaches a declaration, the name of every declaration it has passed is in
the current scope. -/
theorem declared_before (n : ASTNode) :
    ∀ (i j : Nat) (st : AnState) (d1 : ASTNode), current_scope_ok st.symtab →
      (siblings n)[i]? = some d1 → i < j →
      (d1.type = NodeType.NODE_VAR_DECL ∨ d1.type = NodeType.NODE_FUNC_DEF) →
      lookup_current (state_before n j st).symtab d1.name ≠ none := by
  induction n with
  | null =>
    intro i j st d1 _ h1
    simp [siblings] at h1
  | node dd l r c b ini inc p nx _ _ _ _ _ _ _ ihnx =>
    intro i j st d1 hok h1 hij hty
    cases j with
    | zero => omega
    | succ j =>
      rw [state_before]
      cases i with
      | zero =>
        have hd := siblings_getElem_zero h1
        subst hd
        exact Frame.keeps_lookup (state_before_frame nx j _)
          (analyze_node_declares _ st hok hty)
      | succ i =>
        simp only [siblings, List.getElem?_cons_succ] at h1
        exact ihnx i j _ d1
          (Frame.keeps_ok (analyze_walk_frame _ Walk.single st) hok) h1 (by omega) hty

/-- The loop of `analyze_list` visits a statement that no earlier statement keeps it from,
and what the visit reports stays in the diagnostics. -/
theorem analyze_list_visits (n : ASTNode) :
    ∀ (j : Nat) (st : AnState) (d : ASTNode), (siblings n)[j]? = some d →
      (∀ k < j, ∀ s, (siblings n)[k]? = some s →
        (analyze_node s (state_before n k st)).returns = false) →
      (analyze_node d (state_before n j st)).st.diagnostics <+:
        (analyze_list n st).st.diagnostics := by
  induction n with
  | null =>
    intro j st d h
    simp [siblings] at h
  | node dd l r c b ini inc p nx _ _ _ _ _ _ _ ihnx =>
    intro j st d h hvis
    have hstep : analyze_list (ASTNode.node dd l r c b ini inc p nx) st =
        if (analyze_node (ASTNode.node dd l r c b ini inc p nx) st).returns = true then
          analyze_node (ASTNode.node dd l r c b ini inc p nx) st
        else
          { st := (analyze_list nx
              (analyze_node (ASTNode.node dd l r c b ini inc p nx) st).st).st,
            node := (analyze_node (ASTNode.node dd l r c b ini inc p nx) st).node.set_next
              (analyze_list nx
                (analyze_node (ASTNode.node dd l r c b ini inc p nx) st).st).node,
            returns := (analyze_list nx
              (analyze_node (ASTNode.node dd l r c b ini inc p nx) st).st).returns } := by
      unfold analyze_list analyze_node
      rw [analyze_walk, analyze_walk]
    cases j with
    | zero =>
      have hd := siblings_getElem_zero h
      subst hd
      rw [state_before, hstep]
      split_ifs
      · exact List.prefix_refl _
      · exact analyze_walk_diag nx Walk.stmts _
    | succ j =>
      have h0 := hvis 0 (by omega) (ASTNode.node dd l r c b ini inc p nx)
        (by simp [siblings])
      rw [state_before] at h0
      rw [state_before, hstep, h0]
      simp only [Bool.false_eq_true, if_false]
      simp only [siblings, List.getElem?_cons_succ] at h
      refine ihnx j _ d h ?_
      intro k hk s hs
      have := hvis (k + 1) (by omega) s (by simpa [siblings] using hs)
      rw [state_before] at this
      exact this

/-- C7, amended: when the statement loop of the analyzer, started in a well-formed table
with a current scope, reaches a variable declaration or function definition whose name was
declared by an earlier variable declaration or function definition of the same list (two
variables, two functions, or a function and a variable), the visit reports exactly one
redeclaration error, first among its diagnostics and carrying the line number of the second
declaration: `"Variable redeclared"` or `"Function redeclared"`, the only diagnostic of the
visit for a function definition or a declaration without initialiser; the diagnostics of
the visit stay in those of the whole list.  The loop reaches a statement when no earlier
statement of the list definitely returns.  The parameter loop, run in the scope entered for
a function, reports `"Parameter redeclared"` exactly once for each parameter whose name
occurs earlier in the parameter list, on the line of that parameter, and nothing else. -/
theorem redeclaration_reported (st : AnState) (hwf : st.symtab.wf) :
    (∀ (n : ASTNode) (i j : Nat) (d1 d2 : ASTNode),
      st.symtab.current_scope ≠ none →
      (siblings n)[i]? = some d1 → (siblings n)[j]? = some d2 → i < j →
      (d1.type = NodeType.NODE_VAR_DECL ∨ d1.type = NodeType.NODE_FUNC_DEF) →
      (d2.type = NodeType.NODE_VAR_DECL ∨ d2.type = NodeType.NODE_FUNC_DEF) →
      d1.name = d2.name →
      (∀ k < j, ∀ s, (siblings n)[k]? = some s →
        (analyze_node s (state_before n k st)).returns = false) →
      (∃ rest, (analyze_node d2 (state_before n j st)).st.diagnostics =
            (state_before n j st).diagnostics ++
              (d2.line_number, redeclared_message d2) :: rest ∧
          (d2.type = NodeType.NODE_FUNC_DEF ∨ d2.right = ASTNode.null → rest = [])) ∧
        (analyze_node d2 (state_before n j st)).st.diagnostics <+:
          (analyze_list n st).st.diagnostics) ∧
    (∀ p : ASTNode,
      (insert_params p { st with symtab := enter_scope st.symtab }).diagnostics =
        st.diagnostics ++ param_redeclarations [] p) := by
  refine ⟨?_, ?_⟩
  · intro n i j d1 d2 hcur h1 h2 hij hty1 hty2 hname hvis
    refine ⟨?_, analyze_list_visits n j st d2 h2 hvis⟩
    have hdup := declared_before n i j st d1 (wf_current_scope_ok hwf hcur) h1 hij hty1
    rw [hname] at hdup
    cases d2 with
    | null => simp [ASTNode.type] at hty2
    | node dd l r c b ini inc p nx =>
      have hloc := (declaration_in_scope_reported (state_before n j st) dd l r c b ini inc p
        nx).1 hdup
      simp only [ASTNode.type] at hty2
      rcases hty2 with hty | hty
      · obtain ⟨rest, hrest⟩ := hloc.2.1 hty
        refine ⟨rest, ?_, ?_⟩
        · simp only [redeclared_message, ASTNode.type, hty, ASTNode.line_number]
          exact hrest
        · intro hr
          rcases hr with hr | hr
          · simp only [ASTNode.type, hty] at hr
            cases hr
          · simp only [ASTNode.right] at hr
            have h3 := hloc.1 hty hr
            rw [hrest] at h3
            have h4 := List.append_cancel_left h3
            simpa using h4
      · refine ⟨[], ?_, fun _ => rfl⟩
        simp only [redeclared_message, ASTNode.type, hty, ASTNode.line_number, if_true]
        exact (hloc.2.2 hty).1
  · intro p
    exact (declaration_in_scope_reported st default ASTNode.null ASTNode.null ASTNode.null
      ASTNode.null ASTNode.null ASTNode.null p ASTNode.null).2 hwf

/-- In `int x;  int f(){ return 1; }  char x;` the declaration on line 3 is reached and
reports `"Variable redeclared"`, its only diagnostic. -/
theorem redeclaration_reported_witness :
    AnState.initial.symtab.wf ∧
      (∃ rest, (analyze_node sample_global_redeclaration.next.next
          (state_before sample_global_redeclaration 2 AnState.initial)).st.diagnostics =
            (state_before sample_global_redeclaration 2 AnState.initial).diagnostics ++
              (sample_global_redeclaration.next.next.line_number,
                redeclared_message sample_global_redeclaration.next.next) :: rest ∧
          (sample_global_redeclaration.next.next.type = NodeType.NODE_FUNC_DEF ∨
            sample_global_redeclaration.next.next.right = ASTNode.null → rest = [])) ∧
      (semantic_analyze sample_global_redeclaration AnState.initial).1.diagnostics =
        [(3, "Variable redeclared")] :=
  ⟨demo_global_wf,
    ((redeclaration_reported AnState.initial demo_global_wf).1 sample_global_redeclaration
      0 2 sample_global_redeclaration sample_global_redeclaration.next.next
      (by decide) (by decide) (by decide) (by decide) (Or.inl (by decide))
      (Or.inl (by decide)) (by decide)
      (fun k hk s hs => by
        rcases (by omega : k = 0 ∨ k = 1) with rfl | rfl
        · obtain rfl : sample_global_redeclaration = s := Option.some.inj hs
          decide
        · obtain rfl : sample_global_redeclaration.next = s := Option.some.inj hs
          decide)).1,
    by decide⟩

/-- C7 as stated fails: in `int f(){ return 1; int x; int x; }` the block of `f` holds two
declarations of `x`, and the analysis reports no error at all, because the statements
after the `return` are not analysed. -/
theorem redeclaration_counterexample :
    (semantic_analyze sample_dead_redeclaration AnState.initial).1.diagnostics = [] ∧
      sample_dead_redeclaration.body.left.next.type = NodeType.NODE_VAR_DECL ∧
      sample_dead_redeclaration.body.left.next.str_val = some "x" ∧
      sample_dead_redeclaration.body.left.next.next.type = NodeType.NODE_VAR_DECL ∧
      sample_dead_redeclaration.body.left.next.next.str_val = some "x" ∧
      (semantic_analyze sample_live_redeclaration AnState.initial).1.diagnostics =
        [(1, "Variable redeclared")] := by
  decide

/-! ## IR generation -/

/-! ### Fresh names are pairwise different -/

/-- The character code of a decimal digit, less the code of the character 0, is the digit. -/
theorem digitChar_sub (n : Nat) (h : n < 10) : (Nat.digitChar n).toNat - 48 = n := by
  interval_cases n <;> rfl

theorem toDigitsCore_decode (fuel : Nat) :
    ∀ (n : Nat) (ds : List Char), n < fuel →
      ∃ pre : List Char, Nat.toDigitsCore 10 fuel n ds = pre ++ ds ∧
        pre.foldl (fun a ch => 10 * a + (ch.toNat - 48)) 0 = n := by
  induction fuel with
  | zero => intro n ds h; omega
  | succ f ih =>
    intro n ds h
    rw [Nat.toDigitsCore]
    by_cases h0 : n / 10 = 0
    · rw [if_pos h0]
      refine ⟨[Nat.digitChar (n % 10)], rfl, ?_⟩
      simp only [List.foldl_cons, List.foldl_nil, Nat.mul_zero, Nat.zero_add]
      rw [digitChar_sub _ (Nat.mod_lt _ (by decide))]
      omega
    · rw [if_neg h0]
      obtain ⟨pre, hpre, hval⟩ := ih (n / 10) (Nat.digitChar (n % 10) :: ds) (by omega)
      refine ⟨pre ++ [Nat.digitChar (n % 10)], by rw [hpre]; simp, ?_⟩
      rw [List.foldl_append, hval]
      simp only [List.foldl_cons, List.foldl_nil]
      rw [digitChar_sub _ (Nat.mod_lt _ (by decide))]
      omega

theorem toString_nat_injective {m n : Nat} (h : toString m = toString n) : m = n := by
  have h1 : (Nat.toDigits 10 m) = (Nat.toDigits 10 n) := by
    have := congrArg String.data h
    simpa [toString, Nat.repr, List.asString] using this
  obtain ⟨p1, hp1, hv1⟩ := toDigitsCore_decode (m + 1) m [] (by omega)
  obtain ⟨p2, hp2, hv2⟩ := toDigitsCore_decode (n + 1) n [] (by omega)
  unfold Nat.toDigits at h1
  rw [hp1, hp2] at h1
  simp only [List.append_nil] at h1
  rw [← hv1, ← hv2, h1]

theorem label_name_injective {m n : Nat} (h : label_name m = label_name n) : m = n := by
  unfold label_name at h
  apply toString_nat_injective
  have := congrArg String.data h
  simp only [String.data_append, List.append_cancel_left_eq] at this
  exact String.ext this

theorem temp_name_injective {m n : Nat} (h : temp_name m = temp_name n) : m = n := by
  unfold temp_name at h
  apply toString_nat_injective
  have := congrArg String.data h
  simp only [String.data_append, List.append_cancel_left_eq] at this
  exact String.ext this

/-! ### Induction over the generator -/

theorem gen_walk_null (tk : Tokens) (mode : GenMode) (st : GenState) :
    gen_walk tk ASTNode.null mode st =
      match mode with
      | GenMode.cond true_label _ line =>
        (ir_append st (ir_make_goto (some true_label) line), ir_op_const 0)
      | _ => (st, ir_op_const 0) := by
  cases mode <;> rfl

/-- To establish a property of every call of the generator it is enough to establish it
for `NULL` and for the bodies of `gen_expr`, `gen_cond` and `gen_stmt` under the assumption
that it holds for the recursive calls on the children, and to carry it along both loops. -/
theorem gen_walk_induction (tk : Tokens)
    (P : ASTNode → GenMode → GenState → GenState × IROperand → Prop)
    (h_null : ∀ mode st, P ASTNode.null mode st (gen_walk tk ASTNode.null mode st))
    (h_expr : ∀ (sub : Child → GenMode → GenState → GenState × IROperand)
      (node : ASTNode) (st : GenState),
      (∀ ch mode st1, P (child_of ch node) mode st1 (sub ch mode st1)) →
      P node GenMode.expr st (gen_expr tk sub node st))
    (h_cond : ∀ (sub : Child → GenMode → GenState → GenState × IROperand)
      (node : ASTNode) (t f : String) (line : Int) (st : GenState),
      (∀ ch mode st1, P (child_of ch node) mode st1 (sub ch mode st1)) →
      (∀ st1, P node GenMode.expr st1 (gen_expr tk sub node st1)) →
      P node (GenMode.cond t f line) st
        (gen_cond tk sub (gen_expr tk sub node) node t f st, ir_op_const 0))
    (h_stmt : ∀ (sub : Child → GenMode → GenState → GenState × IROperand)
      (node : ASTNode) (st : GenState),
      (∀ ch mode st1, P (child_of ch node) mode st1 (sub ch mode st1)) →
      (∀ st1, P node GenMode.expr st1 (gen_expr tk sub node st1)) →
      P node GenMode.stmt st (gen_stmt sub (gen_expr tk sub node) node st, ir_op_const 0))
    (h_stmts : ∀ (node : ASTNode) (st : GenState) (r1 r2 : GenState × IROperand),
      P node GenMode.stmt st r1 → P node.next GenMode.stmts r1.1 r2 →
      P node GenMode.stmts st r2)
    (h_args : ∀ (node : ASTNode) (line : Int) (st : GenState) (a r : GenState × IROperand),
      P node GenMode.expr st a →
      P node.next (GenMode.args line) (ir_append a.1 (ir_make_param a.2 line)) r →
      P node (GenMode.args line) st r) :
    ∀ (n : ASTNode) (mode : GenMode) (st : GenState), P n mode st (gen_walk tk n mode st) := by
  intro n
  induction n with
  | null => exact h_null
  | node d l r c b ini inc p nx ihl ihr ihc ihb ihini ihinc _ ihnx =>
    intro mode st
    have hsub : ∀ ch mode st1,
        P (child_of ch (ASTNode.node d l r c b ini inc p nx)) mode st1
          ((fun ch m1 st1 =>
            match ch with
            | Child.left => gen_walk tk l m1 st1
            | Child.right => gen_walk tk r m1 st1
            | Child.cond => gen_walk tk c m1 st1
            | Child.body => gen_walk tk b m1 st1
            | Child.init => gen_walk tk ini m1 st1
            | Child.incr => gen_walk tk inc m1 st1) ch mode st1) := by
      intro ch mode st1
      cases ch <;> simp only [child_of] <;> apply_assumption
    have hexpr := fun st1 => h_expr _ (ASTNode.node d l r c b ini inc p nx) st1 hsub
    cases mode with
    | expr =>
      rw [gen_walk]
      exact hexpr st
    | cond t f line =>
      rw [gen_walk]
      exact h_cond _ _ t f line st hsub hexpr
    | stmt =>
      rw [gen_walk]
      exact h_stmt _ _ st hsub hexpr
    | stmts =>
      rw [gen_walk]
      exact h_stmts _ st _ _ (h_stmt _ _ st hsub hexpr) (ihnx _ _)
    | args line =>
      rw [gen_walk]
      exact h_args _ line st _ _ (hexpr st) (ihnx _ _)

/-! ### Labels: every jump target is defined exactly once -/

theorem label_defs_append (l1 l2 : List IRInstr) :
    label_defs (l1 ++ l2) = label_defs l1 ++ label_defs l2 := by
  simp [label_defs, List.filterMap_append]

theorem label_refs_append (l1 l2 : List IRInstr) :
    label_refs (l1 ++ l2) = label_refs l1 ++ label_refs l2 := by
  simp [label_refs, List.filterMap_append]

theorem label_defs_ir_append (st : GenState) (i : IRInstr) :
    label_defs (ir_append st i).list =
      label_defs st.list ++ (match i.defined_label with | some x => [x] | none => []) := by
  simp only [ir_append, label_defs_append]
  congr 1
  simp only [label_defs, List.filterMap_cons, List.filterMap_nil]
  cases i.defined_label <;> rfl

theorem label_refs_ir_append (st : GenState) (i : IRInstr) :
    label_refs (ir_append st i).list =
      label_refs st.list ++ (match i.target_label with | some x => [x] | none => []) := by
  simp only [ir_append, label_refs_append]
  congr 1
  simp only [label_refs, List.filterMap_cons, List.filterMap_nil]
  cases i.target_label <;> rfl

/-- Allocating labels or temporaries: the list stays, the label counter may go up, and the
label numbers allocated on the way may be made pending. -/
theorem LabelInv.alloc {st : GenState} {E D : Nat → Prop} (h : LabelInv st E D)
    (st1 : GenState) (hl : st1.list = st.list)
    (hc : st.label_counter ≤ st1.label_counter) (E1 : Nat → Prop)
    (h1 : ∀ k, E k → E1 k)
    (h2 : ∀ k, E1 k → E k ∨ (st.label_counter ≤ k ∧ k < st1.label_counter)) :
    LabelInv st1 E1 D := by
  refine ⟨?_, ?_, ?_, ?_, ?_⟩
  · intro x hx
    rw [hl] at hx
    obtain ⟨k, hk, rfl⟩ := h.defs_lt x hx
    exact ⟨k, by omega, rfl⟩
  · rw [hl]; exact h.defs_nodup
  · intro x hx
    rw [hl] at hx ⊢
    rcases h.refs_ok x hx with h3 | ⟨k, hk, rfl⟩
    · exact Or.inl h3
    · exact Or.inr ⟨k, h1 k hk, rfl⟩
  · intro k hk
    rw [hl]
    rcases h2 k hk with h3 | ⟨h3, h4⟩
    · exact ⟨by have := (h.pending k h3).1; omega, (h.pending k h3).2⟩
    · refine ⟨h4, ?_⟩
      intro hmem
      obtain ⟨j, hj, hjk⟩ := h.defs_lt _ hmem
      have := label_name_injective hjk
      omega
  · intro k hk
    rw [hl]
    exact h.defined k hk

/-- Appending an instruction that neither defines nor jumps to a label. -/
theorem LabelInv.plain {st : GenState} {E D : Nat → Prop} (h : LabelInv st E D)
    (i : IRInstr) (hd : i.defined_label = none) (ht : i.target_label = none) :
    LabelInv (ir_append st i) E D := by
  have e1 : label_defs (ir_append st i).list = label_defs st.list := by
    rw [label_defs_ir_append, hd]; simp
  have e2 : label_refs (ir_append st i).list = label_refs st.list := by
    rw [label_refs_ir_append, ht]; simp
  refine ⟨?_, ?_, ?_, ?_, ?_⟩
  · rw [e1]; exact h.defs_lt
  · rw [e1]; exact h.defs_nodup
  · rw [e1, e2]; exact h.refs_ok
  · rw [e1]; exact h.pending
  · rw [e1]; exact h.defined

/-- Appending a jump to a pending or an already defined label. -/
theorem LabelInv.jump {st : GenState} {E D : Nat → Prop} (h : LabelInv st E D)
    (i : IRInstr) (x : Nat) (hd : i.defined_label = none)
    (ht : i.target_label = some (label_name x)) (hx : E x ∨ D x) :
    LabelInv (ir_append st i) E D := by
  have e1 : label_defs (ir_append st i).list = label_defs st.list := by
    rw [label_defs_ir_append, hd]; simp
  have e2 : label_refs (ir_append st i).list = label_refs st.list ++ [label_name x] := by
    rw [label_refs_ir_append, ht]
  refine ⟨?_, ?_, ?_, ?_, ?_⟩
  · rw [e1]; exact h.defs_lt
  · rw [e1]; exact h.defs_nodup
  · rw [e1, e2]
    intro y hy
    rcases List.mem_append.1 hy with hy | hy
    · exact h.refs_ok y hy
    · rw [List.mem_singleton] at hy
      subst hy
      rcases hx with hx | hx
      · exact Or.inr ⟨x, hx, rfl⟩
      · exact Or.inl (h.defined x hx)
  · rw [e1]; exact h.pending
  · rw [e1]; exact h.defined

/-- Appending the definition of a pending label, which stops being pending. -/
theorem LabelInv.define {st : GenState} {E D : Nat → Prop} (h : LabelInv st E D)
    (x : Nat) (line : Int) (hx : E x) (E1 D1 : Nat → Prop)
    (hE1 : ∀ k, E1 k ↔ (E k ∧ k ≠ x)) (hD1 : ∀ k, D1 k → D k ∨ k = x) :
    LabelInv (ir_append st (ir_make_label (some (label_name x)) line)) E1 D1 := by
  have e1 : label_defs (ir_append st (ir_make_label (some (label_name x)) line)).list =
      label_defs st.list ++ [label_name x] := by
    rw [label_defs_ir_append]; rfl
  have e2 : label_refs (ir_append st (ir_make_label (some (label_name x)) line)).list =
      label_refs st.list := by
    rw [label_refs_ir_append]
    simp [IRInstr.target_label, ir_make_label, IRInstr.blank]
  refine ⟨?_, ?_, ?_, ?_, ?_⟩
  · rw [e1]
    intro y hy
    rcases List.mem_append.1 hy with hy | hy
    · exact h.defs_lt y hy
    · rw [List.mem_singleton] at hy
      exact ⟨x, (h.pending x hx).1, hy⟩
  · rw [e1]
    refine List.Nodup.append h.defs_nodup (List.nodup_singleton _) ?_
    intro y hy1 hy2
    rw [List.mem_singleton] at hy2
    subst hy2
    exact (h.pending x hx).2 hy1
  · rw [e1, e2]
    intro y hy
    rcases h.refs_ok y hy with h3 | ⟨k, hk, rfl⟩
    · exact Or.inl (List.mem_append_left _ h3)
    · by_cases hkx : k = x
      · subst hkx
        exact Or.inl (List.mem_append_right _ (List.mem_singleton_self _))
      · exact Or.inr ⟨k, (hE1 k).2 ⟨hk, hkx⟩, rfl⟩
  · rw [e1]
    intro k hk
    obtain ⟨hk1, hk2⟩ := (hE1 k).1 hk
    refine ⟨(h.pending k hk1).1, ?_⟩
    intro hmem
    rcases List.mem_append.1 hmem with hmem | hmem
    · exact (h.pending k hk1).2 hmem
    · rw [List.mem_singleton] at hmem
      exact hk2 (label_name_injective hmem)
  · rw [e1]
    intro k hk
    rcases hD1 k hk with h3 | rfl
    · exact List.mem_append_left _ (h.defined k h3)
    · exact List.mem_append_right _ (List.mem_singleton_self _)

/-- The set of labels known to be defined may be made smaller. -/
theorem LabelInv.forget {st : GenState} {E D : Nat → Prop} (h : LabelInv st E D)
    (D1 : Nat → Prop) (hD1 : ∀ k, D1 k → D k) : LabelInv st E D1 :=
  ⟨h.defs_lt, h.defs_nodup, h.refs_ok, h.pending, fun k hk => h.defined k (hD1 k hk)⟩

theorem LabelGood.of_cond {kt kf : Nat} {line : Int} {st : GenState}
    {res : GenState × IROperand}
    (hg : LabelGood (GenMode.cond (label_name kt) (label_name kf) line) st res)
    {E D : Nat → Prop} (h : LabelInv st E D) (ht : E kt) (hf : E kf) :
    LabelInv res.1 E D :=
  hg E D h (by
    intro t f l heq
    cases heq
    exact ⟨kt, kf, rfl, rfl, ht, hf⟩)

theorem LabelGood.of_expr {st : GenState} {res : GenState × IROperand}
    (hg : LabelGood GenMode.expr st res) {E D : Nat → Prop} (h : LabelInv st E D) :
    LabelInv res.1 E D :=
  hg E D h (by intro t f l heq; cases heq)

theorem LabelGood.of_stmt {st : GenState} {res : GenState × IROperand}
    (hg : LabelGood GenMode.stmt st res) {E D : Nat → Prop} (h : LabelInv st E D) :
    LabelInv res.1 E D :=
  hg E D h (by intro t f l heq; cases heq)

theorem LabelGood.of_stmts {st : GenState} {res : GenState × IROperand}
    (hg : LabelGood GenMode.stmts st res) {E D : Nat → Prop} (h : LabelInv st E D) :
    LabelInv res.1 E D :=
  hg E D h (by intro t f l heq; cases heq)

theorem LabelGood.of_args {line : Int} {st : GenState} {res : GenState × IROperand}
    (hg : LabelGood (GenMode.args line) st res) {E D : Nat → Prop} (h : LabelInv st E D) :
    LabelInv res.1 E D :=
  hg E D h (by intro t f l heq; cases heq)

theorem LabelInv.goto {st : GenState} {E D : Nat → Prop} (h : LabelInv st E D)
    (x : Nat) (line : Int) (hx : E x ∨ D x) :
    LabelInv (ir_append st (ir_make_goto (some (label_name x)) line)) E D :=
  h.jump _ x rfl rfl hx

theorem LabelInv.if_goto {st : GenState} {E D : Nat → Prop} (h : LabelInv st E D)
    (l r : IROperand) (rel : IRRelop) (x : Nat) (line : Int) (hx : E x ∨ D x) :
    LabelInv (ir_append st (ir_make_if l r rel (some (label_name x)) line)) E D :=
  h.jump _ x rfl rfl hx

theorem LabelInv.branch {st : GenState} {E D : Nat → Prop} (h : LabelInv st E D)
    (place : IROperand) (kt kf : Nat) (line : Int) (ht : E kt ∨ D kt) (hf : E kf ∨ D kf) :
    LabelInv (branch_on_nonzero st place (label_name kt) (label_name kf) line) E D :=
  (h.if_goto _ _ _ kt line ht).goto kf line hf

theorem gen_cond_logical_label (tk : Tokens)
    (sub : Child → GenMode → GenState → GenState × IROperand) (node : ASTNode)
    (hsub : ∀ ch mode st1, LabelGood mode st1 (sub ch mode st1))
    (kt kf : Nat) (st : GenState) (E D : Nat → Prop) (h : LabelInv st E D)
    (ht : E kt) (hf : E kf) :
    LabelInv (gen_cond_logical tk sub node (label_name kt) (label_name kf) st) E D := by
  have hp := fun k hk => (h.pending k hk).1
  have h1 : LabelInv (ir_new_label st).2 (fun k => E k ∨ k = st.label_counter) D :=
    h.alloc (ir_new_label st).2 rfl (Nat.le_succ _) (fun k => E k ∨ k = st.label_counter)
      (fun k hk => Or.inl hk) (by
      intro k hk
      rcases hk with hk | rfl
      · exact Or.inl hk
      · exact Or.inr ⟨Nat.le_refl _, Nat.lt_succ_self _⟩)
  have hE : ∀ k, E k ↔ ((E k ∨ k = st.label_counter) ∧ k ≠ st.label_counter) := by
    intro k
    have := hp k
    by_cases hk : E k <;> simp [hk] at this ⊢; omega
  unfold gen_cond_logical
  split_ifs
  · have h2 := (hsub Child.left (GenMode.cond (label_name st.label_counter) (label_name kf)
      node.line_number) (ir_new_label st).2).of_cond h1 (Or.inr rfl) (Or.inl hf)
    have h3 := h2.define st.label_counter node.line_number (Or.inr rfl) E D hE
      (fun k hk => Or.inl hk)
    exact (hsub Child.right (GenMode.cond (label_name kt) (label_name kf)
      node.line_number) _).of_cond h3 ht hf
  · have h2 := (hsub Child.left (GenMode.cond (label_name kt) (label_name st.label_counter)
      node.line_number) (ir_new_label st).2).of_cond h1 (Or.inl ht) (Or.inr rfl)
    have h3 := h2.define st.label_counter node.line_number (Or.inr rfl) E D hE
      (fun k hk => Or.inl hk)
    exact (hsub Child.right (GenMode.cond (label_name kt) (label_name kf)
      node.line_number) _).of_cond h3 ht hf

theorem gen_cond_label (tk : Tokens)
    (sub : Child → GenMode → GenState → GenState × IROperand)
    (self_expr : GenState → GenState × IROperand) (node : ASTNode)
    (hsub : ∀ ch mode st1, LabelGood mode st1 (sub ch mode st1))
    (hself : ∀ st1, LabelGood GenMode.expr st1 (self_expr st1))
    (kt kf : Nat) (st : GenState) (E D : Nat → Prop) (h : LabelInv st E D)
    (ht : E kt) (hf : E kf) :
    LabelInv (gen_cond tk sub self_expr node (label_name kt) (label_name kf) st) E D := by
  have hplace : LabelInv (branch_on_nonzero (self_expr st).1 (self_expr st).2
      (label_name kt) (label_name kf) node.line_number) E D :=
    ((hself st).of_expr h).branch _ kt kf _ (Or.inl ht) (Or.inl hf)
  unfold gen_cond
  split
  · split_ifs
    · exact h.goto kt _ (Or.inl ht)
    · exact h.goto kf _ (Or.inl hf)
  · split_ifs
    · exact h.goto kt _ (Or.inl ht)
    · exact h.goto kf _ (Or.inl hf)
  · exact h.branch _ kt kf _ (Or.inl ht) (Or.inl hf)
  · split_ifs
    · exact gen_cond_logical_label tk sub node hsub kt kf st E D h ht hf
    · have h1 := (hsub Child.left GenMode.expr st).of_expr h
      have h2 := (hsub Child.right GenMode.expr _).of_expr h1
      exact (h2.if_goto _ _ _ kt _ (Or.inl ht)).goto kf _ (Or.inl hf)
    · exact hplace
  · split_ifs
    · exact (hsub Child.left (GenMode.cond (label_name kf) (label_name kt)
        node.line_number) st).of_cond h hf ht
    · exact hplace
  · exact hplace

theorem gen_expr_label (tk : Tokens)
    (sub : Child → GenMode → GenState → GenState × IROperand) (node : ASTNode)
    (hsub : ∀ ch mode st1, LabelGood mode st1 (sub ch mode st1)) (st : GenState) :
    LabelGood GenMode.expr st (gen_expr tk sub node st) := by
  intro E D h _
  have hp := fun k hk => (h.pending k hk).1
  unfold gen_expr
  split
  · exact h
  · exact h
  · exact h
  · exact h
  · split_ifs
    · -- `&&`, `||` in value context
      have h1 : LabelInv (ir_new_label (ir_new_label (ir_new_label (ir_new_temp st).2).2).2).2
          (fun k => E k ∨ k = st.label_counter ∨ k = st.label_counter + 1 ∨
            k = st.label_counter + 2) D :=
        h.alloc _ (by rfl) (by simp only [ir_new_label, ir_new_temp]; omega) _ (fun k hk => Or.inl hk) (by
          intro k hk
          simp only [ir_new_label, ir_new_temp]
          rcases hk with hk | hk | hk | hk
          · exact Or.inl hk
          all_goals exact Or.inr (by omega))
      have h2 := h1.plain (ir_make_assign (some (temp_name st.temp_counter)) (ir_op_const 0)
        node.line_number) rfl rfl
      have h3 := gen_cond_logical_label tk sub node hsub st.label_counter
        (st.label_counter + 1) _ _ D h2 (Or.inr (Or.inl rfl)) (Or.inr (Or.inr (Or.inl rfl)))
      have h4 := h3.define st.label_counter node.line_number (Or.inr (Or.inl rfl))
        (fun k => E k ∨ k = st.label_counter + 1 ∨ k = st.label_counter + 2) D (by
          intro k
          have := hp k
          by_cases hk : E k <;> simp [hk] at this ⊢ <;> omega) (fun k hk => Or.inl hk)
      have h5 := h4.plain (ir_make_assign (some (temp_name st.temp_counter)) (ir_op_const 1)
        node.line_number) rfl rfl
      have h6 := h5.goto (st.label_counter + 2) node.line_number (Or.inl (Or.inr (Or.inr rfl)))
      have h7 := h6.define (st.label_counter + 1) node.line_number (Or.inr (Or.inl rfl))
        (fun k => E k ∨ k = st.label_counter + 2) D (by
          intro k
          have := hp k
          by_cases hk : E k <;> simp [hk] at this ⊢ <;> omega) (fun k hk => Or.inl hk)
      exact h7.define (st.label_counter + 2) node.line_number (Or.inr rfl) E D (by
          intro k
          have := hp k
          by_cases hk : E k <;> simp [hk] at this ⊢; omega) (fun k hk => Or.inl hk)
    · -- relational operator in value context
      have h1 := (hsub Child.left GenMode.expr st).of_expr h
      have h2 := (hsub Child.right GenMode.expr _).of_expr h1
      have hp2 := fun k hk => (h2.pending k hk).1
      have h3 : LabelInv (ir_new_label (ir_new_label (ir_new_temp
            (sub Child.right GenMode.expr (sub Child.left GenMode.expr st).1).1).2).2).2
          (fun k => E k ∨
            k = (sub Child.right GenMode.expr (sub Child.left GenMode.expr st).1).1.label_counter
            ∨ k = (sub Child.right GenMode.expr
              (sub Child.left GenMode.expr st).1).1.label_counter + 1) D :=
        h2.alloc _ (by rfl) (by simp only [ir_new_label, ir_new_temp]; omega) _ (fun k hk => Or.inl hk) (by
          intro k hk
          simp only [ir_new_label, ir_new_temp]
          rcases hk with hk | hk | hk
          · exact Or.inl hk
          all_goals exact Or.inr (by omega))
      have h4 := h3.plain (ir_make_assign (some (temp_name
        (sub Child.right GenMode.expr (sub Child.left GenMode.expr st).1).1.temp_counter))
        (ir_op_const 0) node.line_number) rfl rfl
      have h5 := h4.if_goto (sub Child.left GenMode.expr st).2
        (sub Child.right GenMode.expr (sub Child.left GenMode.expr st).1).2
        (ast_relop_to_ir tk node.int_val)
        (sub Child.right GenMode.expr (sub Child.left GenMode.expr st).1).1.label_counter
        node.line_number (Or.inl (Or.inr (Or.inl rfl)))
      have h6 := h5.goto
        ((sub Child.right GenMode.expr (sub Child.left GenMode.expr st).1).1.label_counter + 1)
        node.line_number (Or.inl (Or.inr (Or.inr rfl)))
      have h7 := h6.define
        (sub Child.right GenMode.expr (sub Child.left GenMode.expr st).1).1.label_counter
        node.line_number (Or.inr (Or.inl rfl))
        (fun k => E k ∨ k = (sub Child.right GenMode.expr
          (sub Child.left GenMode.expr st).1).1.label_counter + 1) D (by
          intro k
          have := hp2 k
          by_cases hk : E k <;> simp [hk] at this ⊢ <;> omega) (fun k hk => Or.inl hk)
      have h8 := h7.plain (ir_make_assign (some (temp_name
        (sub Child.right GenMode.expr (sub Child.left GenMode.expr st).1).1.temp_counter))
        (ir_op_const 1) node.line_number) rfl rfl
      exact h8.define
        ((sub Child.right GenMode.expr (sub Child.left GenMode.expr st).1).1.label_counter + 1)
        node.line_number (Or.inr rfl) E D (by
          intro k
          have := hp2 k
          by_cases hk : E k <;> simp [hk] at this ⊢; omega) (fun k hk => Or.inl hk)
    · -- arithmetic
      have h1 := (hsub Child.left GenMode.expr st).of_expr h
      have h2 := (hsub Child.right GenMode.expr _).of_expr h1
      have h3 := h2.alloc (ir_new_temp
        (sub Child.right GenMode.expr (sub Child.left GenMode.expr st).1).1).2 rfl
        (Nat.le_refl _) E (fun k hk => hk) (fun k hk => Or.inl hk)
      exact h3.plain _ rfl rfl
  · have h1 := (hsub Child.left GenMode.expr st).of_expr h
    have h3 := h1.alloc (ir_new_temp (sub Child.left GenMode.expr st).1).2 rfl
      (Nat.le_refl _) E (fun k hk => hk) (fun k hk => Or.inl hk)
    exact h3.plain _ rfl rfl
  · have h1 := (hsub Child.right GenMode.expr st).of_expr h
    exact h1.plain _ rfl rfl
  · have h1 := (hsub Child.left (GenMode.args node.line_number) st).of_args h
    split_ifs
    · exact h1.plain _ rfl rfl
    · have h3 := h1.alloc (ir_new_temp
        (sub Child.left (GenMode.args node.line_number) st).1).2 rfl
        (Nat.le_refl _) E (fun k hk => hk) (fun k hk => Or.inl hk)
      exact h3.plain _ rfl rfl
  · exact h

theorem LabelInv.ite {c : Prop} [Decidable c] {a b : GenState} {E D : Nat → Prop}
    (ha : c → LabelInv a E D) (hb : ¬ c → LabelInv b E D) :
    LabelInv (if c then a else b) E D := by
  split_ifs with hc
  · exact ha hc
  · exact hb hc

theorem LabelInv.alloc3 {st : GenState} {E D : Nat → Prop} (h : LabelInv st E D)
    (E1 : Nat → Prop) (h1 : ∀ k, E k → E1 k)
    (h2 : ∀ k, E1 k → E k ∨ (st.label_counter ≤ k ∧ k < st.label_counter + 3)) :
    LabelInv (ir_new_label (ir_new_label (ir_new_label st).2).2).2 E1 D :=
  h.alloc _ (by rfl) (by simp only [ir_new_label]; omega) E1 h1 h2

theorem gen_stmt_label
    (sub : Child → GenMode → GenState → GenState × IROperand)
    (self_expr : GenState → GenState × IROperand) (node : ASTNode)
    (hsub : ∀ ch mode st1, LabelGood mode st1 (sub ch mode st1))
    (hself : ∀ st1, LabelGood GenMode.expr st1 (self_expr st1)) (st : GenState) :
    LabelGood GenMode.stmt st (gen_stmt sub self_expr node st, ir_op_const 0) := by
  intro E D h _
  have hp := fun k hk => (h.pending k hk).1
  show LabelInv (gen_stmt sub self_expr node st) E D
  unfold gen_stmt
  split
  · exact h
  · exact h
  · exact (hsub Child.left GenMode.stmts st).of_stmts h
  · -- if
    by_cases hr : node.right.isNull = true
    · simp only [hr, if_true]
      have h1 := h.alloc3 (fun k => E k ∨ k = st.label_counter ∨ k = st.label_counter + 2)
        (fun k hk => Or.inl hk) (by
          intro k hk
          rcases hk with hk | hk | hk
          · exact Or.inl hk
          all_goals exact Or.inr (by omega))
      have h2 := (hsub Child.cond (GenMode.cond (label_name st.label_counter)
        (label_name (st.label_counter + 2)) node.line_number) _).of_cond h1
        (Or.inr (Or.inl rfl)) (Or.inr (Or.inr rfl))
      have h3 := h2.define st.label_counter node.line_number (Or.inr (Or.inl rfl))
        (fun k => E k ∨ k = st.label_counter + 2) D (by
          intro k
          have := hp k
          by_cases hk : E k <;> simp [hk] at this ⊢ <;> omega) (fun k hk => Or.inl hk)
      have h4 := (hsub Child.left GenMode.stmt _).of_stmt h3
      exact h4.define (st.label_counter + 2) node.line_number (Or.inr rfl) E D (by
          intro k
          have := hp k
          by_cases hk : E k <;> simp [hk] at this ⊢; omega) (fun k hk => Or.inl hk)
    · simp only [hr, if_false]
      have h1 := h.alloc3 (fun k => E k ∨ k = st.label_counter ∨ k = st.label_counter + 1 ∨
          k = st.label_counter + 2)
        (fun k hk => Or.inl hk) (by
          intro k hk
          rcases hk with hk | hk | hk | hk
          · exact Or.inl hk
          all_goals exact Or.inr (by omega))
      have h2 := (hsub Child.cond (GenMode.cond (label_name st.label_counter)
        (label_name (st.label_counter + 1)) node.line_number) _).of_cond h1
        (Or.inr (Or.inl rfl)) (Or.inr (Or.inr (Or.inl rfl)))
      have h3 := h2.define st.label_counter node.line_number (Or.inr (Or.inl rfl))
        (fun k => E k ∨ k = st.label_counter + 1 ∨ k = st.label_counter + 2) D (by
          intro k
          have := hp k
          by_cases hk : E k <;> simp [hk] at this ⊢ <;> omega) (fun k hk => Or.inl hk)
      have h4 := (hsub Child.left GenMode.stmt _).of_stmt h3
      have h5 := h4.goto (st.label_counter + 2) node.line_number (Or.inl (Or.inr (Or.inr rfl)))
      have h6 := h5.define (st.label_counter + 1) node.line_number (Or.inr (Or.inl rfl))
        (fun k => E k ∨ k = st.label_counter + 2) D (by
          intro k
          have := hp k
          by_cases hk : E k <;> simp [hk] at this ⊢ <;> omega) (fun k hk => Or.inl hk)
      have h7 := (hsub Child.right GenMode.stmt _).of_stmt h6
      exact h7.define (st.label_counter + 2) node.line_number (Or.inr rfl) E D (by
          intro k
          have := hp k
          by_cases hk : E k <;> simp [hk] at this ⊢; omega) (fun k hk => Or.inl hk)
  · -- while
    have h1 := h.alloc3 (fun k => E k ∨ k = st.label_counter ∨ k = st.label_counter + 1 ∨
        k = st.label_counter + 2)
      (fun k hk => Or.inl hk) (by
        intro k hk
        rcases hk with hk | hk | hk | hk
        · exact Or.inl hk
        all_goals exact Or.inr (by omega))
    have h2 := h1.define st.label_counter node.line_number (Or.inr (Or.inl rfl))
      (fun k => E k ∨ k = st.label_counter + 1 ∨ k = st.label_counter + 2)
      (fun k => D k ∨ k = st.label_counter) (by
        intro k
        have := hp k
        by_cases hk : E k <;> simp [hk] at this ⊢ <;> omega) (fun k hk => hk)
    have h3 := (hsub Child.cond (GenMode.cond (label_name (st.label_counter + 1))
      (label_name (st.label_counter + 2)) node.line_number) _).of_cond h2
      (Or.inr (Or.inl rfl)) (Or.inr (Or.inr rfl))
    have h4 := h3.define (st.label_counter + 1) node.line_number (Or.inr (Or.inl rfl))
      (fun k => E k ∨ k = st.label_counter + 2) (fun k => D k ∨ k = st.label_counter) (by
        intro k
        have := hp k
        by_cases hk : E k <;> simp [hk] at this ⊢ <;> omega) (fun k hk => Or.inl hk)
    have h5 := (hsub Child.body GenMode.stmt _).of_stmt h4
    have h6 := h5.goto st.label_counter node.line_number (Or.inr (Or.inr rfl))
    exact h6.define (st.label_counter + 2) node.line_number (Or.inr rfl) E D (by
        intro k
        have := hp k
        by_cases hk : E k <;> simp [hk] at this ⊢; omega) (fun k hk => Or.inl (Or.inl hk))
  · -- for
    have h1 := h.alloc3 (fun k => E k ∨ k = st.label_counter ∨ k = st.label_counter + 1 ∨
        k = st.label_counter + 2)
      (fun k hk => Or.inl hk) (by
        intro k hk
        rcases hk with hk | hk | hk | hk
        · exact Or.inl hk
        all_goals exact Or.inr (by omega))
    have h2 := LabelInv.ite (c := ¬ node.init.isNull ∧ node.init.type ≠ NodeType.NODE_EMPTY)
      (fun _ => (hsub Child.init GenMode.stmt _).of_stmt h1) (fun _ => h1)
    have h3 := h2.define st.label_counter node.line_number (Or.inr (Or.inl rfl))
      (fun k => E k ∨ k = st.label_counter + 1 ∨ k = st.label_counter + 2)
      (fun k => D k ∨ k = st.label_counter) (by
        intro k
        have := hp k
        by_cases hk : E k <;> simp [hk] at this ⊢ <;> omega) (fun k hk => hk)
    have h4 := LabelInv.ite (c := ¬ node.cond.isNull ∧ node.cond.type ≠ NodeType.NODE_EMPTY)
      (fun _ => (hsub Child.cond (GenMode.cond (label_name (st.label_counter + 1))
        (label_name (st.label_counter + 2)) node.line_number) _).of_cond h3
        (Or.inr (Or.inl rfl)) (Or.inr (Or.inr rfl)))
      (fun _ => h3.goto (st.label_counter + 1) node.line_number (Or.inl (Or.inr (Or.inl rfl))))
    have h5 := h4.define (st.label_counter + 1) node.line_number (Or.inr (Or.inl rfl))
      (fun k => E k ∨ k = st.label_counter + 2) (fun k => D k ∨ k = st.label_counter) (by
        intro k
        have := hp k
        by_cases hk : E k <;> simp [hk] at this ⊢ <;> omega) (fun k hk => Or.inl hk)
    have h6 := (hsub Child.body GenMode.stmt _).of_stmt h5
    have h7 := LabelInv.ite (c := node.incr.isNull = true) (fun _ => h6)
      (fun _ => (hsub Child.incr GenMode.expr _).of_expr h6)
    have h8 := h7.goto st.label_counter node.line_number (Or.inr (Or.inr rfl))
    exact h8.define (st.label_counter + 2) node.line_number (Or.inr rfl) E D (by
        intro k
        have := hp k
        by_cases hk : E k <;> simp [hk] at this ⊢; omega) (fun k hk => Or.inl (Or.inl hk))
  · -- return
    split_ifs
    · exact h.plain _ rfl rfl
    · exact ((hsub Child.left GenMode.expr st).of_expr h).plain _ rfl rfl
  · exact (hself st).of_expr h
  · split_ifs
    · exact h
    · exact ((hsub Child.right GenMode.expr st).of_expr h).plain _ rfl rfl
  · exact (hself st).of_expr h

/-- Every call of the generator keeps the label invariant. -/
theorem gen_walk_label (tk : Tokens) (n : ASTNode) (mode : GenMode) (st : GenState) :
    LabelGood mode st (gen_walk tk n mode st) := by
  refine gen_walk_induction tk (fun _ mode st res => LabelGood mode st res)
    ?_ ?_ ?_ ?_ ?_ ?_ n mode st
  · intro mode st E D h ht
    rw [gen_walk_null]
    cases mode with
    | cond t f line =>
      obtain ⟨kt, kf, rfl, rfl, hkt, _⟩ := ht t f line rfl
      exact h.goto kt line (Or.inl hkt)
    | expr => exact h
    | stmt => exact h
    | stmts => exact h
    | args line => exact h
  · intro sub node st hsub
    exact gen_expr_label tk sub node hsub st
  · intro sub node t f line st hsub hself E D h ht
    obtain ⟨kt, kf, rfl, rfl, hkt, hkf⟩ := ht t f line rfl
    exact gen_cond_label tk sub _ node hsub hself kt kf st E D h hkt hkf
  · intro sub node st hsub hself
    exact gen_stmt_label sub _ node hsub hself st
  · intro node st r1 r2 h1 h2 E D h _
    exact h2.of_stmts (h1.of_stmt h)
  · intro node line st a r h1 h2 E D h _
    exact h2.of_args ((h1.of_expr h).plain _ rfl rfl)

/-! ### The functions of a generated program -/

theorem mem_siblings_next {n m : ASTNode} (h : m ∈ siblings n.next) : m ∈ siblings n := by
  cases n with
  | null => simp [ASTNode.next, siblings] at h
  | node d l r c b ini inc p nx =>
    simp only [siblings]
    exact List.mem_cons_of_mem _ h

theorem gen_func_funcs (tk : Tokens) (node : ASTNode) (st : GenState) (prog : IRProgram) :
    (gen_func tk node st prog).2.funcs = prog.funcs ∨
      ∃ f : IRFunc, (gen_func tk node st prog).2.funcs = f :: prog.funcs ∧
        f.name = node.str_val ∧
        f.instrs = (gen_walk tk node.body GenMode.stmt (gen_func_start st)).1.list := by
  unfold gen_func
  split_ifs
  · exact Or.inl rfl
  · exact Or.inr ⟨_, rfl, rfl, rfl⟩
  · exact Or.inr ⟨_, rfl, rfl, rfl⟩

/-- Each function of the program comes from one top-level function definition: its
instructions are those `gen_stmt` emits for the body from reset counters and an empty
list. -/
theorem ir_generate_loop_funcs (tk : Tokens) (root : ASTNode) :
    ∀ (st : GenState) (prog : IRProgram) (f : IRFunc),
      f ∈ (ir_generate_loop tk root st prog).2.funcs →
      f ∈ prog.funcs ∨ ∃ (fn : ASTNode) (st0 : GenState), fn ∈ siblings root ∧
        fn.type = NodeType.NODE_FUNC_DEF ∧ f.name = fn.str_val ∧
        f.instrs =
          (gen_walk tk fn.body GenMode.stmt (gen_func_start st0)).1.list := by
  induction root with
  | null =>
    intro st prog f hf
    exact Or.inl hf
  | node d l r c b ini inc p nx _ _ _ _ _ _ _ ihnx =>
    intro st prog f hf
    rw [ir_generate_loop] at hf
    simp only at hf
    split_ifs at hf with h1 h2 h3
    · rcases ihnx _ _ f hf with h | ⟨fn, st0, hfn, hty, hname, hin⟩
      · rcases gen_func_funcs tk (ASTNode.node d l r c b ini inc p nx) st prog with
          h0 | ⟨g, h0, hname, hin⟩
        · rw [h0] at h
          exact Or.inl h
        · rw [h0] at h
          rcases List.mem_cons.1 h with h | h
          · subst h
            exact Or.inr ⟨ASTNode.node d l r c b ini inc p nx, st, by simp [siblings], h1,
              hname, hin⟩
          · exact Or.inl h
      · exact Or.inr ⟨fn, st0, by simp [siblings, hfn], hty, hname, hin⟩
    · rcases ihnx _ _ f hf with h | ⟨fn, st0, hfn, hty, hname, hin⟩
      · exact Or.inl h
      · exact Or.inr ⟨fn, st0, by simp [siblings, hfn], hty, hname, hin⟩
    · rcases ihnx _ _ f hf with h | ⟨fn, st0, hfn, hty, hname, hin⟩
      · exact Or.inl h
      · exact Or.inr ⟨fn, st0, by simp [siblings, hfn], hty, hname, hin⟩
    · rcases ihnx _ _ f hf with h | ⟨fn, st0, hfn, hty, hname, hin⟩
      · exact Or.inl h
      · exact Or.inr ⟨fn, st0, by simp [siblings, hfn], hty, hname, hin⟩

theorem ir_generate_funcs (tk : Tokens) (root : ASTNode) (st : GenState) (prog : IRProgram)
    (h : ir_generate tk root st = some prog) (f : IRFunc) (hf : f ∈ prog.funcs) :
    ∃ (fn : ASTNode) (st0 : GenState), fn ∈ siblings root ∧
      fn.type = NodeType.NODE_FUNC_DEF ∧ f.name = fn.str_val ∧
      f.instrs =
        (gen_walk tk fn.body GenMode.stmt (gen_func_start st0)).1.list := by
  unfold ir_generate at h
  split_ifs at h
  simp only [Option.some.injEq] at h
  subst h
  rcases ir_generate_loop_funcs tk root st ir_program_create f hf with h | h
  · simp [ir_program_create] at h
  · exact h

theorem LabelInv.initial (st : GenState) :
    LabelInv (gen_func_start st) (fun _ => False) (fun _ => False) :=
  ⟨by simp [label_defs, gen_func_start], by simp [label_defs, gen_func_start],
    by simp [label_refs, gen_func_start], fun _ h => h.elim, fun _ h => h.elim⟩

/-- C8: in every function IR produced by `ir_generate`, every label named by a `Goto` or an
`IfRel` instruction is defined by exactly one `Label` instruction of the same function. -/
theorem labels_defined_once (tk : Tokens) (root : ASTNode) (st : GenState)
    (prog : IRProgram) (h : ir_generate tk root st = some prog) :
    ∀ f ∈ prog.funcs, ∀ x ∈ label_refs f.instrs, (label_defs f.instrs).count x = 1 := by
  intro f hf x hx
  obtain ⟨fn, st0, _, _, _, hin⟩ := ir_generate_funcs tk root st prog h f hf
  have hinv := (gen_walk_label tk fn.body GenMode.stmt _).of_stmt (LabelInv.initial st0)
  rw [hin] at hx ⊢
  rcases hinv.refs_ok x hx with hd | ⟨k, hk, _⟩
  · exact List.count_eq_one_of_mem hinv.defs_nodup hd
  · exact hk.elim

theorem labels_defined_once_witness :
    ∃ prog, ir_generate sample_tokens (sample_loop sample_tokens) GenState.initial =
        some prog ∧
      ∀ f ∈ prog.funcs, ∀ x ∈ label_refs f.instrs, (label_defs f.instrs).count x = 1 :=
  ⟨_, rfl, labels_defined_once sample_tokens (sample_loop sample_tokens) GenState.initial _
    rfl⟩

/-! ### Temporaries: destinations are fresh -/

theorem op_results_ir_append (st : GenState) (i : IRInstr) :
    op_results (ir_append st i).list =
      op_results st.list ++ (match i.op_result with | some x => [x] | none => []) := by
  simp only [ir_append, op_results, List.filterMap_append]
  congr 1
  simp only [List.filterMap_cons, List.filterMap_nil]
  cases i.op_result <;> rfl

theorem TempInv.temp_alloc {st : GenState} (h : TempInv st) (st1 : GenState)
    (hl : st1.list = st.list) (hc : st.temp_counter ≤ st1.temp_counter) : TempInv st1 := by
  refine ⟨?_, ?_⟩
  · intro x hx
    rw [hl] at hx
    obtain ⟨k, hk, rfl⟩ := h.lt x hx
    exact ⟨k, by omega, rfl⟩
  · rw [hl]; exact h.nodup

theorem TempInv.temp_plain {st : GenState} (h : TempInv st) (i : IRInstr)
    (hi : i.op_result = none) : TempInv (ir_append st i) := by
  have e : op_results (ir_append st i).list = op_results st.list := by
    rw [op_results_ir_append, hi]; simp
  exact ⟨by rw [e]; exact h.lt, by rw [e]; exact h.nodup⟩

/-- Appending an instruction whose destination is the temporary just allocated. -/
theorem TempInv.emit {st : GenState} (h : TempInv st) (i : IRInstr)
    (hi : i.op_result = some (temp_name st.temp_counter)) :
    TempInv (ir_append (ir_new_temp st).2 i) := by
  have e : op_results (ir_append (ir_new_temp st).2 i).list =
      op_results st.list ++ [temp_name st.temp_counter] := by
    rw [op_results_ir_append, hi]; rfl
  refine ⟨?_, ?_⟩
  · rw [e]
    intro x hx
    rcases List.mem_append.1 hx with hx | hx
    · obtain ⟨k, hk, rfl⟩ := h.lt x hx
      exact ⟨k, by simp only [ir_append, ir_new_temp]; omega, rfl⟩
    · rw [List.mem_singleton] at hx
      exact ⟨st.temp_counter, by simp [ir_append, ir_new_temp], hx⟩
  · rw [e]
    refine List.Nodup.append h.nodup (List.nodup_singleton _) ?_
    intro x hx1 hx2
    rw [List.mem_singleton] at hx2
    subst hx2
    obtain ⟨k, hk, hkx⟩ := h.lt _ hx1
    have := temp_name_injective hkx
    omega

theorem TempInv.temp_ite {c : Prop} [Decidable c] {a b : GenState}
    (ha : c → TempInv a) (hb : ¬ c → TempInv b) : TempInv (if c then a else b) := by
  split_ifs with hc
  · exact ha hc
  · exact hb hc

theorem TempInv.temp_label {st : GenState} (h : TempInv st) (st1 : GenState)
    (hl : st1.list = st.list) (hc : st1.temp_counter = st.temp_counter) : TempInv st1 :=
  h.temp_alloc st1 hl (by omega)

theorem TempInv.temp_branch {st : GenState} (h : TempInv st) (place : IROperand)
    (t f : String) (line : Int) : TempInv (branch_on_nonzero st place t f line) :=
  (h.temp_plain _ (by rfl)).temp_plain _ (by rfl)

theorem gen_cond_logical_temp (tk : Tokens)
    (sub : Child → GenMode → GenState → GenState × IROperand) (node : ASTNode)
    (hsub : ∀ ch mode st1, TempInv st1 → TempInv (sub ch mode st1).1)
    (t f : String) (st : GenState) (h : TempInv st) :
    TempInv (gen_cond_logical tk sub node t f st) := by
  have h1 : TempInv (ir_new_label st).2 := h.temp_label _ rfl rfl
  unfold gen_cond_logical
  split_ifs
  · exact hsub _ _ _ ((hsub _ _ _ h1).temp_plain _ (by rfl))
  · exact hsub _ _ _ ((hsub _ _ _ h1).temp_plain _ (by rfl))

theorem gen_expr_temp (tk : Tokens)
    (sub : Child → GenMode → GenState → GenState × IROperand) (node : ASTNode)
    (hsub : ∀ ch mode st1, TempInv st1 → TempInv (sub ch mode st1).1)
    (st : GenState) (h : TempInv st) : TempInv (gen_expr tk sub node st).1 := by
  unfold gen_expr
  split
  · exact h
  · exact h
  · exact h
  · exact h
  · split_ifs
    · have h1 : TempInv (ir_new_label (ir_new_label (ir_new_label (ir_new_temp st).2).2).2).2 :=
        h.temp_alloc _ (by rfl) (by simp only [ir_new_label, ir_new_temp]; omega)
      have h2 := gen_cond_logical_temp tk sub node hsub
        (ir_new_label (ir_new_temp st).2).1
        (ir_new_label (ir_new_label (ir_new_temp st).2).2).1 _
        (h1.temp_plain (ir_make_assign (some (ir_new_temp st).1) (ir_op_const 0) node.line_number)
          rfl)
      exact ((((h2.temp_plain _ (by rfl)).temp_plain _ (by rfl)).temp_plain _ (by rfl)).temp_plain _ (by rfl)).temp_plain _ (by rfl)
    · have h2 := hsub Child.right GenMode.expr _ (hsub Child.left GenMode.expr st h)
      have h3 : TempInv (ir_new_label (ir_new_label (ir_new_temp
          (sub Child.right GenMode.expr (sub Child.left GenMode.expr st).1).1).2).2).2 :=
        h2.temp_alloc _ (by rfl) (by simp only [ir_new_label, ir_new_temp]; omega)
      exact (((((h3.temp_plain _ (by rfl)).temp_plain _ (by rfl)).temp_plain _ (by rfl)).temp_plain _ (by rfl)).temp_plain _ (by rfl)).temp_plain _ (by rfl)
    · have h2 := hsub Child.right GenMode.expr _ (hsub Child.left GenMode.expr st h)
      exact h2.emit _ (by rfl)
  · exact (hsub Child.left GenMode.expr st h).emit _ (by rfl)
  · exact (hsub Child.right GenMode.expr st h).temp_plain _ (by rfl)
  · have h1 := hsub Child.left (GenMode.args node.line_number) st h
    split_ifs
    · exact h1.temp_plain _ (by rfl)
    · exact h1.emit _ (by rfl)
  · exact h

theorem gen_cond_temp (tk : Tokens)
    (sub : Child → GenMode → GenState → GenState × IROperand)
    (self_expr : GenState → GenState × IROperand) (node : ASTNode)
    (hsub : ∀ ch mode st1, TempInv st1 → TempInv (sub ch mode st1).1)
    (hself : ∀ st1, TempInv st1 → TempInv (self_expr st1).1)
    (t f : String) (st : GenState) (h : TempInv st) :
    TempInv (gen_cond tk sub self_expr node t f st) := by
  have hplace : TempInv (branch_on_nonzero (self_expr st).1 (self_expr st).2 t f
      node.line_number) := (hself st h).temp_branch _ _ _ _
  unfold gen_cond
  split
  · split_ifs <;> exact h.temp_plain _ (by rfl)
  · split_ifs <;> exact h.temp_plain _ (by rfl)
  · exact h.temp_branch _ _ _ _
  · split_ifs
    · exact gen_cond_logical_temp tk sub node hsub t f st h
    · exact ((hsub Child.right GenMode.expr _ (hsub Child.left GenMode.expr st h)).temp_plain _
        (by rfl)).temp_plain _ (by rfl)
    · exact hplace
  · split_ifs
    · exact hsub _ _ _ h
    · exact hplace
  · exact hplace

theorem gen_stmt_temp
    (sub : Child → GenMode → GenState → GenState × IROperand)
    (self_expr : GenState → GenState × IROperand) (node : ASTNode)
    (hsub : ∀ ch mode st1, TempInv st1 → TempInv (sub ch mode st1).1)
    (hself : ∀ st1, TempInv st1 → TempInv (self_expr st1).1)
    (st : GenState) (h : TempInv st) : TempInv (gen_stmt sub self_expr node st) := by
  have h3 : TempInv (ir_new_label (ir_new_label (ir_new_label st).2).2).2 :=
    h.temp_label _ rfl rfl
  unfold gen_stmt
  split
  · exact h
  · exact h
  · exact hsub _ _ _ h
  · have h4 := hsub Child.left GenMode.stmt _
      ((hsub Child.cond (GenMode.cond (ir_new_label st).1
        (if node.right.isNull then (ir_new_label (ir_new_label (ir_new_label st).2).2).1
          else (ir_new_label (ir_new_label st).2).1) node.line_number) _ h3).temp_plain
        (ir_make_label (some (ir_new_label st).1) node.line_number) rfl)
    have h5 := TempInv.temp_ite (c := node.right.isNull = true) (fun _ => h4)
      (fun _ => hsub Child.right GenMode.stmt _
        ((h4.temp_plain (ir_make_goto (some (ir_new_label (ir_new_label (ir_new_label st).2).2).1)
            node.line_number) rfl).temp_plain
          (ir_make_label (some (ir_new_label (ir_new_label st).2).1) node.line_number) rfl))
    exact h5.temp_plain _ (by rfl)
  · have h4 := hsub Child.cond (GenMode.cond (ir_new_label (ir_new_label st).2).1
      (ir_new_label (ir_new_label (ir_new_label st).2).2).1 node.line_number) _
      (h3.temp_plain (ir_make_label (some (ir_new_label st).1) node.line_number) rfl)
    have h5 := hsub Child.body GenMode.stmt _
      (h4.temp_plain (ir_make_label (some (ir_new_label (ir_new_label st).2).1) node.line_number)
        rfl)
    exact (h5.temp_plain _ (by rfl)).temp_plain _ (by rfl)
  · have h4 := TempInv.temp_ite (c := ¬ node.init.isNull ∧ node.init.type ≠ NodeType.NODE_EMPTY)
      (fun _ => hsub Child.init GenMode.stmt _ h3) (fun _ => h3)
    have h5 := h4.temp_plain (ir_make_label (some (ir_new_label st).1) node.line_number) rfl
    have h6 := TempInv.temp_ite (c := ¬ node.cond.isNull ∧ node.cond.type ≠ NodeType.NODE_EMPTY)
      (fun _ => hsub Child.cond (GenMode.cond (ir_new_label (ir_new_label st).2).1
        (ir_new_label (ir_new_label (ir_new_label st).2).2).1 node.line_number) _ h5)
      (fun _ => h5.temp_plain (ir_make_goto (some (ir_new_label (ir_new_label st).2).1)
        node.line_number) rfl)
    have h7 := hsub Child.body GenMode.stmt _
      (h6.temp_plain (ir_make_label (some (ir_new_label (ir_new_label st).2).1) node.line_number)
        rfl)
    have h8 := TempInv.temp_ite (c := node.incr.isNull = true) (fun _ => h7)
      (fun _ => hsub Child.incr GenMode.expr _ h7)
    exact (h8.temp_plain _ (by rfl)).temp_plain _ (by rfl)
  · split_ifs
    · exact h.temp_plain _ (by rfl)
    · exact (hsub Child.left GenMode.expr st h).temp_plain _ (by rfl)
  · exact hself st h
  · split_ifs
    · exact h
    · exact (hsub Child.right GenMode.expr st h).temp_plain _ (by rfl)
  · exact hself st h

/-- Every call of the generator keeps the invariant on destinations. -/
theorem gen_walk_temp (tk : Tokens) (n : ASTNode) (mode : GenMode) (st : GenState) :
    TempInv st → TempInv (gen_walk tk n mode st).1 := by
  refine gen_walk_induction tk (fun _ _ st res => TempInv st → TempInv res.1)
    ?_ ?_ ?_ ?_ ?_ ?_ n mode st
  · intro mode st h
    rw [gen_walk_null]
    cases mode with
    | cond t f line => exact h.temp_plain _ (by rfl)
    | expr => exact h
    | stmt => exact h
    | stmts => exact h
    | args line => exact h
  · intro sub node st hsub h
    exact gen_expr_temp tk sub node hsub st h
  · intro sub node t f line st hsub hself h
    exact gen_cond_temp tk sub _ node hsub hself t f st h
  · intro sub node st hsub hself h
    exact gen_stmt_temp sub _ node hsub hself st h
  · intro node st r1 r2 h1 h2 h
    exact h2 (h1 h)
  · intro node line st a r h1 h2 h
    exact h2 ((h1 h).temp_plain _ (by rfl))

theorem TempInv.temp_initial (st : GenState) : TempInv (gen_func_start st) :=
  ⟨by simp [op_results, gen_func_start], by simp [op_results, gen_func_start]⟩

/-! ### Temporaries: assigned before they are read -/

theorem assigned_names_append (l1 l2 : List IRInstr) :
    assigned_names (l1 ++ l2) = assigned_names l1 ++ assigned_names l2 := by
  simp [assigned_names, List.filterMap_append]

theorem assigned_names_mono {l1 l2 : List IRInstr} (h : l1 <+: l2) {x : String}
    (hx : x ∈ assigned_names l1) : x ∈ assigned_names l2 := by
  obtain ⟨t, rfl⟩ := h
  rw [assigned_names_append]
  exact List.mem_append_left _ hx

theorem OpOk.op_mono {op : IROperand} {l1 l2 : List IRInstr} (h : OpOk op l1) (hp : l1 <+: l2) :
    OpOk op l2 :=
  fun x hx ht => assigned_names_mono hp (h x hx ht)

theorem OpOk.const (v : Int) (l : List IRInstr) : OpOk (ir_op_const v) l := by
  intro x hx
  simp [ir_op_const] at hx

theorem OpOk.of_not_temp {s : Option String} (l : List IRInstr)
    (h : ∀ x, s = some x → ¬ is_temp_name x) : OpOk (ir_op_name s) l :=
  fun x hx ht => absurd ht (h x hx)

theorem UseStep.refl (st : GenState) : UseStep st st := ⟨List.prefix_refl _, id⟩

theorem UseStep.trans {a b c : GenState} (h1 : UseStep a b) (h2 : UseStep b c) :
    UseStep a c :=
  ⟨h1.1.trans h2.1, fun h => h2.2 (h1.2 h)⟩

theorem UseStep.use_alloc (st st1 : GenState) (hl : st1.list = st.list) : UseStep st st1 := by
  unfold UseStep
  rw [hl]
  exact ⟨List.prefix_refl _, id⟩

theorem append_singleton_eq {α : Type} {l l1 l2 : List α} {i j : α}
    (h : l ++ [i] = l1 ++ j :: l2) :
    (l1 = l ∧ j = i ∧ l2 = []) ∨ ∃ l3, l = l1 ++ j :: l3 := by
  rcases List.append_eq_append_iff.1 h with ⟨a, h1, h2⟩ | ⟨c, h1, h2⟩
  · cases a with
    | nil =>
      simp only [List.nil_append, List.cons.injEq] at h2
      exact Or.inl ⟨by simpa using h1, h2.1.symm, h2.2.symm⟩
    | cons a0 a1 =>
      simp only [List.cons_append, List.cons.injEq] at h2
      have := congrArg List.length h2.2
      simp at this
      omega
  · cases c with
    | nil =>
      simp only [List.nil_append, List.cons.injEq] at h2
      exact Or.inl ⟨by simpa using h1.symm, h2.1, h2.2⟩
    | cons c0 c1 =>
      simp only [List.cons_append, List.cons.injEq] at h2
      exact Or.inr ⟨c1, by rw [h1, h2.1]⟩

/-- Appending an instruction whose temporaries are all assigned already. -/
theorem UseStep.append (st : GenState) (i : IRInstr)
    (hi : temps_defined_before_use st.list →
      ∀ x ∈ i.operand_names, is_temp_name x → x ∈ assigned_names st.list) :
    UseStep st (ir_append st i) := by
  refine ⟨List.prefix_append _ _, ?_⟩
  intro h l1 j l2 heq x hx ht
  simp only [ir_append] at heq
  rcases append_singleton_eq heq with ⟨rfl, rfl, _⟩ | ⟨l3, hl3⟩
  · exact hi h x hx ht
  · exact h l1 j l3 hl3 x hx ht

theorem mem_assigned_append_self (st : GenState) (i : IRInstr) (x : String)
    (h : i.result = some x) : x ∈ assigned_names (ir_append st i).list := by
  simp only [ir_append, assigned_names_append]
  apply List.mem_append_right
  simp [assigned_names, h]

theorem mem_operand_names_assign {x : String} {dst : Option String} {src : IROperand}
    {line : Int} : x ∈ (ir_make_assign dst src line).operand_names ↔ src.name = some x := by
  simp [IRInstr.operand_names, ir_make_assign, IRInstr.blank, IROperand.zero, eq_comm]

theorem mem_operand_names_binop {x : String} {dst : Option String} {l r : IROperand}
    {op : Int} {line : Int} :
    x ∈ (ir_make_binop dst l r op line).operand_names ↔ l.name = some x ∨ r.name = some x := by
  simp [IRInstr.operand_names, ir_make_binop, IRInstr.blank, IROperand.zero, eq_comm]

theorem mem_operand_names_unop {x : String} {dst : Option String} {src : IROperand}
    {op : Int} {line : Int} :
    x ∈ (ir_make_unop dst src op line).operand_names ↔ src.name = some x := by
  simp [IRInstr.operand_names, ir_make_unop, IRInstr.blank, IROperand.zero, eq_comm]

theorem mem_operand_names_param {x : String} {src : IROperand} {line : Int} :
    x ∈ (ir_make_param src line).operand_names ↔ src.name = some x := by
  simp [IRInstr.operand_names, ir_make_param, IRInstr.blank, IROperand.zero, eq_comm]

theorem mem_operand_names_return_val {x : String} {src : IROperand} {line : Int} :
    x ∈ (ir_make_return_val src line).operand_names ↔ src.name = some x := by
  simp [IRInstr.operand_names, ir_make_return_val, IRInstr.blank, IROperand.zero, eq_comm]

theorem mem_operand_names_if {x : String} {l r : IROperand} {rel : IRRelop}
    {lbl : Option String} {line : Int} :
    x ∈ (ir_make_if l r rel lbl line).operand_names ↔ l.name = some x ∨ r.name = some x := by
  simp [IRInstr.operand_names, ir_make_if, IRInstr.blank, IROperand.zero, eq_comm]

/-- Appending an instruction that reads no name. -/
theorem UseStep.append_plain (st : GenState) (i : IRInstr) (hi : i.operand_names = []) :
    UseStep st (ir_append st i) :=
  UseStep.append st i (by intro _ x hx; rw [hi] at hx; cases hx)

theorem UseStep.use_goto (st : GenState) (lbl : Option String) (line : Int) :
    UseStep st (ir_append st (ir_make_goto lbl line)) :=
  UseStep.append_plain _ _ rfl

theorem UseStep.use_label (st : GenState) (lbl : Option String) (line : Int) :
    UseStep st (ir_append st (ir_make_label lbl line)) :=
  UseStep.append_plain _ _ rfl

theorem UseStep.assign_const (st : GenState) (dst : Option String) (v : Int) (line : Int) :
    UseStep st (ir_append st (ir_make_assign dst (ir_op_const v) line)) :=
  UseStep.append_plain _ _ rfl

theorem UseStep.use_if_goto (st : GenState) (l r : IROperand) (rel : IRRelop)
    (lbl : Option String) (line : Int) (hl : OpOk l st.list) (hr : OpOk r st.list) :
    UseStep st (ir_append st (ir_make_if l r rel lbl line)) :=
  UseStep.append _ _ (by
    intro _ x hx ht
    rcases mem_operand_names_if.1 hx with hx | hx
    · exact hl x hx ht
    · exact hr x hx ht)

theorem UseStep.use_branch (st : GenState) (place : IROperand) (t f : String) (line : Int)
    (hp : OpOk place st.list) : UseStep st (branch_on_nonzero st place t f line) :=
  (UseStep.use_if_goto st place (ir_op_const 0) _ _ line hp (OpOk.const 0 _)).trans
    (UseStep.use_goto _ _ _)

theorem UseStep.use_ite {c : Prop} [Decidable c] {st a b : GenState}
    (ha : c → UseStep st a) (hb : ¬ c → UseStep st b) : UseStep st (if c then a else b) := by
  split_ifs with hc
  · exact ha hc
  · exact hb hc

/-- The value of an expression lives in a temporary assigned on the way. -/
theorem UseStep.of_mid {st st1 st2 : GenState} {t : String} (h1 : UseStep st st1)
    (hm : t ∈ assigned_names st1.list) (h2 : UseStep st1 st2) :
    UseStep st st2 ∧ OpOk (ir_op_name (some t)) st2.list := by
  refine ⟨h1.trans h2, ?_⟩
  intro x hx _
  simp only [ir_op_name, Option.some.injEq] at hx
  subst hx
  exact assigned_names_mono h2.1 hm

/-- The value of an expression lives in the destination of the last instruction. -/
theorem UseStep.of_last {st st1 : GenState} {t : Option String} (i : IRInstr)
    (h1 : UseStep st (ir_append st1 i)) (hr : i.result = t) :
    UseStep st (ir_append st1 i) ∧ OpOk (ir_op_name t) (ir_append st1 i).list := by
  refine ⟨h1, ?_⟩
  intro x hx _
  simp only [ir_op_name] at hx
  exact mem_assigned_append_self _ _ _ (hr.trans hx)

theorem names_str_val {n : ASTNode} {x : String} (h : n.str_val = some x) : x ∈ n.names := by
  cases n with
  | null => simp [ASTNode.str_val] at h
  | node d l r c b ini inc p nx =>
    simp only [ASTNode.str_val] at h
    simp [ASTNode.names, h]

theorem names_child (ch : Child) {n : ASTNode} {x : String}
    (h : x ∈ (child_of ch n).names) : x ∈ n.names := by
  cases n with
  | null => cases ch <;> simp [child_of, ASTNode.left, ASTNode.right, ASTNode.cond,
      ASTNode.body, ASTNode.init, ASTNode.incr, ASTNode.names] at h
  | node d l r c b ini inc p nx =>
    cases ch <;>
      simp only [child_of, ASTNode.left, ASTNode.right, ASTNode.cond, ASTNode.body,
        ASTNode.init, ASTNode.incr] at h <;>
      simp [ASTNode.names, h]

theorem names_next {n : ASTNode} {x : String} (h : x ∈ n.next.names) : x ∈ n.names := by
  cases n with
  | null => simp [ASTNode.next, ASTNode.names] at h
  | node d l r c b ini inc p nx =>
    simp only [ASTNode.next] at h
    simp [ASTNode.names, h]

theorem names_siblings {root fn : ASTNode} (hfn : fn ∈ siblings root) {x : String}
    (h : x ∈ fn.names) : x ∈ root.names := by
  induction root with
  | null => simp [siblings] at hfn
  | node d l r c b ini inc p nx _ _ _ _ _ _ _ ihnx =>
    simp only [siblings, List.mem_cons] at hfn
    rcases hfn with rfl | hfn
    · exact h
    · have := ihnx hfn
      simp [ASTNode.names, this]

theorem gen_cond_logical_use (tk : Tokens)
    (sub : Child → GenMode → GenState → GenState × IROperand) (node : ASTNode)
    (hsub : ∀ ch mode st1, UseStep st1 (sub ch mode st1).1 ∧
      OpOk (sub ch mode st1).2 (sub ch mode st1).1.list)
    (t f : String) (st : GenState) : UseStep st (gen_cond_logical tk sub node t f st) := by
  unfold gen_cond_logical
  split_ifs
  · exact (UseStep.use_alloc st (ir_new_label st).2 (by rfl)).trans
      ((hsub _ _ _).1.trans ((UseStep.use_label _ _ _).trans (hsub _ _ _).1))
  · exact (UseStep.use_alloc st (ir_new_label st).2 (by rfl)).trans
      ((hsub _ _ _).1.trans ((UseStep.use_label _ _ _).trans (hsub _ _ _).1))

theorem gen_expr_use (tk : Tokens)
    (sub : Child → GenMode → GenState → GenState × IROperand) (node : ASTNode)
    (hsub : ∀ ch mode st1, UseStep st1 (sub ch mode st1).1 ∧
      OpOk (sub ch mode st1).2 (sub ch mode st1).1.list)
    (hname : ∀ x, node.str_val = some x → ¬ is_temp_name x)
    (st : GenState) :
    UseStep st (gen_expr tk sub node st).1 ∧
      OpOk (gen_expr tk sub node st).2 (gen_expr tk sub node st).1.list := by
  have hl := hsub Child.left GenMode.expr st
  have hr := hsub Child.right GenMode.expr (sub Child.left GenMode.expr st).1
  unfold gen_expr
  split
  · exact ⟨UseStep.refl _, OpOk.const _ _⟩
  · exact ⟨UseStep.refl _, OpOk.const _ _⟩
  · exact ⟨UseStep.refl _, OpOk.const _ _⟩
  · exact ⟨UseStep.refl _, OpOk.of_not_temp _ hname⟩
  · split_ifs
    · exact UseStep.of_mid
        ((UseStep.use_alloc st (ir_new_label (ir_new_label (ir_new_label (ir_new_temp st).2).2).2).2
          (by rfl)).trans (UseStep.assign_const _ (some (ir_new_temp st).1) 0 node.line_number))
        (mem_assigned_append_self _ _ _ (by rfl))
        ((gen_cond_logical_use tk sub node hsub _ _ _).trans
          ((UseStep.use_label _ _ _).trans ((UseStep.assign_const _ _ _ _).trans
            ((UseStep.use_goto _ _ _).trans ((UseStep.use_label _ _ _).trans (UseStep.use_label _ _ _))))))
    · have h0 : UseStep (sub Child.right GenMode.expr (sub Child.left GenMode.expr st).1).1
          (ir_append (ir_new_label (ir_new_label (ir_new_temp
            (sub Child.right GenMode.expr (sub Child.left GenMode.expr st).1).1).2).2).2
            (ir_make_assign (some (ir_new_temp
              (sub Child.right GenMode.expr (sub Child.left GenMode.expr st).1).1).1)
              (ir_op_const 0) node.line_number)) :=
        (UseStep.use_alloc _ (ir_new_label (ir_new_label (ir_new_temp
            (sub Child.right GenMode.expr (sub Child.left GenMode.expr st).1).1).2).2).2
          (by rfl)).trans (UseStep.assign_const _ _ _ _)
      exact UseStep.of_mid ((hl.1.trans hr.1).trans h0)
        (mem_assigned_append_self _ _ _ (by rfl))
        ((UseStep.use_if_goto _ _ _ _ _ _ ((hl.2.op_mono hr.1.1).op_mono h0.1) (hr.2.op_mono h0.1)).trans
          ((UseStep.use_goto _ _ _).trans ((UseStep.use_label _ _ _).trans
            ((UseStep.assign_const _ _ _ _).trans (UseStep.use_label _ _ _)))))
    · refine UseStep.of_last _ ((hl.1.trans hr.1).trans
        ((UseStep.use_alloc _ (ir_new_temp
            (sub Child.right GenMode.expr (sub Child.left GenMode.expr st).1).1).2
          (by rfl)).trans (UseStep.append _ _ ?_))) (by rfl)
      intro _ x hx ht
      rcases mem_operand_names_binop.1 hx with hx | hx
      · exact (hl.2.op_mono hr.1.1) x hx ht
      · exact hr.2 x hx ht
  · refine UseStep.of_last _ (hl.1.trans
      ((UseStep.use_alloc _ (ir_new_temp (sub Child.left GenMode.expr st).1).2
        (by rfl)).trans (UseStep.append _ _ ?_))) (by rfl)
    intro _ x hx ht
    exact hl.2 x (mem_operand_names_unop.1 hx) ht
  · have hv := hsub Child.right GenMode.expr st
    refine UseStep.of_last _ (hv.1.trans (UseStep.append _ _ ?_)) (by rfl)
    intro _ x hx ht
    exact hv.2 x (mem_operand_names_assign.1 hx) ht
  · have ha := hsub Child.left (GenMode.args node.line_number) st
    split_ifs
    · exact ⟨ha.1.trans (UseStep.append_plain _ _ (by rfl)), OpOk.const _ _⟩
    · exact UseStep.of_last _ (ha.1.trans
        ((UseStep.use_alloc _ (ir_new_temp
            (sub Child.left (GenMode.args node.line_number) st).1).2
          (by rfl)).trans (UseStep.append_plain _ _ (by rfl)))) (by rfl)
  · exact ⟨UseStep.refl _, OpOk.const _ _⟩

theorem gen_cond_use (tk : Tokens)
    (sub : Child → GenMode → GenState → GenState × IROperand)
    (self_expr : GenState → GenState × IROperand) (node : ASTNode)
    (hsub : ∀ ch mode st1, UseStep st1 (sub ch mode st1).1 ∧
      OpOk (sub ch mode st1).2 (sub ch mode st1).1.list)
    (hself : ∀ st1, UseStep st1 (self_expr st1).1 ∧
      OpOk (self_expr st1).2 (self_expr st1).1.list)
    (hname : ∀ x, node.str_val = some x → ¬ is_temp_name x)
    (t f : String) (st : GenState) : UseStep st (gen_cond tk sub self_expr node t f st) := by
  have hplace : UseStep st (branch_on_nonzero (self_expr st).1 (self_expr st).2 t f
      node.line_number) := (hself st).1.trans (UseStep.use_branch _ _ _ _ _ (hself st).2)
  have hl := hsub Child.left GenMode.expr st
  have hr := hsub Child.right GenMode.expr (sub Child.left GenMode.expr st).1
  unfold gen_cond
  split
  · split_ifs <;> exact UseStep.use_goto _ _ _
  · split_ifs <;> exact UseStep.use_goto _ _ _
  · exact UseStep.use_branch _ _ _ _ _ (OpOk.of_not_temp _ hname)
  · split_ifs
    · exact gen_cond_logical_use tk sub node hsub t f st
    · exact (hl.1.trans hr.1).trans
        ((UseStep.use_if_goto _ _ _ _ _ _ (hl.2.op_mono hr.1.1) hr.2).trans (UseStep.use_goto _ _ _))
    · exact hplace
  · split_ifs
    · exact (hsub _ _ _).1
    · exact hplace
  · exact hplace

theorem gen_stmt_use
    (sub : Child → GenMode → GenState → GenState × IROperand)
    (self_expr : GenState → GenState × IROperand) (node : ASTNode)
    (hsub : ∀ ch mode st1, UseStep st1 (sub ch mode st1).1 ∧
      OpOk (sub ch mode st1).2 (sub ch mode st1).1.list)
    (hself : ∀ st1, UseStep st1 (self_expr st1).1 ∧
      OpOk (self_expr st1).2 (self_expr st1).1.list)
    (st : GenState) : UseStep st (gen_stmt sub self_expr node st) := by
  have h3 : UseStep st (ir_new_label (ir_new_label (ir_new_label st).2).2).2 :=
    UseStep.use_alloc _ _ (by rfl)
  unfold gen_stmt
  split
  · exact UseStep.refl _
  · exact UseStep.refl _
  · exact (hsub _ _ _).1
  · exact h3.trans ((hsub _ _ _).1.trans ((UseStep.use_label _ _ _).trans
      ((hsub _ _ _).1.trans ((UseStep.use_ite (c := node.right.isNull = true)
        (fun _ => UseStep.refl _)
        (fun _ => (UseStep.use_goto _ _ _).trans ((UseStep.use_label _ _ _).trans
          (hsub _ _ _).1))).trans (UseStep.use_label _ _ _)))))
  · exact h3.trans ((UseStep.use_label _ _ _).trans ((hsub _ _ _).1.trans
      ((UseStep.use_label _ _ _).trans ((hsub _ _ _).1.trans
        ((UseStep.use_goto _ _ _).trans (UseStep.use_label _ _ _))))))
  · exact h3.trans ((UseStep.use_ite
        (c := ¬ node.init.isNull ∧ node.init.type ≠ NodeType.NODE_EMPTY)
        (fun _ => (hsub _ _ _).1) (fun _ => UseStep.refl _)).trans
      ((UseStep.use_label _ _ _).trans ((UseStep.use_ite
          (c := ¬ node.cond.isNull ∧ node.cond.type ≠ NodeType.NODE_EMPTY)
          (fun _ => (hsub _ _ _).1) (fun _ => UseStep.use_goto _ _ _)).trans
        ((UseStep.use_label _ _ _).trans ((hsub _ _ _).1.trans
          ((UseStep.use_ite (c := node.incr.isNull = true) (fun _ => UseStep.refl _)
            (fun _ => (hsub _ _ _).1)).trans
            ((UseStep.use_goto _ _ _).trans (UseStep.use_label _ _ _))))))))
  · split_ifs
    · exact UseStep.append_plain _ _ (by rfl)
    · have hv := hsub Child.left GenMode.expr st
      refine hv.1.trans (UseStep.append _ _ ?_)
      intro _ x hx ht
      exact hv.2 x (mem_operand_names_return_val.1 hx) ht
  · exact (hself st).1
  · split_ifs
    · exact UseStep.refl _
    · have hv := hsub Child.right GenMode.expr st
      refine hv.1.trans (UseStep.append _ _ ?_)
      intro _ x hx ht
      exact hv.2 x (mem_operand_names_assign.1 hx) ht
  · exact (hself st).1

/-- Every call of the generator on a tree without an identifier `t<k>` only appends, keeps
"defined before use", and returns an operand whose temporary is assigned. -/
theorem gen_walk_use (tk : Tokens) (n : ASTNode) (mode : GenMode) (st : GenState) :
    no_temp_identifier n →
      UseStep st (gen_walk tk n mode st).1 ∧
        OpOk (gen_walk tk n mode st).2 (gen_walk tk n mode st).1.list := by
  refine gen_walk_induction tk
    (fun n _ st res => no_temp_identifier n → UseStep st res.1 ∧ OpOk res.2 res.1.list)
    ?_ ?_ ?_ ?_ ?_ ?_ n mode st
  · intro mode st _
    rw [gen_walk_null]
    cases mode with
    | cond t f line => exact ⟨UseStep.use_goto _ _ _, OpOk.const _ _⟩
    | expr => exact ⟨UseStep.refl _, OpOk.const _ _⟩
    | stmt => exact ⟨UseStep.refl _, OpOk.const _ _⟩
    | stmts => exact ⟨UseStep.refl _, OpOk.const _ _⟩
    | args line => exact ⟨UseStep.refl _, OpOk.const _ _⟩
  · intro sub node st hsub hn
    exact gen_expr_use tk sub node
      (fun ch mode st1 => hsub ch mode st1 (fun s hs => hn s (names_child ch hs)))
      (fun x hx => hn x (names_str_val hx)) st
  · intro sub node t f line st hsub hself hn
    exact ⟨gen_cond_use tk sub _ node
      (fun ch mode st1 => hsub ch mode st1 (fun s hs => hn s (names_child ch hs)))
      (fun st1 => hself st1 hn) (fun x hx => hn x (names_str_val hx)) t f st, OpOk.const _ _⟩
  · intro sub node st hsub hself hn
    exact ⟨gen_stmt_use sub _ node
      (fun ch mode st1 => hsub ch mode st1 (fun s hs => hn s (names_child ch hs)))
      (fun st1 => hself st1 hn) st, OpOk.const _ _⟩
  · intro node st r1 r2 h1 h2 hn
    have h2 := h2 (fun s hs => hn s (names_next hs))
    exact ⟨(h1 hn).1.trans h2.1, h2.2⟩
  · intro node line st a r h1 h2 hn
    have h1 := h1 hn
    have h2 := h2 (fun s hs => hn s (names_next hs))
    refine ⟨h1.1.trans ((UseStep.append _ _ ?_).trans h2.1), h2.2⟩
    intro _ x hx ht
    exact h1.2 x (mem_operand_names_param.1 hx) ht

theorem temp_name_head (k : Nat) : (temp_name k).data.head? = some 't' := by
  simp [temp_name, String.data_append]

theorem not_temp_of_head {s : String} (h : s.data.head? ≠ some 't') : ¬ is_temp_name s := by
  rintro ⟨k, rfl⟩
  exact h (temp_name_head k)

theorem temps_defined_initial (st : GenState) :
    temps_defined_before_use (gen_func_start st).list := by
  intro l1 i l2 h
  simp [gen_func_start] at h

/-- C9, amended: in every function IR produced by `ir_generate` from a program in which no
identifier of a function body has the form `t<k>`, every temporary that occurs as an operand
of an instruction is the result of an instruction that appears earlier in the instruction
list of the same function. -/
theorem temps_assigned_before_use (tk : Tokens) (root : ASTNode) (st : GenState)
    (prog : IRProgram) (h : ir_generate tk root st = some prog)
    (hn : ∀ fn ∈ siblings root, no_temp_identifier fn.body) :
    ∀ f ∈ prog.funcs, temps_defined_before_use f.instrs := by
  intro f hf
  obtain ⟨fn, st0, hfn, _, _, hin⟩ := ir_generate_funcs tk root st prog h f hf
  rw [hin]
  exact (gen_walk_use tk fn.body GenMode.stmt _ (hn fn hfn)).1.2 (temps_defined_initial st0)

theorem temps_assigned_before_use_witness :
    ∃ prog, ir_generate sample_tokens (sample_loop sample_tokens) GenState.initial =
        some prog ∧
      (∀ fn ∈ siblings (sample_loop sample_tokens), no_temp_identifier fn.body) ∧
      ∀ f ∈ prog.funcs, temps_defined_before_use f.instrs :=
  have hn : ∀ fn ∈ siblings (sample_loop sample_tokens), no_temp_identifier fn.body :=
    fun fn hfn s hs => not_temp_of_head
      ((by decide : ∀ fn ∈ siblings (sample_loop sample_tokens), ∀ s ∈ fn.body.names,
        s.data.head? ≠ some 't') fn hfn s hs)
  ⟨_, rfl, hn,
    temps_assigned_before_use sample_tokens (sample_loop sample_tokens) GenState.initial _
      rfl hn⟩

/-- C9 as stated fails: `int f(int t0){ return t0 + 1; }` is analysed without error and the
IR of `f` is `t0 := t0 + 1; return t0`, whose first instruction reads the name `t0` that
`ir_new_temp` minted for its own result, with no instruction before it. -/
theorem temps_assigned_counterexample :
    (semantic_analyze sample_capture AnState.initial).1.diagnostics = [] ∧
      (ir_generate sample_tokens (semantic_analyze sample_capture AnState.initial).2
        GenState.initial).map
          (fun prog => prog.funcs.map
            (fun f => f.instrs.map (fun i => (i.kind, i.result, i.operand_names)))) =
        some [[(IROpKind.IR_BINOP, some (temp_name 0), [temp_name 0]),
               (IROpKind.IR_RETURN, none, [temp_name 0])]] ∧
      ∃ prog, ir_generate sample_tokens
          (semantic_analyze sample_capture AnState.initial).2 GenState.initial = some prog ∧
        ∃ f ∈ prog.funcs, ¬ temps_defined_before_use f.instrs := by
  refine ⟨by decide, by decide, _, rfl, _, List.mem_singleton.2 rfl, ?_⟩
  intro hd
  have h0 := hd [] _ _ rfl (temp_name 0) (by decide) ⟨0, rfl⟩
  simp [assigned_names] at h0

/-! ### Temporaries: how they are written -/

theorem writes_append (x : String) (l1 l2 : List IRInstr) :
    writes x (l1 ++ l2) = writes x l1 ++ writes x l2 := by
  simp [writes, List.filter_append]

theorem written_as_temp_congr {x : String} {l1 l2 : List IRInstr}
    (h : writes x l2 = writes x l1) (hw : written_as_temp x l1) : written_as_temp x l2 := by
  unfold written_as_temp at hw ⊢
  rw [h]
  exact hw

theorem writes_single_none (x : String) (i : IRInstr) (hi : i.result ≠ some x) :
    writes x [i] = [] := by
  simp [writes, hi]

theorem writes_single_some (x : String) (i : IRInstr) (hi : i.result = some x) :
    writes x [i] = [i] := by
  simp [writes, hi]

theorem result_of_op_result {i : IRInstr} {x : String} (h : i.op_result = some x) :
    i.result = some x := by
  unfold IRInstr.op_result at h
  split_ifs at h
  exact h

theorem WriteStep.wrefl (st : GenState) : WriteStep st st :=
  ⟨le_refl _, [], by simp, fun k => ⟨fun h => by omega, fun _ => rfl⟩⟩

theorem WriteStep.wtrans {a b c : GenState} (h1 : WriteStep a b) (h2 : WriteStep b c) :
    WriteStep a c := by
  obtain ⟨hc1, e1, hl1, hw1⟩ := h1
  obtain ⟨hc2, e2, hl2, hw2⟩ := h2
  refine ⟨by omega, e1 ++ e2, by rw [hl2, hl1, List.append_assoc], ?_⟩
  intro k
  constructor
  · intro hk
    by_cases hkb : k < b.temp_counter
    · apply written_as_temp_congr _ ((hw1 k).1 ⟨hk.1, hkb⟩)
      rw [writes_append, (hw2 k).2 (by omega), List.append_nil]
    · apply written_as_temp_congr _ ((hw2 k).1 ⟨by omega, hk.2⟩)
      rw [writes_append, (hw1 k).2 (by omega), List.nil_append]
  · intro hk
    rw [writes_append, (hw1 k).2 (by omega), (hw2 k).2 (by omega)]
    rfl

theorem WriteStep.walloc (st st1 : GenState) (hl : st1.list = st.list)
    (hc : st1.temp_counter = st.temp_counter) : WriteStep st st1 :=
  ⟨by omega, [], by simp [hl], fun k => ⟨fun h => by omega, fun _ => rfl⟩⟩

/-- Appending an instruction that writes no temporary. -/
theorem WriteStep.wplain (st : GenState) (i : IRInstr)
    (hi : ∀ k, i.result ≠ some (temp_name k)) : WriteStep st (ir_append st i) :=
  ⟨le_refl _, [i], rfl, fun k =>
    ⟨fun h => by simp only [ir_append] at h; omega, fun _ => writes_single_none _ _ (hi k)⟩⟩

/-- Appending an instruction without a result. -/
theorem WriteStep.wnone (st : GenState) (i : IRInstr) (hi : i.result = none) :
    WriteStep st (ir_append st i) :=
  WriteStep.wplain st i (by intro k h; rw [hi] at h; cases h)

/-- Appending an assignment to a name of the program. -/
theorem WriteStep.wassign (st : GenState) (dst : Option String) (src : IROperand)
    (line : Int) (hd : ∀ x, dst = some x → ¬ is_temp_name x) :
    WriteStep st (ir_append st (ir_make_assign dst src line)) :=
  WriteStep.wplain st _ (fun k h => hd _ h ⟨k, rfl⟩)

/-- Appending a `BinOp`, `UnOp` or `Call` whose destination is the temporary just
allocated. -/
theorem WriteStep.wemit (st : GenState) (i : IRInstr)
    (hi : i.op_result = some (temp_name st.temp_counter)) :
    WriteStep st (ir_append (ir_new_temp st).2 i) := by
  refine ⟨by simp [ir_append, ir_new_temp], [i], rfl, ?_⟩
  intro k
  simp only [ir_append, ir_new_temp]
  constructor
  · intro hk
    have hkc : k = st.temp_counter := by omega
    subst hkc
    exact Or.inl ⟨i, writes_single_some _ _ (result_of_op_result hi), hi⟩
  · intro hk
    apply writes_single_none
    rw [result_of_op_result hi]
    intro h
    have := temp_name_injective (Option.some.inj h)
    omega

/-- The value of a relational or logical expression: `t := 0` on the temporary just
allocated, a step that leaves it alone, and `t := 1` among instructions without a
result. -/
theorem WriteStep.wflag (st st1 st2 st3 : GenState) (line : Int) (post : List IRInstr)
    (hc1 : st1.temp_counter = st.temp_counter + 1)
    (hl1 : st1.list = st.list ++
      [ir_make_assign (some (temp_name st.temp_counter)) (ir_op_const 0) line])
    (h12 : WriteStep st1 st2) (hc3 : st3.temp_counter = st2.temp_counter)
    (hl3 : st3.list = st2.list ++ post)
    (hpost : ∀ x, writes x post =
      writes x [ir_make_assign (some (temp_name st.temp_counter)) (ir_op_const 1) line]) :
    WriteStep st st3 := by
  obtain ⟨hc2, e, hl2, hw⟩ := h12
  refine ⟨by omega,
    [ir_make_assign (some (temp_name st.temp_counter)) (ir_op_const 0) line] ++ e ++ post,
    by rw [hl3, hl2, hl1]; simp, ?_⟩
  intro k
  rw [writes_append, writes_append, hpost]
  by_cases hk : k = st.temp_counter
  · subst hk
    constructor
    · intro _
      right
      refine ⟨line, ?_⟩
      rw [writes_append, writes_append, hpost, (hw _).2 (by omega),
        writes_single_some _ _ rfl, writes_single_some _ _ rfl]
      rfl
    · intro h
      omega
  · have hne : ∀ v, (ir_make_assign (some (temp_name st.temp_counter)) (ir_op_const v)
        line).result ≠ some (temp_name k) := by
      intro v h
      exact hk (temp_name_injective (Option.some.inj h)).symm
    rw [writes_single_none _ _ (hne 0), writes_single_none _ _ (hne 1), List.nil_append,
      List.append_nil]
    constructor
    · intro hk1
      apply written_as_temp_congr _ ((hw k).1 ⟨by omega, by omega⟩)
      rw [writes_append, writes_append, hpost, writes_single_none _ _ (hne 0),
        writes_single_none _ _ (hne 1), List.nil_append, List.append_nil]
    · intro hk1
      exact (hw k).2 (by omega)

theorem WriteStep.wite {c : Prop} [Decidable c] {st a b : GenState}
    (ha : c → WriteStep st a) (hb : ¬ c → WriteStep st b) :
    WriteStep st (if c then a else b) := by
  split_ifs with hc
  · exact ha hc
  · exact hb hc

theorem WriteStep.wbranch (st : GenState) (place : IROperand) (t f : String) (line : Int) :
    WriteStep st (branch_on_nonzero st place t f line) :=
  (WriteStep.wnone st _ (by rfl)).wtrans (WriteStep.wnone _ _ (by rfl))

theorem gen_cond_logical_write (tk : Tokens)
    (sub : Child → GenMode → GenState → GenState × IROperand) (node : ASTNode)
    (hsub : ∀ ch mode st1, WriteStep st1 (sub ch mode st1).1)
    (t f : String) (st : GenState) : WriteStep st (gen_cond_logical tk sub node t f st) := by
  unfold gen_cond_logical
  split_ifs
  · exact (WriteStep.walloc st (ir_new_label st).2 (by rfl) (by rfl)).wtrans
      ((hsub _ _ _).wtrans ((WriteStep.wnone _ _ (by rfl)).wtrans (hsub _ _ _)))
  · exact (WriteStep.walloc st (ir_new_label st).2 (by rfl) (by rfl)).wtrans
      ((hsub _ _ _).wtrans ((WriteStep.wnone _ _ (by rfl)).wtrans (hsub _ _ _)))

theorem gen_expr_write (tk : Tokens)
    (sub : Child → GenMode → GenState → GenState × IROperand) (node : ASTNode)
    (hsub : ∀ ch mode st1, WriteStep st1 (sub ch mode st1).1)
    (hleft : ∀ x, node.left.str_val = some x → ¬ is_temp_name x)
    (st : GenState) : WriteStep st (gen_expr tk sub node st).1 := by
  have hl := hsub Child.left GenMode.expr st
  have hr := hsub Child.right GenMode.expr (sub Child.left GenMode.expr st).1
  unfold gen_expr
  split
  · exact WriteStep.wrefl _
  · exact WriteStep.wrefl _
  · exact WriteStep.wrefl _
  · exact WriteStep.wrefl _
  · split_ifs
    · exact WriteStep.wflag st
        (ir_append (ir_new_label (ir_new_label (ir_new_label (ir_new_temp st).2).2).2).2
          (ir_make_assign (some (ir_new_temp st).1) (ir_op_const 0) node.line_number))
        _ _ node.line_number
        [ir_make_label (some (ir_new_label (ir_new_temp st).2).1) node.line_number,
          ir_make_assign (some (ir_new_temp st).1) (ir_op_const 1) node.line_number,
          ir_make_goto (some (ir_new_label (ir_new_label (ir_new_label
            (ir_new_temp st).2).2).2).1) node.line_number,
          ir_make_label (some (ir_new_label (ir_new_label (ir_new_temp st).2).2).1)
            node.line_number,
          ir_make_label (some (ir_new_label (ir_new_label (ir_new_label
            (ir_new_temp st).2).2).2).1) node.line_number]
        (by rfl) (by rfl)
        (gen_cond_logical_write tk sub node hsub _ _ _) (by rfl)
        (by simp [ir_append])
        (by intro x; rfl)
    · exact (hl.wtrans hr).wtrans (WriteStep.wflag _
        (ir_append (ir_new_label (ir_new_label (ir_new_temp
            (sub Child.right GenMode.expr (sub Child.left GenMode.expr st).1).1).2).2).2
          (ir_make_assign (some (ir_new_temp
              (sub Child.right GenMode.expr (sub Child.left GenMode.expr st).1).1).1)
            (ir_op_const 0) node.line_number))
        _ _ node.line_number
        [ir_make_if (sub Child.left GenMode.expr st).2
            (sub Child.right GenMode.expr (sub Child.left GenMode.expr st).1).2
            (ast_relop_to_ir tk node.int_val)
            (some (ir_new_label (ir_new_temp
              (sub Child.right GenMode.expr (sub Child.left GenMode.expr st).1).1).2).1)
            node.line_number,
          ir_make_goto (some (ir_new_label (ir_new_label (ir_new_temp
              (sub Child.right GenMode.expr (sub Child.left GenMode.expr st).1).1).2).2).1)
            node.line_number,
          ir_make_label (some (ir_new_label (ir_new_temp
              (sub Child.right GenMode.expr (sub Child.left GenMode.expr st).1).1).2).1)
            node.line_number,
          ir_make_assign (some (ir_new_temp
              (sub Child.right GenMode.expr (sub Child.left GenMode.expr st).1).1).1)
            (ir_op_const 1) node.line_number,
          ir_make_label (some (ir_new_label (ir_new_label (ir_new_temp
              (sub Child.right GenMode.expr (sub Child.left GenMode.expr st).1).1).2).2).1)
            node.line_number]
        (by rfl) (by rfl) (WriteStep.wrefl _) (by rfl) (by simp [ir_append])
        (by intro x; rfl))
    · exact (hl.wtrans hr).wtrans (WriteStep.wemit _ _ (by rfl))
  · exact hl.wtrans (WriteStep.wemit _ _ (by rfl))
  · exact (hsub Child.right GenMode.expr st).wtrans (WriteStep.wassign _ _ _ _ hleft)
  · have ha := hsub Child.left (GenMode.args node.line_number) st
    split_ifs
    · exact ha.wtrans (WriteStep.wnone _ _ (by rfl))
    · exact ha.wtrans (WriteStep.wemit _ _ (by rfl))
  · exact WriteStep.wrefl _

theorem gen_cond_write (tk : Tokens)
    (sub : Child → GenMode → GenState → GenState × IROperand)
    (self_expr : GenState → GenState × IROperand) (node : ASTNode)
    (hsub : ∀ ch mode st1, WriteStep st1 (sub ch mode st1).1)
    (hself : ∀ st1, WriteStep st1 (self_expr st1).1)
    (t f : String) (st : GenState) : WriteStep st (gen_cond tk sub self_expr node t f st) := by
  have hplace : WriteStep st (branch_on_nonzero (self_expr st).1 (self_expr st).2 t f
      node.line_number) := (hself st).wtrans (WriteStep.wbranch _ _ _ _ _)
  have hl := hsub Child.left GenMode.expr st
  have hr := hsub Child.right GenMode.expr (sub Child.left GenMode.expr st).1
  unfold gen_cond
  split
  · split_ifs <;> exact WriteStep.wnone _ _ (by rfl)
  · split_ifs <;> exact WriteStep.wnone _ _ (by rfl)
  · exact WriteStep.wbranch _ _ _ _ _
  · split_ifs
    · exact gen_cond_logical_write tk sub node hsub t f st
    · exact (hl.wtrans hr).wtrans
        ((WriteStep.wnone _ _ (by rfl)).wtrans (WriteStep.wnone _ _ (by rfl)))
    · exact hplace
  · split_ifs
    · exact hsub _ _ _
    · exact hplace
  · exact hplace

theorem gen_stmt_write
    (sub : Child → GenMode → GenState → GenState × IROperand)
    (self_expr : GenState → GenState × IROperand) (node : ASTNode)
    (hsub : ∀ ch mode st1, WriteStep st1 (sub ch mode st1).1)
    (hself : ∀ st1, WriteStep st1 (self_expr st1).1)
    (hname : ∀ x, node.str_val = some x → ¬ is_temp_name x)
    (st : GenState) : WriteStep st (gen_stmt sub self_expr node st) := by
  have h3 : WriteStep st (ir_new_label (ir_new_label (ir_new_label st).2).2).2 :=
    WriteStep.walloc _ _ (by rfl) (by rfl)
  unfold gen_stmt
  split
  · exact WriteStep.wrefl _
  · exact WriteStep.wrefl _
  · exact hsub _ _ _
  · exact h3.wtrans ((hsub _ _ _).wtrans ((WriteStep.wnone _ _ (by rfl)).wtrans
      ((hsub _ _ _).wtrans ((WriteStep.wite (c := node.right.isNull = true)
        (fun _ => WriteStep.wrefl _)
        (fun _ => (WriteStep.wnone _ _ (by rfl)).wtrans ((WriteStep.wnone _ _ (by rfl)).wtrans
          (hsub _ _ _)))).wtrans (WriteStep.wnone _ _ (by rfl))))))
  · exact h3.wtrans ((WriteStep.wnone _ _ (by rfl)).wtrans ((hsub _ _ _).wtrans
      ((WriteStep.wnone _ _ (by rfl)).wtrans ((hsub _ _ _).wtrans
        ((WriteStep.wnone _ _ (by rfl)).wtrans (WriteStep.wnone _ _ (by rfl)))))))
  · exact h3.wtrans ((WriteStep.wite
        (c := ¬ node.init.isNull ∧ node.init.type ≠ NodeType.NODE_EMPTY)
        (fun _ => hsub _ _ _) (fun _ => WriteStep.wrefl _)).wtrans
      ((WriteStep.wnone _ _ (by rfl)).wtrans ((WriteStep.wite
          (c := ¬ node.cond.isNull ∧ node.cond.type ≠ NodeType.NODE_EMPTY)
          (fun _ => hsub _ _ _) (fun _ => WriteStep.wnone _ _ (by rfl))).wtrans
        ((WriteStep.wnone _ _ (by rfl)).wtrans ((hsub _ _ _).wtrans
          ((WriteStep.wite (c := node.incr.isNull = true) (fun _ => WriteStep.wrefl _)
            (fun _ => hsub _ _ _)).wtrans
            ((WriteStep.wnone _ _ (by rfl)).wtrans (WriteStep.wnone _ _ (by rfl)))))))))
  · split_ifs
    · exact WriteStep.wnone _ _ (by rfl)
    · exact (hsub Child.left GenMode.expr st).wtrans (WriteStep.wnone _ _ (by rfl))
  · exact hself st
  · split_ifs
    · exact WriteStep.wrefl _
    · exact (hsub Child.right GenMode.expr st).wtrans (WriteStep.wassign _ _ _ _ hname)
  · exact hself st

/-- Every call of the generator on a tree without an identifier `t<k>` only appends, and
what it appends writes the temporaries it allocates, each in one of the two ways, and no
other temporary. -/
theorem gen_walk_write (tk : Tokens) (n : ASTNode) (mode : GenMode) (st : GenState) :
    no_temp_identifier n → WriteStep st (gen_walk tk n mode st).1 := by
  refine gen_walk_induction tk
    (fun n _ st res => no_temp_identifier n → WriteStep st res.1)
    ?_ ?_ ?_ ?_ ?_ ?_ n mode st
  · intro mode st _
    rw [gen_walk_null]
    cases mode with
    | cond t f line => exact WriteStep.wnone _ _ (by rfl)
    | expr => exact WriteStep.wrefl _
    | stmt => exact WriteStep.wrefl _
    | stmts => exact WriteStep.wrefl _
    | args line => exact WriteStep.wrefl _
  · intro sub node st hsub hn
    exact gen_expr_write tk sub node
      (fun ch mode st1 => hsub ch mode st1 (fun s hs => hn s (names_child ch hs)))
      (fun x hx => hn x (names_child Child.left (names_str_val hx))) st
  · intro sub node t f line st hsub hself hn
    exact gen_cond_write tk sub _ node
      (fun ch mode st1 => hsub ch mode st1 (fun s hs => hn s (names_child ch hs)))
      (fun st1 => hself st1 hn) t f st
  · intro sub node st hsub hself hn
    exact gen_stmt_write sub _ node
      (fun ch mode st1 => hsub ch mode st1 (fun s hs => hn s (names_child ch hs)))
      (fun st1 => hself st1 hn) (fun x hx => hn x (names_str_val hx)) st
  · intro node st r1 r2 h1 h2 hn
    exact (h1 hn).wtrans (h2 (fun s hs => hn s (names_next hs)))
  · intro node line st a r h1 h2 hn
    exact (h1 hn).wtrans ((WriteStep.wnone _ _ (by rfl)).wtrans
      (h2 (fun s hs => hn s (names_next hs))))

/-- C10, amended: in every function IR produced by `ir_generate` each label is defined by
at most one `Label` instruction and each temporary is the destination of at most one
`BinOp`, `UnOp` or `Call` instruction; and when no identifier of a function body has the
form `t<k>`, the instructions of the function whose result is a temporary `t<k>` are, for
each of the `n` temporaries allocated for the function, either exactly one instruction, a
`BinOp`, `UnOp` or `Call`, or exactly the two `Assign` instructions `t := 0` and `t := 1`, in
this order, that materialise the value of one relational or logical expression; no
instruction has another name `t<k>` as its result. -/
theorem fresh_names_unique (tk : Tokens) (root : ASTNode) (st : GenState)
    (prog : IRProgram) (h : ir_generate tk root st = some prog) :
    (∀ f ∈ prog.funcs, (label_defs f.instrs).Nodup ∧ (op_results f.instrs).Nodup) ∧
    ((∀ fn ∈ siblings root, no_temp_identifier fn.body) →
      ∀ f ∈ prog.funcs, ∃ n, ∀ k,
        (k < n → written_as_temp (temp_name k) f.instrs) ∧
        (n ≤ k → writes (temp_name k) f.instrs = [])) := by
  constructor
  · intro f hf
    obtain ⟨fn, st0, _, _, _, hin⟩ := ir_generate_funcs tk root st prog h f hf
    rw [hin]
    exact ⟨((gen_walk_label tk fn.body GenMode.stmt _).of_stmt
        (LabelInv.initial st0)).defs_nodup,
      (gen_walk_temp tk fn.body GenMode.stmt _ (TempInv.temp_initial st0)).nodup⟩
  · intro hn f hf
    obtain ⟨fn, st0, hfn, _, _, hin⟩ := ir_generate_funcs tk root st prog h f hf
    obtain ⟨_, e, he, hw⟩ := gen_walk_write tk fn.body GenMode.stmt (gen_func_start st0)
      (hn fn hfn)
    have he1 : f.instrs = e := by
      rw [hin, he]
      simp [gen_func_start]
    refine ⟨(gen_walk tk fn.body GenMode.stmt (gen_func_start st0)).1.temp_counter, ?_⟩
    intro k
    rw [he1]
    constructor
    · intro hk
      exact (hw k).1 ⟨by simp [gen_func_start, ir_reset_temps], hk⟩
    · intro hk
      exact (hw k).2 (by omega)

theorem fresh_names_unique_witness :
    ∃ prog, ir_generate sample_tokens sample_flag_sum GenState.initial = some prog ∧
      prog.funcs.map (fun f => ((writes (temp_name 0) f.instrs).map IRInstr.kind,
          (writes (temp_name 1) f.instrs).map IRInstr.kind)) =
        [([IROpKind.IR_ASSIGN, IROpKind.IR_ASSIGN], [IROpKind.IR_BINOP])] ∧
      (∀ fn ∈ siblings sample_flag_sum, no_temp_identifier fn.body) ∧
      ∀ f ∈ prog.funcs, ∃ n, ∀ k,
        (k < n → written_as_temp (temp_name k) f.instrs) ∧
        (n ≤ k → writes (temp_name k) f.instrs = []) :=
  have hn : ∀ fn ∈ siblings sample_flag_sum, no_temp_identifier fn.body :=
    fun fn hfn s hs => not_temp_of_head
      ((by decide : ∀ fn ∈ siblings sample_flag_sum, ∀ s ∈ fn.body.names,
        s.data.head? ≠ some 't') fn hfn s hs)
  ⟨_, rfl, by decide, hn,
    (fresh_names_unique sample_tokens sample_flag_sum GenState.initial _ rfl).2 hn⟩

/-- C10 as stated fails: `int f(int a){ return a < 1; }` is analysed without error and the
IR of `f` assigns the temporary `t0` twice, by `t0 := 0` and by `t0 := 1`. And a program
with an identifier `t<k>` has more writes to that name: `int f(int t0){ t0 = t0 + 1;
return t0; }` is analysed without error and the IR of `f` is `t0 := t0 + 1; t0 := t0;
return t0`, in which `t0` is the destination of the `BinOp` and of the `Assign` of the
source assignment. -/
theorem fresh_names_counterexample :
    (semantic_analyze sample_relational AnState.initial).1.diagnostics = [] ∧
      (ir_generate sample_tokens (semantic_analyze sample_relational AnState.initial).2
        GenState.initial).map
          (fun prog => prog.funcs.map
            (fun f => (f.instrs.map (fun i => (i.kind, i.result)),
              (assigned_names f.instrs).count (temp_name 0)))) =
        some [([(IROpKind.IR_ASSIGN, some "t0"), (IROpKind.IR_IF, none),
                (IROpKind.IR_GOTO, none), (IROpKind.IR_LABEL, none),
                (IROpKind.IR_ASSIGN, some "t0"), (IROpKind.IR_LABEL, none),
                (IROpKind.IR_RETURN, none)], 2)] ∧
      (semantic_analyze sample_capture_assign AnState.initial).1.diagnostics = [] ∧
      (ir_generate sample_tokens (semantic_analyze sample_capture_assign AnState.initial).2
        GenState.initial).map
          (fun prog => prog.funcs.map
            (fun f => (f.instrs.map (fun i => (i.kind, i.result)),
              (assigned_names f.instrs).count (temp_name 0)))) =
        some [([(IROpKind.IR_BINOP, some "t0"), (IROpKind.IR_ASSIGN, some "t0"),
                (IROpKind.IR_RETURN, none)], 2)] :=
  ⟨by decide, by decide, by decide, by decide⟩

/-! ## The example programs -/

/-- C12: for `int f(int x){ return x + 1; }` the analysis reports no error and the IR of `f`
is exactly the two instructions `t0 := x + 1` and `return t0`. -/
theorem add_one_compiles :
    (semantic_analyze sample_add_one AnState.initial).1.semantic_errors = 0 ∧
      compile sample_tokens sample_add_one =
        ([], some [(some "f",
          [ir_make_binop (some "t0") (ir_op_name (some "x")) (ir_op_const 1) 43 1,
            ir_make_return_val (ir_op_name (some "t0")) 1])]) := by
  decide

/-- C14: for `int main(){ int x; x = y; return 0; }` with no `y` declared the analysis
reports exactly one error, `"Undeclared variable"` on the line of `y`, and goes on: the
`return 0;` after it is analysed, for without that statement the function is also reported
as not returning. -/
theorem undeclared_reported_once :
    (semantic_analyze sample_undeclared_y AnState.initial).1.diagnostics =
        [(3, "Undeclared variable")] ∧
      (semantic_analyze sample_undeclared_y AnState.initial).1.semantic_errors = 1 ∧
      sample_undeclared_y.body.left.next.right.line_number = 3 ∧
      sample_undeclared_y.body.left.next.right.str_val = some "y" ∧
      sample_undeclared_y.body.left.next.next.type = NodeType.NODE_RETURN ∧
      (semantic_analyze sample_undeclared_y_no_return AnState.initial).1.diagnostics =
        [(3, "Undeclared variable"), (1, "Non-void function must return a value")] := by
  decide

/-- C15: for `void g(){ if (1 && 0) { return; } }` the analysis reports no error; the IR
of `g` is `goto L3; L3:; goto L2; L0:; return; L2:`, where `L0` is the then label and `L2`
the end label: the then label and the `return` are emitted, the code of the condition (the
first three instructions) holds no `IfRel`, its jumps are the unconditional `goto L3` and
`goto L2`, the last of them to the end label, and no jump of the function names `L0`. -/
theorem dead_then_branch :
    compile sample_tokens (sample_dead_then sample_tokens) =
        ([], some [(some "g",
          [ir_make_goto (some "L3") 1, ir_make_label (some "L3") 1,
            ir_make_goto (some "L2") 1, ir_make_label (some "L0") 1, ir_make_return 1,
            ir_make_label (some "L2") 1])]) ∧
      (compile sample_tokens (sample_dead_then sample_tokens)).2.map
        (fun fs => fs.map (fun f =>
          (label_refs f.2, f.2.filter (fun i => i.kind = IROpKind.IR_IF)))) =
        some [(["L3", "L2"], [])] := by
  decide

/-- C16: for `int f(int a){ return 1; } int main(){ return f(1,2); }` the analysis reports
exactly one error, `"Too many arguments"` on the line of the call. -/
theorem too_many_arguments_once :
    (semantic_analyze sample_too_many AnState.initial).1.diagnostics =
        [(2, "Too many arguments")] ∧
      (semantic_analyze sample_too_many AnState.initial).1.semantic_errors = 1 ∧
      sample_too_many.next.body.left.left.type = NodeType.NODE_FUNC_CALL ∧
      sample_too_many.next.body.left.left.line_number = 2 := by
  decide

/-- C17, amended: for `int main(){ int i; for (i=0; i<3; i=i+1) { } return 0; }` the
analysis reports no error and the IR of `main` is
`i := 0; L0:; if i < 3 goto L1; goto L2; L1:; t0 := i + 1; i := t0; goto L0; L2:; return 0`:
the labels `L0` (condition), `L1` (body) and `L2` (end) are defined, `if i < 3 goto L1` is
immediately followed by `goto L2`, `goto L0` stands at the loop tail, and the increment,
lowered to the two instructions `t0 := i + 1` and `i := t0`, lies between the body label
and that back-edge. -/
theorem for_loop_ir :
    compile sample_tokens sample_for_loop =
      ([], some [(some "main",
        [ir_make_assign (some "i") (ir_op_const 0) 1,
          ir_make_label (some "L0") 1,
          ir_make_if (ir_op_name (some "i")) (ir_op_const 3) IRRelop.IR_LT (some "L1") 1,
          ir_make_goto (some "L2") 1,
          ir_make_label (some "L1") 1,
          ir_make_binop (some "t0") (ir_op_name (some "i")) (ir_op_const 1) 43 1,
          ir_make_assign (some "i") (ir_op_name (some "t0")) 1,
          ir_make_goto (some "L0") 1,
          ir_make_label (some "L2") 1,
          ir_make_return_val (ir_op_const 0) 1])]) := by
  decide

/-- C17 as stated fails: the IR of `main` for
`int main(){ int i; for (i=0; i<3; i=i+1) { } return 0; }`, analysed without error, holds
no instruction `i := i + 1`: its only `BinOp` has the destination `t0`, and `i` is assigned
by `Assign` instructions only. -/
theorem for_loop_increment_counterexample :
    (compile sample_tokens sample_for_loop).1 = [] ∧
      (compile sample_tokens sample_for_loop).2.map
        (fun fs => fs.map (fun f =>
          (f.2.filter (fun i => i.kind = IROpKind.IR_BINOP),
            (f.2.filter (fun i => i.result = some "i")).map (fun i => i.kind)))) =
        some [([ir_make_binop (some "t0") (ir_op_name (some "i")) (ir_op_const 1) 43 1],
          [IROpKind.IR_ASSIGN, IROpKind.IR_ASSIGN])] := by
  decide

/-! ## Functions that must return, and `return` statements -/

theorem wf_store {t : SymTab} (hw : t.wf) {a : Nat} {sc sc1 : Scope}
    (hs : t.heap[a]? = some sc) (hp : sc1.parent = sc.parent) (h1 : sc1.wf) :
    (t.store a sc1).wf := by
  have hlen : a < t.heap.length := by
    by_contra hcon
    rw [List.getElem?_eq_none (Nat.le_of_not_lt hcon)] at hs
    cases hs
  have hget : ∀ b sb, (t.store a sc1).heap[b]? = some sb →
      (b = a ∧ sb = sc1) ∨ (b ≠ a ∧ t.heap[b]? = some sb) := by
    intro b sb hb
    simp only [SymTab.store, List.getElem?_set] at hb
    by_cases hab : a = b
    · subst hab
      simp only [if_true, hlen] at hb
      exact Or.inl ⟨rfl, (Option.some.inj hb).symm⟩
    · simp only [hab, if_false] at hb
      exact Or.inr ⟨fun h => hab h.symm, hb⟩
  refine ⟨?_, ?_, ?_⟩
  · intro b hb
    simpa [SymTab.store] using hw.current_valid b (by simpa [SymTab.store] using hb)
  · intro b sb hb p hbp
    rcases hget b sb hb with ⟨rfl, rfl⟩ | ⟨_, hb1⟩
    · exact hw.parent_lt _ sc hs p (by rw [← hp]; exact hbp)
    · exact hw.parent_lt b sb hb1 p hbp
  · intro b sb hb
    rcases hget b sb hb with ⟨rfl, rfl⟩ | ⟨_, hb1⟩
    · exact h1
    · exact hw.scope_wf b sb hb1

theorem wf_set_signature {t : SymTab} (hw : t.wf) (name : String) (count : Nat)
    (types : List DataType) : (set_signature t name count types).wf := by
  unfold set_signature
  cases hc : t.current_scope with
  | none => exact hw
  | some a =>
    simp only
    cases hs : t.heap[a]? with
    | none => exact hw
    | some sc =>
      simp only
      cases hb : sc.table.getD (hash name) [] with
      | nil => exact hw
      | cons func rest =>
        simp only
        have hsc := hw.scope_wf a sc hs
        refine wf_store hw hs rfl ⟨by simpa using hsc.1, ?_⟩
        intro i s hmem
        simp only at hmem
        by_cases hh : hash name = i
        · subst hh
          have hlt : hash name < sc.table.length := by rw [hsc.1]; exact hash_lt _
          rw [getD_set_self _ _ _ _ hlt] at hmem
          rcases List.mem_cons.1 hmem with rfl | hmem
          · exact hsc.2 (hash name) func (by rw [hb]; exact List.mem_cons_self _ _)
          · exact hsc.2 (hash name) s (by rw [hb]; exact List.mem_cons_of_mem _ hmem)
        · rw [getD_set_ne _ _ _ _ _ hh] at hmem
          exact hsc.2 i s hmem

/-- C13, amended: for `int f(){}` the analysis reports exactly one error, `"Non-void
function must return a value"`; more generally a non-void function definition that is
accepted (its name is not yet declared in the current scope, so that `insert_symbol`
succeeds) and whose body is a block without a statement is always reported: after the
diagnostics of its parameter list comes `"Non-void function must return a value"` on the
line of the definition, and nothing else. -/
theorem empty_body_reported (st : AnState) (d bd : NodeData)
    (l r c ini inc p nx br bc bb bini binc bp bnx : ASTNode)
    (hwf : st.symtab.wf)
    (hty : d.type = NodeType.NODE_FUNC_DEF)
    (hnonvoid : l.data_type ≠ DataType.TYPE_VOID)
    (hins : (insert_symbol st.symtab
      (create_symbol st.symtab (d.str_val.getD "") l.data_type SymbolKind.SYM_FUNCTION
        d.line_number)).2 = true)
    (hblock : bd.type = NodeType.NODE_BLOCK) :
    (analyze_node (ASTNode.node d l r c
        (ASTNode.node bd ASTNode.null br bc bb bini binc bp bnx) ini inc p nx)
      st).st.diagnostics =
      st.diagnostics ++ param_redeclarations [] p ++
        [(d.line_number, "Non-void function must return a value")] := by
  have hw2 : (set_signature (insert_symbol st.symtab
      (create_symbol st.symtab (d.str_val.getD "") l.data_type SymbolKind.SYM_FUNCTION
        d.line_number)).1 (d.str_val.getD "") (count_params p)
      (collect_param_types p)).wf := wf_set_signature (wf_insert_symbol hwf _) _ _ _
  have hp := (declaration_in_scope_reported
    { symtab := set_signature (insert_symbol st.symtab
        (create_symbol st.symtab (d.str_val.getD "") l.data_type SymbolKind.SYM_FUNCTION
          d.line_number)).1 (d.str_val.getD "") (count_params p) (collect_param_types p),
      current_function := some
        { create_symbol st.symtab (d.str_val.getD "") l.data_type
            SymbolKind.SYM_FUNCTION d.line_number with
          param_count := count_params p, param_types := collect_param_types p },
      semantic_errors := st.semantic_errors,
      diagnostics := st.diagnostics } default ASTNode.null ASTNode.null ASTNode.null
    ASTNode.null ASTNode.null ASTNode.null p ASTNode.null).2 hw2
  simp only at hp
  unfold analyze_node
  rw [analyze_walk]
  simp only [analyze_switch, ASTNode.type, hty, analyze_function, ASTNode.name,
    ASTNode.str_val, ASTNode.left, ASTNode.line_number, ASTNode.params, hins,
    Bool.true_eq_false, if_false]
  rw [analyze_walk]
  simp only [analyze_switch, ASTNode.type, hblock, analyze_block, analyze_walk_null,
    AnState.function_type, insert_params_current_function, ne_eq]
  have hcs : (create_symbol st.symtab (d.str_val.getD "") l.data_type
      SymbolKind.SYM_FUNCTION d.line_number).type = l.data_type := rfl
  simp only [hcs] at hp
  simp only [hcs, hnonvoid, not_false_eq_true, and_self, if_true, semantic_error, hp]

theorem empty_body_reported_witness :
    (analyze_node sample_empty_body AnState.initial).st.diagnostics =
      [] ++ param_redeclarations [] ASTNode.null ++
        [(1, "Non-void function must return a value")] :=
  empty_body_reported AnState.initial
    { type := NodeType.NODE_FUNC_DEF, data_type := DataType.TYPE_VOID, line_number := 1,
      int_val := 0, str_val := some "f" }
    { type := NodeType.NODE_BLOCK, data_type := DataType.TYPE_VOID, line_number := 1,
      int_val := 0, str_val := none }
    (type_node DataType.TYPE_INT) ASTNode.null ASTNode.null ASTNode.null ASTNode.null
    ASTNode.null ASTNode.null ASTNode.null ASTNode.null ASTNode.null ASTNode.null
    ASTNode.null ASTNode.null ASTNode.null
    demo_global_wf rfl (by decide) (by decide) rfl

/-- C13 as stated fails in its general part: in `int f(){ return 1; }  int f(){ }` the
second definition is a non-void function whose body block holds no statement, and the only
diagnostic is `"Function redeclared"` on line 2; for `int f(){}` alone the one error is
reported. -/
theorem empty_body_counterexample :
    (semantic_analyze sample_redefined AnState.initial).1.diagnostics =
        [(2, "Function redeclared")] ∧
      sample_redefined.next.type = NodeType.NODE_FUNC_DEF ∧
      sample_redefined.next.left.data_type = DataType.TYPE_INT ∧
      sample_redefined.next.body.type = NodeType.NODE_BLOCK ∧
      sample_redefined.next.body.left = ASTNode.null ∧
      (semantic_analyze sample_empty_body AnState.initial).1.diagnostics =
        [(1, "Non-void function must return a value")] := by
  decide

/-- C20, amended: for every Return node `analyze_return` returns 1 (the statement definitely
returns) exactly when there is a current function; when there is none it reports `"Return
outside function"` on the line of the node, leaves the node untouched and returns 0. -/
theorem return_flag (st : AnState) (d : NodeData) (l r c b ini inc p nx : ASTNode)
    (hty : d.type = NodeType.NODE_RETURN) :
    ((analyze_node (ASTNode.node d l r c b ini inc p nx) st).returns = true ↔
      st.current_function ≠ none) ∧
    (st.current_function = none →
      (analyze_node (ASTNode.node d l r c b ini inc p nx) st).st.diagnostics =
          st.diagnostics ++ [(d.line_number, "Return outside function")] ∧
        (analyze_node (ASTNode.node d l r c b ini inc p nx) st).node =
          ASTNode.node d l r c b ini inc p nx) ∧
    (∀ sub : Child → Walk → AnState → AnResult,
      (analyze_return sub (ASTNode.node d l r c b ini inc p nx) st).returns =
        (analyze_node (ASTNode.node d l r c b ini inc p nx) st).returns) := by
  have hflag : ∀ sub : Child → Walk → AnState → AnResult,
      (analyze_return sub (ASTNode.node d l r c b ini inc p nx) st).returns =
        decide (st.current_function ≠ none) := by
    intro sub
    unfold analyze_return
    cases hc : st.current_function with
    | none => simp
    | some f =>
      simp only
      split_ifs <;> simp
  have hnode : ∀ x : AnResult, x = analyze_node (ASTNode.node d l r c b ini inc p nx) st →
      ∃ sub, x = analyze_return sub (ASTNode.node d l r c b ini inc p nx) st := by
    intro x hx
    unfold analyze_node at hx
    rw [analyze_walk] at hx
    simp only [analyze_switch, ASTNode.type, hty] at hx
    exact ⟨_, hx⟩
  obtain ⟨sub0, hsub0⟩ := hnode _ rfl
  refine ⟨?_, ?_, ?_⟩
  · rw [hsub0, hflag sub0]
    simp
  · intro hnone
    rw [hsub0]
    unfold analyze_return
    simp only [hnone, semantic_error, ASTNode.line_number, and_self]
  · intro sub
    rw [hsub0, hflag sub, hflag sub0]

theorem return_flag_witness :
    (analyze_node (return_node ASTNode.null 1)
      { AnState.initial with current_function := some demo_sym_x }).returns = true :=
  (return_flag { AnState.initial with current_function := some demo_sym_x }
    { type := NodeType.NODE_RETURN, data_type := DataType.TYPE_VOID, line_number := 1,
      int_val := 0, str_val := none }
    ASTNode.null ASTNode.null ASTNode.null ASTNode.null ASTNode.null ASTNode.null
    ASTNode.null ASTNode.null rfl).1.2 (by decide)

/-- C20 as stated fails: with no current function the visit of `return;` reports `"Return
outside function"` and returns 0, not 1. -/
theorem return_flag_counterexample :
    AnState.initial.current_function = none ∧
      (return_node ASTNode.null 1).type = NodeType.NODE_RETURN ∧
      (analyze_node (return_node ASTNode.null 1) AnState.initial).returns = false ∧
      (analyze_node (return_node ASTNode.null 1) AnState.initial).st.diagnostics =
        [(1, "Return outside function")] := by
  decide

/-! ## References to an undeclared variable -/

theorem analyze_variable_undeclared (y : ASTNode) (s : AnState)
    (hy : y.type = NodeType.NODE_VAR) (hl : lookup s.symtab y.name = none) :
    analyze_walk y Walk.single s =
      { st := semantic_error s y.line_number "Undeclared variable",
        node := y.set_data_type DataType.TYPE_INT, returns := false } := by
  cases y with
  | null => simp [ASTNode.type] at hy
  | node yd yl yr yc yb yini yinc yp ynx =>
    simp only [ASTNode.type] at hy
    rw [analyze_walk]
    simp only [analyze_switch, ASTNode.type, hy, analyze_variable, hl]

theorem set_data_type_data_type (y : ASTNode) (t : DataType)
    (hy : y.type = NodeType.NODE_VAR) : (y.set_data_type t).data_type = t := by
  cases y with
  | null => simp [ASTNode.type] at hy
  | node yd yl yr yc yb yini yinc yp ynx => rfl

/-- An assignment or binary operation whose right operand is an undeclared variable. -/
theorem undeclared_right_operand (st : AnState) (d : NodeData)
    (e c b ini inc p nx y : ASTNode) (hy : y.type = NodeType.NODE_VAR)
    (hty : d.type = NodeType.NODE_ASSIGN ∨ d.type = NodeType.NODE_BIN_OP)
    (hl : lookup (analyze_node e st).st.symtab y.name = none) :
    (analyze_node (ASTNode.node d e y c b ini inc p nx) st).st.diagnostics =
      (analyze_node e st).st.diagnostics ++ (y.line_number, "Undeclared variable") ::
        (if (analyze_node e st).node.data_type = DataType.TYPE_CHAR then
          [(d.line_number, mismatch_message d.type)] else []) := by
  unfold analyze_node at hl ⊢
  have hv := analyze_variable_undeclared y _ hy hl
  have ht := set_data_type_data_type y DataType.TYPE_INT hy
  rw [analyze_walk]
  rcases hty with hty | hty
  · simp only [analyze_switch, ASTNode.type, hty, analyze_assignment, hv, ASTNode.set_left,
      ASTNode.set_right, ASTNode.left, ASTNode.right, ht, mismatch_message, if_true]
    cases (analyze_walk e Walk.single st).node.data_type <;>
      simp [semantic_error, ASTNode.line_number]
  · simp only [analyze_switch, ASTNode.type, hty, analyze_binary, hv, ASTNode.set_left,
      ASTNode.set_right, ASTNode.left, ASTNode.right, ht, mismatch_message]
    cases (analyze_walk e Walk.single st).node.data_type <;>
      simp [semantic_error, ASTNode.line_number]

/-- An assignment or binary operation whose left operand is an undeclared variable. -/
theorem undeclared_left_operand (st : AnState) (d : NodeData)
    (e c b ini inc p nx y : ASTNode) (hy : y.type = NodeType.NODE_VAR)
    (hty : d.type = NodeType.NODE_ASSIGN ∨ d.type = NodeType.NODE_BIN_OP)
    (hl : lookup st.symtab y.name = none) :
    (analyze_node (ASTNode.node d y e c b ini inc p nx) st).st.diagnostics =
      (analyze_node e (semantic_error st y.line_number "Undeclared variable")).st.diagnostics
        ++ (if (analyze_node e (semantic_error st y.line_number
              "Undeclared variable")).node.data_type = DataType.TYPE_CHAR then
          [(d.line_number, mismatch_message d.type)] else []) := by
  unfold analyze_node
  have hv := analyze_variable_undeclared y _ hy hl
  have ht := set_data_type_data_type y DataType.TYPE_INT hy
  rw [analyze_walk]
  rcases hty with hty | hty
  · simp only [analyze_switch, ASTNode.type, hty, analyze_assignment, hv, ASTNode.set_left,
      ASTNode.set_right, ASTNode.left, ASTNode.right, ht, mismatch_message, if_true]
    cases (analyze_walk e Walk.single
        (semantic_error st y.line_number "Undeclared variable")).node.data_type <;>
      simp [semantic_error, ASTNode.line_number]
  · simp only [analyze_switch, ASTNode.type, hty, analyze_binary, hv, ASTNode.set_left,
      ASTNode.set_right, ASTNode.left, ASTNode.right, ht, mismatch_message]
    cases (analyze_walk e Walk.single
        (semantic_error st y.line_number "Undeclared variable")).node.data_type <;>
      simp [semantic_error, ASTNode.line_number]

/-- A declaration, accepted by `insert_symbol`, whose initialiser is an undeclared
variable. -/
theorem undeclared_initialiser (st : AnState) (d : NodeData)
    (e c b ini inc p nx y : ASTNode) (hy : y.type = NodeType.NODE_VAR)
    (hty : d.type = NodeType.NODE_VAR_DECL)
    (hins : (insert_symbol st.symtab (create_symbol st.symtab (d.str_val.getD "")
      e.data_type SymbolKind.SYM_VARIABLE d.line_number)).2 = true)
    (hl : lookup (insert_symbol st.symtab (create_symbol st.symtab (d.str_val.getD "")
      e.data_type SymbolKind.SYM_VARIABLE d.line_number)).1 y.name = none) :
    (analyze_node (ASTNode.node d e y c b ini inc p nx) st).st.diagnostics =
      st.diagnostics ++ (y.line_number, "Undeclared variable") ::
        (if e.data_type = DataType.TYPE_INT then []
          else [(d.line_number, "Type mismatch in initialization")]) := by
  unfold analyze_node
  have hv := analyze_variable_undeclared y
    { st with symtab := (insert_symbol st.symtab (create_symbol st.symtab
      (d.str_val.getD "") e.data_type SymbolKind.SYM_VARIABLE d.line_number)).1 } hy hl
  have ht := set_data_type_data_type y DataType.TYPE_INT hy
  have hnn : y.isNull = false := by
    cases y with
    | null => simp [ASTNode.type] at hy
    | node yd yl yr yc yb yini yinc yp ynx => rfl
  rw [analyze_walk]
  simp only [analyze_switch, ASTNode.type, hty, analyze_declaration, ASTNode.name,
    ASTNode.str_val, ASTNode.left, ASTNode.line_number, ASTNode.right, hins, if_true, hnn,
    Bool.false_eq_true, if_false, hv, ASTNode.set_right, ht]
  cases e.data_type <;> simp [semantic_error]

/-- A `return` of an undeclared variable inside a function. -/
theorem undeclared_returned (st : AnState) (d : NodeData)
    (e c b ini inc p nx y : ASTNode) (f : Symbol) (hy : y.type = NodeType.NODE_VAR)
    (hty : d.type = NodeType.NODE_RETURN) (hf : st.current_function = some f)
    (hl : lookup st.symtab y.name = none) :
    (analyze_node (ASTNode.node d y e c b ini inc p nx) st).st.diagnostics =
      st.diagnostics ++ (y.line_number, "Undeclared variable") ::
        (if f.type = DataType.TYPE_INT then []
          else [(d.line_number, "Return type mismatch")]) := by
  unfold analyze_node
  have hv := analyze_variable_undeclared y st hy hl
  have ht := set_data_type_data_type y DataType.TYPE_INT hy
  have hnn : y.isNull = false := by
    cases y with
    | null => simp [ASTNode.type] at hy
    | node yd yl yr yc yb yini yinc yp ynx => rfl
  rw [analyze_walk]
  simp only [analyze_switch, ASTNode.type, hty, analyze_return, hf, ASTNode.left, hnn,
    Bool.false_eq_true, if_false, hv, ASTNode.set_left, ht, AnState.function_type,
    semantic_error, ASTNode.line_number]
  cases f.type <;> simp

/-- An undeclared variable as argument number `i` of a call of `sym`. -/
theorem undeclared_argument (st : AnState) (y : ASTNode) (sym : Symbol) (i : Nat)
    (line : Int) (hy : y.type = NodeType.NODE_VAR) (hl : lookup st.symtab y.name = none) :
    (check_argument sym i line (analyze_node y st).node (analyze_node y st).st).diagnostics =
      st.diagnostics ++ (y.line_number, "Undeclared variable") ::
        (if sym.param_count ≤ i then [(line, "Too many arguments")]
          else if sym.param_types.getD i DataType.TYPE_VOID = DataType.TYPE_INT then []
          else [(line, "Argument type mismatch")]) := by
  unfold analyze_node
  rw [analyze_variable_undeclared y st hy hl]
  simp only [check_argument, set_data_type_data_type y DataType.TYPE_INT hy, ge_iff_le]
  generalize sym.param_types.getD i DataType.TYPE_VOID = t
  by_cases h1 : sym.param_count ≤ i
  · simp [h1, semantic_error]
  · cases t <;> simp [h1, semantic_error]

/-- C19, amended: a reference to an undeclared variable reports `"Undeclared variable"` on
its line and types the variable node `Int`; the enclosing construct then reports no
follow-on mismatch when the type it compares with is `Int` (the other operand of an
assignment or binary operation, where `Void` is silent too, the declared type of an
initialised variable, the return type of the current function, the type of the parameter),
and reports its own mismatch as a second diagnostic otherwise: `"Assignment type mismatch"`
or `"Binary operand type mismatch"` when the other operand is `Char`, `"Type mismatch in
initialization"`, `"Return type mismatch"` or `"Argument type mismatch"` when the declared,
return or parameter type is not `Int`. -/
theorem undeclared_follow_on (st : AnState) (d : NodeData)
    (e c b ini inc p nx y : ASTNode) (hy : y.type = NodeType.NODE_VAR) :
    (lookup st.symtab y.name = none →
      (analyze_node y st).st.diagnostics =
          st.diagnostics ++ [(y.line_number, "Undeclared variable")] ∧
        (analyze_node y st).node.data_type = DataType.TYPE_INT) ∧
    (d.type = NodeType.NODE_ASSIGN ∨ d.type = NodeType.NODE_BIN_OP →
      lookup (analyze_node e st).st.symtab y.name = none →
      (analyze_node (ASTNode.node d e y c b ini inc p nx) st).st.diagnostics =
        (analyze_node e st).st.diagnostics ++ (y.line_number, "Undeclared variable") ::
          (if (analyze_node e st).node.data_type = DataType.TYPE_CHAR then
            [(d.line_number, mismatch_message d.type)] else [])) ∧
    (d.type = NodeType.NODE_ASSIGN ∨ d.type = NodeType.NODE_BIN_OP →
      lookup st.symtab y.name = none →
      (analyze_node (ASTNode.node d y e c b ini inc p nx) st).st.diagnostics =
        (analyze_node e (semantic_error st y.line_number
            "Undeclared variable")).st.diagnostics ++
          (if (analyze_node e (semantic_error st y.line_number
                "Undeclared variable")).node.data_type = DataType.TYPE_CHAR then
            [(d.line_number, mismatch_message d.type)] else [])) ∧
    (d.type = NodeType.NODE_VAR_DECL →
      (insert_symbol st.symtab (create_symbol st.symtab (d.str_val.getD "")
        e.data_type SymbolKind.SYM_VARIABLE d.line_number)).2 = true →
      lookup (insert_symbol st.symtab (create_symbol st.symtab (d.str_val.getD "")
        e.data_type SymbolKind.SYM_VARIABLE d.line_number)).1 y.name = none →
      (analyze_node (ASTNode.node d e y c b ini inc p nx) st).st.diagnostics =
        st.diagnostics ++ (y.line_number, "Undeclared variable") ::
          (if e.data_type = DataType.TYPE_INT then []
            else [(d.line_number, "Type mismatch in initialization")])) ∧
    (d.type = NodeType.NODE_RETURN → ∀ f : Symbol, st.current_function = some f →
      lookup st.symtab y.name = none →
      (analyze_node (ASTNode.node d y e c b ini inc p nx) st).st.diagnostics =
        st.diagnostics ++ (y.line_number, "Undeclared variable") ::
          (if f.type = DataType.TYPE_INT then []
            else [(d.line_number, "Return type mismatch")])) ∧
    (∀ (sym : Symbol) (i : Nat) (line : Int), lookup st.symtab y.name = none →
      (check_argument sym i line (analyze_node y st).node
          (analyze_node y st).st).diagnostics =
        st.diagnostics ++ (y.line_number, "Undeclared variable") ::
          (if sym.param_count ≤ i then [(line, "Too many arguments")]
            else if sym.param_types.getD i DataType.TYPE_VOID = DataType.TYPE_INT then []
            else [(line, "Argument type mismatch")])) := by
  refine ⟨?_, ?_, ?_, ?_, ?_, ?_⟩
  · intro hl
    unfold analyze_node
    rw [analyze_variable_undeclared y st hy hl]
    exact ⟨rfl, set_data_type_data_type y DataType.TYPE_INT hy⟩
  · exact fun hty hl => undeclared_right_operand st d e c b ini inc p nx y hy hty hl
  · exact fun hty hl => undeclared_left_operand st d e c b ini inc p nx y hy hty hl
  · exact fun hty hins hl => undeclared_initialiser st d e c b ini inc p nx y hy hty hins hl
  · exact fun hty f hf hl => undeclared_returned st d e c b ini inc p nx y f hy hty hf hl
  · exact fun sym i line hl => undeclared_argument st y sym i line hy hl

/-- In the scope holding `int x`, the assignment `x = y` on line 3 reports the undeclared `y`
and nothing else. -/
theorem undeclared_follow_on_witness :
    (analyze_node
        (assign_node ((create_var_node "x").set_line 3) ((create_var_node "y").set_line 3) 3)
        { AnState.initial with symtab := demo_with_x }).st.diagnostics =
      (analyze_node ((create_var_node "x").set_line 3)
          { AnState.initial with symtab := demo_with_x }).st.diagnostics ++
        (3, "Undeclared variable") ::
          (if (analyze_node ((create_var_node "x").set_line 3)
              { AnState.initial with symtab := demo_with_x }).node.data_type =
                DataType.TYPE_CHAR then
            [(3, mismatch_message NodeType.NODE_ASSIGN)] else []) :=
  (undeclared_follow_on { AnState.initial with symtab := demo_with_x }
    { type := NodeType.NODE_ASSIGN, data_type := DataType.TYPE_VOID, line_number := 3,
      int_val := 0, str_val := none }
    ((create_var_node "x").set_line 3) ASTNode.null ASTNode.null ASTNode.null ASTNode.null
    ASTNode.null ASTNode.null ((create_var_node "y").set_line 3) rfl).2.1
    (Or.inl rfl) (by decide)

/-- C19 as stated fails: in `int main(){ char c; c = y; return 0; }` the only defect is the
undeclared `y`, the other operand is a `Char`, and the assignment reports a follow-on
`"Assignment type mismatch"` after `"Undeclared variable"`. -/
theorem undeclared_cascade_counterexample :
    (semantic_analyze sample_undeclared_char AnState.initial).1.diagnostics =
      [(3, "Undeclared variable"), (3, "Assignment type mismatch")] := by
  decide

/-! ## The checks of a call -/

theorem check_argument_report (sym : Symbol) (i : Nat) (line : Int) (arg : ASTNode)
    (s : AnState) :
    (check_argument sym i line arg s).diagnostics =
      s.diagnostics ++ argument_check sym line i arg.data_type := by
  unfold check_argument argument_check
  by_cases h1 : sym.param_count ≤ i
  · simp [h1, semantic_error]
  · by_cases h2 : arg.data_type = sym.param_types.getD i DataType.TYPE_VOID
    · simp only [ge_iff_le, h1, if_false, h2, ne_eq, not_true_eq_false, List.append_nil]
    · simp only [ge_iff_le, h1, if_false, ne_eq, h2, not_false_eq_true, if_true,
        semantic_error]

theorem diagnostics_eq_append_reported {s1 s2 : AnState}
    (h : s1.diagnostics <+: s2.diagnostics) :
    s2.diagnostics = s1.diagnostics ++ reported s1 s2 := by
  obtain ⟨t, ht⟩ := h
  unfold reported
  rw [← ht]
  simp

/-- The argument loop adds, for each argument in turn, the diagnostics of its analysis and
then those of its check. -/
theorem args_walk_report (sym : Symbol) (line : Int) (arg : ASTNode) :
    ∀ (i : Nat) (st : AnState),
      (analyze_walk arg (Walk.args sym i line) st).st.diagnostics =
        st.diagnostics ++ call_report sym line i (analysed_args sym line i arg st) := by
  induction arg with
  | null =>
    intro i st
    rw [analyze_walk_null]
    simp [analysed_args, call_report]
  | node d l r c b ini inc p nx _ _ _ _ _ _ _ ihnx =>
    intro i st
    have h1 : analyze_node (ASTNode.node d l r c b ini inc p nx) st =
        analyze_switch
          (fun ch w1 st1 =>
            match ch with
            | Child.left => analyze_walk l w1 st1
            | Child.right => analyze_walk r w1 st1
            | Child.cond => analyze_walk c w1 st1
            | Child.body => analyze_walk b w1 st1
            | Child.init => analyze_walk ini w1 st1
            | Child.incr => analyze_walk inc w1 st1)
          (ASTNode.node d l r c b ini inc p nx) st := by
      unfold analyze_node
      rw [analyze_walk]
    have hd : (analyze_node (ASTNode.node d l r c b ini inc p nx) st).st.diagnostics =
        st.diagnostics ++
          reported st (analyze_node (ASTNode.node d l r c b ini inc p nx) st).st :=
      diagnostics_eq_append_reported
        (analyze_walk_diag (ASTNode.node d l r c b ini inc p nx) Walk.single st)
    rw [analyze_walk]
    simp only
    rw [← h1, ihnx, analysed_args, call_report, check_argument_report, hd]
    simp only [List.append_assoc]

theorem analysed_args_length (sym : Symbol) (line : Int) (arg : ASTNode) :
    ∀ (i : Nat) (st : AnState),
      (analysed_args sym line i arg st).length = count_params arg := by
  induction arg with
  | null => intro i st; rfl
  | node d l r c b ini inc p nx _ _ _ _ _ _ _ ihnx =>
    intro i st
    simp only [analysed_args, List.length_cons, count_params, ihnx]

theorem mem_argument_check_too_many (sym : Symbol) (line : Int) (i : Nat) (t : DataType) :
    (line, "Too many arguments") ∈ argument_check sym line i t ↔ sym.param_count ≤ i := by
  unfold argument_check
  by_cases h1 : sym.param_count ≤ i
  · simp [h1]
  · by_cases h2 : t = sym.param_types.getD i DataType.TYPE_VOID
    · simp only [h1, if_false, ne_eq, h2, not_true_eq_false, List.not_mem_nil]
    · simp only [h1, if_false, ne_eq, h2, not_false_eq_true, if_true, List.mem_singleton,
        Prod.mk.injEq, true_and, iff_false]
      decide

theorem mem_argument_check_mismatch (sym : Symbol) (line : Int) (i : Nat) (t : DataType) :
    (line, "Argument type mismatch") ∈ argument_check sym line i t ↔
      i < sym.param_count ∧ t ≠ sym.param_types.getD i DataType.TYPE_VOID := by
  unfold argument_check
  by_cases h1 : sym.param_count ≤ i
  · simp only [h1, if_true, List.mem_singleton, Prod.mk.injEq, true_and]
    constructor
    · intro h
      exact absurd h (by decide)
    · intro h
      omega
  · by_cases h2 : t = sym.param_types.getD i DataType.TYPE_VOID
    · simp only [h1, if_false, ne_eq, h2, not_true_eq_false, List.not_mem_nil, and_false]
    · simp only [h1, if_false, ne_eq, h2, not_false_eq_true, if_true, List.mem_singleton,
        and_true, true_iff]
      omega

/-- C18: for a call node whose name resolves to a Function symbol `sym` with `m =
sym.param_count` parameters and whose argument list has `n` expressions, the diagnostics of
the call are, for each argument in turn, those of the analysis of the argument followed by
the check of the call for that position, and at the end `"Too few arguments"` exactly when
`n < m`; the check for position `i` reports `"Too many arguments"` exactly when `i ≥ m`, so
that it is reported if and only if `n > m`, and `"Argument type mismatch"` exactly when
`i < m` and the analysed type of the argument differs from `param_types[i]`; the type of
the call node is set to the return type of the function. -/
theorem call_arguments_checked (st : AnState) (d : NodeData)
    (l r c b ini inc p nx : ASTNode) (sym : Symbol)
    (hty : d.type = NodeType.NODE_FUNC_CALL)
    (hs : lookup st.symtab (d.str_val.getD "") = some sym)
    (hk : sym.kind = SymbolKind.SYM_FUNCTION) :
    (analysed_args sym d.line_number 0 l st).length = count_params l ∧
    (analyze_node (ASTNode.node d l r c b ini inc p nx) st).st.diagnostics =
      st.diagnostics ++
        call_report sym d.line_number 0 (analysed_args sym d.line_number 0 l st) ++
        (if count_params l < sym.param_count then [(d.line_number, "Too few arguments")]
          else []) ∧
    ((∃ i a, (analysed_args sym d.line_number 0 l st)[i]? = some a ∧
        (d.line_number, "Too many arguments") ∈ argument_check sym d.line_number i a.2) ↔
      sym.param_count < count_params l) ∧
    (∀ i a, (analysed_args sym d.line_number 0 l st)[i]? = some a →
      ((d.line_number, "Argument type mismatch") ∈ argument_check sym d.line_number i a.2 ↔
        i < min (count_params l) sym.param_count ∧
          a.2 ≠ sym.param_types.getD i DataType.TYPE_VOID)) ∧
    (analyze_node (ASTNode.node d l r c b ini inc p nx) st).node.data_type = sym.type := by
  have hlen := analysed_args_length sym d.line_number l 0 st
  refine ⟨hlen, ?_, ?_, ?_, ?_⟩
  · unfold analyze_node
    rw [analyze_walk]
    simp only [analyze_switch, ASTNode.type, hty, analyze_function_call, ASTNode.name,
      ASTNode.str_val, hs, hk, ne_eq, not_true_eq_false, if_false, ASTNode.line_number,
      ASTNode.left]
    have hw := args_walk_report sym d.line_number l 0 st
    split_ifs with hlt
    · simp only [semantic_error, hw]
    · simp only [hw, List.append_nil]
  · constructor
    · rintro ⟨i, a, hia, hmem⟩
      have hi : i < (analysed_args sym d.line_number 0 l st).length := by
        by_contra hcon
        rw [List.getElem?_eq_none (Nat.le_of_not_lt hcon)] at hia
        cases hia
      have := (mem_argument_check_too_many sym d.line_number i a.2).1 hmem
      omega
    · intro hlt
      have hm : sym.param_count < (analysed_args sym d.line_number 0 l st).length := by
        omega
      exact ⟨sym.param_count, _, List.getElem?_eq_getElem hm,
        (mem_argument_check_too_many sym d.line_number _ _).2 (Nat.le_refl _)⟩
  · intro i a hia
    have hi : i < (analysed_args sym d.line_number 0 l st).length := by
      by_contra hcon
      rw [List.getElem?_eq_none (Nat.le_of_not_lt hcon)] at hia
      cases hia
    rw [mem_argument_check_mismatch]
    constructor
    · rintro ⟨h1, h2⟩
      exact ⟨by omega, h2⟩
    · rintro ⟨h1, h2⟩
      exact ⟨by omega, h2⟩
  · unfold analyze_node
    rw [analyze_walk]
    simp only [analyze_switch, ASTNode.type, hty, analyze_function_call, ASTNode.name,
      ASTNode.str_val, hs, hk, ne_eq, not_true_eq_false, if_false, ASTNode.set_left,
      ASTNode.set_data_type, ASTNode.data_type]

/-- After `int f(int a){ return 1; }` the call `f(1,2)` on line 2 has one argument too
many. -/
theorem call_arguments_checked_witness :
    (analyze_node
        (call_node "f"
          (append_node ((create_int_node 1).set_line 2) ((create_int_node 2).set_line 2)) 2)
        (analyze_node sample_too_many AnState.initial).st).st.diagnostics =
      [(2, "Too many arguments")] ∧
    (analyze_node
        (call_node "f"
          (append_node ((create_int_node 1).set_line 2) ((create_int_node 2).set_line 2)) 2)
        (analyze_node sample_too_many AnState.initial).st).node.data_type =
      sample_symbol_f.type :=
  ⟨by decide,
    (call_arguments_checked (analyze_node sample_too_many AnState.initial).st
      { type := NodeType.NODE_FUNC_CALL, data_type := DataType.TYPE_VOID, line_number := 2,
        int_val := 0, str_val := some "f" }
      (append_node ((create_int_node 1).set_line 2) ((create_int_node 2).set_line 2))
      ASTNode.null ASTNode.null ASTNode.null ASTNode.null ASTNode.null ASTNode.null
      ASTNode.null sample_symbol_f rfl (by decide) rfl).2.2.2.2⟩

/-! ## The generator only appends -/

theorem ir_append_lift (l : List IRInstr) (s : GenState) (i : IRInstr) :
    ir_append (s.lift l) i = (ir_append s i).lift l := by
  simp [ir_append, GenState.lift]

theorem ir_new_temp_lift (l : List IRInstr) (s : GenState) :
    ir_new_temp (s.lift l) = ((ir_new_temp s).1, (ir_new_temp s).2.lift l) := rfl

theorem ir_new_label_lift (l : List IRInstr) (s : GenState) :
    ir_new_label (s.lift l) = ((ir_new_label s).1, (ir_new_label s).2.lift l) := rfl

theorem branch_on_nonzero_lift (l : List IRInstr) (s : GenState) (place : IROperand)
    (t f : String) (line : Int) :
    branch_on_nonzero (s.lift l) place t f line =
      (branch_on_nonzero s place t f line).lift l := by
  simp only [branch_on_nonzero, ir_append_lift]

theorem lift_ite {c : Prop} [Decidable c] (l : List IRInstr) (a b : GenState) :
    (if c then a.lift l else b.lift l) = (if c then a else b).lift l := by
  split_ifs <;> rfl

theorem gen_cond_logical_lift (tk : Tokens)
    (sub : Child → GenMode → GenState → GenState × IROperand) (node : ASTNode)
    (hsub : ∀ ch mode, Local (sub ch mode)) (t f : String) (l : List IRInstr)
    (s : GenState) :
    gen_cond_logical tk sub node t f (s.lift l) =
      (gen_cond_logical tk sub node t f s).lift l := by
  have h : ∀ ch mode (l : List IRInstr) (s : GenState),
      sub ch mode (s.lift l) = ((sub ch mode s).1.lift l, (sub ch mode s).2) :=
    fun ch mode l s => hsub ch mode l s
  unfold gen_cond_logical
  simp only [ir_new_label_lift, h, ir_append_lift, lift_ite]

theorem gen_expr_lift (tk : Tokens)
    (sub : Child → GenMode → GenState → GenState × IROperand) (node : ASTNode)
    (hsub : ∀ ch mode, Local (sub ch mode)) : Local (gen_expr tk sub node) := by
  have h : ∀ ch mode (l : List IRInstr) (s : GenState),
      sub ch mode (s.lift l) = ((sub ch mode s).1.lift l, (sub ch mode s).2) :=
    fun ch mode l s => hsub ch mode l s
  intro l s
  unfold gen_expr
  cases node.type <;>
    simp only [ir_new_label_lift, ir_new_temp_lift, h, ir_append_lift,
      gen_cond_logical_lift tk sub node hsub] <;>
    (try split_ifs) <;> rfl

theorem gen_cond_lift (tk : Tokens)
    (sub : Child → GenMode → GenState → GenState × IROperand)
    (self_expr : GenState → GenState × IROperand) (node : ASTNode)
    (hsub : ∀ ch mode, Local (sub ch mode)) (hself : Local self_expr)
    (t f : String) (l : List IRInstr) (s : GenState) :
    gen_cond tk sub self_expr node t f (s.lift l) =
      (gen_cond tk sub self_expr node t f s).lift l := by
  have h : ∀ ch mode (l : List IRInstr) (s : GenState),
      sub ch mode (s.lift l) = ((sub ch mode s).1.lift l, (sub ch mode s).2) :=
    fun ch mode l s => hsub ch mode l s
  have hs : ∀ (l : List IRInstr) (s : GenState),
      self_expr (s.lift l) = ((self_expr s).1.lift l, (self_expr s).2) :=
    fun l s => hself l s
  unfold gen_cond
  cases node.type <;>
    simp only [h, hs, ir_append_lift, branch_on_nonzero_lift,
      gen_cond_logical_lift tk sub node hsub] <;>
    (try split_ifs) <;> rfl

theorem gen_stmt_lift
    (sub : Child → GenMode → GenState → GenState × IROperand)
    (self_expr : GenState → GenState × IROperand) (node : ASTNode)
    (hsub : ∀ ch mode, Local (sub ch mode)) (hself : Local self_expr)
    (l : List IRInstr) (s : GenState) :
    gen_stmt sub self_expr node (s.lift l) = (gen_stmt sub self_expr node s).lift l := by
  have h : ∀ ch mode (l : List IRInstr) (s : GenState),
      sub ch mode (s.lift l) = ((sub ch mode s).1.lift l, (sub ch mode s).2) :=
    fun ch mode l s => hsub ch mode l s
  have hs : ∀ (l : List IRInstr) (s : GenState),
      self_expr (s.lift l) = ((self_expr s).1.lift l, (self_expr s).2) :=
    fun l s => hself l s
  unfold gen_stmt
  cases node.type <;>
    simp only [h, hs, ir_append_lift, ir_new_label_lift, lift_ite] <;>
    (try split_ifs) <;> rfl

/-- Every call of the generator only appends: with more instructions in front of the list
it gives the same counters and operand and appends the same instructions. -/
theorem gen_walk_lift (tk : Tokens) (n : ASTNode) :
    ∀ mode : GenMode, Local (gen_walk tk n mode) := by
  induction n with
  | null =>
    intro mode l s
    rw [gen_walk_null, gen_walk_null]
    cases mode <;> simp only [ir_append_lift]
  | node d l r c b ini inc p nx ihl ihr ihc ihb ihini ihinc _ ihnx =>
    intro mode
    have hsub : ∀ ch mode, Local
        ((fun ch m1 st1 =>
          match ch with
          | Child.left => gen_walk tk l m1 st1
          | Child.right => gen_walk tk r m1 st1
          | Child.cond => gen_walk tk c m1 st1
          | Child.body => gen_walk tk b m1 st1
          | Child.init => gen_walk tk ini m1 st1
          | Child.incr => gen_walk tk inc m1 st1) ch mode) := by
      intro ch mode
      cases ch <;> simp only <;> apply_assumption
    have hexpr := gen_expr_lift tk _ (ASTNode.node d l r c b ini inc p nx) hsub
    intro l0 s
    have hcond := fun t f => gen_cond_lift tk _ _ (ASTNode.node d l r c b ini inc p nx)
      hsub hexpr t f l0 s
    have hstmt := gen_stmt_lift _ _ (ASTNode.node d l r c b ini inc p nx) hsub hexpr l0 s
    cases mode with
    | expr =>
      rw [gen_walk, gen_walk]
      exact hexpr l0 s
    | cond t f line =>
      rw [gen_walk, gen_walk]
      exact Prod.ext (hcond t f) rfl
    | stmt =>
      rw [gen_walk, gen_walk]
      exact Prod.ext hstmt rfl
    | stmts =>
      rw [gen_walk, gen_walk]
      exact (congrArg (gen_walk tk nx GenMode.stmts) hstmt).trans (ihnx GenMode.stmts l0 _)
    | args line =>
      rw [gen_walk, gen_walk]
      exact ((congrArg (fun x : GenState × IROperand =>
          gen_walk tk nx (GenMode.args line) (ir_append x.1 (ir_make_param x.2 line)))
          (hexpr l0 s)).trans
        (congrArg (gen_walk tk nx (GenMode.args line)) (ir_append_lift l0 _ _))).trans
        (ihnx (GenMode.args line) l0 _)

theorem lift_clear (s : GenState) : ({ s with list := [] } : GenState).lift s.list = s := by
  simp [GenState.lift]

/-- The list after a visit is the list before it followed by the emitted instructions. -/
theorem gen_walk_list (tk : Tokens) (n : ASTNode) (mode : GenMode) (st : GenState) :
    (gen_walk tk n mode st).1.list = st.list ++ emitted tk n mode st := by
  have h := gen_walk_lift tk n mode st.list { st with list := [] }
  rw [lift_clear] at h
  rw [h]
  rfl

/-- The counters after a visit do not depend on the list it started with. -/
theorem gen_walk_counters (tk : Tokens) (n : ASTNode) (mode : GenMode) (st : GenState) :
    (gen_walk tk n mode st).1.temp_counter =
        (gen_walk tk n mode { st with list := [] }).1.temp_counter ∧
      (gen_walk tk n mode st).1.label_counter =
        (gen_walk tk n mode { st with list := [] }).1.label_counter ∧
      (gen_walk tk n mode st).2 = (gen_walk tk n mode { st with list := [] }).2 := by
  have h := gen_walk_lift tk n mode st.list { st with list := [] }
  rw [lift_clear] at h
  rw [h]
  exact ⟨rfl, rfl, rfl⟩

/-! ## Short-circuit lowering of `&&` -/

theorem label_name_fresh {st : GenState} {E D : Nat → Prop} (h : LabelInv st E D) :
    label_name st.label_counter ∉ label_defs st.list ∧
      label_name st.label_counter ∉ label_refs st.list := by
  have hd : label_name st.label_counter ∉ label_defs st.list := by
    intro hmem
    obtain ⟨k, hk, hkx⟩ := h.defs_lt _ hmem
    have := label_name_injective hkx
    omega
  refine ⟨hd, ?_⟩
  intro hmem
  rcases h.refs_ok _ hmem with h1 | ⟨k, hk, hkx⟩
  · exact hd h1
  · have := label_name_injective hkx
    have := (h.pending k hk).1
    omega

theorem emitted_const_zero (tk : Tokens) (a : ASTNode) (t f : String) (line : Int)
    (st : GenState)
    (hty : a.type = NodeType.NODE_CONST_INT ∨ a.type = NodeType.NODE_CONST_CHAR)
    (hz : a.int_val = 0) :
    emitted tk a (GenMode.cond t f line) st = [ir_make_goto (some f) a.line_number] := by
  cases a with
  | null => simp [ASTNode.type] at hty
  | node ad al ar ac ab aini ainc ap anx =>
    simp only [ASTNode.type, ASTNode.int_val] at hty hz
    unfold emitted
    rw [gen_walk]
    rcases hty with hty | hty <;>
      simp [gen_cond, ASTNode.type, hty, ASTNode.int_val, hz, ir_append,
        ASTNode.line_number]

/-- C11: for all expressions `a` and `b` and all targets `t` and `f`, `gen_cond` on `a && b`
allocates the label `L_mid` (the name `L<k>` of the current label counter, which so far is
neither defined nor jumped to) and appends to the list the jump-context code of `a` with
targets `(L_mid, f)`, then the label `L_mid`, then the jump-context code of `b` with
targets `(t, f)`: every instruction derived from `b` lies after `L_mid`; and when `a` is the
constant 0 the code of `a` is the single instruction `goto f`, so that the emitted code
starts with `goto f`. -/
theorem and_condition_layout (tk : Tokens) (d : NodeData)
    (a b c bd ini inc p nx : ASTNode) (t f : String) (line : Int) (st : GenState)
    (hty : d.type = NodeType.NODE_BIN_OP) (hop : d.int_val = tk.T_AND) :
    (ir_new_label st).1 = label_name st.label_counter ∧
    (gen_walk tk (ASTNode.node d a b c bd ini inc p nx) (GenMode.cond t f line) st).1.list =
      st.list ++
        emitted tk a (GenMode.cond (label_name st.label_counter) f d.line_number)
          (ir_new_label st).2 ++
        [ir_make_label (some (label_name st.label_counter)) d.line_number] ++
        emitted tk b (GenMode.cond t f d.line_number)
          (gen_walk tk a (GenMode.cond (label_name st.label_counter) f d.line_number)
            (ir_new_label st).2).1 ∧
    ((a.type = NodeType.NODE_CONST_INT ∨ a.type = NodeType.NODE_CONST_CHAR) →
      a.int_val = 0 →
      emitted tk a (GenMode.cond (label_name st.label_counter) f d.line_number)
        (ir_new_label st).2 = [ir_make_goto (some f) a.line_number]) ∧
    (∀ E D : Nat → Prop, LabelInv st E D →
      label_name st.label_counter ∉ label_defs st.list ∧
        label_name st.label_counter ∉ label_refs st.list) := by
  refine ⟨rfl, ?_, fun h1 h2 => emitted_const_zero tk a _ f _ _ h1 h2,
    fun E D h => label_name_fresh h⟩
  have hmain : (gen_walk tk (ASTNode.node d a b c bd ini inc p nx)
      (GenMode.cond t f line) st).1 =
      (gen_walk tk b (GenMode.cond t f d.line_number)
        (ir_append
          (gen_walk tk a (GenMode.cond (label_name st.label_counter) f d.line_number)
            (ir_new_label st).2).1
          (ir_make_label (some (label_name st.label_counter)) d.line_number))).1 := by
    rw [gen_walk]
    simp only [gen_cond, ASTNode.type, hty, ASTNode.int_val, hop, true_or, if_true,
      gen_cond_logical, ASTNode.line_number]
    rfl
  rw [hmain, gen_walk_list, emitted]
  simp only [ir_append, gen_walk_list, List.append_assoc]
  rfl

theorem and_condition_layout_witness :
    (gen_walk sample_tokens (sample_and_zero sample_tokens) (GenMode.cond "L0" "L2" 1)
        sample_gen_state).1.list =
      [ir_make_goto (some "L2") 1, ir_make_label (some "L3") 1,
        ir_make_if (ir_op_name (some "x")) (ir_op_const 0) IRRelop.IR_NE (some "L0") 1,
        ir_make_goto (some "L2") 1] ∧
    emitted sample_tokens ((create_int_node 0).set_line 1)
      (GenMode.cond (label_name sample_gen_state.label_counter) "L2" 1)
      (ir_new_label sample_gen_state).2 = [ir_make_goto (some "L2") 1] :=
  ⟨by decide,
    (and_condition_layout sample_tokens
      { type := NodeType.NODE_BIN_OP, data_type := DataType.TYPE_VOID, line_number := 1,
        int_val := sample_tokens.T_AND, str_val := none }
      ((create_int_node 0).set_line 1) ((create_var_node "x").set_line 1) ASTNode.null
      ASTNode.null ASTNode.null ASTNode.null ASTNode.null ASTNode.null "L0" "L2" 1
      sample_gen_state rfl rfl).2.2.1 (Or.inl rfl) rfl⟩

/-! ## The pass at top level -/

/-- One turn of the loop of `analyze_list`. -/
theorem analyze_list_step (d : NodeData) (l r c b ini inc p nx : ASTNode) (st : AnState) :
    analyze_list (ASTNode.node d l r c b ini inc p nx) st =
      if (analyze_node (ASTNode.node d l r c b ini inc p nx) st).returns = true then
        analyze_node (ASTNode.node d l r c b ini inc p nx) st
      else
        { st := (analyze_list nx (analyze_node (ASTNode.node d l r c b ini inc p nx) st).st).st,
          node := (analyze_node (ASTNode.node d l r c b ini inc p nx) st).node.set_next
            (analyze_list nx (analyze_node (ASTNode.node d l r c b ini inc p nx) st).st).node,
          returns :=
            (analyze_list nx (analyze_node (ASTNode.node d l r c b ini inc p nx) st).st).returns
        } := by
  unfold analyze_list analyze_node
  rw [analyze_walk, analyze_walk]

/-- Outside a function no node "definitely returns", and the analysis of a node ends outside
a function again: a function definition clears `current_function` when it is done. -/
theorem analyze_switch_outside (sub : Child → Walk → AnState → AnResult)
    (hr : ∀ ch w st, st.current_function = none → (sub ch w st).returns = false)
    (hc : ∀ ch w st, st.current_function = none → (sub ch w st).st.current_function = none)
    (node : ASTNode) (st : AnState) (h : st.current_function = none) :
    (analyze_switch sub node st).returns = false ∧
      (analyze_switch sub node st).st.current_function = none := by
  unfold analyze_switch
  cases hn : node.type <;> simp only
  · unfold analyze_function
    simp only
    split_ifs <;> simp [semantic_error, h]
  · unfold analyze_declaration
    simp only
    split_ifs <;> simp [hc, semantic_error, h]
  · exact ⟨trivial, h⟩
  · unfold analyze_block
    simp [hr, hc, h]
  · unfold analyze_if
    simp only
    split_ifs <;> simp [hr, hc, semantic_error, h] <;> repeat (first | exact h | apply hc)
  · unfold analyze_while
    simp only
    split_ifs <;> simp [hr, hc, semantic_error, h]
  · unfold analyze_for
    simp only
    split_ifs <;> simp [hr, hc, semantic_error, h] <;> repeat (first | exact h | apply hc)
  · unfold analyze_return
    simp [h, semantic_error]
  · unfold analyze_assignment
    simp only
    split_ifs <;> simp [hr, hc, semantic_error, h]
  · unfold analyze_binary
    simp only
    split_ifs <;> simp [hr, hc, semantic_error, h]
  · unfold analyze_unary
    simp [hr, hc, h]
  · exact ⟨trivial, h⟩
  · exact ⟨trivial, h⟩
  · unfold analyze_variable
    split <;> simp [semantic_error, h]
  · unfold analyze_function_call
    split
    · simp [semantic_error, h]
    · simp only
      split_ifs <;> simp [hr, hc, semantic_error, h]
  · exact ⟨trivial, h⟩
  · exact ⟨trivial, h⟩
  · exact ⟨trivial, h⟩

theorem check_argument_outside (sym : Symbol) (i : Nat) (line : Int)
    (arg : ASTNode) (st : AnState) (h : st.current_function = none) :
    (check_argument sym i line arg st).current_function = none :=
  (check_argument_current_function sym i line arg st).trans h

theorem analyze_walk_outside (n : ASTNode) :
    ∀ (w : Walk) (st : AnState), st.current_function = none →
      (analyze_walk n w st).returns = false ∧
        (analyze_walk n w st).st.current_function = none := by
  induction n with
  | null =>
    intro w st h
    rw [analyze_walk_null]
    exact ⟨rfl, h⟩
  | node d l r c b ini inc p nx ihl ihr ihc ihb ihini ihinc ihp ihnx =>
    intro w st h
    have h1 := analyze_switch_outside
      (fun ch w1 st1 =>
        match ch with
        | Child.left => analyze_walk l w1 st1
        | Child.right => analyze_walk r w1 st1
        | Child.cond => analyze_walk c w1 st1
        | Child.body => analyze_walk b w1 st1
        | Child.init => analyze_walk ini w1 st1
        | Child.incr => analyze_walk inc w1 st1)
      (by
        intro ch w1 st1 h1
        cases ch <;> simp only
        · exact (ihl _ _ h1).1
        · exact (ihr _ _ h1).1
        · exact (ihc _ _ h1).1
        · exact (ihb _ _ h1).1
        · exact (ihini _ _ h1).1
        · exact (ihinc _ _ h1).1)
      (by
        intro ch w1 st1 h1
        cases ch <;> simp only
        · exact (ihl _ _ h1).2
        · exact (ihr _ _ h1).2
        · exact (ihc _ _ h1).2
        · exact (ihb _ _ h1).2
        · exact (ihini _ _ h1).2
        · exact (ihinc _ _ h1).2)
      (ASTNode.node d l r c b ini inc p nx) st h
    cases w with
    | single =>
      rw [analyze_walk]
      exact h1
    | stmts =>
      rw [analyze_walk]
      simp only
      split
      · exact h1
      · exact ihnx _ _ h1.2
    | args sym i line =>
      rw [analyze_walk]
      exact ⟨rfl, (ihnx _ _ (check_argument_outside _ _ _ _ _ h1.2)).2⟩

theorem state_before_outside (n : ASTNode) :
    ∀ (k : Nat) (st : AnState), st.current_function = none →
      (state_before n k st).current_function = none := by
  induction n with
  | null =>
    intro k st h
    cases k <;> exact h
  | node d l r c b ini inc p nx _ _ _ _ _ _ _ ihnx =>
    intro k st h
    cases k with
    | zero => exact h
    | succ k =>
      rw [state_before]
      exact ihnx k _ (analyze_walk_outside _ _ _ h).2

/-- A loop that no statement ends has visited every statement of the list. -/
theorem analyze_list_all (n : ASTNode) :
    ∀ st : AnState,
      (∀ k s, (siblings n)[k]? = some s →
        (analyze_node s (state_before n k st)).returns = false) →
      (analyze_list n st).st = (siblings n).foldl (fun s d => (analyze_node d s).st) st ∧
        (analyze_list n st).returns = false := by
  induction n with
  | null =>
    intro st _
    exact ⟨rfl, rfl⟩
  | node d l r c b ini inc p nx _ _ _ _ _ _ _ ihnx =>
    intro st hvis
    have h0 := hvis 0 (ASTNode.node d l r c b ini inc p nx) (by simp [siblings])
    rw [state_before] at h0
    rw [analyze_list_step, h0]
    simp only [Bool.false_eq_true, if_false, siblings, List.foldl_cons]
    refine ihnx _ ?_
    intro k s hk
    have := hvis (k + 1) s (by simpa [siblings] using hk)
    rw [state_before] at this
    exact this

/-- C21: started with no current function, as the driver starts it, `semantic_analyze`
visits every node of the top-level sibling list whatever the earlier ones reported: no
top-level node yields "definitely returns" (each is analysed with no current function, the
state every function definition leaves behind), so the loop of `analyze_list` is never left
early, the final state is the one reached by analysing all the nodes in turn, and the
diagnostics of every node are part of the final diagnostics. -/
theorem top_level_visits_all (n : ASTNode) (st : AnState)
    (h : st.current_function = none) :
    (∀ k s, (siblings n)[k]? = some s →
      (state_before n k st).current_function = none ∧
      (analyze_node s (state_before n k st)).returns = false ∧
      (analyze_node s (state_before n k st)).st.diagnostics <+:
        (semantic_analyze n st).1.diagnostics) ∧
    (semantic_analyze n st).1 = (siblings n).foldl (fun s d => (analyze_node d s).st) st ∧
    (analyze_list n st).returns = false := by
  have hvis : ∀ k s, (siblings n)[k]? = some s →
      (analyze_node s (state_before n k st)).returns = false := fun k s _ =>
    (analyze_walk_outside s Walk.single _ (state_before_outside n k st h)).1
  have hsem : (semantic_analyze n st).1 = (analyze_list n st).st := by
    unfold semantic_analyze
    split
    · cases n with
      | null => rfl
      | node d l r c b ini inc p nx => simp [ASTNode.isNull] at *
    · rfl
  refine ⟨fun k s hk => ⟨state_before_outside n k st h, hvis k s hk, ?_⟩, ?_, ?_⟩
  · rw [hsem]
    exact analyze_list_visits n k st s hk (fun j _ t hj => hvis j t hj)
  · rw [hsem]
    exact (analyze_list_all n st hvis).1
  · exact (analyze_list_all n st hvis).2

theorem top_level_visits_all_witness :
    AnState.initial.current_function = none ∧
    (semantic_analyze sample_global_redeclaration AnState.initial).1 =
      (siblings sample_global_redeclaration).foldl (fun s d => (analyze_node d s).st)
        AnState.initial :=
  ⟨rfl, (top_level_visits_all sample_global_redeclaration AnState.initial rfl).2.1⟩

/-- C22: for every tree and every state of the symbol table, the current scope after
`semantic_analyze` is the current scope at entry, and so it is after the analysis of any
node or list of statements or arguments: each `enter_scope` of a function or a block is
followed by its `exit_scope` on every path, the error paths included. -/
theorem current_scope_restored (n : ASTNode) (st : AnState) :
    (semantic_analyze n st).1.symtab.current_scope = st.symtab.current_scope ∧
    ∀ w : Walk, (analyze_walk n w st).st.symtab.current_scope = st.symtab.current_scope := by
  refine ⟨?_, fun w => (analyze_walk_frame n w st).current⟩
  unfold semantic_analyze
  split
  · rfl
  · exact (analyze_walk_frame n Walk.stmts st).current

/-! ## Entering and leaving a scope -/

theorem current_enter_scope (st : SymTab) : (enter_scope st).current = some (new_scope st) := by
  unfold SymTab.current
  simp only [enter_scope, List.getElem?_concat_length]

theorem new_scope_level (st : SymTab) :
    (new_scope st).level =
      match st.current with
      | some old => old.level + 1
      | none => 0 := by
  unfold SymTab.current new_scope
  simp only
  cases st.current_scope with
  | none => rfl
  | some a => cases st.heap[a]? <;> rfl

/-- C23: `enter_scope` makes current a scope that was not there before; it holds no symbol
(no name is found in it), its parent is the scope that was current and its level is the
level of that scope plus 1, or 0 when there was none, as in `init_symbol_table` on the empty
table; every scope that existed is still there, unchanged, with all its symbols. -/
theorem enter_scope_fresh (st : SymTab) :
    (enter_scope st).current_scope = some st.heap.length ∧
    (enter_scope st).current = some (new_scope st) ∧
    (new_scope st).symbols = [] ∧
    (∀ name, lookup_current (enter_scope st) name = none) ∧
    (new_scope st).parent = st.current_scope ∧
    ((new_scope st).level =
      match st.current with
      | some old => old.level + 1
      | none => 0) ∧
    (init_symbol_table SymTab.empty).current.map Scope.level = some 0 ∧
    (enter_scope st).heap.length = st.heap.length + 1 ∧
    (∀ a, a < st.heap.length → (enter_scope st).heap[a]? = st.heap[a]?) ∧
    (new_scope st).next_scope = st.all_scopes ∧
    (enter_scope st).all_scopes = some st.heap.length := by
  refine ⟨rfl, current_enter_scope st, new_scope_symbols st, ?_, rfl, new_scope_level st,
    rfl, by simp [enter_scope], fun a ha => heap_getElem?_enter_old ha, rfl, rfl⟩
  intro name
  unfold lookup_current
  have h1 : (enter_scope st).current_scope = some st.heap.length := rfl
  simp only [h1, heap_getElem?_enter_new, new_scope_bucket, find_symbol]

theorem enter_scope_fresh_witness :
    (0 : Nat) < demo_with_x.heap.length ∧
    (enter_scope demo_with_x).heap[0]? = demo_with_x.heap[0]? :=
  ⟨by decide, (enter_scope_fresh demo_with_x).2.2.2.2.2.2.2.2.1 0 (by decide)⟩

/-- C24: `exit_scope` writes the current pointer only: the heap, with the scope that is left
and its symbols, and the `all_scopes` list are as before; the current pointer becomes the
parent of the scope that was current, and with no current scope nothing changes at all.
Hence `enter_scope` followed by `exit_scope` gives back the current pointer, the scope that
was entered staying allocated. -/
theorem exit_scope_frame (st : SymTab) :
    (exit_scope st).heap = st.heap ∧
    (exit_scope st).all_scopes = st.all_scopes ∧
    (∀ sc, st.current = some sc → (exit_scope st).current_scope = sc.parent) ∧
    (st.current_scope = none → exit_scope st = st) ∧
    (exit_scope (enter_scope st)).current_scope = st.current_scope ∧
    (exit_scope (enter_scope st)).heap = st.heap ++ [new_scope st] := by
  refine ⟨?_, ?_, ?_, ?_, ?_, ?_⟩
  · unfold exit_scope
    split
    · rfl
    · split <;> rfl
  · unfold exit_scope
    split
    · rfl
    · split <;> rfl
  · intro sc h
    unfold SymTab.current at h
    unfold exit_scope
    split
    · rename_i hc
      rw [hc] at h
      cases h
    · rename_i a hc
      rw [hc] at h
      simp only at h
      rw [h]
  · intro h
    unfold exit_scope
    rw [h]
  · unfold exit_scope
    have h1 : (enter_scope st).current_scope = some st.heap.length := rfl
    simp only [h1, heap_getElem?_enter_new]
    rfl
  · unfold exit_scope
    have h1 : (enter_scope st).current_scope = some st.heap.length := rfl
    simp only [h1, heap_getElem?_enter_new]
    rfl

theorem exit_scope_frame_witness :
    demo_nested.current = some (new_scope demo_with_x) ∧
    (exit_scope demo_nested).current_scope = (new_scope demo_with_x).parent ∧
    SymTab.empty.current_scope = none ∧ exit_scope SymTab.empty = SymTab.empty :=
  ⟨current_enter_scope demo_with_x,
    (exit_scope_frame demo_nested).2.2.1 (new_scope demo_with_x)
      (current_enter_scope demo_with_x),
    rfl, (exit_scope_frame SymTab.empty).2.2.2.1 rfl⟩

/-! ## `if` statements and binary operators -/

/-- C28: for every If node `analyze_if` returns true exactly when the node has an else
branch and both the then branch and the else branch definitely return, each analysed in the
state the preceding part of the statement leaves; without an else branch it returns false
whatever the then branch does. -/
theorem if_returns (st : AnState) (d : NodeData) (l r c b ini inc p nx : ASTNode)
    (hty : d.type = NodeType.NODE_IF) :
    ((analyze_node (ASTNode.node d l r c b ini inc p nx) st).returns = true ↔
      r ≠ ASTNode.null ∧
      (analyze_node l (state_after_condition c d.line_number st)).returns = true ∧
      (analyze_node r
        (analyze_node l (state_after_condition c d.line_number st)).st).returns = true) ∧
    (r = ASTNode.null →
      (analyze_node (ASTNode.node d l r c b ini inc p nx) st).returns = false) := by
  have hret : (analyze_node (ASTNode.node d l r c b ini inc p nx) st).returns =
      if r.isNull then false
      else ((analyze_node l (state_after_condition c d.line_number st)).returns &&
        (analyze_node r
          (analyze_node l (state_after_condition c d.line_number st)).st).returns) := by
    unfold state_after_condition analyze_node
    rw [analyze_walk]
    simp only [analyze_switch, ASTNode.type, hty, analyze_if, ASTNode.set_cond,
      ASTNode.set_left, ASTNode.right, ASTNode.cond, ASTNode.line_number]
    split_ifs <;> simp
  rw [hret]
  cases r with
  | null => simp [ASTNode.isNull]
  | node rd rl rr rc rb rini rinc rp rnx => simp [ASTNode.isNull]

theorem if_returns_witness :
    (analyze_node
      (ASTNode.node (sample_data NodeType.NODE_IF) (return_node ASTNode.null 1)
        (return_node ASTNode.null 1) (create_int_node 1) ASTNode.null ASTNode.null
        ASTNode.null ASTNode.null ASTNode.null) sample_inside_f).returns = true ∧
    (analyze_node
      (ASTNode.node (sample_data NodeType.NODE_IF) (return_node ASTNode.null 1)
        ASTNode.null (create_int_node 1) ASTNode.null ASTNode.null
        ASTNode.null ASTNode.null ASTNode.null) sample_inside_f).returns = false :=
  ⟨(if_returns sample_inside_f (sample_data NodeType.NODE_IF) (return_node ASTNode.null 1)
      (return_node ASTNode.null 1) (create_int_node 1) ASTNode.null ASTNode.null
      ASTNode.null ASTNode.null ASTNode.null rfl).1.2 (by decide),
    (if_returns sample_inside_f (sample_data NodeType.NODE_IF) (return_node ASTNode.null 1)
      ASTNode.null (create_int_node 1) ASTNode.null ASTNode.null
      ASTNode.null ASTNode.null ASTNode.null rfl).2 rfl⟩

/-- C30: for every BinOp node, whatever its operator (arithmetic, relational or logical),
`analyze_binary` analyses the left and then the right operand and adds to the diagnostics
`"Binary operand type mismatch"`, on the line of the node, exactly when neither operand
type is Void and the two types differ; when neither operand is Void the type of the node
becomes the type of the left operand; when one of them is Void the node reports nothing
itself and its type is left as it was. -/
theorem binary_operand_check (st : AnState) (d : NodeData) (l r c b ini inc p nx : ASTNode)
    (hty : d.type = NodeType.NODE_BIN_OP) :
    (analyze_node (ASTNode.node d l r c b ini inc p nx) st).st.diagnostics =
      (analyze_node r (analyze_node l st).st).st.diagnostics ++
        (if (analyze_node l st).node.data_type ≠ DataType.TYPE_VOID ∧
            (analyze_node r (analyze_node l st).st).node.data_type ≠ DataType.TYPE_VOID ∧
            (analyze_node l st).node.data_type ≠
              (analyze_node r (analyze_node l st).st).node.data_type
          then [(d.line_number, "Binary operand type mismatch")] else []) ∧
    ((analyze_node l st).node.data_type ≠ DataType.TYPE_VOID →
      (analyze_node r (analyze_node l st).st).node.data_type ≠ DataType.TYPE_VOID →
      (analyze_node (ASTNode.node d l r c b ini inc p nx) st).node.data_type =
        (analyze_node l st).node.data_type) ∧
    ((analyze_node l st).node.data_type = DataType.TYPE_VOID ∨
        (analyze_node r (analyze_node l st).st).node.data_type = DataType.TYPE_VOID →
      (analyze_node (ASTNode.node d l r c b ini inc p nx) st).st =
          (analyze_node r (analyze_node l st).st).st ∧
        (analyze_node (ASTNode.node d l r c b ini inc p nx) st).node.data_type =
          d.data_type) := by
  have hnode : analyze_node (ASTNode.node d l r c b ini inc p nx) st =
      { analyze_binary (fun ch w1 st1 =>
          match ch with
          | Child.left => analyze_walk l w1 st1
          | Child.right => analyze_walk r w1 st1
          | Child.cond => analyze_walk c w1 st1
          | Child.body => analyze_walk b w1 st1
          | Child.init => analyze_walk ini w1 st1
          | Child.incr => analyze_walk inc w1 st1) (ASTNode.node d l r c b ini inc p nx) st
        with returns := false } := by
    unfold analyze_node
    rw [analyze_walk]
    simp only [analyze_switch, ASTNode.type, hty]
  rw [hnode]
  unfold analyze_binary analyze_node
  simp only [ASTNode.set_left, ASTNode.set_right, ASTNode.left, ASTNode.right,
    ASTNode.line_number]
  refine ⟨?_, ?_, ?_⟩
  · split_ifs <;> simp_all [semantic_error]
  · intro h1 h2
    simp only [h1, h2, or_self, if_false]
    simp [ASTNode.set_data_type, ASTNode.data_type]
  · intro h
    simp only [h, if_true]
    simp [ASTNode.data_type]

theorem binary_operand_check_witness :
    (analyze_node (create_binary_node 60 (create_int_node 1) (create_char_node 97))
      AnState.initial).st.diagnostics = [(0, "Binary operand type mismatch")] ∧
    (analyze_node (create_binary_node 60 (create_int_node 1) (create_char_node 97))
      AnState.initial).node.data_type = DataType.TYPE_INT := by
  have h := binary_operand_check AnState.initial
    { type := NodeType.NODE_BIN_OP, data_type := DataType.TYPE_VOID, line_number := 0,
      int_val := 60, str_val := none }
    (create_int_node 1) (create_char_node 97) ASTNode.null ASTNode.null ASTNode.null
    ASTNode.null ASTNode.null ASTNode.null rfl
  exact ⟨h.1, h.2.1 (by decide) (by decide)⟩

/-! ## Blocks stop at the first statement that returns -/

/-- The analyzer gives back a node for a node. -/
theorem analyze_switch_isNull (sub : Child → Walk → AnState → AnResult) (d : NodeData)
    (l r c b ini inc p nx : ASTNode) (st : AnState) :
    (analyze_switch sub (ASTNode.node d l r c b ini inc p nx) st).node.isNull = false := by
  unfold analyze_switch
  cases hn : d.type <;> simp only [ASTNode.type, hn, ASTNode.set_data_type, ASTNode.isNull]
  · unfold analyze_function
    simp only
    split_ifs <;> simp only [ASTNode.set_body, ASTNode.isNull]
  · unfold analyze_declaration
    simp only
    split_ifs <;> simp only [ASTNode.set_right, ASTNode.isNull]
  · simp only [analyze_block, ASTNode.set_left, ASTNode.isNull]
  · unfold analyze_if
    simp only [ASTNode.set_cond, ASTNode.set_left, ASTNode.right]
    split_ifs <;> simp only [ASTNode.set_right, ASTNode.isNull]
  · simp only [analyze_while, ASTNode.set_cond, ASTNode.set_body, ASTNode.isNull]
  · simp only [analyze_for, ASTNode.set_init, ASTNode.set_cond, ASTNode.set_incr,
      ASTNode.set_body, ASTNode.isNull]
  · unfold analyze_return
    cases st.current_function with
    | none => rfl
    | some f =>
      simp only
      split_ifs <;> simp only [ASTNode.set_left, ASTNode.isNull]
  · unfold analyze_assignment
    simp only [ASTNode.set_left, ASTNode.set_right]
    split_ifs <;> simp only [ASTNode.set_data_type, ASTNode.isNull]
  · unfold analyze_binary
    simp only [ASTNode.set_left, ASTNode.set_right]
    split_ifs <;> simp only [ASTNode.set_data_type, ASTNode.isNull]
  · simp only [analyze_unary, ASTNode.set_left, ASTNode.set_data_type, ASTNode.isNull]
  · unfold analyze_variable
    cases lookup st.symtab (ASTNode.node d l r c b ini inc p nx).name <;>
      simp only [ASTNode.set_data_type, ASTNode.isNull]
  · unfold analyze_function_call
    cases lookup st.symtab (ASTNode.node d l r c b ini inc p nx).name with
    | none => rfl
    | some sym =>
      simp only
      split_ifs <;> simp only [ASTNode.set_left, ASTNode.set_data_type, ASTNode.isNull]

theorem siblings_of_not_null {n : ASTNode} (h : n.isNull = false) :
    siblings n = n :: siblings n.next := by
  cases n with
  | null => simp [ASTNode.isNull] at h
  | node d l r c b ini inc p nx => rfl

theorem siblings_set_next {n : ASTNode} (h : n.isNull = false) (m : ASTNode) :
    siblings (n.set_next m) = n.set_next m :: siblings m := by
  cases n with
  | null => simp [ASTNode.isNull] at h
  | node d l r c b ini inc p nx => rfl

theorem analyze_node_next (n : ASTNode) (st : AnState) :
    (analyze_node n st).node.next = n.next := by
  cases n with
  | null => rfl
  | node d l r c b ini inc p nx =>
    unfold analyze_node
    rw [analyze_walk]
    exact analyze_switch_next _ _ _

theorem analyze_node_isNull (d : NodeData) (l r c b ini inc p nx : ASTNode) (st : AnState) :
    (analyze_node (ASTNode.node d l r c b ini inc p nx) st).node.isNull = false := by
  unfold analyze_node
  rw [analyze_walk]
  exact analyze_switch_isNull _ _ _ _ _ _ _ _ _ _ _

/-- The loop of `analyze_list` ends at the first statement whose visit returns true: the
globals and the flag are those of that visit, and the statements behind it are still the
ones of the list it was given. -/
theorem analyze_list_stops (n : ASTNode) :
    ∀ (j : Nat) (st : AnState) (s : ASTNode), (siblings n)[j]? = some s →
      (∀ k < j, ∀ t, (siblings n)[k]? = some t →
        (analyze_node t (state_before n k st)).returns = false) →
      (analyze_node s (state_before n j st)).returns = true →
      (analyze_list n st).st = (analyze_node s (state_before n j st)).st ∧
        (analyze_list n st).returns = true ∧
        (siblings (analyze_list n st).node).drop (j + 1) = (siblings n).drop (j + 1) := by
  induction n with
  | null =>
    intro j st s h
    simp [siblings] at h
  | node d l r c b ini inc p nx _ _ _ _ _ _ _ ihnx =>
    intro j st s h hvis hret
    cases j with
    | zero =>
      have hd := siblings_getElem_zero h
      subst hd
      rw [state_before] at hret
      have hstep := analyze_list_step d l r c b ini inc p nx st
      rw [if_pos hret] at hstep
      rw [state_before, hstep]
      refine ⟨rfl, hret, ?_⟩
      rw [siblings_of_not_null (analyze_node_isNull _ _ _ _ _ _ _ _ _ _), analyze_node_next]
      rfl
    | succ j =>
      have h0 := hvis 0 (by omega) (ASTNode.node d l r c b ini inc p nx)
        (by simp [siblings])
      rw [state_before] at h0
      rw [state_before] at hret
      rw [state_before, analyze_list_step, h0]
      simp only [Bool.false_eq_true, if_false]
      simp only [siblings, List.getElem?_cons_succ] at h
      have ih := ihnx j _ s h (by
        intro k hk t ht
        have := hvis (k + 1) (by omega) t (by simpa [siblings] using ht)
        rw [state_before] at this
        exact this) hret
      refine ⟨ih.1, ih.2.1, ?_⟩
      rw [siblings_set_next (analyze_node_isNull _ _ _ _ _ _ _ _ _ _)]
      simp only [List.drop_succ_cons]
      exact ih.2.2

/-- A list in which no visit returns true has a first one that does, or none at all. -/
theorem analyze_list_returns_iff (n : ASTNode) :
    ∀ st : AnState, (analyze_list n st).returns = true ↔
      ∃ j s, (siblings n)[j]? = some s ∧
        (∀ k < j, ∀ t, (siblings n)[k]? = some t →
          (analyze_node t (state_before n k st)).returns = false) ∧
        (analyze_node s (state_before n j st)).returns = true := by
  intro st
  constructor
  · intro h
    by_contra hcon
    have hall : ∀ k s, (siblings n)[k]? = some s →
        (analyze_node s (state_before n k st)).returns = false := by
      intro k
      induction k using Nat.strong_induction_on with
      | _ k ih =>
        intro s hs
        by_contra hk
        exact hcon ⟨k, s, hs, fun i hi t ht => ih i hi t ht, by simpa using hk⟩
    rw [(analyze_list_all n st hall).2] at h
    cases h
  · rintro ⟨j, s, hs, hvis, hret⟩
    exact (analyze_list_stops n j st s hs hvis hret).2.1

/-- C29: `analyze_block` enters a scope, analyses the statements of the block in sibling
order, each in the state the one before it leaves, and leaves the scope.  The loop stops at
the first statement that definitely returns: the globals are then those after that
statement (nothing is reported and nothing is declared for a later one), the statements
behind it are in the tree as they were, without annotation, and the block returns true.
The block returns true exactly when some statement it has analysed returned true; when none
does, all the statements have been analysed in turn. -/
theorem block_stops_at_return (st : AnState) (d : NodeData) (l r c b ini inc p nx : ASTNode)
    (hty : d.type = NodeType.NODE_BLOCK) :
    (analyze_node (ASTNode.node d l r c b ini inc p nx) st).st =
      { (analyze_list l { st with symtab := enter_scope st.symtab }).st with
        symtab := exit_scope
          (analyze_list l { st with symtab := enter_scope st.symtab }).st.symtab } ∧
    (analyze_node (ASTNode.node d l r c b ini inc p nx) st).node.left =
      (analyze_list l { st with symtab := enter_scope st.symtab }).node ∧
    (∀ j s, (siblings l)[j]? = some s →
      (∀ k < j, ∀ t, (siblings l)[k]? = some t →
        (analyze_node t
          (state_before l k { st with symtab := enter_scope st.symtab })).returns = false) →
      (analyze_node s
        (state_before l j { st with symtab := enter_scope st.symtab })).returns = true →
      (analyze_list l { st with symtab := enter_scope st.symtab }).st =
        (analyze_node s (state_before l j { st with symtab := enter_scope st.symtab })).st ∧
      (siblings (analyze_list l { st with symtab := enter_scope st.symtab }).node).drop
        (j + 1) = (siblings l).drop (j + 1) ∧
      (analyze_node (ASTNode.node d l r c b ini inc p nx) st).returns = true) ∧
    ((analyze_node (ASTNode.node d l r c b ini inc p nx) st).returns = true ↔
      ∃ j s, (siblings l)[j]? = some s ∧
        (∀ k < j, ∀ t, (siblings l)[k]? = some t →
          (analyze_node t
            (state_before l k { st with symtab := enter_scope st.symtab })).returns =
              false) ∧
        (analyze_node s
          (state_before l j { st with symtab := enter_scope st.symtab })).returns = true) ∧
    ((analyze_node (ASTNode.node d l r c b ini inc p nx) st).returns = false →
      (analyze_list l { st with symtab := enter_scope st.symtab }).st =
        (siblings l).foldl (fun s t => (analyze_node t s).st)
          { st with symtab := enter_scope st.symtab }) := by
  have hnode : analyze_node (ASTNode.node d l r c b ini inc p nx) st =
      { st := { (analyze_list l { st with symtab := enter_scope st.symtab }).st with
          symtab := exit_scope
            (analyze_list l { st with symtab := enter_scope st.symtab }).st.symtab },
        node := (ASTNode.node d l r c b ini inc p nx).set_left
          (analyze_list l { st with symtab := enter_scope st.symtab }).node,
        returns := (analyze_list l { st with symtab := enter_scope st.symtab }).returns } := by
    unfold analyze_node analyze_list
    rw [analyze_walk]
    simp only [analyze_switch, ASTNode.type, hty, analyze_block]
  rw [hnode]
  refine ⟨rfl, rfl, ?_, ?_, ?_⟩
  · intro j s hs hvis hret
    have h := analyze_list_stops l j _ s hs hvis hret
    exact ⟨h.1, h.2.2, h.2.1⟩
  · exact analyze_list_returns_iff l _
  · intro hfalse
    simp only at hfalse
    refine (analyze_list_all l _ ?_).1
    intro k
    induction k using Nat.strong_induction_on with
    | _ k ih =>
      intro s hs
      by_contra hk
      have := (analyze_list_stops l k _ s hs (fun i hi t ht => ih i hi t ht)
        (by simpa using hk)).2.1
      rw [hfalse] at this
      cases this

theorem block_stops_at_return_witness :
    (siblings sample_return_then_use)[0]? = some sample_return_then_use ∧
    (analyze_node (block_node sample_return_then_use 1) sample_inside_f).returns = true ∧
    (siblings (analyze_list sample_return_then_use
      { sample_inside_f with symtab := enter_scope sample_inside_f.symtab }).node).drop 1 =
        (siblings sample_return_then_use).drop 1 ∧
    (analyze_node (block_node sample_return_then_use 1) sample_inside_f).st.diagnostics = [] := by
  have h := (block_stops_at_return sample_inside_f (sample_data NodeType.NODE_BLOCK)
    sample_return_then_use ASTNode.null ASTNode.null ASTNode.null ASTNode.null ASTNode.null
    ASTNode.null ASTNode.null rfl).2.2.1 0 sample_return_then_use (by decide)
    (fun k hk => absurd hk (Nat.not_lt_zero k)) (by decide)
  exact ⟨by decide, h.2.2, h.2.1, by decide⟩

/-! ## Scopes other than the current one are not written to -/

theorem Frame.heap_length_le {t0 t1 : SymTab} (h : Frame t0 t1) :
    t0.heap.length ≤ t1.heap.length := by
  by_contra hcon
  have hlt : t1.heap.length < t0.heap.length := Nat.lt_of_not_le hcon
  obtain ⟨sc1, h1, _⟩ := h.scopes t1.heap.length (t0.heap.get ⟨t1.heap.length, hlt⟩)
    (List.getElem?_eq_getElem hlt)
  rw [List.getElem?_eq_none (Nat.le_refl _)] at h1
  cases h1

theorem Kept.kept_same (t : SymTab) : Kept t t := ⟨Frame.frame_same t, fun _ _ _ => rfl⟩

theorem Kept.kept_comp {a b c : SymTab} (h1 : Kept a b) (h2 : Kept b c) : Kept a c := by
  refine ⟨h1.frame.frame_comp h2.frame, ?_⟩
  intro x hx hne
  rw [h2.others x (Nat.lt_of_lt_of_le hx h1.frame.heap_length_le)
    (by rw [h1.frame.current]; exact hne)]
  exact h1.others x hx hne

theorem Kept.kept_store {t : SymTab} {a : Nat} {sc1 : Scope} (hc : t.current_scope = some a)
    (hf : Frame t (t.store a sc1)) : Kept t (t.store a sc1) := by
  refine ⟨hf, ?_⟩
  intro b _ hne
  have hab : a ≠ b := by
    intro hab
    subst hab
    exact hne hc
  simp [SymTab.store, List.getElem?_set, hab]

theorem Kept.kept_insert (t : SymTab) (sym : Symbol) : Kept t (insert_symbol t sym).1 := by
  have hf := Frame.insert t sym
  unfold insert_symbol at hf ⊢
  cases hc : t.current_scope with
  | none => exact Kept.kept_same _
  | some a =>
    rw [hc] at hf
    simp only at hf ⊢
    cases hs : t.heap[a]? with
    | none => exact Kept.kept_same _
    | some sc =>
      rw [hs] at hf
      simp only at hf ⊢
      cases hfs : find_symbol sym.name (sc.table.getD (hash sym.name) []) with
      | some s => exact Kept.kept_same _
      | none =>
        rw [hfs] at hf
        exact Kept.kept_store hc hf

theorem Kept.kept_signature (t : SymTab) (name : String) (count : Nat)
    (types : List DataType) : Kept t (set_signature t name count types) := by
  have hf := Frame.signature t name count types
  unfold set_signature at hf ⊢
  cases hc : t.current_scope with
  | none => exact Kept.kept_same _
  | some a =>
    rw [hc] at hf
    simp only at hf ⊢
    cases hs : t.heap[a]? with
    | none => exact Kept.kept_same _
    | some sc =>
      rw [hs] at hf
      simp only at hf ⊢
      cases hb : sc.table.getD (hash name) [] with
      | nil => exact Kept.kept_same _
      | cons func rest =>
        rw [hb] at hf
        exact Kept.kept_store hc hf

/-- A run between `enter_scope` and `exit_scope` leaves every scope that was there before
exactly as it was. -/
theorem Kept.block_all {t0 t1 : SymTab} (h : Kept (enter_scope t0) t1) :
    ∀ a, a < t0.heap.length → (exit_scope t1).heap[a]? = t0.heap[a]? := by
  intro a ha
  have hheap : (exit_scope t1).heap = t1.heap := by
    unfold exit_scope
    split
    · rfl
    · split <;> rfl
  rw [hheap, h.others a (by simp [enter_scope]; omega)
    (by
      intro hcon
      have : (enter_scope t0).current_scope = some t0.heap.length := rfl
      rw [this] at hcon
      have := Option.some.inj hcon
      omega)]
  exact heap_getElem?_enter_old ha

theorem Kept.kept_block {t0 t1 : SymTab} (h : Kept (enter_scope t0) t1) :
    Kept t0 (exit_scope t1) :=
  ⟨Frame.block h.frame, fun a ha _ => h.block_all a ha⟩

theorem insert_params_kept (ps : ASTNode) :
    ∀ st : AnState, Kept st.symtab (insert_params ps st).symtab := by
  induction ps with
  | null => intro st; exact Kept.kept_same _
  | node d l r c b ini inc p nx _ _ _ _ _ _ _ ihnx =>
    intro st
    rw [insert_params]
    refine Kept.kept_comp ?_ (ihnx _)
    split
    · exact Kept.kept_insert _ _
    · exact Kept.kept_insert _ _

theorem check_argument_kept (sym : Symbol) (i : Nat) (line : Int) (arg : ASTNode)
    (st : AnState) : Kept st.symtab (check_argument sym i line arg st).symtab := by
  unfold check_argument
  split_ifs
  · exact Kept.kept_same _
  · exact Kept.kept_same _
  · exact Kept.kept_same _

theorem insert_params_kept_to (ps : ASTNode) (t0 : SymTab) (st : AnState)
    (h : Kept t0 st.symtab) : Kept t0 (insert_params ps st).symtab :=
  h.kept_comp (insert_params_kept ps st)

theorem Kept.kto_insert {t0 t : SymTab} (sym : Symbol) (h : Kept t0 t) :
    Kept t0 (insert_symbol t sym).1 := h.kept_comp (Kept.kept_insert t sym)

theorem Kept.kto_signature {t0 t : SymTab} (name : String) (count : Nat)
    (types : List DataType) (h : Kept t0 t) : Kept t0 (set_signature t name count types) :=
  h.kept_comp (Kept.kept_signature t name count types)

theorem Kept.kto_block {t0 s t : SymTab} (h2 : Kept (enter_scope s) t) (h1 : Kept t0 s) :
    Kept t0 (exit_scope t) := h1.kept_comp (Kept.kept_block h2)

theorem Kept.kto_error {t0 : SymTab} (st : AnState) (line : Int) (msg : String)
    (h : Kept t0 st.symtab) : Kept t0 (semantic_error st line msg).symtab := h

theorem Kept.kto_ite {c : Prop} [Decidable c] {t0 : SymTab} {a b : AnState}
    (ha : Kept t0 a.symtab) (hb : Kept t0 b.symtab) :
    Kept t0 (if c then a else b).symtab := by
  split_ifs
  · exact ha
  · exact hb

theorem Kept.kto_ite_result {c : Prop} [Decidable c] {t0 : SymTab} {a b : AnResult}
    (ha : Kept t0 a.st.symtab) (hb : Kept t0 b.st.symtab) :
    Kept t0 (if c then a else b).st.symtab := by
  split_ifs
  · exact ha
  · exact hb

/-- Each `analyze_*` function writes to the current scope and to new scopes only, when the
recursive calls do. -/
theorem analyze_switch_kept (sub : Child → Walk → AnState → AnResult)
    (hsub : ∀ ch w st, Kept st.symtab (sub ch w st).st.symtab) (node : ASTNode)
    (st : AnState) :
    Kept st.symtab (analyze_switch sub node st).st.symtab := by
  have to_sub : ∀ (t0 : SymTab) (ch : Child) (w : Walk) (s : AnState),
      Kept t0 s.symtab → Kept t0 (sub ch w s).st.symtab :=
    fun t0 ch w s h => h.kept_comp (hsub ch w s)
  show Kept st.symtab (analyze_switch sub node st).st.symtab
  unfold analyze_switch
  cases node.type <;> simp only
  · -- NODE_FUNC_DEF
    unfold analyze_function
    simp only
    apply Kept.kto_ite_result
    · exact Kept.kto_error _ _ _ (Kept.kto_insert _ (Kept.kept_same _))
    · simp only
      apply Kept.kto_block
      · apply Kept.kto_ite
        · apply Kept.kto_error
          apply to_sub
          apply insert_params_kept_to
          exact Kept.kept_same _
        · apply to_sub
          apply insert_params_kept_to
          exact Kept.kept_same _
      · exact Kept.kto_signature _ _ _ (Kept.kto_insert _ (Kept.kept_same _))
  · -- NODE_VAR_DECL
    unfold analyze_declaration
    simp only
    have h2 : Kept st.symtab
        (if (insert_symbol st.symtab (create_symbol st.symtab node.name node.left.data_type
            SymbolKind.SYM_VARIABLE node.line_number)).2 = true
          then ({ st with symtab := (insert_symbol st.symtab (create_symbol st.symtab node.name
            node.left.data_type SymbolKind.SYM_VARIABLE node.line_number)).1 } : AnState)
          else semantic_error { st with symtab := (insert_symbol st.symtab
            (create_symbol st.symtab node.name node.left.data_type SymbolKind.SYM_VARIABLE
              node.line_number)).1 } node.line_number "Variable redeclared").symtab :=
      Kept.kto_ite (Kept.kto_insert _ (Kept.kept_same _))
        (Kept.kto_error _ _ _ (Kept.kto_insert _ (Kept.kept_same _)))
    apply Kept.kto_ite_result
    · exact h2
    · simp only
      apply Kept.kto_ite
      · exact Kept.kto_error _ _ _ (to_sub _ _ _ _ h2)
      · exact to_sub _ _ _ _ h2
  · -- NODE_PARAM
    exact Kept.kept_same _
  · -- NODE_BLOCK
    unfold analyze_block
    simp only
    exact Kept.kto_block (to_sub _ _ _ _ (Kept.kept_same _)) (Kept.kept_same _)
  · -- NODE_IF
    unfold analyze_if
    simp only
    have h1 : Kept st.symtab
        (if (node.set_cond (sub Child.cond Walk.single st).node).cond.data_type =
            DataType.TYPE_VOID
          then semantic_error (sub Child.cond Walk.single st).st
            (node.set_cond (sub Child.cond Walk.single st).node).line_number
            "Invalid condition type"
          else (sub Child.cond Walk.single st).st).symtab :=
      Kept.kto_ite (Kept.kto_error _ _ _ (to_sub _ _ _ _ (Kept.kept_same _)))
        (to_sub _ _ _ _ (Kept.kept_same _))
    apply Kept.kto_ite_result
    · exact to_sub _ _ _ _ h1
    · exact to_sub _ _ _ _ (to_sub _ _ _ _ h1)
  · -- NODE_WHILE
    unfold analyze_while
    simp only
    exact to_sub _ _ _ _ (Kept.kto_ite
      (Kept.kto_error _ _ _ (to_sub _ _ _ _ (Kept.kept_same _)))
      (to_sub _ _ _ _ (Kept.kept_same _)))
  · -- NODE_FOR
    unfold analyze_for
    simp only
    apply to_sub
    apply Kept.kto_ite_result
    · apply Kept.kto_ite_result
      · apply Kept.kto_ite_result
        · exact Kept.kept_same _
        · exact to_sub _ _ _ _ (Kept.kept_same _)
      · simp only
        apply Kept.kto_ite
        · apply Kept.kto_error
          apply to_sub
          apply Kept.kto_ite_result
          · exact Kept.kept_same _
          · exact to_sub _ _ _ _ (Kept.kept_same _)
        · apply to_sub
          apply Kept.kto_ite_result
          · exact Kept.kept_same _
          · exact to_sub _ _ _ _ (Kept.kept_same _)
    · apply to_sub
      apply Kept.kto_ite_result
      · apply Kept.kto_ite_result
        · exact Kept.kept_same _
        · exact to_sub _ _ _ _ (Kept.kept_same _)
      · simp only
        apply Kept.kto_ite
        · apply Kept.kto_error
          apply to_sub
          apply Kept.kto_ite_result
          · exact Kept.kept_same _
          · exact to_sub _ _ _ _ (Kept.kept_same _)
        · apply to_sub
          apply Kept.kto_ite_result
          · exact Kept.kept_same _
          · exact to_sub _ _ _ _ (Kept.kept_same _)
  · -- NODE_RETURN
    unfold analyze_return
    split
    · exact Kept.kept_same _
    · simp only
      apply Kept.kto_ite_result
      · exact Kept.kto_ite (Kept.kept_same _) (Kept.kept_same _)
      · exact Kept.kto_ite (Kept.kto_error _ _ _ (to_sub _ _ _ _ (Kept.kept_same _)))
          (to_sub _ _ _ _ (Kept.kept_same _))
  · -- NODE_ASSIGN
    unfold analyze_assignment
    simp only
    apply Kept.kto_ite_result
    · exact to_sub _ _ _ _ (to_sub _ _ _ _ (Kept.kept_same _))
    · exact Kept.kto_ite
        (Kept.kto_error _ _ _ (to_sub _ _ _ _ (to_sub _ _ _ _ (Kept.kept_same _))))
        (to_sub _ _ _ _ (to_sub _ _ _ _ (Kept.kept_same _)))
  · -- NODE_BIN_OP
    unfold analyze_binary
    simp only
    apply Kept.kto_ite_result
    · exact to_sub _ _ _ _ (to_sub _ _ _ _ (Kept.kept_same _))
    · exact Kept.kto_ite
        (Kept.kto_error _ _ _ (to_sub _ _ _ _ (to_sub _ _ _ _ (Kept.kept_same _))))
        (to_sub _ _ _ _ (to_sub _ _ _ _ (Kept.kept_same _)))
  · -- NODE_UN_OP
    unfold analyze_unary
    simp only
    exact to_sub _ _ _ _ (Kept.kept_same _)
  · -- NODE_CONST_INT
    exact Kept.kept_same _
  · -- NODE_CONST_CHAR
    exact Kept.kept_same _
  · -- NODE_VAR
    unfold analyze_variable
    split
    · exact Kept.kept_same _
    · exact Kept.kept_same _
  · -- NODE_FUNC_CALL
    unfold analyze_function_call
    split
    · exact Kept.kept_same _
    · simp only
      apply Kept.kto_ite_result
      · exact Kept.kept_same _
      · exact Kept.kto_ite (Kept.kto_error _ _ _ (to_sub _ _ _ _ (Kept.kept_same _)))
          (to_sub _ _ _ _ (Kept.kept_same _))
  · -- NODE_TYPE
    exact Kept.kept_same _
  · -- NODE_STR_LIT
    exact Kept.kept_same _
  · -- NODE_EMPTY
    exact Kept.kept_same _

/-- Whatever is analysed, the current scope is the same afterwards and every scope keeps
its names, and the scopes other than the current one are not written to. -/
theorem analyze_walk_kept (n : ASTNode) :
    ∀ (w : Walk) (st : AnState), Kept st.symtab (analyze_walk n w st).st.symtab := by
  induction n with
  | null =>
    intro w st
    rw [analyze_walk_null]
    exact Kept.kept_same _
  | node d l r c b ini inc p nx ihl ihr ihc ihb ihini ihinc ihp ihnx =>
    intro w st
    have h1 := analyze_switch_kept
      (fun ch w1 st1 =>
        match ch with
        | Child.left => analyze_walk l w1 st1
        | Child.right => analyze_walk r w1 st1
        | Child.cond => analyze_walk c w1 st1
        | Child.body => analyze_walk b w1 st1
        | Child.init => analyze_walk ini w1 st1
        | Child.incr => analyze_walk inc w1 st1)
      (by intro ch w1 st1; cases ch <;> simp only <;> apply_assumption)
      (ASTNode.node d l r c b ini inc p nx) st
    cases w with
    | single =>
      rw [analyze_walk]
      exact h1
    | stmts =>
      rw [analyze_walk]
      simp only
      split
      · exact h1
      · exact h1.kept_comp (ihnx _ _)
    | args sym i line =>
      rw [analyze_walk]
      simp only
      exact h1.kept_comp ((check_argument_kept _ _ _ _ _).kept_comp (ihnx _ _))


/-! ## The signature recorded for a function -/

theorem count_params_eq_length (p : ASTNode) : count_params p = (siblings p).length := by
  induction p with
  | null => rfl
  | node d l r c b ini inc q nx _ _ _ _ _ _ _ ihnx =>
    rw [count_params, siblings, List.length_cons, ihnx]

theorem collect_param_types_eq_map (p : ASTNode) :
    collect_param_types p = (siblings p).map (fun q => q.left.data_type) := by
  induction p with
  | null => rfl
  | node d l r c b ini inc q nx _ _ _ _ _ _ _ ihnx =>
    rw [collect_param_types, siblings, List.map_cons, ihnx]
    rfl

/-- After `insert_symbol` has put a new symbol into the current scope, `set_signature`
writes the signature into that symbol, which `lookup_current` then finds. -/
theorem lookup_current_set_signature {t : SymTab} (hok : current_scope_ok t) (sym : Symbol)
    (hnew : lookup_current t sym.name = none) (count : Nat) (types : List DataType) :
    (insert_symbol t sym).2 = true ∧
    (set_signature (insert_symbol t sym).1 sym.name count types).current_scope =
      t.current_scope ∧
    (set_signature (insert_symbol t sym).1 sym.name count types).heap.length =
      t.heap.length ∧
    lookup_current (set_signature (insert_symbol t sym).1 sym.name count types) sym.name =
      some { sym with param_count := count, param_types := types } := by
  obtain ⟨a, sc, hc, hs, hlen⟩ := hok
  have hf : find_symbol sym.name (sc.table.getD (hash sym.name) []) = none := by
    simpa [lookup_current, hc, hs] using hnew
  have hlt : a < t.heap.length := by
    by_contra hcon
    rw [List.getElem?_eq_none (Nat.le_of_not_lt hcon)] at hs
    cases hs
  have hh : hash sym.name < sc.table.length := by rw [hlen]; exact hash_lt _
  have hins : insert_symbol t sym = (t.store a (sc.push sym), true) := by
    rw [insert_symbol_unfold sym hc hs, hf]
  have hget : (t.store a (sc.push sym)).heap[a]? = some (sc.push sym) := by
    simp [SymTab.store, List.getElem?_set, hlt]
  have hbucket : (sc.push sym).table.getD (hash sym.name) [] =
      sym :: sc.table.getD (hash sym.name) [] := by
    simp only [Scope.push]
    exact getD_set_self _ _ _ _ hh
  have hsig : set_signature (t.store a (sc.push sym)) sym.name count types =
      (t.store a (sc.push sym)).store a
        { sc.push sym with
          table :=
            (sc.push sym).table.set (hash sym.name)
              ({ sym with param_count := count, param_types := types } ::
                sc.table.getD (hash sym.name) []) } := by
    unfold set_signature
    have hc1 : (t.store a (sc.push sym)).current_scope = some a := hc
    rw [hc1]
    simp only [hget, hbucket]
  rw [hins]
  simp only [hsig]
  refine ⟨trivial, rfl, by simp [SymTab.store], ?_⟩
  have hh1 : hash sym.name < (sc.push sym).table.length := by
    simpa [Scope.push] using hh
  simp only [lookup_current, SymTab.store, hc, List.getElem?_set, List.length_set, hlt,
    if_true, getD_set_self _ _ _ _ hh1, find_symbol]

/-- The function symbol as `analyze_function` leaves it, when the recursive calls do not
write to scopes they are not in. -/
theorem analyze_function_signature (sub : Child → Walk → AnState → AnResult)
    (hsub : ∀ ch w st, Kept st.symtab (sub ch w st).st.symtab) (node : ASTNode)
    (st : AnState) (hok : current_scope_ok st.symtab)
    (hnew : lookup_current st.symtab node.name = none) :
    lookup_current (analyze_function sub node st).st.symtab node.name =
      some { create_symbol st.symtab node.name node.left.data_type SymbolKind.SYM_FUNCTION
          node.line_number with
        param_count := count_params node.params,
        param_types := collect_param_types node.params } := by
  have to_sub : ∀ (t0 : SymTab) (ch : Child) (w : Walk) (s : AnState),
      Kept t0 s.symtab → Kept t0 (sub ch w s).st.symtab :=
    fun t0 ch w s h => h.kept_comp (hsub ch w s)
  obtain ⟨hins, hcur, hlen, hlook⟩ := lookup_current_set_signature hok
    (create_symbol st.symtab node.name node.left.data_type SymbolKind.SYM_FUNCTION
      node.line_number) hnew (count_params node.params) (collect_param_types node.params)
  obtain ⟨a, sc, hc, hs, _⟩ := hok
  have hlt : a < st.symtab.heap.length := by
    by_contra hcon
    rw [List.getElem?_eq_none (Nat.le_of_not_lt hcon)] at hs
    cases hs
  have hname : (create_symbol st.symtab node.name node.left.data_type
      SymbolKind.SYM_FUNCTION node.line_number).name = node.name := rfl
  rw [hname] at hcur hlen
  have hlook1 : lookup_current (set_signature (insert_symbol st.symtab
      (create_symbol st.symtab node.name node.left.data_type SymbolKind.SYM_FUNCTION
        node.line_number)).1 node.name (count_params node.params)
      (collect_param_types node.params)) node.name =
      some { create_symbol st.symtab node.name node.left.data_type
          SymbolKind.SYM_FUNCTION node.line_number with
        param_count := count_params node.params,
        param_types := collect_param_types node.params } := hlook
  -- the run between `enter_scope` and `exit_scope`
  have key : ∀ t1 : SymTab,
      Kept (enter_scope (set_signature (insert_symbol st.symtab
        (create_symbol st.symtab node.name node.left.data_type SymbolKind.SYM_FUNCTION
          node.line_number)).1 node.name (count_params node.params)
        (collect_param_types node.params))) t1 →
      lookup_current (exit_scope t1) node.name =
        some { create_symbol st.symtab node.name node.left.data_type
            SymbolKind.SYM_FUNCTION node.line_number with
          param_count := count_params node.params,
          param_types := collect_param_types node.params } := by
    intro t1 hk
    have h1 := (Kept.kept_block hk).frame.current
    have h2 := hk.block_all a (by rw [hlen]; exact hlt)
    rw [← hlook1]
    unfold lookup_current
    rw [h1, hcur, hc]
    simp only [h2]
  unfold analyze_function
  simp only [hins, Bool.true_eq_false, if_false]
  apply key
  apply Kept.kto_ite
  · apply Kept.kto_error
    apply to_sub
    apply insert_params_kept_to
    exact Kept.kept_same _
  · apply to_sub
    apply insert_params_kept_to
    exact Kept.kept_same _

/-- C26: after `analyze_function` on a FuncDef whose name is not yet declared in the
current scope, the Function symbol found under that name in the current scope has the
declared return type, `param_count` equal to the length of the Param sibling list and
`param_types` equal to the declared types of the parameters in list order: entry `i` is the
type of the Type child of the `i`-th Param. -/
theorem function_signature_recorded (st : AnState) (d : NodeData)
    (l r c b ini inc p nx : ASTNode) (hty : d.type = NodeType.NODE_FUNC_DEF)
    (hok : current_scope_ok st.symtab)
    (hnew : lookup_current st.symtab (d.str_val.getD "") = none) :
    ∃ sym, lookup_current (analyze_node (ASTNode.node d l r c b ini inc p nx) st).st.symtab
        (d.str_val.getD "") = some sym ∧
      sym.kind = SymbolKind.SYM_FUNCTION ∧ sym.type = l.data_type ∧
      sym.param_count = (siblings p).length ∧
      sym.param_types.length = (siblings p).length ∧
      ∀ (i : Nat) (q : ASTNode), (siblings p)[i]? = some q →
        sym.param_types[i]? = some q.left.data_type := by
  refine ⟨{ create_symbol st.symtab (d.str_val.getD "") l.data_type SymbolKind.SYM_FUNCTION
      d.line_number with
    param_count := count_params p, param_types := collect_param_types p }, ?_, rfl, rfl,
    count_params_eq_length p, ?_, ?_⟩
  · unfold analyze_node
    rw [analyze_walk]
    simp only [analyze_switch, ASTNode.type, hty]
    exact analyze_function_signature _
      (by
        intro ch w1 st1
        cases ch <;> simp only <;> exact analyze_walk_kept _ _ _)
      (ASTNode.node d l r c b ini inc p nx) st hok hnew
  · simp [collect_param_types_eq_map]
  · intro i q hq
    simp [collect_param_types_eq_map, hq]

theorem function_signature_recorded_witness :
    ∃ sym, lookup_current (analyze_node sample_two_params AnState.initial).st.symtab "f" =
        some sym ∧
      sym.kind = SymbolKind.SYM_FUNCTION ∧ sym.type = DataType.TYPE_INT ∧
      sym.param_count = 2 ∧ sym.param_types.length = 2 ∧
      ∀ (i : Nat) (q : ASTNode), (siblings sample_two_params.params)[i]? = some q →
        sym.param_types[i]? = some q.left.data_type :=
  function_signature_recorded AnState.initial
    { type := NodeType.NODE_FUNC_DEF, data_type := DataType.TYPE_VOID, line_number := 1,
      int_val := 0, str_val := some "f" }
    (type_node DataType.TYPE_INT) ASTNode.null ASTNode.null
    (block_node (return_node ((create_int_node 1).set_line 1) 1) 1) ASTNode.null ASTNode.null
    (append_node (param_node DataType.TYPE_INT "a" 1) (param_node DataType.TYPE_CHAR "b" 1))
    ASTNode.null rfl ⟨0, new_scope SymTab.empty, rfl, rfl, rfl⟩ (by decide)

/-! ## A conditional jump is followed by an unconditional one -/

theorem if_followed_by_goto_nil : if_followed_by_goto [] := by
  intro k i h
  simp at h

theorem if_followed_by_goto_append {l1 l2 : List IRInstr} (h1 : if_followed_by_goto l1)
    (h2 : if_followed_by_goto l2) : if_followed_by_goto (l1 ++ l2) := by
  intro k i hk hi
  by_cases hlt : k < l1.length
  · rw [List.getElem?_append_left hlt] at hk
    obtain ⟨j, hj, hg⟩ := h1 k i hk hi
    have hlt1 : k + 1 < l1.length := by
      by_contra hcon
      rw [List.getElem?_eq_none (Nat.le_of_not_lt hcon)] at hj
      cases hj
    exact ⟨j, by rw [List.getElem?_append_left hlt1]; exact hj, hg⟩
  · have hge : l1.length ≤ k := Nat.le_of_not_lt hlt
    rw [List.getElem?_append_right hge] at hk
    obtain ⟨j, hj, hg⟩ := h2 (k - l1.length) i hk hi
    refine ⟨j, ?_, hg⟩
    rw [List.getElem?_append_right (by omega)]
    have e : k + 1 - l1.length = k - l1.length + 1 := by omega
    rw [e]
    exact hj

theorem if_followed_by_goto_single {i : IRInstr} (hi : decide (i.kind = IROpKind.IR_IF) = false) :
    if_followed_by_goto [i] := by
  intro k x hk hx
  cases k with
  | zero =>
    simp only [List.getElem?_cons_zero, Option.some.injEq] at hk
    subst hk
    simp [hx] at hi
  | succ k => simp at hk

theorem if_followed_by_goto_pair (i : IRInstr) {j : IRInstr}
    (hj : j.kind = IROpKind.IR_GOTO) : if_followed_by_goto [i, j] := by
  intro k x hk hx
  cases k with
  | zero => exact ⟨j, rfl, hj⟩
  | succ k =>
    cases k with
    | zero =>
      simp only [List.getElem?_cons_succ, List.getElem?_cons_zero, Option.some.injEq] at hk
      subst hk
      rw [hj] at hx
      cases hx
    | succ k => simp at hk

theorem if_goto_alloc {st : GenState} (h : if_followed_by_goto st.list) (st1 : GenState)
    (hl : st1.list = st.list) : if_followed_by_goto st1.list := by
  rw [hl]
  exact h

theorem if_goto_plain {st : GenState} (h : if_followed_by_goto st.list) (i : IRInstr)
    (hi : decide (i.kind = IROpKind.IR_IF) = false) :
    if_followed_by_goto (ir_append st i).list :=
  if_followed_by_goto_append h (if_followed_by_goto_single hi)

theorem if_goto_pair {st : GenState} (h : if_followed_by_goto st.list) (i j : IRInstr)
    (hj : j.kind = IROpKind.IR_GOTO) :
    if_followed_by_goto (ir_append (ir_append st i) j).list := by
  have e : (ir_append (ir_append st i) j).list = st.list ++ [i, j] := by
    simp [ir_append]
  rw [e]
  exact if_followed_by_goto_append h (if_followed_by_goto_pair i hj)

theorem if_goto_ite {c : Prop} [Decidable c] {a b : GenState}
    (ha : c → if_followed_by_goto a.list) (hb : ¬ c → if_followed_by_goto b.list) :
    if_followed_by_goto (if c then a else b).list := by
  split_ifs with hc
  · exact ha hc
  · exact hb hc

theorem if_goto_branch {st : GenState} (h : if_followed_by_goto st.list) (place : IROperand)
    (t f : String) (line : Int) :
    if_followed_by_goto (branch_on_nonzero st place t f line).list :=
  if_goto_pair h _ _ rfl

theorem gen_cond_logical_if_goto (tk : Tokens)
    (sub : Child → GenMode → GenState → GenState × IROperand) (node : ASTNode)
    (hsub : ∀ ch mode st1, if_followed_by_goto st1.list →
      if_followed_by_goto (sub ch mode st1).1.list)
    (t f : String) (st : GenState) (h : if_followed_by_goto st.list) :
    if_followed_by_goto (gen_cond_logical tk sub node t f st).list := by
  have h1 : if_followed_by_goto (ir_new_label st).2.list := if_goto_alloc h _ rfl
  unfold gen_cond_logical
  split_ifs
  · exact hsub _ _ _ (if_goto_plain (hsub _ _ _ h1) _ (by rfl))
  · exact hsub _ _ _ (if_goto_plain (hsub _ _ _ h1) _ (by rfl))

theorem gen_expr_if_goto (tk : Tokens)
    (sub : Child → GenMode → GenState → GenState × IROperand) (node : ASTNode)
    (hsub : ∀ ch mode st1, if_followed_by_goto st1.list →
      if_followed_by_goto (sub ch mode st1).1.list)
    (st : GenState) (h : if_followed_by_goto st.list) :
    if_followed_by_goto (gen_expr tk sub node st).1.list := by
  unfold gen_expr
  split
  · exact h
  · exact h
  · exact h
  · exact h
  · split_ifs
    · have h1 : if_followed_by_goto
          (ir_new_label (ir_new_label (ir_new_label (ir_new_temp st).2).2).2).2.list :=
        if_goto_alloc h _ (by rfl)
      have h2 := gen_cond_logical_if_goto tk sub node hsub
        (ir_new_label (ir_new_temp st).2).1
        (ir_new_label (ir_new_label (ir_new_temp st).2).2).1 _
        (if_goto_plain h1
          (ir_make_assign (some (ir_new_temp st).1) (ir_op_const 0) node.line_number) rfl)
      exact if_goto_plain (if_goto_plain (if_goto_plain (if_goto_plain
        (if_goto_plain h2 _ (by rfl)) _ (by rfl)) _ (by rfl)) _ (by rfl)) _ (by rfl)
    · have h2 := hsub Child.right GenMode.expr _ (hsub Child.left GenMode.expr st h)
      have h3 : if_followed_by_goto (ir_new_label (ir_new_label (ir_new_temp
          (sub Child.right GenMode.expr (sub Child.left GenMode.expr st).1).1).2).2).2.list :=
        if_goto_alloc h2 _ (by rfl)
      exact if_goto_plain (if_goto_plain (if_goto_plain
        (if_goto_pair (if_goto_plain h3 _ (by rfl)) _ _ (by rfl)) _ (by rfl)) _ (by rfl)) _
        (by rfl)
    · have h2 := hsub Child.right GenMode.expr _ (hsub Child.left GenMode.expr st h)
      exact if_goto_plain (if_goto_alloc h2 (ir_new_temp _).2 (by rfl)) _ (by rfl)
  · exact if_goto_plain (if_goto_alloc (hsub Child.left GenMode.expr st h)
      (ir_new_temp _).2 (by rfl)) _ (by rfl)
  · exact if_goto_plain (hsub Child.right GenMode.expr st h) _ (by rfl)
  · have h1 := hsub Child.left (GenMode.args node.line_number) st h
    split_ifs
    · exact if_goto_plain h1 _ (by rfl)
    · exact if_goto_plain (if_goto_alloc h1 (ir_new_temp _).2 (by rfl)) _ (by rfl)
  · exact h

theorem gen_cond_if_goto (tk : Tokens)
    (sub : Child → GenMode → GenState → GenState × IROperand)
    (self_expr : GenState → GenState × IROperand) (node : ASTNode)
    (hsub : ∀ ch mode st1, if_followed_by_goto st1.list →
      if_followed_by_goto (sub ch mode st1).1.list)
    (hself : ∀ st1, if_followed_by_goto st1.list → if_followed_by_goto (self_expr st1).1.list)
    (t f : String) (st : GenState) (h : if_followed_by_goto st.list) :
    if_followed_by_goto (gen_cond tk sub self_expr node t f st).list := by
  have hplace : if_followed_by_goto (branch_on_nonzero (self_expr st).1 (self_expr st).2 t f
      node.line_number).list := if_goto_branch (hself st h) _ _ _ _
  unfold gen_cond
  split
  · split_ifs <;> exact if_goto_plain h _ (by rfl)
  · split_ifs <;> exact if_goto_plain h _ (by rfl)
  · exact if_goto_branch h _ _ _ _
  · split_ifs
    · exact gen_cond_logical_if_goto tk sub node hsub t f st h
    · exact if_goto_pair (hsub Child.right GenMode.expr _ (hsub Child.left GenMode.expr st h))
        _ _ (by rfl)
    · exact hplace
  · split_ifs
    · exact hsub _ _ _ h
    · exact hplace
  · exact hplace

theorem gen_stmt_if_goto
    (sub : Child → GenMode → GenState → GenState × IROperand)
    (self_expr : GenState → GenState × IROperand) (node : ASTNode)
    (hsub : ∀ ch mode st1, if_followed_by_goto st1.list →
      if_followed_by_goto (sub ch mode st1).1.list)
    (hself : ∀ st1, if_followed_by_goto st1.list → if_followed_by_goto (self_expr st1).1.list)
    (st : GenState) (h : if_followed_by_goto st.list) :
    if_followed_by_goto (gen_stmt sub self_expr node st).list := by
  have h3 : if_followed_by_goto (ir_new_label (ir_new_label (ir_new_label st).2).2).2.list :=
    if_goto_alloc h _ rfl
  unfold gen_stmt
  split
  · exact h
  · exact h
  · exact hsub _ _ _ h
  · have h4 := hsub Child.left GenMode.stmt _
      (if_goto_plain (hsub Child.cond (GenMode.cond (ir_new_label st).1
        (if node.right.isNull then (ir_new_label (ir_new_label (ir_new_label st).2).2).1
          else (ir_new_label (ir_new_label st).2).1) node.line_number) _ h3)
        (ir_make_label (some (ir_new_label st).1) node.line_number) rfl)
    have h5 := if_goto_ite (c := node.right.isNull = true) (fun _ => h4)
      (fun _ => hsub Child.right GenMode.stmt _
        (if_goto_plain (if_goto_plain h4
          (ir_make_goto (some (ir_new_label (ir_new_label (ir_new_label st).2).2).1)
            node.line_number) rfl)
          (ir_make_label (some (ir_new_label (ir_new_label st).2).1) node.line_number) rfl))
    exact if_goto_plain h5 _ (by rfl)
  · have h4 := hsub Child.cond (GenMode.cond (ir_new_label (ir_new_label st).2).1
      (ir_new_label (ir_new_label (ir_new_label st).2).2).1 node.line_number) _
      (if_goto_plain h3 (ir_make_label (some (ir_new_label st).1) node.line_number) rfl)
    have h5 := hsub Child.body GenMode.stmt _
      (if_goto_plain h4
        (ir_make_label (some (ir_new_label (ir_new_label st).2).1) node.line_number) rfl)
    exact if_goto_plain (if_goto_plain h5 _ (by rfl)) _ (by rfl)
  · have h4 := if_goto_ite (c := ¬ node.init.isNull ∧ node.init.type ≠ NodeType.NODE_EMPTY)
      (fun _ => hsub Child.init GenMode.stmt _ h3) (fun _ => h3)
    have h5 := if_goto_plain h4 (ir_make_label (some (ir_new_label st).1) node.line_number) rfl
    have h6 := if_goto_ite (c := ¬ node.cond.isNull ∧ node.cond.type ≠ NodeType.NODE_EMPTY)
      (fun _ => hsub Child.cond (GenMode.cond (ir_new_label (ir_new_label st).2).1
        (ir_new_label (ir_new_label (ir_new_label st).2).2).1 node.line_number) _ h5)
      (fun _ => if_goto_plain h5 (ir_make_goto (some (ir_new_label (ir_new_label st).2).1)
        node.line_number) rfl)
    have h7 := hsub Child.body GenMode.stmt _
      (if_goto_plain h6
        (ir_make_label (some (ir_new_label (ir_new_label st).2).1) node.line_number) rfl)
    have h8 := if_goto_ite (c := node.incr.isNull = true) (fun _ => h7)
      (fun _ => hsub Child.incr GenMode.expr _ h7)
    exact if_goto_plain (if_goto_plain h8 _ (by rfl)) _ (by rfl)
  · split_ifs
    · exact if_goto_plain h _ (by rfl)
    · exact if_goto_plain (hsub Child.left GenMode.expr st h) _ (by rfl)
  · exact hself st h
  · split_ifs
    · exact h
    · exact if_goto_plain (hsub Child.right GenMode.expr st h) _ (by rfl)
  · exact hself st h

/-- Every call of the generator keeps each conditional jump followed by a `goto`. -/
theorem gen_walk_if_goto (tk : Tokens) (n : ASTNode) (mode : GenMode) (st : GenState) :
    if_followed_by_goto st.list → if_followed_by_goto (gen_walk tk n mode st).1.list := by
  refine gen_walk_induction tk
    (fun _ _ st res => if_followed_by_goto st.list → if_followed_by_goto res.1.list)
    ?_ ?_ ?_ ?_ ?_ ?_ n mode st
  · intro mode st h
    rw [gen_walk_null]
    cases mode with
    | cond t f line => exact if_goto_plain h _ (by rfl)
    | expr => exact h
    | stmt => exact h
    | stmts => exact h
    | args line => exact h
  · intro sub node st hsub h
    exact gen_expr_if_goto tk sub node hsub st h
  · intro sub node t f line st hsub hself h
    exact gen_cond_if_goto tk sub _ node hsub hself t f st h
  · intro sub node st hsub hself h
    exact gen_stmt_if_goto sub _ node hsub hself st h
  · intro node st r1 r2 h1 h2 h
    exact h2 (h1 h)
  · intro node line st a r h1 h2 h
    exact h2 (if_goto_plain (h1 h) _ (by rfl))

theorem gen_func_globals (tk : Tokens) (node : ASTNode) (st : GenState) (prog : IRProgram) :
    (gen_func tk node st prog).2.global_instrs = prog.global_instrs := by
  unfold gen_func
  split_ifs <;> rfl

theorem ir_generate_loop_globals (tk : Tokens) (root : ASTNode) :
    ∀ (st : GenState) (prog : IRProgram), if_followed_by_goto prog.global_instrs →
      if_followed_by_goto (ir_generate_loop tk root st prog).2.global_instrs := by
  induction root with
  | null =>
    intro st prog h
    exact h
  | node d l r c b ini inc p nx _ _ _ _ _ _ _ ihnx =>
    intro st prog h
    rw [ir_generate_loop]
    simp only
    split_ifs
    · exact ihnx _ _ (by rw [gen_func_globals]; exact h)
    · exact ihnx _ _ h
    · refine ihnx _ _ ?_
      simp only [ir_append_list]
      exact if_followed_by_goto_append
        (if_goto_plain (gen_walk_if_goto tk r GenMode.expr _ if_followed_by_goto_nil) _
          (by rfl)) h
    · exact ihnx _ _ h

/-- C25: in every instruction list the generator produces, the list of each function and
`global_instrs`, every `IfRel` instruction has a next instruction in the same list, and that
instruction is a `Goto`. -/
theorem if_rel_followed_by_goto (tk : Tokens) (root : ASTNode) (st : GenState)
    (prog : IRProgram) (h : ir_generate tk root st = some prog) :
    (∀ f ∈ prog.funcs, if_followed_by_goto f.instrs) ∧
      if_followed_by_goto prog.global_instrs := by
  refine ⟨?_, ?_⟩
  · intro f hf
    obtain ⟨fn, st0, _, _, _, hin⟩ := ir_generate_funcs tk root st prog h f hf
    rw [hin]
    exact gen_walk_if_goto tk fn.body GenMode.stmt _ if_followed_by_goto_nil
  · unfold ir_generate at h
    split_ifs at h
    simp only [Option.some.injEq] at h
    subst h
    exact ir_generate_loop_globals tk root st ir_program_create if_followed_by_goto_nil

theorem if_rel_followed_by_goto_witness :
    ∃ prog, ir_generate sample_tokens sample_global_relational GenState.initial =
        some prog ∧
      (prog.global_instrs.map IRInstr.kind).count IROpKind.IR_IF = 1 ∧
      (∀ f ∈ prog.funcs, if_followed_by_goto f.instrs) ∧
      if_followed_by_goto prog.global_instrs :=
  ⟨_, rfl, by decide,
    if_rel_followed_by_goto sample_tokens sample_global_relational GenState.initial _ rfl⟩

/-! ## The text form of an instruction -/

theorem line_feeds_append (a b : String) : line_feeds (a ++ b) = line_feeds a + line_feeds b := by
  simp [line_feeds, String.data_append, List.count_append]

theorem digitChar_ne_line_feed (n : Nat) (h : n < 10) : Nat.digitChar n ≠ line_feed := by
  interval_cases n <;> decide

theorem toDigitsCore_no_line_feed (fuel : Nat) :
    ∀ (n : Nat) (ds : List Char), line_feed ∉ ds →
      line_feed ∉ Nat.toDigitsCore 10 fuel n ds := by
  induction fuel with
  | zero =>
    intro n ds h
    exact h
  | succ f ih =>
    intro n ds h
    rw [Nat.toDigitsCore]
    have hd : line_feed ∉ Nat.digitChar (n % 10) :: ds := by
      intro hmem
      rcases List.mem_cons.1 hmem with h1 | h1
      · exact digitChar_ne_line_feed (n % 10) (Nat.mod_lt _ (by decide)) h1.symm
      · exact h h1
    split_ifs
    · exact hd
    · exact ih _ _ hd

theorem line_feeds_nat (n : Nat) : line_feeds (toString n) = 0 := by
  have h : line_feed ∉ Nat.toDigits 10 n :=
    toDigitsCore_no_line_feed (n + 1) n [] (List.not_mem_nil _)
  exact List.count_eq_zero.2 h

theorem line_feeds_print_int (v : Int) : line_feeds (print_int v) = 0 := by
  unfold print_int
  cases v with
  | ofNat m => exact line_feeds_nat m
  | negSucc m =>
    show line_feeds ("-" ++ toString (m + 1)) = 0
    rw [line_feeds_append, line_feeds_nat]
    rfl

theorem line_feeds_ite {c : Prop} [Decidable c] {a b : String} (ha : line_feeds a = 0)
    (hb : line_feeds b = 0) : line_feeds (if c then a else b) = 0 := by
  split_ifs
  · exact ha
  · exact hb

theorem line_feeds_binop_str (tk : Tokens) (op : Int) : line_feeds (binop_str tk op) = 0 := by
  unfold binop_str
  repeat' (first | apply line_feeds_ite | decide)

theorem line_feeds_relop_str (r : IRRelop) : line_feeds (relop_str r) = 0 := by
  cases r <;> decide

theorem line_feeds_print_operand (op : IROperand)
    (h : line_feeds (name_text op.name) = 0) : line_feeds (print_operand op) = 0 := by
  unfold print_operand
  split_ifs
  · exact line_feeds_print_int _
  · cases hn : op.name with
    | none => decide
    | some s =>
      rw [hn] at h
      exact h

theorem exists_of_ne_none {s : Option String} (h : s.isSome = true) : ∃ x, s = some x := by
  cases s with
  | none => cases h
  | some x => exact ⟨x, rfl⟩

/-- But for a unary operation, the text written is the line of the specification. -/
theorem print_form (tk : Tokens) (i : IRInstr) (hp : i.printable = true)
    (hk : i.kind ≠ IROpKind.IR_UNOP) : ir_print_instr tk i = some (spec_line tk i) := by
  unfold IRInstr.printable at hp
  unfold ir_print_instr spec_line spec_words
  cases h : i.kind <;> simp only [h] at hp hk ⊢
  · obtain ⟨x, hx⟩ := exists_of_ne_none hp
    rw [hx]
    simp only [Option.map_some', Option.some.injEq]
    apply String.ext
    simp [join_words, name_text, String.data_append]
  · obtain ⟨x, hx⟩ := exists_of_ne_none hp
    rw [hx]
    simp only [Option.map_some', Option.some.injEq]
    apply String.ext
    simp [join_words, name_text, String.data_append]
  · exact absurd rfl hk
  · simp only [Option.some.injEq]
    apply String.ext
    simp [join_words, name_text, String.data_append]
  · obtain ⟨f, hf⟩ := exists_of_ne_none hp
    rw [hf]
    cases i.result with
    | none =>
      simp only [Option.map_some', Option.some.injEq]
      apply String.ext
      simp [join_words, name_text, String.data_append]
    | some x =>
      simp only [Option.map_some', Option.some.injEq]
      apply String.ext
      simp [join_words, name_text, String.data_append]
  · by_cases hc : i.src.name.isSome = true ∨ i.src.is_const = true
    · simp only [if_pos hc, Option.some.injEq]
      apply String.ext
      simp [join_words, name_text, String.data_append]
    · simp only [if_neg hc, Option.some.injEq]
      apply String.ext
      simp [join_words, name_text, String.data_append]
  · obtain ⟨x, hx⟩ := exists_of_ne_none hp
    rw [hx]
    simp only [Option.map_some', Option.some.injEq]
    apply String.ext
    simp [join_words, name_text, String.data_append]
  · obtain ⟨x, hx⟩ := exists_of_ne_none hp
    rw [hx]
    simp only [Option.map_some', Option.some.injEq]
    apply String.ext
    simp [join_words, name_text, String.data_append]
  · obtain ⟨x, hx⟩ := exists_of_ne_none hp
    rw [hx]
    simp only [Option.map_some', Option.some.injEq]
    apply String.ext
    simp [join_words, name_text, String.data_append]

/-- A unary operation is written with nothing between the operator and the operand, one
character less than the line of the specification. -/
theorem print_unop (tk : Tokens) (i : IRInstr) (hp : i.printable = true)
    (hk : i.kind = IROpKind.IR_UNOP) :
    ir_print_instr tk i =
        some ("  " ++ name_text i.result ++ " := " ++ print_char i.unop ++
          print_operand i.unop_src ++ "\n") ∧
      ir_print_instr tk i ≠ some (spec_line tk i) := by
  unfold IRInstr.printable at hp
  simp only [hk] at hp
  obtain ⟨x, hx⟩ := exists_of_ne_none hp
  have h1 : ir_print_instr tk i = some ("  " ++ name_text i.result ++ " := " ++
      print_char i.unop ++ print_operand i.unop_src ++ "\n") := by
    unfold ir_print_instr
    simp only [hk, hx, Option.map_some', name_text, Option.getD_some]
  refine ⟨h1, ?_⟩
  rw [h1]
  intro hcon
  have hd := congrArg String.data (Option.some.inj hcon)
  unfold spec_line spec_words at hd
  simp [hk, join_words, String.data_append] at hd

/-- The text written is one line: it ends with the line feed, and has no other when the
names of the instruction have none. -/
theorem print_one_line (tk : Tokens) (i : IRInstr) (hp : i.printable = true) :
    ∃ line, ir_print_instr tk i = some (line ++ "\n") ∧
      (i.single_line → line_feeds line = 0) := by
  unfold IRInstr.printable at hp
  unfold ir_print_instr
  have hlit : ∀ s : String, line_feeds (name_text (some s)) = line_feeds s := fun _ => rfl
  cases h : i.kind <;> simp only [h] at hp ⊢
  · obtain ⟨x, hx⟩ := exists_of_ne_none hp
    refine ⟨_, by rw [hx]; rfl, ?_⟩
    rintro ⟨hs, _⟩
    have h1 := hs i.result (by simp)
    have h2 := line_feeds_print_operand _ (hs i.src.name (by simp))
    rw [hx, hlit] at h1
    simp only [line_feeds_append, h1, h2]
    decide
  · obtain ⟨x, hx⟩ := exists_of_ne_none hp
    refine ⟨_, by rw [hx]; rfl, ?_⟩
    rintro ⟨hs, _⟩
    have h1 := hs i.result (by simp)
    have h2 := line_feeds_print_operand _ (hs i.left.name (by simp))
    have h3 := line_feeds_print_operand _ (hs i.right.name (by simp))
    rw [hx, hlit] at h1
    simp only [line_feeds_append, h1, h2, h3, line_feeds_binop_str]
    decide
  · obtain ⟨x, hx⟩ := exists_of_ne_none hp
    refine ⟨_, by rw [hx]; rfl, ?_⟩
    rintro ⟨hs, hc⟩
    have h1 := hs i.result (by simp)
    have h2 := line_feeds_print_operand _ (hs i.unop_src.name (by simp))
    rw [hx, hlit] at h1
    simp only [line_feeds_append, h1, h2, hc]
    decide
  · refine ⟨_, rfl, ?_⟩
    rintro ⟨hs, _⟩
    have h2 := line_feeds_print_operand _ (hs i.src.name (by simp))
    simp only [line_feeds_append, h2]
    decide
  · obtain ⟨f, hf⟩ := exists_of_ne_none hp
    cases hr : i.result with
    | none =>
      refine ⟨_, by rw [hf]; rfl, ?_⟩
      rintro ⟨hs, _⟩
      have h1 := hs i.call_fn (by simp)
      rw [hf, hlit] at h1
      simp only [line_feeds_append, h1, line_feeds_print_int]
      decide
    | some x =>
      refine ⟨_, by rw [hf]; rfl, ?_⟩
      rintro ⟨hs, _⟩
      have h1 := hs i.call_fn (by simp)
      have h2 := hs i.result (by simp)
      rw [hf, hlit] at h1
      rw [hr, hlit] at h2
      simp only [line_feeds_append, h1, h2, line_feeds_print_int]
      decide
  · split_ifs
    · refine ⟨_, rfl, ?_⟩
      rintro ⟨hs, _⟩
      have h2 := line_feeds_print_operand _ (hs i.src.name (by simp))
      simp only [line_feeds_append, h2]
      decide
    · exact ⟨"  return", rfl, fun _ => by decide⟩
  · obtain ⟨x, hx⟩ := exists_of_ne_none hp
    refine ⟨x ++ ":", by rw [hx]; simp [String.append_assoc], ?_⟩
    rintro ⟨hs, _⟩
    have h1 := hs i.label (by simp)
    rw [hx, hlit] at h1
    simp only [line_feeds_append, h1]
    decide
  · obtain ⟨x, hx⟩ := exists_of_ne_none hp
    refine ⟨_, by rw [hx]; rfl, ?_⟩
    rintro ⟨hs, _⟩
    have h1 := hs i.label (by simp)
    rw [hx, hlit] at h1
    simp only [line_feeds_append, h1]
    decide
  · obtain ⟨x, hx⟩ := exists_of_ne_none hp
    refine ⟨_, by rw [hx]; rfl, ?_⟩
    rintro ⟨hs, _⟩
    have h1 := hs i.label (by simp)
    have h2 := line_feeds_print_operand _ (hs i.if_left.name (by simp))
    have h3 := line_feeds_print_operand _ (hs i.if_right.name (by simp))
    rw [hx, hlit] at h1
    simp only [line_feeds_append, h1, h2, h3, line_feeds_relop_str]
    decide

/-- The operators of the list are written as they are. -/
theorem binop_str_verbatim (tk : Tokens) (h : tk.case_labels.Nodup) :
    tk.case_labels.map (binop_str tk) =
      ["+", "-", "*", "/", "%", "<", ">", "==", "!=", "<=", ">=", "&&", "||"] := by
  simp only [Tokens.case_labels, List.nodup_cons, List.mem_cons, List.mem_singleton,
    not_or, List.not_mem_nil, not_false_eq_true, List.nodup_nil, and_true] at h
  simp only [Tokens.case_labels, List.map_cons, List.map_nil, binop_str]
  simp_all [eq_comm]

/-! ## The instructions the generator emits can be printed -/

theorem names_present_child (ch : Child) {n : ASTNode} (h : names_present n = true) :
    names_present (child_of ch n) = true := by
  cases n with
  | null => cases ch <;> rfl
  | node d l r c b ini inc p nx =>
    simp only [names_present, Bool.and_eq_true] at h
    cases ch <;>
      simp only [child_of, ASTNode.left, ASTNode.right, ASTNode.cond, ASTNode.body,
        ASTNode.init, ASTNode.incr] <;>
      simp [h]

theorem names_present_next {n : ASTNode} (h : names_present n = true) :
    names_present n.next = true := by
  cases n with
  | null => rfl
  | node d l r c b ini inc p nx =>
    simp only [names_present, Bool.and_eq_true] at h
    simp [ASTNode.next, h]

theorem names_present_assign {n : ASTNode} (h : names_present n = true)
    (ht : n.type = NodeType.NODE_ASSIGN) : n.left.str_val.isSome = true := by
  cases n with
  | null => cases ht
  | node d l r c b ini inc p nx =>
    simp only [ASTNode.type] at ht
    simp only [names_present, Bool.and_eq_true, ht, if_true] at h
    exact h.1.1.1.1.1.1.1.1.1

theorem names_present_named {n : ASTNode} (h : names_present n = true)
    (ht : n.type = NodeType.NODE_VAR_DECL ∨ n.type = NodeType.NODE_FUNC_CALL) :
    n.str_val.isSome = true := by
  cases n with
  | null => rcases ht with ht | ht <;> cases ht
  | node d l r c b ini inc p nx =>
    simp only [ASTNode.type] at ht
    simp only [names_present, Bool.and_eq_true, ht, if_true] at h
    exact h.1.1.1.1.1.1.1.1.2

theorem names_present_siblings {root fn : ASTNode} (hfn : fn ∈ siblings root)
    (h : names_present root = true) : names_present fn = true := by
  induction root with
  | null => simp [siblings] at hfn
  | node d l r c b ini inc p nx _ _ _ _ _ _ _ ihnx =>
    simp only [siblings, List.mem_cons] at hfn
    rcases hfn with rfl | hfn
    · exact h
    · exact ihnx hfn (names_present_next h)

theorem all_printable_nil : all_printable [] := fun _ h => absurd h (List.not_mem_nil _)

theorem all_printable_append {l1 l2 : List IRInstr} (h1 : all_printable l1)
    (h2 : all_printable l2) : all_printable (l1 ++ l2) := by
  intro i hi
  rcases List.mem_append.1 hi with h | h
  · exact h1 i h
  · exact h2 i h

theorem allp_alloc {st : GenState} (h : all_printable st.list) (st1 : GenState)
    (hl : st1.list = st.list) : all_printable st1.list := by
  rw [hl]
  exact h

theorem allp_plain {st : GenState} (h : all_printable st.list) (i : IRInstr)
    (hi : i.printable = true) : all_printable (ir_append st i).list := by
  intro j hj
  simp only [ir_append, List.mem_append, List.mem_singleton] at hj
  rcases hj with hj | rfl
  · exact h j hj
  · exact hi

theorem allp_ite {c : Prop} [Decidable c] {a b : GenState}
    (ha : c → all_printable a.list) (hb : ¬ c → all_printable b.list) :
    all_printable (if c then a else b).list := by
  split_ifs with hc
  · exact ha hc
  · exact hb hc

theorem allp_branch {st : GenState} (h : all_printable st.list) (place : IROperand)
    (t f : String) (line : Int) :
    all_printable (branch_on_nonzero st place t f line).list :=
  allp_plain (allp_plain h _ (by rfl)) _ (by rfl)

theorem gen_cond_logical_printable (tk : Tokens)
    (sub : Child → GenMode → GenState → GenState × IROperand) (node : ASTNode)
    (hsub : ∀ ch mode st1, all_printable st1.list → all_printable (sub ch mode st1).1.list)
    (t f : String) (st : GenState) (h : all_printable st.list) :
    all_printable (gen_cond_logical tk sub node t f st).list := by
  have h1 : all_printable (ir_new_label st).2.list := allp_alloc h _ rfl
  unfold gen_cond_logical
  split_ifs
  · exact hsub _ _ _ (allp_plain (hsub _ _ _ h1) _ (by rfl))
  · exact hsub _ _ _ (allp_plain (hsub _ _ _ h1) _ (by rfl))

theorem gen_expr_printable (tk : Tokens)
    (sub : Child → GenMode → GenState → GenState × IROperand) (node : ASTNode)
    (hn : names_present node = true)
    (hsub : ∀ ch mode st1, all_printable st1.list → all_printable (sub ch mode st1).1.list)
    (st : GenState) (h : all_printable st.list) :
    all_printable (gen_expr tk sub node st).1.list := by
  unfold gen_expr
  split
  · exact h
  · exact h
  · exact h
  · exact h
  · split_ifs
    · have h1 : all_printable
          (ir_new_label (ir_new_label (ir_new_label (ir_new_temp st).2).2).2).2.list :=
        allp_alloc h _ (by rfl)
      have h2 := gen_cond_logical_printable tk sub node hsub
        (ir_new_label (ir_new_temp st).2).1
        (ir_new_label (ir_new_label (ir_new_temp st).2).2).1 _
        (allp_plain h1
          (ir_make_assign (some (ir_new_temp st).1) (ir_op_const 0) node.line_number) rfl)
      exact allp_plain (allp_plain (allp_plain (allp_plain
        (allp_plain h2 _ (by rfl)) _ (by rfl)) _ (by rfl)) _ (by rfl)) _ (by rfl)
    · have h2 := hsub Child.right GenMode.expr _ (hsub Child.left GenMode.expr st h)
      have h3 : all_printable (ir_new_label (ir_new_label (ir_new_temp
          (sub Child.right GenMode.expr (sub Child.left GenMode.expr st).1).1).2).2).2.list :=
        allp_alloc h2 _ (by rfl)
      exact allp_plain (allp_plain (allp_plain (allp_plain (allp_plain
        (allp_plain h3 _ (by rfl)) _ (by rfl)) _ (by rfl)) _ (by rfl)) _ (by rfl)) _ (by rfl)
    · have h2 := hsub Child.right GenMode.expr _ (hsub Child.left GenMode.expr st h)
      exact allp_plain (allp_alloc h2 (ir_new_temp _).2 (by rfl)) _ (by rfl)
  · exact allp_plain (allp_alloc (hsub Child.left GenMode.expr st h)
      (ir_new_temp _).2 (by rfl)) _ (by rfl)
  · rename_i ht
    exact allp_plain (hsub Child.right GenMode.expr st h) _ (names_present_assign hn ht)
  · rename_i ht
    have h1 := hsub Child.left (GenMode.args node.line_number) st h
    split_ifs
    · exact allp_plain h1 _ (names_present_named hn (Or.inr ht))
    · exact allp_plain (allp_alloc h1 (ir_new_temp _).2 (by rfl)) _
        (names_present_named hn (Or.inr ht))
  · exact h

theorem gen_cond_printable (tk : Tokens)
    (sub : Child → GenMode → GenState → GenState × IROperand)
    (self_expr : GenState → GenState × IROperand) (node : ASTNode)
    (hsub : ∀ ch mode st1, all_printable st1.list → all_printable (sub ch mode st1).1.list)
    (hself : ∀ st1, all_printable st1.list → all_printable (self_expr st1).1.list)
    (t f : String) (st : GenState) (h : all_printable st.list) :
    all_printable (gen_cond tk sub self_expr node t f st).list := by
  have hplace : all_printable (branch_on_nonzero (self_expr st).1 (self_expr st).2 t f
      node.line_number).list := allp_branch (hself st h) _ _ _ _
  unfold gen_cond
  split
  · split_ifs <;> exact allp_plain h _ (by rfl)
  · split_ifs <;> exact allp_plain h _ (by rfl)
  · exact allp_branch h _ _ _ _
  · split_ifs
    · exact gen_cond_logical_printable tk sub node hsub t f st h
    · exact allp_plain (allp_plain
        (hsub Child.right GenMode.expr _ (hsub Child.left GenMode.expr st h)) _ (by rfl)) _
        (by rfl)
    · exact hplace
  · split_ifs
    · exact hsub _ _ _ h
    · exact hplace
  · exact hplace

theorem gen_stmt_printable
    (sub : Child → GenMode → GenState → GenState × IROperand)
    (self_expr : GenState → GenState × IROperand) (node : ASTNode)
    (hn : names_present node = true)
    (hsub : ∀ ch mode st1, all_printable st1.list → all_printable (sub ch mode st1).1.list)
    (hself : ∀ st1, all_printable st1.list → all_printable (self_expr st1).1.list)
    (st : GenState) (h : all_printable st.list) :
    all_printable (gen_stmt sub self_expr node st).list := by
  have h3 : all_printable (ir_new_label (ir_new_label (ir_new_label st).2).2).2.list :=
    allp_alloc h _ rfl
  unfold gen_stmt
  split
  · exact h
  · exact h
  · exact hsub _ _ _ h
  · have h4 := hsub Child.left GenMode.stmt _
      (allp_plain (hsub Child.cond (GenMode.cond (ir_new_label st).1
        (if node.right.isNull then (ir_new_label (ir_new_label (ir_new_label st).2).2).1
          else (ir_new_label (ir_new_label st).2).1) node.line_number) _ h3)
        (ir_make_label (some (ir_new_label st).1) node.line_number) rfl)
    have h5 := allp_ite (c := node.right.isNull = true) (fun _ => h4)
      (fun _ => hsub Child.right GenMode.stmt _
        (allp_plain (allp_plain h4
          (ir_make_goto (some (ir_new_label (ir_new_label (ir_new_label st).2).2).1)
            node.line_number) rfl)
          (ir_make_label (some (ir_new_label (ir_new_label st).2).1) node.line_number) rfl))
    exact allp_plain h5 _ (by rfl)
  · have h4 := hsub Child.cond (GenMode.cond (ir_new_label (ir_new_label st).2).1
      (ir_new_label (ir_new_label (ir_new_label st).2).2).1 node.line_number) _
      (allp_plain h3 (ir_make_label (some (ir_new_label st).1) node.line_number) rfl)
    have h5 := hsub Child.body GenMode.stmt _
      (allp_plain h4
        (ir_make_label (some (ir_new_label (ir_new_label st).2).1) node.line_number) rfl)
    exact allp_plain (allp_plain h5 _ (by rfl)) _ (by rfl)
  · have h4 := allp_ite (c := ¬ node.init.isNull ∧ node.init.type ≠ NodeType.NODE_EMPTY)
      (fun _ => hsub Child.init GenMode.stmt _ h3) (fun _ => h3)
    have h5 := allp_plain h4 (ir_make_label (some (ir_new_label st).1) node.line_number) rfl
    have h6 := allp_ite (c := ¬ node.cond.isNull ∧ node.cond.type ≠ NodeType.NODE_EMPTY)
      (fun _ => hsub Child.cond (GenMode.cond (ir_new_label (ir_new_label st).2).1
        (ir_new_label (ir_new_label (ir_new_label st).2).2).1 node.line_number) _ h5)
      (fun _ => allp_plain h5 (ir_make_goto (some (ir_new_label (ir_new_label st).2).1)
        node.line_number) rfl)
    have h7 := hsub Child.body GenMode.stmt _
      (allp_plain h6
        (ir_make_label (some (ir_new_label (ir_new_label st).2).1) node.line_number) rfl)
    have h8 := allp_ite (c := node.incr.isNull = true) (fun _ => h7)
      (fun _ => hsub Child.incr GenMode.expr _ h7)
    exact allp_plain (allp_plain h8 _ (by rfl)) _ (by rfl)
  · split_ifs
    · exact allp_plain h _ (by rfl)
    · exact allp_plain (hsub Child.left GenMode.expr st h) _ (by rfl)
  · exact hself st h
  · rename_i ht
    split_ifs
    · exact h
    · exact allp_plain (hsub Child.right GenMode.expr st h) _
        (names_present_named hn (Or.inl ht))
  · exact hself st h

/-- Every call of the generator on a tree whose names are present appends instructions that
can be printed. -/
theorem gen_walk_printable (tk : Tokens) (n : ASTNode) (mode : GenMode) (st : GenState) :
    names_present n = true → all_printable st.list →
      all_printable (gen_walk tk n mode st).1.list := by
  refine gen_walk_induction tk
    (fun n _ st res => names_present n = true → all_printable st.list →
      all_printable res.1.list)
    ?_ ?_ ?_ ?_ ?_ ?_ n mode st
  · intro mode st _ h
    rw [gen_walk_null]
    cases mode with
    | cond t f line => exact allp_plain h _ (by rfl)
    | expr => exact h
    | stmt => exact h
    | stmts => exact h
    | args line => exact h
  · intro sub node st hsub hn h
    exact gen_expr_printable tk sub node hn
      (fun ch mode st1 => hsub ch mode st1 (names_present_child ch hn)) st h
  · intro sub node t f line st hsub hself hn h
    exact gen_cond_printable tk sub _ node
      (fun ch mode st1 => hsub ch mode st1 (names_present_child ch hn))
      (fun st1 => hself st1 hn) t f st h
  · intro sub node st hsub hself hn h
    exact gen_stmt_printable sub _ node hn
      (fun ch mode st1 => hsub ch mode st1 (names_present_child ch hn))
      (fun st1 => hself st1 hn) st h
  · intro node st r1 r2 h1 h2 hn h
    exact h2 (names_present_next hn) (h1 hn h)
  · intro node line st a r h1 h2 hn h
    exact h2 (names_present_next hn) (allp_plain (h1 hn h) _ (by rfl))

theorem ir_generate_loop_printable (tk : Tokens) (root : ASTNode) :
    ∀ (st : GenState) (prog : IRProgram), names_present root = true →
      all_printable prog.global_instrs →
      all_printable (ir_generate_loop tk root st prog).2.global_instrs := by
  induction root with
  | null =>
    intro st prog _ h
    exact h
  | node d l r c b ini inc p nx _ _ _ _ _ _ _ ihnx =>
    intro st prog hn h
    have hnx : names_present nx = true :=
      names_present_next (n := ASTNode.node d l r c b ini inc p nx) hn
    rw [ir_generate_loop]
    simp only
    split_ifs with h1 h2 h3
    · exact ihnx _ _ hnx (by rw [gen_func_globals]; exact h)
    · exact ihnx _ _ hnx h
    · refine ihnx _ _ hnx ?_
      simp only [ir_append_list]
      exact all_printable_append
        (allp_plain (gen_walk_printable tk r GenMode.expr _
          (names_present_child Child.right (n := ASTNode.node d l r c b ini inc p nx) hn)
          all_printable_nil) _
          (names_present_named (n := ASTNode.node d l r c b ini inc p nx) hn (Or.inl h2))) h
    · exact ihnx _ _ hnx h

/-- The instructions of a program generated from a tree whose names are present can all be
printed. -/
theorem ir_generate_printable (tk : Tokens) (root : ASTNode) (st : GenState)
    (prog : IRProgram) (h : ir_generate tk root st = some prog)
    (hn : names_present root = true) :
    (∀ f ∈ prog.funcs, all_printable f.instrs) ∧ all_printable prog.global_instrs := by
  refine ⟨?_, ?_⟩
  · intro f hf
    obtain ⟨fn, st0, hfn, _, _, hin⟩ := ir_generate_funcs tk root st prog h f hf
    rw [hin]
    exact gen_walk_printable tk fn.body GenMode.stmt _
      (names_present_child Child.body (names_present_siblings hfn hn)) all_printable_nil
  · unfold ir_generate at h
    split_ifs at h
    simp only [Option.some.injEq] at h
    subst h
    exact ir_generate_loop_printable tk root st ir_program_create hn all_printable_nil

/-! ## The lines written for a generated program -/

/-- C27, amended: for every instruction the generator emits, into the list of a function or
into `global_instrs`, for a tree in which the names of assignment targets, declarations and
calls are present, `ir_print_instr` writes one line, ended by the line feed and with no
other line feed when the names have none.  For every kind but the unary operation the line
is the form the specification lists for the kind, `  x := y`, `  x := y op z`, `  param y`,
`  x := call f, n`, `  call f, n`, `  return y`, `  return`, `L:`, `  goto L`,
`  if x rel y goto L`, behind two blanks except for a label.  A unary operation is written
`  x := opy`, with nothing between the operator and the operand, which is never the listed
form `  x := op y`.  The operators `+ - * / % < > == != <= >= && ||` and the relational
operators `< > <= >= == !=` are written as they are. -/
theorem printed_line_form (tk : Tokens) (root : ASTNode) (st : GenState) (prog : IRProgram)
    (h : ir_generate tk root st = some prog) (hn : names_present root = true) :
    (∀ i, (i ∈ prog.global_instrs ∨ ∃ f ∈ prog.funcs, i ∈ f.instrs) →
      (i.kind ≠ IROpKind.IR_UNOP → ir_print_instr tk i = some (spec_line tk i)) ∧
      (i.kind = IROpKind.IR_UNOP →
        ir_print_instr tk i =
            some ("  " ++ name_text i.result ++ " := " ++ print_char i.unop ++
              print_operand i.unop_src ++ "\n") ∧
          ir_print_instr tk i ≠ some (spec_line tk i)) ∧
      (∃ line, ir_print_instr tk i = some (line ++ "\n") ∧
        (i.single_line → line_feeds line = 0))) ∧
    (tk.case_labels.Nodup →
      tk.case_labels.map (binop_str tk) =
        ["+", "-", "*", "/", "%", "<", ">", "==", "!=", "<=", ">=", "&&", "||"]) ∧
    [IRRelop.IR_LT, IRRelop.IR_GT, IRRelop.IR_LE, IRRelop.IR_GE, IRRelop.IR_EQ,
        IRRelop.IR_NE].map relop_str = ["<", ">", "<=", ">=", "==", "!="] := by
  have hall := ir_generate_printable tk root st prog h hn
  refine ⟨?_, binop_str_verbatim tk, rfl⟩
  intro i hi
  have hp : i.printable = true := by
    rcases hi with hi | ⟨f, hf, hi⟩
    · exact hall.2 i hi
    · exact hall.1 f hf i hi
  exact ⟨print_form tk i hp, print_unop tk i hp, print_one_line tk i hp⟩

theorem printed_line_form_witness :
    ∃ prog, ir_generate sample_tokens sample_add_one GenState.initial = some prog ∧
      names_present sample_add_one = true ∧ sample_tokens.case_labels.Nodup ∧
      (∀ i, (i ∈ prog.global_instrs ∨ ∃ f ∈ prog.funcs, i ∈ f.instrs) →
        i.kind ≠ IROpKind.IR_UNOP → ir_print_instr sample_tokens i =
          some (spec_line sample_tokens i)) ∧
      sample_tokens.case_labels.map (binop_str sample_tokens) =
        ["+", "-", "*", "/", "%", "<", ">", "==", "!=", "<=", ">=", "&&", "||"] ∧
      printed_lines sample_tokens sample_add_one =
        some [[some "  t0 := x + 1\n", some "  return t0\n"]] := by
  have h := printed_line_form sample_tokens sample_add_one GenState.initial _ rfl
    (by decide)
  exact ⟨_, rfl, by decide, by decide, fun i hi => (h.1 i hi).1, h.2.1 (by decide),
    by decide⟩

/-- C27 as stated fails for the unary operation: for `int f(int x){ return -x; }` the
generator emits the instruction with result `t0`, operator `-` and operand `x`, which
`ir_print_instr` writes as `  t0 := -x`, while the form `  x := op y` of the specification,
written like the form `  x := y op z` of a binary operation, is `  t0 := - x`. -/
theorem unary_form_counterexample :
    (compile sample_tokens sample_negate).2 =
      some [(some "f",
        [ir_make_unop (some "t0") (ir_op_name (some "x")) 45 1,
          ir_make_return_val (ir_op_name (some "t0")) 1])] ∧
    printed_lines sample_tokens sample_negate =
      some [[some "  t0 := -x\n", some "  return t0\n"]] ∧
    spec_line sample_tokens (ir_make_unop (some "t0") (ir_op_name (some "x")) 45 1) =
      "  t0 := - x\n" ∧
    ir_print_instr sample_tokens (ir_make_unop (some "t0") (ir_op_name (some "x")) 45 1) ≠
      some (spec_line sample_tokens
        (ir_make_unop (some "t0") (ir_op_name (some "x")) 45 1)) := by
  decide

/-! ## A name that resolves to a function, used as a variable -/

/-- C39: `analyze_variable` does not look at the kind of the symbol `lookup` finds: for every
Var node whose name resolves to a symbol, a Function symbol included, nothing is reported,
the globals are left as they are and the type of the node becomes the type of the symbol,
for a function its return type. -/
theorem variable_kind_unchecked (st : AnState) (d : NodeData)
    (l r c b ini inc p nx : ASTNode) (sym : Symbol) (hty : d.type = NodeType.NODE_VAR)
    (hl : lookup st.symtab (d.str_val.getD "") = some sym) :
    (analyze_node (ASTNode.node d l r c b ini inc p nx) st).st = st ∧
    (analyze_node (ASTNode.node d l r c b ini inc p nx) st).node.data_type = sym.type ∧
    (analyze_node (ASTNode.node d l r c b ini inc p nx) st).returns = false := by
  unfold analyze_node
  rw [analyze_walk]
  simp only [analyze_switch, ASTNode.type, hty, analyze_variable, ASTNode.name,
    ASTNode.str_val, hl, ASTNode.set_data_type, ASTNode.data_type, and_self]

theorem variable_kind_unchecked_witness :
    lookup demo_with_f.symtab "f" = some sample_symbol_f ∧
    sample_symbol_f.kind = SymbolKind.SYM_FUNCTION ∧
    (analyze_node ((create_var_node "f").set_line 2) demo_with_f).st = demo_with_f ∧
    (analyze_node ((create_var_node "f").set_line 2) demo_with_f).node.data_type =
      DataType.TYPE_INT ∧
    (semantic_analyze sample_function_as_variable AnState.initial).1.diagnostics = [] := by
  have h := variable_kind_unchecked demo_with_f
    { type := NodeType.NODE_VAR, data_type := DataType.TYPE_VOID, line_number := 2,
      int_val := 0, str_val := some "f" }
    ASTNode.null ASTNode.null ASTNode.null ASTNode.null ASTNode.null ASTNode.null
    ASTNode.null ASTNode.null sample_symbol_f rfl (by decide)
  exact ⟨by decide, rfl, h.1, h.2.1, by decide⟩

/-! ## Logical negation in jump context -/

/-- In jump context the `line` argument is not used for a node that is not `NULL`. -/
theorem gen_walk_cond_line (tk : Tokens) (d : NodeData) (l r c b ini inc p nx : ASTNode)
    (t f : String) (line line1 : Int) (st : GenState) :
    gen_walk tk (ASTNode.node d l r c b ini inc p nx) (GenMode.cond t f line) st =
      gen_walk tk (ASTNode.node d l r c b ini inc p nx) (GenMode.cond t f line1) st := by
  rw [gen_walk, gen_walk]

/-- The lowering of `!e` in jump context is the lowering of `e` with the targets swapped. -/
theorem gen_walk_not (tk : Tokens) (d : NodeData) (e r c b ini inc p nx : ASTNode)
    (t f : String) (line : Int) (st : GenState) (hty : d.type = NodeType.NODE_UN_OP)
    (hop : d.int_val = 33) :
    gen_walk tk (ASTNode.node d e r c b ini inc p nx) (GenMode.cond t f line) st =
      ((gen_walk tk e (GenMode.cond f t d.line_number) st).1, ir_op_const 0) := by
  rw [gen_walk]
  simp only [gen_cond, ASTNode.type, hty, ASTNode.int_val, hop, if_true,
    ASTNode.line_number]

theorem gen_walk_cond_operand (tk : Tokens) (d : NodeData) (l r c b ini inc p nx : ASTNode)
    (t f : String) (line : Int) (st : GenState) :
    (gen_walk tk (ASTNode.node d l r c b ini inc p nx) (GenMode.cond t f line) st).2 =
      ir_op_const 0 := by
  rw [gen_walk]

/-- C33: for every expression `e` that is not `NULL` and all labels `t` and `f`, `gen_cond`
on `!e` with the targets `(t, f)` gives, from any state of the counters and the list, what
`gen_cond` on `e` with the targets `(f, t)` gives from that state: the same list, so the same
emitted instructions with none for the negation itself, and the same counters.  Hence the
lowering of `!!e` with `(t, f)` is the lowering of `e` with `(t, f)`. -/
theorem not_swaps_targets (tk : Tokens) (d ed : NodeData)
    (el er ec eb eini einc ep enx r c b ini inc p nx : ASTNode) (t f : String)
    (line line1 : Int) (st : GenState) (hty : d.type = NodeType.NODE_UN_OP)
    (hop : d.int_val = 33) :
    gen_walk tk
        (ASTNode.node d (ASTNode.node ed el er ec eb eini einc ep enx) r c b ini inc p nx)
        (GenMode.cond t f line) st =
      gen_walk tk (ASTNode.node ed el er ec eb eini einc ep enx)
        (GenMode.cond f t line1) st ∧
    emitted tk
        (ASTNode.node d (ASTNode.node ed el er ec eb eini einc ep enx) r c b ini inc p nx)
        (GenMode.cond t f line) st =
      emitted tk (ASTNode.node ed el er ec eb eini einc ep enx) (GenMode.cond f t line1) st ∧
    ∀ (d2 : NodeData) (r2 c2 b2 ini2 inc2 p2 nx2 : ASTNode),
      d2.type = NodeType.NODE_UN_OP → d2.int_val = 33 →
      gen_walk tk
          (ASTNode.node d2
            (ASTNode.node d (ASTNode.node ed el er ec eb eini einc ep enx) r c b ini inc p nx)
            r2 c2 b2 ini2 inc2 p2 nx2)
          (GenMode.cond t f line) st =
        gen_walk tk (ASTNode.node ed el er ec eb eini einc ep enx)
          (GenMode.cond t f line1) st := by
  have hone : ∀ (t1 f1 : String) (ln ln1 : Int) (s : GenState),
      gen_walk tk
          (ASTNode.node d (ASTNode.node ed el er ec eb eini einc ep enx) r c b ini inc p nx)
          (GenMode.cond t1 f1 ln) s =
        gen_walk tk (ASTNode.node ed el er ec eb eini einc ep enx)
          (GenMode.cond f1 t1 ln1) s := by
    intro t1 f1 ln ln1 s
    rw [gen_walk_not tk d _ r c b ini inc p nx t1 f1 ln s hty hop]
    refine Prod.ext ?_ ?_
    · exact congrArg Prod.fst (gen_walk_cond_line tk ed el er ec eb eini einc ep enx f1 t1
        d.line_number ln1 s)
    · exact (gen_walk_cond_operand tk ed el er ec eb eini einc ep enx f1 t1 ln1 s).symm
  refine ⟨hone t f line line1 st, ?_, ?_⟩
  · unfold emitted
    rw [hone t f line line1]
  · intro d2 r2 c2 b2 ini2 inc2 p2 nx2 hty2 hop2
    rw [gen_walk_not tk d2 _ r2 c2 b2 ini2 inc2 p2 nx2 t f line st hty2 hop2,
      hone f t d2.line_number line1 st]
    exact Prod.ext rfl
      (gen_walk_cond_operand tk ed el er ec eb eini einc ep enx t f line1 st).symm

theorem not_swaps_targets_witness :
    gen_walk sample_tokens sample_not_x (GenMode.cond "L0" "L1" 1) sample_gen_state =
      gen_walk sample_tokens ((create_var_node "x").set_line 1) (GenMode.cond "L1" "L0" 1)
        sample_gen_state ∧
    emitted sample_tokens sample_not_x (GenMode.cond "L0" "L1" 1) sample_gen_state =
      [ir_make_if (ir_op_name (some "x")) (ir_op_const 0) IRRelop.IR_NE (some "L1") 1,
        ir_make_goto (some "L0") 1] := by
  have h := not_swaps_targets sample_tokens
    { type := NodeType.NODE_UN_OP, data_type := DataType.TYPE_VOID, line_number := 1,
      int_val := 33, str_val := none }
    { type := NodeType.NODE_VAR, data_type := DataType.TYPE_VOID, line_number := 1,
      int_val := 0, str_val := some "x" }
    ASTNode.null ASTNode.null ASTNode.null ASTNode.null ASTNode.null ASTNode.null
    ASTNode.null ASTNode.null ASTNode.null ASTNode.null ASTNode.null ASTNode.null
    ASTNode.null ASTNode.null ASTNode.null "L0" "L1" 1 1 sample_gen_state rfl rfl
  exact ⟨h.1, by decide⟩

/-! ## `hash` keeps the last eight characters only -/

theorem hash_step_congr (l : List Char) :
    ∀ h h1 : Nat, h * 16 ^ l.length ≡ h1 * 16 ^ l.length [MOD 4294967296] →
      l.foldl (fun h c => (h * 16 + c.toNat) % 4294967296) h ≡
        l.foldl (fun h c => (h * 16 + c.toNat) % 4294967296) h1 [MOD 4294967296] := by
  induction l with
  | nil =>
    intro h h1 hh
    simpa using hh
  | cons x l ih =>
    intro h h1 hh
    simp only [List.foldl_cons]
    apply ih
    have e : ∀ a : Nat, (a * 16 + x.toNat) * 16 ^ l.length =
        a * 16 ^ (x :: l).length + x.toNat * 16 ^ l.length := by
      intro a
      simp only [List.length_cons, pow_succ]
      ring
    have h2 : (h * 16 + x.toNat) * 16 ^ l.length ≡
        (h1 * 16 + x.toNat) * 16 ^ l.length [MOD 4294967296] := by
      rw [e h, e h1]
      exact Nat.ModEq.add_right _ hh
    exact ((Nat.mod_modEq _ _).mul_right _).trans (h2.trans ((Nat.mod_modEq _ _).mul_right _).symm)

theorem hash_step_lt (l : List Char) (hl : l ≠ []) :
    ∀ h : Nat, l.foldl (fun h c => (h * 16 + c.toNat) % 4294967296) h < 4294967296 := by
  induction l with
  | nil => exact absurd rfl hl
  | cons x l ih =>
    intro h
    simp only [List.foldl_cons]
    cases l with
    | nil => exact Nat.mod_lt _ (by decide)
    | cons y l => exact ih (List.cons_ne_nil _ _) _

/-- After eight or more characters nothing is left of the value the accumulator had. -/
theorem hash_step_forgets (l : List Char) (hl : 8 ≤ l.length) (h h1 : Nat) :
    l.foldl (fun h c => (h * 16 + c.toNat) % 4294967296) h =
      l.foldl (fun h c => (h * 16 + c.toNat) % 4294967296) h1 := by
  have hne : l ≠ [] := by
    intro hcon
    rw [hcon] at hl
    simp at hl
  have hpow : ∀ a : Nat, a * 16 ^ l.length ≡ 0 [MOD 4294967296] := by
    intro a
    have e : 16 ^ l.length = 4294967296 * 16 ^ (l.length - 8) := by
      have : l.length = 8 + (l.length - 8) := by omega
      conv_lhs => rw [this, pow_add]
      norm_num
    rw [e]
    exact (Nat.modEq_zero_iff_dvd).2 ⟨a * 16 ^ (l.length - 8), by ring⟩
  exact Nat.ModEq.eq_of_lt_of_lt (hash_step_congr l h h1 ((hpow h).trans (hpow h1).symm))
    (hash_step_lt l hne h) (hash_step_lt l hne h1)

theorem hash_append (p t : List Char) (ht : 8 ≤ t.length) :
    hash ⟨p ++ t⟩ = hash ⟨t⟩ := by
  unfold hash
  simp only [List.foldl_append]
  rw [hash_step_forgets t ht _ 0]

/-- C36: the 32-bit accumulator `h = (h << 4) + c` keeps nothing of a character more than
eight positions from the end: the bucket of a string of length at least 8 is the bucket of
its last eight characters, so two such strings with the same last eight characters have the
same bucket; and every bucket index is below `TABLE_SIZE`, which is 200. -/
theorem hash_last_eight (s1 s2 : String) (h1 : 8 ≤ s1.length) (h2 : 8 ≤ s2.length)
    (h : s1.data.drop (s1.length - 8) = s2.data.drop (s2.length - 8)) :
    hash s1 = hash s2 ∧ hash s1 = hash ⟨s1.data.drop (s1.length - 8)⟩ ∧
    hash s1 < TABLE_SIZE ∧ hash s2 < TABLE_SIZE ∧ TABLE_SIZE = 200 := by
  have key : ∀ s : String, 8 ≤ s.length → hash s = hash ⟨s.data.drop (s.length - 8)⟩ := by
    intro s hs
    have hlen : s.length = s.data.length := rfl
    have e : s = ⟨s.data.take (s.length - 8) ++ s.data.drop (s.length - 8)⟩ := by
      rw [List.take_append_drop]
    conv_lhs => rw [e]
    exact hash_append _ _ (by rw [List.length_drop, ← hlen]; omega)
  refine ⟨?_, key s1 h1, hash_lt s1, hash_lt s2, rfl⟩
  rw [key s1 h1, key s2 h2, h]

theorem hash_last_eight_witness :
    hash "a_long_identifier_1" = hash "another_one_ntifier_1" ∧
    hash "a_long_identifier_1" = hash "tifier_1" ∧ hash "a_long_identifier_1" = 185 :=
  ⟨(hash_last_eight "a_long_identifier_1" "another_one_ntifier_1" (by decide) (by decide)
      (by decide)).1,
    (hash_last_eight "a_long_identifier_1" "another_one_ntifier_1" (by decide) (by decide)
      (by decide)).2.1, by decide⟩

/-! ## Relational operators and calls in value context -/

/-- The instructions a visit emits depend on the counters it starts with, not on the
list. -/
theorem emitted_congr (tk : Tokens) (n : ASTNode) (mode : GenMode) {s1 s2 : GenState}
    (ht : s1.temp_counter = s2.temp_counter) (hl : s1.label_counter = s2.label_counter) :
    emitted tk n mode s1 = emitted tk n mode s2 := by
  unfold emitted
  have e : ({ s1 with list := [] } : GenState) = { s2 with list := [] } := by
    cases s1
    cases s2
    simp only at ht hl
    simp [ht, hl]
  rw [e]

/-- C31: for every BinOp node whose operator is relational (`<`, `>`, `<=`, `>=`, `==`,
`!=`, and not one of the tokens of `&&` and `||`), `gen_expr` appends the code of the left
operand, then the code of the right operand, then exactly `t := 0`, `if l rel r goto L_true`,
`goto L_end`, `L_true:`, `t := 1`, `L_end:`, and returns the named operand `t`.  Here `l`
and `r` are the operands the two visits return, `t` is the temporary `ir_new_temp` gives
after the operands, different from every temporary allocated before, `L_true` and `L_end`
are the next two labels of `ir_new_label`, different from each other and from every label
allocated before, and `rel` is `ast_relop_to_ir` of the operator: `<`, `>`, `<=`, `>=`,
`==`, `!=` give `IR_LT`, `IR_GT`, `IR_LE`, `IR_GE`, `IR_EQ`, `IR_NE`. -/
theorem relational_value_layout (tk : Tokens) (d : NodeData)
    (l r c b ini inc p nx : ASTNode) (st : GenState)
    (hty : d.type = NodeType.NODE_BIN_OP) (hrel : is_relational tk d.int_val = true)
    (hlog : ¬ (d.int_val = tk.T_AND ∨ d.int_val = tk.T_OR)) :
    (gen_walk tk (ASTNode.node d l r c b ini inc p nx) GenMode.expr st).1.list =
      st.list ++ emitted tk l GenMode.expr st ++
        emitted tk r GenMode.expr (gen_walk tk l GenMode.expr st).1 ++
        [ir_make_assign
            (some (temp_name (gen_walk tk r GenMode.expr
              (gen_walk tk l GenMode.expr st).1).1.temp_counter))
            (ir_op_const 0) d.line_number,
          ir_make_if (gen_walk tk l GenMode.expr st).2
            (gen_walk tk r GenMode.expr (gen_walk tk l GenMode.expr st).1).2
            (ast_relop_to_ir tk d.int_val)
            (some (label_name (gen_walk tk r GenMode.expr
              (gen_walk tk l GenMode.expr st).1).1.label_counter))
            d.line_number,
          ir_make_goto
            (some (label_name ((gen_walk tk r GenMode.expr
              (gen_walk tk l GenMode.expr st).1).1.label_counter + 1)))
            d.line_number,
          ir_make_label
            (some (label_name (gen_walk tk r GenMode.expr
              (gen_walk tk l GenMode.expr st).1).1.label_counter))
            d.line_number,
          ir_make_assign
            (some (temp_name (gen_walk tk r GenMode.expr
              (gen_walk tk l GenMode.expr st).1).1.temp_counter))
            (ir_op_const 1) d.line_number,
          ir_make_label
            (some (label_name ((gen_walk tk r GenMode.expr
              (gen_walk tk l GenMode.expr st).1).1.label_counter + 1)))
            d.line_number] ∧
    (gen_walk tk (ASTNode.node d l r c b ini inc p nx) GenMode.expr st).2 =
      ir_op_name (some (temp_name (gen_walk tk r GenMode.expr
        (gen_walk tk l GenMode.expr st).1).1.temp_counter)) ∧
    (gen_walk tk (ASTNode.node d l r c b ini inc p nx) GenMode.expr st).1.temp_counter =
      (gen_walk tk r GenMode.expr (gen_walk tk l GenMode.expr st).1).1.temp_counter + 1 ∧
    (gen_walk tk (ASTNode.node d l r c b ini inc p nx) GenMode.expr st).1.label_counter =
      (gen_walk tk r GenMode.expr (gen_walk tk l GenMode.expr st).1).1.label_counter + 2 ∧
    (∀ k, k < (gen_walk tk r GenMode.expr
        (gen_walk tk l GenMode.expr st).1).1.temp_counter →
      temp_name k ≠ temp_name (gen_walk tk r GenMode.expr
        (gen_walk tk l GenMode.expr st).1).1.temp_counter) ∧
    (∀ k, k < (gen_walk tk r GenMode.expr
        (gen_walk tk l GenMode.expr st).1).1.label_counter + 1 →
      label_name k ≠ label_name ((gen_walk tk r GenMode.expr
        (gen_walk tk l GenMode.expr st).1).1.label_counter + 1) ∧
      (k < (gen_walk tk r GenMode.expr
          (gen_walk tk l GenMode.expr st).1).1.label_counter →
        label_name k ≠ label_name (gen_walk tk r GenMode.expr
          (gen_walk tk l GenMode.expr st).1).1.label_counter)) ∧
    ([60, 62, tk.T_LE, tk.T_GE, tk.T_EQ, tk.T_NEQ].Nodup →
      [60, 62, tk.T_LE, tk.T_GE, tk.T_EQ, tk.T_NEQ].map (ast_relop_to_ir tk) =
        [IRRelop.IR_LT, IRRelop.IR_GT, IRRelop.IR_LE, IRRelop.IR_GE, IRRelop.IR_EQ,
          IRRelop.IR_NE]) := by
  have hmain : gen_walk tk (ASTNode.node d l r c b ini inc p nx) GenMode.expr st =
      (ir_append (ir_append (ir_append (ir_append (ir_append (ir_append
        (ir_new_label (ir_new_label (ir_new_temp (gen_walk tk r GenMode.expr
          (gen_walk tk l GenMode.expr st).1).1).2).2).2
        (ir_make_assign
          (some (temp_name (gen_walk tk r GenMode.expr
            (gen_walk tk l GenMode.expr st).1).1.temp_counter))
          (ir_op_const 0) d.line_number))
        (ir_make_if (gen_walk tk l GenMode.expr st).2
          (gen_walk tk r GenMode.expr (gen_walk tk l GenMode.expr st).1).2
          (ast_relop_to_ir tk d.int_val)
          (some (label_name (gen_walk tk r GenMode.expr
            (gen_walk tk l GenMode.expr st).1).1.label_counter))
          d.line_number))
        (ir_make_goto
          (some (label_name ((gen_walk tk r GenMode.expr
            (gen_walk tk l GenMode.expr st).1).1.label_counter + 1)))
          d.line_number))
        (ir_make_label
          (some (label_name (gen_walk tk r GenMode.expr
            (gen_walk tk l GenMode.expr st).1).1.label_counter))
          d.line_number))
        (ir_make_assign
          (some (temp_name (gen_walk tk r GenMode.expr
            (gen_walk tk l GenMode.expr st).1).1.temp_counter))
          (ir_op_const 1) d.line_number))
        (ir_make_label
          (some (label_name ((gen_walk tk r GenMode.expr
            (gen_walk tk l GenMode.expr st).1).1.label_counter + 1)))
          d.line_number),
        ir_op_name (some (temp_name (gen_walk tk r GenMode.expr
          (gen_walk tk l GenMode.expr st).1).1.temp_counter))) := by
    rw [gen_walk]
    simp only [gen_expr, ASTNode.type, hty, ASTNode.int_val, hlog, if_false, hrel, if_true,
      ASTNode.line_number]
    rfl
  rw [hmain]
  refine ⟨?_, rfl, rfl, rfl, ?_, ?_, ?_⟩
  · simp only [ir_append, ir_new_label, ir_new_temp, gen_walk_list, List.append_assoc,
      List.cons_append, List.nil_append]
  · intro k hk heq
    have := temp_name_injective heq
    omega
  · intro k hk
    refine ⟨?_, ?_⟩
    · intro heq
      have := label_name_injective heq
      omega
    · intro hk1 heq
      have := label_name_injective heq
      omega
  · intro hnd
    simp only [List.nodup_cons, List.mem_cons, List.mem_singleton, not_or, List.not_mem_nil,
      not_false_eq_true, List.nodup_nil, and_true] at hnd
    obtain ⟨⟨-, h1, h2, h3, h4⟩, ⟨h5, h6, h7, h8⟩, ⟨h9, h10, h11⟩, ⟨h12, h13⟩, h14⟩ := hnd
    simp only [List.map_cons, List.map_nil, ast_relop_to_ir, if_true, Ne.symm h1, Ne.symm h2,
      Ne.symm h3, Ne.symm h4, Ne.symm h5, Ne.symm h6, Ne.symm h7, Ne.symm h8, Ne.symm h9,
      Ne.symm h10, Ne.symm h11, Ne.symm h12, Ne.symm h13, Ne.symm h14, if_false]
    simp

theorem relational_value_layout_witness :
    (gen_walk sample_tokens
      ((create_binary_node 60 ((create_var_node "a").set_line 1)
        ((create_int_node 1).set_line 1)).set_line 1) GenMode.expr GenState.initial).1.list =
      [ir_make_assign (some "t0") (ir_op_const 0) 1,
        ir_make_if (ir_op_name (some "a")) (ir_op_const 1) IRRelop.IR_LT (some "L0") 1,
        ir_make_goto (some "L1") 1, ir_make_label (some "L0") 1,
        ir_make_assign (some "t0") (ir_op_const 1) 1, ir_make_label (some "L1") 1] ∧
    (gen_walk sample_tokens
      ((create_binary_node 60 ((create_var_node "a").set_line 1)
        ((create_int_node 1).set_line 1)).set_line 1) GenMode.expr GenState.initial).2 =
      ir_op_name (some "t0") ∧
    [60, 62, sample_tokens.T_LE, sample_tokens.T_GE, sample_tokens.T_EQ,
        sample_tokens.T_NEQ].map (ast_relop_to_ir sample_tokens) =
      [IRRelop.IR_LT, IRRelop.IR_GT, IRRelop.IR_LE, IRRelop.IR_GE, IRRelop.IR_EQ,
        IRRelop.IR_NE] := by
  have h := relational_value_layout sample_tokens
    { type := NodeType.NODE_BIN_OP, data_type := DataType.TYPE_VOID, line_number := 1,
      int_val := 60, str_val := none }
    ((create_var_node "a").set_line 1) ((create_int_node 1).set_line 1) ASTNode.null
    ASTNode.null ASTNode.null ASTNode.null ASTNode.null ASTNode.null GenState.initial rfl
    (by decide) (by decide)
  exact ⟨h.1, h.2.1, h.2.2.2.2.2.2 (by decide)⟩

/-! ## Calls in value context -/

/-- The argument loop of a call: the code of the first argument, one `param` of its operand,
then the loop on the arguments that follow. -/
theorem emitted_args_node (tk : Tokens) (d : NodeData) (l r c b ini inc p nx : ASTNode)
    (line : Int) (st : GenState) :
    emitted tk (ASTNode.node d l r c b ini inc p nx) (GenMode.args line) st =
      emitted tk (ASTNode.node d l r c b ini inc p nx) GenMode.expr st ++
        [ir_make_param (gen_walk tk (ASTNode.node d l r c b ini inc p nx) GenMode.expr st).2
          line] ++
        emitted tk nx (GenMode.args line)
          (gen_walk tk (ASTNode.node d l r c b ini inc p nx) GenMode.expr st).1 := by
  have hstep : ∀ s : GenState,
      gen_walk tk (ASTNode.node d l r c b ini inc p nx) (GenMode.args line) s =
        gen_walk tk nx (GenMode.args line)
          (ir_append (gen_walk tk (ASTNode.node d l r c b ini inc p nx) GenMode.expr s).1
            (ir_make_param (gen_walk tk (ASTNode.node d l r c b ini inc p nx)
              GenMode.expr s).2 line)) := by
    intro s
    rw [gen_walk, gen_walk]
  have hc := gen_walk_counters tk (ASTNode.node d l r c b ini inc p nx) GenMode.expr st
  have h1 : emitted tk (ASTNode.node d l r c b ini inc p nx) (GenMode.args line) st =
      (ir_append
        (gen_walk tk (ASTNode.node d l r c b ini inc p nx) GenMode.expr
          { st with list := [] }).1
        (ir_make_param (gen_walk tk (ASTNode.node d l r c b ini inc p nx) GenMode.expr
          { st with list := [] }).2 line)).list ++
      emitted tk nx (GenMode.args line)
        (ir_append
          (gen_walk tk (ASTNode.node d l r c b ini inc p nx) GenMode.expr
            { st with list := [] }).1
          (ir_make_param (gen_walk tk (ASTNode.node d l r c b ini inc p nx) GenMode.expr
            { st with list := [] }).2 line)) := by
    unfold emitted
    rw [hstep]
    exact gen_walk_list tk nx (GenMode.args line) _
  rw [h1, ← hc.2.2]
  have h2 : emitted tk nx (GenMode.args line)
      (ir_append
        (gen_walk tk (ASTNode.node d l r c b ini inc p nx) GenMode.expr
          { st with list := [] }).1
        (ir_make_param (gen_walk tk (ASTNode.node d l r c b ini inc p nx) GenMode.expr
          st).2 line)) =
      emitted tk nx (GenMode.args line)
        (gen_walk tk (ASTNode.node d l r c b ini inc p nx) GenMode.expr st).1 :=
    emitted_congr tk nx (GenMode.args line) hc.1.symm hc.2.1.symm
  rw [h2]
  rfl

theorem emitted_args_null (tk : Tokens) (line : Int) (st : GenState) :
    emitted tk ASTNode.null (GenMode.args line) st = [] := rfl

theorem gen_walk_args_temp_counter (tk : Tokens) (n : ASTNode) (line : Int)
    (st : GenState) :
    (gen_walk tk n (GenMode.args line) st).1.temp_counter =
      (gen_walk tk n (GenMode.args line) { st with list := [] }).1.temp_counter :=
  (gen_walk_counters tk n (GenMode.args line) st).1

/-- C32: for every FuncCall node, `gen_expr` appends, for each argument in sibling order,
the code of the argument followed by one `param` of its operand, and then exactly one Call
instruction that names the callee, with the number of arguments as its count.  When the
type of the node is Void the Call has no destination and the constant 0 is returned;
otherwise the destination is the temporary `ir_new_temp` gives after the arguments,
different from every temporary allocated before, and it is returned. -/
theorem call_layout (tk : Tokens) (d : NodeData) (l r c b ini inc p nx : ASTNode)
    (st : GenState) (hty : d.type = NodeType.NODE_FUNC_CALL) :
    (gen_walk tk (ASTNode.node d l r c b ini inc p nx) GenMode.expr st).1.list =
      st.list ++ emitted tk l (GenMode.args d.line_number) st ++
        [if d.data_type = DataType.TYPE_VOID then
            ir_make_call_void d.str_val (siblings l).length d.line_number
          else
            ir_make_call
              (some (temp_name
                (gen_walk tk l (GenMode.args d.line_number) st).1.temp_counter))
              d.str_val (siblings l).length d.line_number] ∧
    (gen_walk tk (ASTNode.node d l r c b ini inc p nx) GenMode.expr st).2 =
      (if d.data_type = DataType.TYPE_VOID then ir_op_const 0
        else ir_op_name (some (temp_name
          (gen_walk tk l (GenMode.args d.line_number) st).1.temp_counter))) ∧
    (∀ (ad : NodeData) (al ar ac ab aini ainc ap anx : ASTNode) (s : GenState),
      emitted tk (ASTNode.node ad al ar ac ab aini ainc ap anx)
          (GenMode.args d.line_number) s =
        emitted tk (ASTNode.node ad al ar ac ab aini ainc ap anx) GenMode.expr s ++
          [ir_make_param
            (gen_walk tk (ASTNode.node ad al ar ac ab aini ainc ap anx) GenMode.expr s).2
            d.line_number] ++
          emitted tk anx (GenMode.args d.line_number)
            (gen_walk tk (ASTNode.node ad al ar ac ab aini ainc ap anx) GenMode.expr s).1) ∧
    (∀ s : GenState, emitted tk ASTNode.null (GenMode.args d.line_number) s = []) ∧
    (∀ k, k < (gen_walk tk l (GenMode.args d.line_number) st).1.temp_counter →
      temp_name k ≠
        temp_name (gen_walk tk l (GenMode.args d.line_number) st).1.temp_counter) := by
  have hn : ((count_params l : Nat) : Int) = ((siblings l).length : Nat) := by
    rw [count_params_eq_length]
  refine ⟨?_, ?_, fun ad al ar ac ab aini ainc ap anx s =>
    emitted_args_node tk ad al ar ac ab aini ainc ap anx d.line_number s,
    fun s => rfl, ?_⟩
  · rw [gen_walk]
    simp only [gen_expr, ASTNode.type, hty, ASTNode.line_number, ASTNode.data_type,
      ASTNode.left, ASTNode.str_val, hn]
    split_ifs
    · simp only [ir_append, gen_walk_list]
    · simp only [ir_append, ir_new_temp, gen_walk_list]
  · rw [gen_walk]
    simp only [gen_expr, ASTNode.type, hty, ASTNode.line_number, ASTNode.data_type,
      ASTNode.left]
    split_ifs
    · rfl
    · rfl
  · intro k hk heq
    have := temp_name_injective heq
    omega

theorem call_layout_witness :
    (gen_walk sample_tokens (sample_call DataType.TYPE_INT) GenMode.expr
        GenState.initial).1.list =
      [ir_make_param (ir_op_const 1) 1, ir_make_param (ir_op_name (some "x")) 1,
        ir_make_call (some "t0") (some "f") 2 1] ∧
    (gen_walk sample_tokens (sample_call DataType.TYPE_VOID) GenMode.expr
        GenState.initial).1.list =
      [ir_make_param (ir_op_const 1) 1, ir_make_param (ir_op_name (some "x")) 1,
        ir_make_call_void (some "f") 2 1] ∧
    (gen_walk sample_tokens (sample_call DataType.TYPE_VOID) GenMode.expr
        GenState.initial).2 = ir_op_const 0 := by
  have h := call_layout sample_tokens
    { type := NodeType.NODE_FUNC_CALL, data_type := DataType.TYPE_VOID, line_number := 1,
      int_val := 0, str_val := some "f" }
    (append_node ((create_int_node 1).set_line 1) ((create_var_node "x").set_line 1))
    ASTNode.null ASTNode.null ASTNode.null ASTNode.null ASTNode.null ASTNode.null
    ASTNode.null GenState.initial rfl
  exact ⟨by decide, h.1, h.2.1⟩

/-! ## The order of functions and of global initialisers -/

theorem gen_func_start_eq (st : GenState) : gen_func_start st = GenState.initial := rfl

theorem gen_func_def (tk : Tokens) (d : NodeData) (l r c b ini inc p nx : ASTNode)
    (st : GenState) (prog : IRProgram) (hty : d.type = NodeType.NODE_FUNC_DEF) :
    gen_func tk (ASTNode.node d l r c b ini inc p nx) st prog =
      ((gen_walk tk b GenMode.stmt GenState.initial).1,
        { prog with
          funcs := func_entry tk (ASTNode.node d l r c b ini inc p nx) :: prog.funcs }) := by
  unfold gen_func
  simp only [ASTNode.isNull, ASTNode.type, hty, ne_eq, not_true_eq_false, or_self,
    Bool.false_eq_true, if_false]
  rfl

theorem ir_generate_loop_funcs_eq (tk : Tokens) (root : ASTNode) :
    ∀ (st : GenState) (prog : IRProgram),
      (ir_generate_loop tk root st prog).2.funcs =
        ((function_defs root).map (func_entry tk)).reverse ++ prog.funcs := by
  induction root with
  | null =>
    intro st prog
    rfl
  | node d l r c b ini inc p nx _ _ _ _ _ _ _ ihnx =>
    intro st prog
    rw [ir_generate_loop]
    simp only
    by_cases h1 : d.type = NodeType.NODE_FUNC_DEF
    · rw [if_pos h1, ihnx, gen_func_def tk d l r c b ini inc p nx st prog h1]
      simp [function_defs, siblings, ASTNode.type, h1]
    · rw [if_neg h1]
      have hf : function_defs (ASTNode.node d l r c b ini inc p nx) = function_defs nx := by
        simp [function_defs, siblings, ASTNode.type, h1]
      rw [hf]
      split_ifs
      · exact ihnx _ _
      · exact ihnx _ _
      · exact ihnx _ _

/-- C35: the function list of the program `ir_generate` returns holds one entry for each
function definition of the top-level list, in reverse source order: for the definitions
`f1, ..., fk` it is the entries of `fk, ..., f1`, each with the name of the function, its
declared return type (the type of its Type child, Void without one) and the instructions
of its body. -/
theorem funcs_reverse_source_order (tk : Tokens) (root : ASTNode) (st : GenState)
    (prog : IRProgram) (h : ir_generate tk root st = some prog) :
    prog.funcs = ((function_defs root).map (func_entry tk)).reverse ∧
    prog.funcs.map (fun f => (f.name, f.ret_type)) =
      ((function_defs root).map
        (fun fn => (fn.str_val,
          if fn.left.isNull then DataType.TYPE_VOID else fn.left.data_type))).reverse := by
  unfold ir_generate at h
  split_ifs at h
  simp only [Option.some.injEq] at h
  subst h
  have e : (ir_generate_loop tk root st ir_program_create).2.funcs =
      ((function_defs root).map (func_entry tk)).reverse := by
    rw [ir_generate_loop_funcs_eq]
    simp [ir_program_create]
  refine ⟨e, ?_⟩
  rw [e, List.map_reverse, List.map_map]
  rfl

theorem funcs_reverse_source_order_witness :
    ∃ prog, ir_generate sample_tokens sample_two_functions GenState.initial = some prog ∧
      (function_defs sample_two_functions).map ASTNode.str_val = [some "f", some "g"] ∧
      prog.funcs.map (fun f => (f.name, f.ret_type)) =
        [(some "g", DataType.TYPE_VOID), (some "f", DataType.TYPE_INT)] :=
  ⟨_, rfl, by decide,
    (funcs_reverse_source_order sample_tokens sample_two_functions GenState.initial _
      rfl).2⟩

theorem gen_func_state (tk : Tokens) (n : ASTNode) (st : GenState) (prog prog1 : IRProgram) :
    (gen_func tk n st prog).1 = (gen_func tk n st prog1).1 := by
  unfold gen_func
  split_ifs <;> rfl

theorem gen_func_counters (tk : Tokens) (n : ASTNode) (s1 s2 : GenState) (prog : IRProgram)
    (ht : s1.temp_counter = s2.temp_counter) (hl : s1.label_counter = s2.label_counter) :
    (gen_func tk n s1 prog).1.temp_counter = (gen_func tk n s2 prog).1.temp_counter ∧
      (gen_func tk n s1 prog).1.label_counter = (gen_func tk n s2 prog).1.label_counter := by
  unfold gen_func
  split_ifs
  · exact ⟨ht, hl⟩
  all_goals exact ⟨rfl, rfl⟩

theorem gen_walk_congr (tk : Tokens) (n : ASTNode) (mode : GenMode) {s1 s2 : GenState}
    (ht : s1.temp_counter = s2.temp_counter) (hl : s1.label_counter = s2.label_counter) :
    (gen_walk tk n mode s1).1.temp_counter = (gen_walk tk n mode s2).1.temp_counter ∧
      (gen_walk tk n mode s1).1.label_counter = (gen_walk tk n mode s2).1.label_counter ∧
      (gen_walk tk n mode s1).2 = (gen_walk tk n mode s2).2 := by
  have e : ({ s1 with list := [] } : GenState) = { s2 with list := [] } := by
    cases s1
    cases s2
    simp only at ht hl
    simp [ht, hl]
  have h1 := gen_walk_counters tk n mode s1
  have h2 := gen_walk_counters tk n mode s2
  rw [e] at h1
  exact ⟨h1.1.trans h2.1.symm, h1.2.1.trans h2.2.1.symm, h1.2.2.trans h2.2.2.symm⟩

/-- The blocks of the initialisers depend on the counters only. -/
theorem global_blocks_congr (tk : Tokens) (root : ASTNode) :
    ∀ s1 s2 : GenState, s1.temp_counter = s2.temp_counter →
      s1.label_counter = s2.label_counter →
      global_blocks tk root s1 = global_blocks tk root s2 := by
  induction root with
  | null =>
    intro s1 s2 _ _
    rfl
  | node d l r c b ini inc p nx _ _ _ _ _ _ _ ihnx =>
    intro s1 s2 ht hl
    rw [global_blocks, global_blocks]
    split_ifs
    · have h := gen_func_counters tk (ASTNode.node d l r c b ini inc p nx) s1 s2
        ir_program_create ht hl
      exact ihnx _ _ h.1 h.2
    · have h := gen_walk_congr tk r GenMode.expr ht hl
      rw [emitted_congr tk r GenMode.expr ht hl, h.2.2, ihnx _ _ h.1 h.2.1]
    · exact ihnx _ _ ht hl

theorem ir_generate_loop_globals_eq (tk : Tokens) (root : ASTNode) :
    ∀ (st : GenState) (prog : IRProgram),
      (ir_generate_loop tk root st prog).2.global_instrs =
        (global_blocks tk root st).reverse.flatten ++ prog.global_instrs := by
  induction root with
  | null =>
    intro st prog
    rfl
  | node d l r c b ini inc p nx _ _ _ _ _ _ _ ihnx =>
    intro st prog
    rw [ir_generate_loop, global_blocks]
    simp only
    by_cases h1 : d.type = NodeType.NODE_FUNC_DEF
    · rw [if_pos h1, if_pos h1, ihnx, gen_func_globals,
        gen_func_state tk _ st prog ir_program_create]
    · rw [if_neg h1, if_neg h1]
      by_cases h2 : d.type = NodeType.NODE_VAR_DECL
      · rw [if_pos h2]
        cases hr : r.isNull with
        | true =>
          simp only [if_true, h2, true_and, Bool.true_eq_false, if_false]
          exact ihnx _ _
        | false =>
          simp only [Bool.false_eq_true, if_false, h2, and_self, if_true]
          rw [ihnx]
          have hc := gen_walk_counters tk r GenMode.expr st
          rw [global_blocks_congr tk nx
            (ir_append (gen_walk tk r GenMode.expr { st with list := [] }).1
              (ir_make_assign d.str_val
                (gen_walk tk r GenMode.expr { st with list := [] }).2 d.line_number))
            (gen_walk tk r GenMode.expr st).1 hc.1.symm hc.2.1.symm, ← hc.2.2]
          simp only [ir_append_list, ir_append, List.reverse_cons, List.flatten_append,
            List.flatten_cons, List.flatten_nil, List.append_nil, List.append_assoc]
          rfl
      · rw [if_neg h2]
        simp only [h2, false_and, if_false]
        exact ihnx _ _

theorem global_blocks_match (tk : Tokens) (root : ASTNode) :
    ∀ st : GenState,
      List.Forall₂
        (fun blk g => ∃ s : GenState,
          blk = emitted tk g.right GenMode.expr s ++
            [ir_make_assign g.str_val (gen_walk tk g.right GenMode.expr s).2 g.line_number])
        (global_blocks tk root st) (initialised_globals root) := by
  induction root with
  | null =>
    intro st
    exact List.Forall₂.nil
  | node d l r c b ini inc p nx _ _ _ _ _ _ _ ihnx =>
    intro st
    rw [global_blocks]
    by_cases h1 : d.type = NodeType.NODE_FUNC_DEF
    · have hf : initialised_globals (ASTNode.node d l r c b ini inc p nx) =
          initialised_globals nx := by
        simp [initialised_globals, siblings, ASTNode.type, h1]
      rw [if_pos h1, hf]
      exact ihnx _
    · rw [if_neg h1]
      by_cases h2 : d.type = NodeType.NODE_VAR_DECL ∧ r.isNull = false
      · have hf : initialised_globals (ASTNode.node d l r c b ini inc p nx) =
            ASTNode.node d l r c b ini inc p nx :: initialised_globals nx := by
          simp [initialised_globals, siblings, ASTNode.type, ASTNode.right, h2.1, h2.2]
        rw [if_pos h2, hf]
        exact List.Forall₂.cons ⟨st, rfl⟩ (ihnx _)
      · have hf : initialised_globals (ASTNode.node d l r c b ini inc p nx) =
            initialised_globals nx := by
          have : ¬ (d.type = NodeType.NODE_VAR_DECL ∧ r.isNull = false) := h2
          simp only [initialised_globals, siblings, List.filter_cons, ASTNode.type,
            ASTNode.right]
          rw [if_neg]
          simpa using this
        rw [if_neg h2, hf]
        exact ihnx _

/-- C37: `global_instrs` of the program `ir_generate` returns is made of one block of
instructions for each initialised global of the top-level list, and the blocks stand in
reverse source order: the instructions of a later initialiser come before those of every
earlier one.  Each block is the code of the initialiser, in the order it is emitted,
followed by the assignment to the name of the global. -/
theorem global_initialisers_order (tk : Tokens) (root : ASTNode) (st : GenState)
    (prog : IRProgram) (h : ir_generate tk root st = some prog) :
    prog.global_instrs = (global_blocks tk root st).reverse.flatten ∧
    List.Forall₂
      (fun blk g => ∃ s : GenState,
        blk = emitted tk g.right GenMode.expr s ++
          [ir_make_assign g.str_val (gen_walk tk g.right GenMode.expr s).2 g.line_number])
      (global_blocks tk root st) (initialised_globals root) := by
  unfold ir_generate at h
  split_ifs at h
  simp only [Option.some.injEq] at h
  subst h
  refine ⟨?_, global_blocks_match tk root st⟩
  rw [ir_generate_loop_globals_eq]
  simp [ir_program_create]

theorem global_initialisers_order_witness :
    ∃ prog, ir_generate sample_tokens sample_two_globals GenState.initial = some prog ∧
      (initialised_globals sample_two_globals).map ASTNode.str_val = [some "g", some "h"] ∧
      prog.global_instrs = (global_blocks sample_tokens sample_two_globals
        GenState.initial).reverse.flatten ∧
      prog.global_instrs =
        [ir_make_binop (some "t0") (ir_op_name (some "g")) (ir_op_const 2) 43 3,
          ir_make_assign (some "h") (ir_op_name (some "t0")) 3,
          ir_make_assign (some "g") (ir_op_const 1) 1] :=
  ⟨_, rfl, by decide,
    (global_initialisers_order sample_tokens sample_two_globals GenState.initial _ rfl).1,
    by decide⟩

/-! ## Temporaries are numbered from `t0` in each function -/

theorem assigned_names_ir_append (st : GenState) (i : IRInstr) :
    assigned_names (ir_append st i).list = assigned_names st.list ++ i.result.toList := by
  unfold assigned_names
  simp only [ir_append, List.filterMap_append]
  cases h : i.result <;> simp [List.filterMap_cons, h]

theorem TempOrder.order_label {st : GenState} (h : TempOrder st) (st1 : GenState)
    (hl : st1.list = st.list) (hc : st1.temp_counter = st.temp_counter) : TempOrder st1 := by
  obtain ⟨ks, h1, h2, h3⟩ := h.sorted
  refine ⟨⟨ks, by rw [hl]; exact h1, h2, by rw [hc]; exact h3⟩, ?_⟩
  intro k hk
  rw [hl]
  exact h.assigned k (by omega)

theorem TempOrder.order_plain {st : GenState} (h : TempOrder st) (i : IRInstr)
    (hi : i.op_result = none) : TempOrder (ir_append st i) := by
  obtain ⟨ks, h1, h2, h3⟩ := h.sorted
  have e : op_results (ir_append st i).list = op_results st.list := by
    rw [op_results_ir_append, hi]; simp
  refine ⟨⟨ks, by rw [e]; exact h1, h2, h3⟩, ?_⟩
  intro k hk
  rw [assigned_names_ir_append]
  exact List.mem_append_left _ (h.assigned k hk)

/-- Appending the instruction that assigns the temporary just allocated. -/
theorem TempOrder.order_emit {st : GenState} (h : TempOrder st) (st1 : GenState)
    (i : IRInstr) (hl : st1.list = st.list) (hc : st1.temp_counter = st.temp_counter + 1)
    (hres : i.result = some (temp_name st.temp_counter))
    (hop : i.op_result = none ∨ i.op_result = some (temp_name st.temp_counter)) :
    TempOrder (ir_append st1 i) := by
  obtain ⟨ks, h1, h2, h3⟩ := h.sorted
  have hcount : (ir_append st1 i).temp_counter = st.temp_counter + 1 := hc
  have hlist : (ir_append st1 i).list = (ir_append st i).list := by
    simp [ir_append, hl]
  refine ⟨?_, ?_⟩
  · rcases hop with hop | hop
    · refine ⟨ks, ?_, h2, fun k hk => by rw [hcount]; exact Nat.lt_succ_of_lt (h3 k hk)⟩
      rw [hlist, op_results_ir_append, hop]
      simpa using h1
    · refine ⟨ks ++ [st.temp_counter], ?_, ?_, ?_⟩
      · rw [hlist, op_results_ir_append, hop, h1]
        simp
      · rw [List.pairwise_append]
        refine ⟨h2, List.pairwise_singleton _ _, ?_⟩
        intro a ha b hb
        rw [List.mem_singleton] at hb
        rw [hb]
        exact h3 a ha
      · intro k hk
        rw [hcount]
        rcases List.mem_append.1 hk with hk | hk
        · exact Nat.lt_succ_of_lt (h3 k hk)
        · rw [List.mem_singleton] at hk
          omega
  · intro k hk
    rw [hcount] at hk
    rw [hlist, assigned_names_ir_append, hres]
    by_cases hlt : k < st.temp_counter
    · exact List.mem_append_left _ (h.assigned k hlt)
    · have : k = st.temp_counter := by omega
      rw [this]
      exact List.mem_append_right _ (by simp)

theorem TempOrder.order_ite {c : Prop} [Decidable c] {a b : GenState}
    (ha : c → TempOrder a) (hb : ¬ c → TempOrder b) : TempOrder (if c then a else b) := by
  split_ifs with hc
  · exact ha hc
  · exact hb hc

theorem TempOrder.order_branch {st : GenState} (h : TempOrder st) (place : IROperand)
    (t f : String) (line : Int) : TempOrder (branch_on_nonzero st place t f line) :=
  (h.order_plain _ (by rfl)).order_plain _ (by rfl)

theorem gen_cond_logical_order (tk : Tokens)
    (sub : Child → GenMode → GenState → GenState × IROperand) (node : ASTNode)
    (hsub : ∀ ch mode st1, TempOrder st1 → TempOrder (sub ch mode st1).1)
    (t f : String) (st : GenState) (h : TempOrder st) :
    TempOrder (gen_cond_logical tk sub node t f st) := by
  have h1 : TempOrder (ir_new_label st).2 := h.order_label _ rfl rfl
  unfold gen_cond_logical
  split_ifs
  · exact hsub _ _ _ ((hsub _ _ _ h1).order_plain _ (by rfl))
  · exact hsub _ _ _ ((hsub _ _ _ h1).order_plain _ (by rfl))

theorem gen_expr_order (tk : Tokens)
    (sub : Child → GenMode → GenState → GenState × IROperand) (node : ASTNode)
    (hsub : ∀ ch mode st1, TempOrder st1 → TempOrder (sub ch mode st1).1)
    (st : GenState) (h : TempOrder st) : TempOrder (gen_expr tk sub node st).1 := by
  unfold gen_expr
  split
  · exact h
  · exact h
  · exact h
  · exact h
  · split_ifs
    · have h1 : TempOrder (ir_append
          (ir_new_label (ir_new_label (ir_new_label (ir_new_temp st).2).2).2).2
          (ir_make_assign (some (ir_new_temp st).1) (ir_op_const 0) node.line_number)) :=
        h.order_emit _ _ (by rfl) (by rfl) (by rfl) (Or.inl (by rfl))
      have h2 := gen_cond_logical_order tk sub node hsub
        (ir_new_label (ir_new_temp st).2).1
        (ir_new_label (ir_new_label (ir_new_temp st).2).2).1 _ h1
      exact ((((h2.order_plain _ (by rfl)).order_plain _ (by rfl)).order_plain _
        (by rfl)).order_plain _ (by rfl)).order_plain _ (by rfl)
    · have h2 := hsub Child.right GenMode.expr _ (hsub Child.left GenMode.expr st h)
      have h3 : TempOrder (ir_append
          (ir_new_label (ir_new_label (ir_new_temp
            (sub Child.right GenMode.expr (sub Child.left GenMode.expr st).1).1).2).2).2
          (ir_make_assign
            (some (ir_new_temp
              (sub Child.right GenMode.expr (sub Child.left GenMode.expr st).1).1).1)
            (ir_op_const 0) node.line_number)) :=
        h2.order_emit _ _ (by rfl) (by rfl) (by rfl) (Or.inl (by rfl))
      exact ((((h3.order_plain _ (by rfl)).order_plain _ (by rfl)).order_plain _
        (by rfl)).order_plain _ (by rfl)).order_plain _ (by rfl)
    · have h2 := hsub Child.right GenMode.expr _ (hsub Child.left GenMode.expr st h)
      exact h2.order_emit _ _ (by rfl) (by rfl) (by rfl) (Or.inr (by rfl))
  · exact (hsub Child.left GenMode.expr st h).order_emit _ _ (by rfl) (by rfl) (by rfl)
      (Or.inr (by rfl))
  · exact (hsub Child.right GenMode.expr st h).order_plain _ (by rfl)
  · have h1 := hsub Child.left (GenMode.args node.line_number) st h
    split_ifs
    · exact h1.order_plain _ (by rfl)
    · exact h1.order_emit _ _ (by rfl) (by rfl) (by rfl) (Or.inr (by rfl))
  · exact h

theorem gen_cond_order (tk : Tokens)
    (sub : Child → GenMode → GenState → GenState × IROperand)
    (self_expr : GenState → GenState × IROperand) (node : ASTNode)
    (hsub : ∀ ch mode st1, TempOrder st1 → TempOrder (sub ch mode st1).1)
    (hself : ∀ st1, TempOrder st1 → TempOrder (self_expr st1).1)
    (t f : String) (st : GenState) (h : TempOrder st) :
    TempOrder (gen_cond tk sub self_expr node t f st) := by
  have hplace : TempOrder (branch_on_nonzero (self_expr st).1 (self_expr st).2 t f
      node.line_number) := (hself st h).order_branch _ _ _ _
  unfold gen_cond
  split
  · split_ifs <;> exact h.order_plain _ (by rfl)
  · split_ifs <;> exact h.order_plain _ (by rfl)
  · exact h.order_branch _ _ _ _
  · split_ifs
    · exact gen_cond_logical_order tk sub node hsub t f st h
    · exact ((hsub Child.right GenMode.expr _ (hsub Child.left GenMode.expr st h)).order_plain _
        (by rfl)).order_plain _ (by rfl)
    · exact hplace
  · split_ifs
    · exact hsub _ _ _ h
    · exact hplace
  · exact hplace
theorem gen_stmt_order
    (sub : Child → GenMode → GenState → GenState × IROperand)
    (self_expr : GenState → GenState × IROperand) (node : ASTNode)
    (hsub : ∀ ch mode st1, TempOrder st1 → TempOrder (sub ch mode st1).1)
    (hself : ∀ st1, TempOrder st1 → TempOrder (self_expr st1).1)
    (st : GenState) (h : TempOrder st) : TempOrder (gen_stmt sub self_expr node st) := by
  have h3 : TempOrder (ir_new_label (ir_new_label (ir_new_label st).2).2).2 :=
    h.order_label _ rfl rfl
  unfold gen_stmt
  split
  · exact h
  · exact h
  · exact hsub _ _ _ h
  · have h4 := hsub Child.left GenMode.stmt _
      ((hsub Child.cond (GenMode.cond (ir_new_label st).1
        (if node.right.isNull then (ir_new_label (ir_new_label (ir_new_label st).2).2).1
          else (ir_new_label (ir_new_label st).2).1) node.line_number) _ h3).order_plain
        (ir_make_label (some (ir_new_label st).1) node.line_number) rfl)
    have h5 := TempOrder.order_ite (c := node.right.isNull = true) (fun _ => h4)
      (fun _ => hsub Child.right GenMode.stmt _
        ((h4.order_plain (ir_make_goto (some (ir_new_label (ir_new_label (ir_new_label st).2).2).1)
            node.line_number) rfl).order_plain
          (ir_make_label (some (ir_new_label (ir_new_label st).2).1) node.line_number) rfl))
    exact h5.order_plain _ (by rfl)
  · have h4 := hsub Child.cond (GenMode.cond (ir_new_label (ir_new_label st).2).1
      (ir_new_label (ir_new_label (ir_new_label st).2).2).1 node.line_number) _
      (h3.order_plain (ir_make_label (some (ir_new_label st).1) node.line_number) rfl)
    have h5 := hsub Child.body GenMode.stmt _
      (h4.order_plain (ir_make_label (some (ir_new_label (ir_new_label st).2).1) node.line_number)
        rfl)
    exact (h5.order_plain _ (by rfl)).order_plain _ (by rfl)
  · have h4 := TempOrder.order_ite (c := ¬ node.init.isNull ∧ node.init.type ≠ NodeType.NODE_EMPTY)
      (fun _ => hsub Child.init GenMode.stmt _ h3) (fun _ => h3)
    have h5 := h4.order_plain (ir_make_label (some (ir_new_label st).1) node.line_number) rfl
    have h6 := TempOrder.order_ite (c := ¬ node.cond.isNull ∧ node.cond.type ≠ NodeType.NODE_EMPTY)
      (fun _ => hsub Child.cond (GenMode.cond (ir_new_label (ir_new_label st).2).1
        (ir_new_label (ir_new_label (ir_new_label st).2).2).1 node.line_number) _ h5)
      (fun _ => h5.order_plain (ir_make_goto (some (ir_new_label (ir_new_label st).2).1)
        node.line_number) rfl)
    have h7 := hsub Child.body GenMode.stmt _
      (h6.order_plain (ir_make_label (some (ir_new_label (ir_new_label st).2).1) node.line_number)
        rfl)
    have h8 := TempOrder.order_ite (c := node.incr.isNull = true) (fun _ => h7)
      (fun _ => hsub Child.incr GenMode.expr _ h7)
    exact (h8.order_plain _ (by rfl)).order_plain _ (by rfl)
  · split_ifs
    · exact h.order_plain _ (by rfl)
    · exact (hsub Child.left GenMode.expr st h).order_plain _ (by rfl)
  · exact hself st h
  · split_ifs
    · exact h
    · exact (hsub Child.right GenMode.expr st h).order_plain _ (by rfl)
  · exact hself st h

/-- Every call of the generator keeps the invariant on the numbering of temporaries. -/
theorem gen_walk_order (tk : Tokens) (n : ASTNode) (mode : GenMode) (st : GenState) :
    TempOrder st → TempOrder (gen_walk tk n mode st).1 := by
  refine gen_walk_induction tk (fun _ _ st res => TempOrder st → TempOrder res.1)
    ?_ ?_ ?_ ?_ ?_ ?_ n mode st
  · intro mode st h
    rw [gen_walk_null]
    cases mode with
    | cond t f line => exact h.order_plain _ (by rfl)
    | expr => exact h
    | stmt => exact h
    | stmts => exact h
    | args line => exact h
  · intro sub node st hsub h
    exact gen_expr_order tk sub node hsub st h
  · intro sub node t f line st hsub hself h
    exact gen_cond_order tk sub _ node hsub hself t f st h
  · intro sub node st hsub hself h
    exact gen_stmt_order sub _ node hsub hself st h
  · intro node st r1 r2 h1 h2 h
    exact h2 (h1 h)
  · intro node line st a r h1 h2 h
    exact h2 ((h1 h).order_plain _ (by rfl))

theorem TempOrder.order_initial : TempOrder GenState.initial :=
  ⟨⟨[], rfl, List.Pairwise.nil, fun _ h => absurd h (List.not_mem_nil _)⟩,
    fun k hk => absurd hk (Nat.not_lt_zero k)⟩

theorem mem_function_defs {root fn : ASTNode} (h : fn ∈ function_defs root) :
    fn ∈ siblings root ∧ fn.type = NodeType.NODE_FUNC_DEF := by
  unfold function_defs at h
  rw [List.mem_filter] at h
  exact ⟨h.1, by simpa using h.2⟩

/-- C34: `gen_func` resets the counters before it lowers a body, and `ir_new_temp` names
the temporary after the counter and counts on.  So the entry of each function in the program
is made from its definition alone, whatever was lowered before it, and in its instructions
the temporaries are numbered from `t0` upward in the order of allocation: the destinations
of the `BinOp`, `UnOp` and `Call` instructions are temporaries whose numbers increase along
the list, and the temporaries the list assigns include every `t<k>` with `k` below the
number of temporaries allocated for the function, and no destination beyond. -/
theorem temps_numbered_per_function (tk : Tokens) (root : ASTNode) (st : GenState)
    (prog : IRProgram) (h : ir_generate tk root st = some prog) :
    (∀ f ∈ prog.funcs, ∃ fn ∈ function_defs root, f = func_entry tk fn ∧
      f.instrs = (gen_walk tk fn.body GenMode.stmt GenState.initial).1.list ∧
      (∃ ks : List Nat, op_results f.instrs = ks.map temp_name ∧
        ks.Pairwise (fun a b => a < b) ∧ ∀ k ∈ ks, k < temps_allocated tk fn) ∧
      ∀ k, k < temps_allocated tk fn → temp_name k ∈ assigned_names f.instrs) ∧
    (∀ st0 : GenState, gen_func_start st0 = GenState.initial) ∧
    GenState.initial.temp_counter = 0 ∧
    ∀ s : GenState, (ir_new_temp s).1 = temp_name s.temp_counter ∧
      (ir_new_temp s).2.temp_counter = s.temp_counter + 1 := by
  refine ⟨?_, fun _ => rfl, rfl, fun _ => ⟨rfl, rfl⟩⟩
  intro f hf
  unfold ir_generate at h
  split_ifs at h
  simp only [Option.some.injEq] at h
  subst h
  rw [ir_generate_loop_funcs_eq] at hf
  simp only [ir_program_create, List.append_nil, List.mem_reverse, List.mem_map] at hf
  obtain ⟨fn, hfn, rfl⟩ := hf
  have hinv := gen_walk_order tk fn.body GenMode.stmt GenState.initial
    TempOrder.order_initial
  exact ⟨fn, hfn, rfl, rfl, hinv.sorted, hinv.assigned⟩

theorem temps_numbered_per_function_witness :
    ∃ prog, ir_generate sample_tokens sample_two_functions GenState.initial = some prog ∧
      prog.funcs.map (fun f => (f.name, op_results f.instrs)) =
        [(some "g", ["t0", "t1"]), (some "f", ["t0"])] ∧
      ∀ f ∈ prog.funcs, ∃ fn ∈ function_defs sample_two_functions,
        f = func_entry sample_tokens fn ∧
        ∀ k, k < temps_allocated sample_tokens fn → temp_name k ∈ assigned_names f.instrs :=
  ⟨_, rfl, by decide, fun f hf =>
    match (temps_numbered_per_function sample_tokens sample_two_functions GenState.initial _
      rfl).1 f hf with
    | ⟨fn, hfn, he, _, _, ha⟩ => ⟨fn, hfn, he, ha⟩⟩

/-! ## A local variable with the name of a parameter -/

theorem Holds.holds_same (t : SymTab) : Holds t t := fun _ _ h => h

theorem Holds.holds_comp {a b c : SymTab} (h1 : Holds a b) (h2 : Holds b c) : Holds a c :=
  fun x sym h => h2 x sym (h1 x sym h)

/-- Pushing a symbol whose name is not in its bucket leaves every symbol found where it
was. -/
theorem find_symbol_push {sc : Scope} {sym s : Symbol} {x : String}
    (hf : find_symbol sym.name (sc.table.getD (hash sym.name) []) = none)
    (hx : find_symbol x (sc.table.getD (hash x) []) = some s) :
    find_symbol x ((sc.push sym).table.getD (hash x) []) = some s := by
  simp only [Scope.push]
  by_cases hlt : hash sym.name < sc.table.length
  · by_cases hh : hash sym.name = hash x
    · rw [← hh, getD_set_self _ _ _ _ hlt]
      rw [← hh] at hx
      unfold find_symbol
      split_ifs with hn
      · rw [← hn, hf] at hx
        cases hx
      · exact hx
    · rw [getD_set_ne _ _ _ _ _ hh]
      exact hx
  · rw [getD_set_of_not_lt _ _ _ _ _ hlt]
    exact hx

theorem lookup_current_store {t : SymTab} {a : Nat} {sc : Scope} (sc1 : Scope)
    (hc : t.current_scope = some a) (hs : t.heap[a]? = some sc) (x : String) :
    lookup_current (t.store a sc1) x = find_symbol x (sc1.table.getD (hash x) []) := by
  have hlt : a < t.heap.length := by
    by_contra hcon
    rw [List.getElem?_eq_none (Nat.le_of_not_lt hcon)] at hs
    cases hs
  simp [lookup_current, SymTab.store, hc, List.getElem?_set, hlt]

theorem Holds.holds_insert (t : SymTab) (sym : Symbol) : Holds t (insert_symbol t sym).1 := by
  intro x s hx
  cases hc : t.current_scope with
  | none => simp [lookup_current, hc] at hx
  | some a =>
    cases hs : t.heap[a]? with
    | none => simp [lookup_current, hc, hs] at hx
    | some sc =>
      have hx1 : find_symbol x (sc.table.getD (hash x) []) = some s := by
        simpa [lookup_current, hc, hs] using hx
      rw [insert_symbol_unfold sym hc hs]
      cases hf : find_symbol sym.name (sc.table.getD (hash sym.name) []) with
      | some s0 => exact hx
      | none =>
        simp only
        rw [lookup_current_store _ hc hs]
        exact find_symbol_push hf hx1

/-- Inserting the symbol of a function and storing its signature leaves every symbol that
was found in the current scope where it was. -/
theorem Holds.holds_insert_signature (t : SymTab) (sym : Symbol) (count : Nat)
    (types : List DataType) (hins : (insert_symbol t sym).2 = true) :
    Holds t (set_signature (insert_symbol t sym).1 sym.name count types) := by
  intro x s hx
  cases hc : t.current_scope with
  | none => simp [lookup_current, hc] at hx
  | some a =>
    cases hs : t.heap[a]? with
    | none => simp [lookup_current, hc, hs] at hx
    | some sc =>
      have hx1 : find_symbol x (sc.table.getD (hash x) []) = some s := by
        simpa [lookup_current, hc, hs] using hx
      have hlt : a < t.heap.length := by
        by_contra hcon
        rw [List.getElem?_eq_none (Nat.le_of_not_lt hcon)] at hs
        cases hs
      rw [insert_symbol_unfold sym hc hs] at hins ⊢
      cases hf : find_symbol sym.name (sc.table.getD (hash sym.name) []) with
      | some s0 =>
        rw [hf] at hins
        cases hins
      | none =>
        simp only
        have hget : (t.store a (sc.push sym)).heap[a]? = some (sc.push sym) := by
          simp [SymTab.store, List.getElem?_set, hlt]
        have hc1 : (t.store a (sc.push sym)).current_scope = some a := hc
        have hpush : lookup_current (t.store a (sc.push sym)) x = some s := by
          rw [lookup_current_store _ hc hs]
          exact find_symbol_push hf hx1
        unfold set_signature
        rw [hc1]
        simp only [hget]
        cases hb : (sc.push sym).table.getD (hash sym.name) [] with
        | nil => exact hpush
        | cons func rest =>
          simp only
          rw [lookup_current_store _ hc1 hget]
          simp only
          have hx2 : find_symbol x ((sc.push sym).table.getD (hash x) []) = some s :=
            find_symbol_push hf hx1
          by_cases hlt2 : hash sym.name < (sc.push sym).table.length
          · by_cases hh : hash sym.name = hash x
            · rw [← hh, getD_set_self _ _ _ _ hlt2]
              rw [← hh, hb] at hx2
              have hlt3 : hash sym.name < sc.table.length := by
                simpa [Scope.push] using hlt2
              have hhead : func = sym := by
                have e : (sc.push sym).table.getD (hash sym.name) [] =
                    sym :: sc.table.getD (hash sym.name) [] := by
                  simp only [Scope.push]
                  exact getD_set_self _ _ _ _ hlt3
                rw [e] at hb
                exact (List.cons.inj hb).1.symm
              have hne : sym.name ≠ x := by
                intro hn
                rw [← hh, hn] at hx1
                rw [hn, hx1] at hf
                cases hf
              unfold find_symbol at hx2 ⊢
              rw [hhead] at hx2 ⊢
              simp only [hne, if_false] at hx2 ⊢
              exact hx2
            · rw [getD_set_ne _ _ _ _ _ hh]
              exact hx2
          · rw [getD_set_of_not_lt _ _ _ _ _ hlt2]
            exact hx2

/-- A run between `enter_scope` and `exit_scope` leaves the symbols of the scope it was
started in as they were. -/
theorem Holds.holds_block {t0 t1 : SymTab} (h : Kept (enter_scope t0) t1) :
    Holds t0 (exit_scope t1) := by
  intro x s hx
  have hcur := (Frame.block h.frame).current
  cases hc : t0.current_scope with
  | none => simp [lookup_current, hc] at hx
  | some a =>
    cases hs : t0.heap[a]? with
    | none => simp [lookup_current, hc, hs] at hx
    | some sc =>
      have hlt : a < t0.heap.length := by
        by_contra hcon
        rw [List.getElem?_eq_none (Nat.le_of_not_lt hcon)] at hs
        cases hs
      have hheap := h.block_all a hlt
      unfold lookup_current at hx ⊢
      rw [hcur, hc]
      rw [hc] at hx
      simp only [hheap] at hx ⊢
      exact hx

theorem insert_params_holds (ps : ASTNode) :
    ∀ st : AnState, Holds st.symtab (insert_params ps st).symtab := by
  induction ps with
  | null => intro st; exact Holds.holds_same _
  | node d l r c b ini inc p nx _ _ _ _ _ _ _ ihnx =>
    intro st
    rw [insert_params]
    refine Holds.holds_comp ?_ (ihnx _)
    split
    · exact Holds.holds_insert _ _
    · exact Holds.holds_insert _ _

theorem check_argument_holds (sym : Symbol) (i : Nat) (line : Int) (arg : ASTNode)
    (st : AnState) : Holds st.symtab (check_argument sym i line arg st).symtab := by
  unfold check_argument
  split_ifs
  · exact Holds.holds_same _
  · exact Holds.holds_same _
  · exact Holds.holds_same _

theorem Holds.hto_insert {t0 t : SymTab} (sym : Symbol) (h : Holds t0 t) :
    Holds t0 (insert_symbol t sym).1 := h.holds_comp (Holds.holds_insert t sym)

theorem Holds.hto_error {t0 : SymTab} (st : AnState) (line : Int) (msg : String)
    (h : Holds t0 st.symtab) : Holds t0 (semantic_error st line msg).symtab := h

theorem Holds.hto_ite {c : Prop} [Decidable c] {t0 : SymTab} {a b : AnState}
    (ha : Holds t0 a.symtab) (hb : Holds t0 b.symtab) :
    Holds t0 (if c then a else b).symtab := by
  split_ifs
  · exact ha
  · exact hb

theorem Holds.hto_ite_result {c : Prop} [Decidable c] {t0 : SymTab} {a b : AnResult}
    (ha : Holds t0 a.st.symtab) (hb : Holds t0 b.st.symtab) :
    Holds t0 (if c then a else b).st.symtab := by
  split_ifs
  · exact ha
  · exact hb

theorem Holds.hto_ite_dep {c : Prop} [Decidable c] {t0 : SymTab} {a b : AnResult}
    (ha : c → Holds t0 a.st.symtab) (hb : ¬ c → Holds t0 b.st.symtab) :
    Holds t0 (if c then a else b).st.symtab := by
  split_ifs with hc
  · exact ha hc
  · exact hb hc

/-- Each `analyze_*` function leaves the symbols of the current scope where they were, when
the recursive calls do and write to no scope they are not in. -/
theorem analyze_switch_holds (sub : Child → Walk → AnState → AnResult)
    (hK : ∀ ch w st, Kept st.symtab (sub ch w st).st.symtab)
    (hsub : ∀ ch w st, Holds st.symtab (sub ch w st).st.symtab) (node : ASTNode)
    (st : AnState) : Holds st.symtab (analyze_switch sub node st).st.symtab := by
  have to_sub : ∀ (t0 : SymTab) (ch : Child) (w : Walk) (s : AnState),
      Holds t0 s.symtab → Holds t0 (sub ch w s).st.symtab :=
    fun t0 ch w s h => h.holds_comp (hsub ch w s)
  have to_kept : ∀ (t0 : SymTab) (ch : Child) (w : Walk) (s : AnState),
      Kept t0 s.symtab → Kept t0 (sub ch w s).st.symtab :=
    fun t0 ch w s h => h.kept_comp (hK ch w s)
  unfold analyze_switch
  cases node.type <;> simp only
  · -- NODE_FUNC_DEF
    unfold analyze_function
    simp only
    apply Holds.hto_ite_dep
    · intro _
      exact Holds.hto_error _ _ _ (Holds.holds_insert _ _)
    · intro hins
      simp only
      refine Holds.holds_comp
        (Holds.holds_insert_signature st.symtab
          (create_symbol st.symtab node.name node.left.data_type SymbolKind.SYM_FUNCTION
            node.line_number)
          (count_params node.params) (collect_param_types node.params)
          (by simpa using hins)) ?_
      apply Holds.holds_block
      apply Kept.kto_ite
      · apply Kept.kto_error
        apply to_kept
        apply insert_params_kept_to
        exact Kept.kept_same _
      · apply to_kept
        apply insert_params_kept_to
        exact Kept.kept_same _
  · -- NODE_VAR_DECL
    unfold analyze_declaration
    simp only
    have h2 : Holds st.symtab
        (if (insert_symbol st.symtab (create_symbol st.symtab node.name node.left.data_type
            SymbolKind.SYM_VARIABLE node.line_number)).2 = true
          then ({ st with symtab := (insert_symbol st.symtab (create_symbol st.symtab node.name
            node.left.data_type SymbolKind.SYM_VARIABLE node.line_number)).1 } : AnState)
          else semantic_error { st with symtab := (insert_symbol st.symtab
            (create_symbol st.symtab node.name node.left.data_type SymbolKind.SYM_VARIABLE
              node.line_number)).1 } node.line_number "Variable redeclared").symtab :=
      Holds.hto_ite (Holds.hto_insert _ (Holds.holds_same _))
        (Holds.hto_error _ _ _ (Holds.hto_insert _ (Holds.holds_same _)))
    apply Holds.hto_ite_result
    · exact h2
    · simp only
      apply Holds.hto_ite
      · exact Holds.hto_error _ _ _ (to_sub _ _ _ _ h2)
      · exact to_sub _ _ _ _ h2
  · -- NODE_PARAM
    exact Holds.holds_same _
  · -- NODE_BLOCK
    unfold analyze_block
    simp only
    exact Holds.holds_block
      (hK Child.left Walk.stmts { st with symtab := enter_scope st.symtab })
  · -- NODE_IF
    unfold analyze_if
    simp only
    have h1 : Holds st.symtab
        (if (node.set_cond (sub Child.cond Walk.single st).node).cond.data_type =
            DataType.TYPE_VOID
          then semantic_error (sub Child.cond Walk.single st).st
            (node.set_cond (sub Child.cond Walk.single st).node).line_number
            "Invalid condition type"
          else (sub Child.cond Walk.single st).st).symtab :=
      Holds.hto_ite (Holds.hto_error _ _ _ (to_sub _ _ _ _ (Holds.holds_same _)))
        (to_sub _ _ _ _ (Holds.holds_same _))
    apply Holds.hto_ite_result
    · exact to_sub _ _ _ _ h1
    · exact to_sub _ _ _ _ (to_sub _ _ _ _ h1)
  · -- NODE_WHILE
    unfold analyze_while
    simp only
    exact to_sub _ _ _ _ (Holds.hto_ite (Holds.hto_error _ _ _ (to_sub _ _ _ _ (Holds.holds_same _)))
      (to_sub _ _ _ _ (Holds.holds_same _)))
  · -- NODE_FOR
    unfold analyze_for
    simp only
    apply to_sub
    apply Holds.hto_ite_result
    · apply Holds.hto_ite_result
      · apply Holds.hto_ite_result
        · exact Holds.holds_same _
        · exact to_sub _ _ _ _ (Holds.holds_same _)
      · simp only
        apply Holds.hto_ite
        · apply Holds.hto_error
          apply to_sub
          apply Holds.hto_ite_result
          · exact Holds.holds_same _
          · exact to_sub _ _ _ _ (Holds.holds_same _)
        · apply to_sub
          apply Holds.hto_ite_result
          · exact Holds.holds_same _
          · exact to_sub _ _ _ _ (Holds.holds_same _)
    · apply to_sub
      apply Holds.hto_ite_result
      · apply Holds.hto_ite_result
        · exact Holds.holds_same _
        · exact to_sub _ _ _ _ (Holds.holds_same _)
      · simp only
        apply Holds.hto_ite
        · apply Holds.hto_error
          apply to_sub
          apply Holds.hto_ite_result
          · exact Holds.holds_same _
          · exact to_sub _ _ _ _ (Holds.holds_same _)
        · apply to_sub
          apply Holds.hto_ite_result
          · exact Holds.holds_same _
          · exact to_sub _ _ _ _ (Holds.holds_same _)
  · -- NODE_RETURN
    unfold analyze_return
    split
    · exact Holds.holds_same _
    · simp only
      apply Holds.hto_ite_result
      · exact Holds.hto_ite (Holds.holds_same _) (Holds.holds_same _)
      · exact Holds.hto_ite (Holds.hto_error _ _ _ (to_sub _ _ _ _ (Holds.holds_same _)))
          (to_sub _ _ _ _ (Holds.holds_same _))
  · -- NODE_ASSIGN
    unfold analyze_assignment
    simp only
    apply Holds.hto_ite_result
    · exact to_sub _ _ _ _ (to_sub _ _ _ _ (Holds.holds_same _))
    · exact Holds.hto_ite (Holds.hto_error _ _ _ (to_sub _ _ _ _ (to_sub _ _ _ _ (Holds.holds_same _))))
        (to_sub _ _ _ _ (to_sub _ _ _ _ (Holds.holds_same _)))
  · -- NODE_BIN_OP
    unfold analyze_binary
    simp only
    apply Holds.hto_ite_result
    · exact to_sub _ _ _ _ (to_sub _ _ _ _ (Holds.holds_same _))
    · exact Holds.hto_ite (Holds.hto_error _ _ _ (to_sub _ _ _ _ (to_sub _ _ _ _ (Holds.holds_same _))))
        (to_sub _ _ _ _ (to_sub _ _ _ _ (Holds.holds_same _)))
  · -- NODE_UN_OP
    unfold analyze_unary
    simp only
    exact to_sub _ _ _ _ (Holds.holds_same _)
  · -- NODE_CONST_INT
    exact Holds.holds_same _
  · -- NODE_CONST_CHAR
    exact Holds.holds_same _
  · -- NODE_VAR
    unfold analyze_variable
    split
    · exact Holds.holds_same _
    · exact Holds.holds_same _
  · -- NODE_FUNC_CALL
    unfold analyze_function_call
    split
    · exact Holds.holds_same _
    · simp only
      apply Holds.hto_ite_result
      · exact Holds.holds_same _
      · exact Holds.hto_ite (Holds.hto_error _ _ _ (to_sub _ _ _ _ (Holds.holds_same _)))
          (to_sub _ _ _ _ (Holds.holds_same _))
  · -- NODE_TYPE
    exact Holds.holds_same _
  · -- NODE_STR_LIT
    exact Holds.holds_same _
  · -- NODE_EMPTY
    exact Holds.holds_same _

/-- Whatever is analysed, the symbols of the current scope are afterwards where they
were. -/
theorem analyze_walk_holds (n : ASTNode) :
    ∀ (w : Walk) (st : AnState), Holds st.symtab (analyze_walk n w st).st.symtab := by
  induction n with
  | null =>
    intro w st
    rw [analyze_walk_null]
    exact Holds.holds_same _
  | node d l r c b ini inc p nx ihl ihr ihc ihb ihini ihinc ihp ihnx =>
    intro w st
    have h1 := analyze_switch_holds
      (fun ch w1 st1 =>
        match ch with
        | Child.left => analyze_walk l w1 st1
        | Child.right => analyze_walk r w1 st1
        | Child.cond => analyze_walk c w1 st1
        | Child.body => analyze_walk b w1 st1
        | Child.init => analyze_walk ini w1 st1
        | Child.incr => analyze_walk inc w1 st1)
      (by intro ch w1 st1; cases ch <;> simp only <;> exact analyze_walk_kept _ _ _)
      (by intro ch w1 st1; cases ch <;> simp only <;> apply_assumption)
      (ASTNode.node d l r c b ini inc p nx) st
    cases w with
    | single =>
      rw [analyze_walk]
      exact h1
    | stmts =>
      rw [analyze_walk]
      simp only
      split
      · exact h1
      · exact h1.holds_comp (ihnx _ _)
    | args sym i line =>
      rw [analyze_walk]
      simp only
      exact h1.holds_comp ((check_argument_holds _ _ _ _ _).holds_comp (ihnx _ _))

theorem state_before_holds (n : ASTNode) :
    ∀ (j k : Nat) (st : AnState), j ≤ k →
      Holds (state_before n j st).symtab (state_before n k st).symtab := by
  induction n with
  | null =>
    intro j k st _
    cases j <;> cases k <;> exact Holds.holds_same _
  | node d l r c b ini inc p nx _ _ _ _ _ _ _ ihnx =>
    intro j k st hjk
    cases j with
    | zero =>
      cases k with
      | zero => exact Holds.holds_same _
      | succ k =>
        rw [state_before, state_before]
        exact (analyze_walk_holds _ Walk.single st).holds_comp
          (by simpa [state_before] using ihnx 0 k _ (Nat.zero_le k))
    | succ j =>
      cases k with
      | zero => omega
      | succ k =>
        rw [state_before, state_before]
        exact ihnx j k _ (by omega)

theorem state_before_step (n : ASTNode) :
    ∀ (j : Nat) (st : AnState) (d : ASTNode), (siblings n)[j]? = some d →
      state_before n (j + 1) st = (analyze_node d (state_before n j st)).st := by
  induction n with
  | null =>
    intro j st d h
    simp [siblings] at h
  | node dd l r c b ini inc p nx _ _ _ _ _ _ _ ihnx =>
    intro j st d h
    cases j with
    | zero =>
      have hd := siblings_getElem_zero h
      subst hd
      rw [state_before, state_before]
      cases nx <;> rfl
    | succ j =>
      simp only [siblings, List.getElem?_cons_succ] at h
      rw [state_before, state_before]
      exact ihnx j _ d h

theorem lookup_of_lookup_current {t : SymTab} {x : String} {s : Symbol}
    (h : lookup_current t x = some s) : lookup t x = some s := by
  unfold lookup_current at h
  cases hc : t.current_scope with
  | none => rw [hc] at h; cases h
  | some a =>
    rw [hc] at h
    simp only at h
    cases hs : t.heap[a]? with
    | none => rw [hs] at h; cases h
    | some sc =>
      rw [hs] at h
      simp only at h
      have hlt : a < t.heap.length := by
        by_contra hcon
        rw [List.getElem?_eq_none (Nat.le_of_not_lt hcon)] at hs
        cases hs
      unfold lookup
      rw [hc]
      obtain ⟨m, hm⟩ : ∃ m, t.heap.length = m + 1 := ⟨t.heap.length - 1, by omega⟩
      rw [hm, lookup_from]
      simp only [hs, h]

/-- In a fresh scope every name resolves as it did before the scope was entered. -/
theorem lookup_enter_scope {t : SymTab} (hw : t.wf) (x : String) :
    lookup (enter_scope t) x = lookup t x := by
  obtain ⟨l, hl⟩ := Chain.exists_of_wf hw
  have hl1 : Chain (enter_scope t).heap (some t.heap.length) (new_scope t :: l) :=
    Chain.cons (heap_getElem?_enter_new t)
      (Chain.mono hl (fun a sc h => by
        have ha : a < t.heap.length := by
          by_contra hcon
          rw [List.getElem?_eq_none (Nat.le_of_not_lt hcon)] at h
          cases h
        rw [heap_getElem?_enter_old ha]
        exact h))
  rw [lookup_eq_findSome (wf_enter_scope hw) x hl1, lookup_eq_findSome hw x hl]
  simp only [List.findSome?_cons, new_scope_bucket, find_symbol]

theorem insert_params_wf (ps : ASTNode) :
    ∀ st : AnState, st.symtab.wf → (insert_params ps st).symtab.wf := by
  induction ps with
  | null => intro st h; exact h
  | node d l r c b ini inc p nx _ _ _ _ _ _ _ ihnx =>
    intro st h
    rw [insert_params]
    apply ihnx
    split
    · exact wf_insert_symbol h _
    · exact wf_insert_symbol h _

/-! ### The place of the current scope -/

theorem current_place_store {t : SymTab} {a : Nat} {sc : Scope} (sc1 : Scope)
    (hc : t.current_scope = some a) (hs : t.heap[a]? = some sc)
    (hl : sc1.level = sc.level) (hp : sc1.parent = sc.parent) :
    (t.store a sc1).current_place = t.current_place := by
  have hlt : a < t.heap.length := by
    by_contra hcon
    rw [List.getElem?_eq_none (Nat.le_of_not_lt hcon)] at hs
    cases hs
  simp [SymTab.current_place, SymTab.current, SymTab.store, hc, hs, List.getElem?_set, hlt,
    hl, hp]

theorem current_place_insert (t : SymTab) (sym : Symbol) :
    (insert_symbol t sym).1.current_place = t.current_place := by
  unfold insert_symbol
  cases hc : t.current_scope with
  | none => rfl
  | some a =>
    simp only
    cases hs : t.heap[a]? with
    | none => rfl
    | some sc =>
      simp only
      cases hf : find_symbol sym.name (sc.table.getD (hash sym.name) []) with
      | some s => rfl
      | none => exact current_place_store _ hc hs rfl rfl

theorem current_place_set_signature (t : SymTab) (name : String) (count : Nat)
    (types : List DataType) : (set_signature t name count types).current_place =
      t.current_place := by
  unfold set_signature
  cases hc : t.current_scope with
  | none => rfl
  | some a =>
    simp only
    cases hs : t.heap[a]? with
    | none => rfl
    | some sc =>
      simp only
      cases hb : sc.table.getD (hash name) [] with
      | nil => rfl
      | cons f rest => exact current_place_store _ hc hs rfl rfl

theorem current_place_insert_params (ps : ASTNode) :
    ∀ st : AnState, (insert_params ps st).symtab.current_place = st.symtab.current_place := by
  induction ps with
  | null => intro st; rfl
  | node d l r c b ini inc p nx _ _ _ _ _ _ _ ihnx =>
    intro st
    rw [insert_params]
    rw [ihnx]
    split
    · exact current_place_insert _ _
    · exact current_place_insert _ _

theorem current_place_enter_scope (t : SymTab) (lv : Int) (pa : Option Nat)
    (h : t.current_place = some (lv, pa)) :
    (enter_scope t).current_place = some (lv + 1, t.current_scope) := by
  unfold SymTab.current_place at h ⊢
  rw [current_enter_scope, Option.map_some', new_scope_level]
  cases hc : t.current with
  | none => rw [hc] at h; cases h
  | some old =>
    rw [hc] at h
    simp only [Option.map_some', Option.some.injEq, Prod.mk.injEq] at h
    simp only [h.1]
    rfl

theorem current_scope_ok_enter (t : SymTab) : current_scope_ok (enter_scope t) :=
  ⟨t.heap.length, new_scope t, rfl, heap_getElem?_enter_new t, by simp [new_scope]⟩

theorem lookup_current_enter_scope (t : SymTab) (x : String) :
    lookup_current (enter_scope t) x = none := by
  have h := heap_getElem?_enter_new t
  have hc : (enter_scope t).current_scope = some t.heap.length := rfl
  simp only [lookup_current, hc, h, new_scope_bucket, find_symbol]

/-! ### What an insert puts into the current scope -/

theorem lookup_current_insert_new {t : SymTab} (hok : current_scope_ok t) (sym : Symbol)
    (hnew : lookup_current t sym.name = none) :
    (insert_symbol t sym).2 = true ∧
      lookup_current (insert_symbol t sym).1 sym.name = some sym := by
  obtain ⟨a, sc, hc, hs, hlen⟩ := hok
  have hf : find_symbol sym.name (sc.table.getD (hash sym.name) []) = none := by
    simpa [lookup_current, hc, hs] using hnew
  have hh : hash sym.name < sc.table.length := by rw [hlen]; exact hash_lt _
  rw [insert_symbol_unfold sym hc hs, hf]
  refine ⟨rfl, ?_⟩
  simp only
  rw [lookup_current_store _ hc hs]
  simp only [Scope.push]
  rw [getD_set_self _ _ _ _ hh]
  simp [find_symbol]

theorem lookup_current_insert_cases {t : SymTab} {sym s : Symbol} {x : String}
    (h : lookup_current (insert_symbol t sym).1 x = some s) :
    s = sym ∨ lookup_current t x = some s := by
  cases hc : t.current_scope with
  | none =>
    right
    simpa [insert_symbol, hc] using h
  | some a =>
    cases hs : t.heap[a]? with
    | none =>
      right
      simpa [insert_symbol, hc, hs] using h
    | some sc =>
      rw [insert_symbol_unfold sym hc hs] at h
      cases hf : find_symbol sym.name (sc.table.getD (hash sym.name) []) with
      | some s0 =>
        rw [hf] at h
        exact Or.inr h
      | none =>
        rw [hf] at h
        simp only at h
        rw [lookup_current_store _ hc hs] at h
        have hcur : lookup_current t x = find_symbol x (sc.table.getD (hash x) []) := by
          simp [lookup_current, hc, hs]
        rw [hcur]
        simp only [Scope.push] at h
        by_cases hlt : hash sym.name < sc.table.length
        · by_cases hh : hash sym.name = hash x
          · rw [← hh, getD_set_self _ _ _ _ hlt] at h
            rw [← hh]
            unfold find_symbol at h
            split_ifs at h with hn
            · left
              exact (Option.some.inj h).symm
            · exact Or.inr h
          · rw [getD_set_ne _ _ _ _ _ hh] at h
            exact Or.inr h
        · rw [getD_set_of_not_lt _ _ _ _ _ hlt] at h
          exact Or.inr h

/-! ### The parameters in the function scope -/

theorem insert_params_present (ps : ASTNode) :
    ∀ st : AnState, current_scope_ok st.symtab → ∀ q ∈ siblings ps,
      lookup_current (insert_params ps st).symtab q.name ≠ none := by
  induction ps with
  | null =>
    intro st _ q hq
    simp [siblings] at hq
  | node d l r c b ini inc p nx _ _ _ _ _ _ _ ihnx =>
    intro st hok q hq
    rw [insert_params]
    have hok1 : current_scope_ok (insert_symbol st.symtab
        (create_symbol st.symtab (d.str_val.getD "") l.data_type SymbolKind.SYM_PARAMETER
          d.line_number)).1 := Frame.keeps_ok (Frame.insert _ _) hok
    simp only [siblings, List.mem_cons] at hq
    rcases hq with rfl | hq
    · apply Frame.keeps_lookup (insert_params_frame nx _)
      have h := lookup_current_insert hok
        (create_symbol st.symtab (d.str_val.getD "") l.data_type SymbolKind.SYM_PARAMETER
          d.line_number)
      split
      · exact h
      · exact h
    · apply ihnx _ _ q hq
      split
      · exact hok1
      · exact hok1

theorem insert_params_kinds (ps : ASTNode) :
    ∀ (st : AnState) (lv : Int), st.symtab.current_place.map Prod.fst = some lv →
      (∀ x s, lookup_current st.symtab x = some s →
        s.kind = SymbolKind.SYM_PARAMETER ∧ s.scope_level = lv) →
      ∀ x s, lookup_current (insert_params ps st).symtab x = some s →
        s.kind = SymbolKind.SYM_PARAMETER ∧ s.scope_level = lv := by
  induction ps with
  | null =>
    intro st lv _ h
    exact h
  | node d l r c b ini inc p nx _ _ _ _ _ _ _ ihnx =>
    intro st lv hlv h
    rw [insert_params]
    have hsym : (create_symbol st.symtab (d.str_val.getD "") l.data_type
        SymbolKind.SYM_PARAMETER d.line_number).scope_level = lv := by
      unfold SymTab.current_place SymTab.current at hlv
      unfold create_symbol
      simp only
      cases hc : st.symtab.current_scope with
      | none => rw [hc] at hlv; cases hlv
      | some a =>
        rw [hc] at hlv
        simp only at hlv ⊢
        cases hs : st.symtab.heap[a]? with
        | none => rw [hs] at hlv; cases hlv
        | some sc =>
          rw [hs] at hlv
          simpa using hlv
    have hstep : ∀ x s, lookup_current (insert_symbol st.symtab
        (create_symbol st.symtab (d.str_val.getD "") l.data_type SymbolKind.SYM_PARAMETER
          d.line_number)).1 x = some s →
        s.kind = SymbolKind.SYM_PARAMETER ∧ s.scope_level = lv := by
      intro x s hx
      rcases lookup_current_insert_cases hx with rfl | hx1
      · exact ⟨rfl, hsym⟩
      · exact h x s hx1
    apply ihnx _ lv
    · split
      · simp only [semantic_error]
        rw [current_place_insert]
        exact hlv
      · simp only [semantic_error]
        rw [current_place_insert]
        exact hlv
    · split
      · exact hstep
      · exact hstep

/-! ### The body of an accepted definition -/

theorem ite_error_symtab (c : Prop) [Decidable c] (s : AnState) (line : Int)
    (msg : String) : (if c then semantic_error s line msg else s).symtab = s.symtab := by
  split_ifs <;> rfl

/-- The run of `analyze_function` on an accepted definition whose body is a block: the
statements of the block are analysed from `body_block_state`, and the two scopes are left
afterwards. -/
theorem function_body_run (st : AnState) (d bd : NodeData)
    (l r c sl br bc bb bini binc bp bnx ini inc p nx : ASTNode)
    (hty : d.type = NodeType.NODE_FUNC_DEF) (hblk : bd.type = NodeType.NODE_BLOCK)
    (hok : current_scope_ok st.symtab)
    (hnew : lookup_current st.symtab (d.str_val.getD "") = none) :
    (analyze_node (ASTNode.node d l r c (ASTNode.node bd sl br bc bb bini binc bp bnx)
        ini inc p nx) st).st.symtab =
      exit_scope (exit_scope (analyze_list sl (body_block_state
        (ASTNode.node d l r c (ASTNode.node bd sl br bc bb bini binc bp bnx) ini inc p nx)
        st)).st.symtab) ∧
    (analyze_node (ASTNode.node d l r c (ASTNode.node bd sl br bc bb bini binc bp bnx)
        ini inc p nx) st).node.body.left =
      (analyze_list sl (body_block_state
        (ASTNode.node d l r c (ASTNode.node bd sl br bc bb bini binc bp bnx) ini inc p nx)
        st)).node := by
  have hins := (lookup_current_set_signature hok
    (create_symbol st.symtab (d.str_val.getD "") l.data_type SymbolKind.SYM_FUNCTION
      d.line_number) hnew 0 []).1
  unfold analyze_node analyze_list body_block_state function_scope_state
  rw [analyze_walk]
  simp only [analyze_switch, ASTNode.type, hty, analyze_function, ASTNode.name,
    ASTNode.str_val, ASTNode.left, ASTNode.line_number, ASTNode.params, hins,
    Bool.true_eq_false, if_false]
  rw [analyze_walk]
  simp only [analyze_switch, ASTNode.type, hblk, analyze_block, ASTNode.left,
    ite_error_symtab, ASTNode.set_body, ASTNode.body, ASTNode.set_left]
  exact ⟨trivial, trivial⟩

/-- A variable declaration whose name is not in the current scope is inserted: no
`"Variable redeclared"` is reported, the diagnostics it adds are those of its initialiser
and of the type check of the initialiser, and the symbol it creates is found in the
current scope afterwards. -/
theorem declaration_accepted (st : AnState) (d : NodeData) (l r c b ini inc p nx : ASTNode)
    (hty : d.type = NodeType.NODE_VAR_DECL) (hok : current_scope_ok st.symtab)
    (hnew : lookup_current st.symtab (d.str_val.getD "") = none) :
    (r = ASTNode.null →
      (analyze_node (ASTNode.node d l r c b ini inc p nx) st).st.diagnostics =
        st.diagnostics) ∧
    (analyze_node (ASTNode.node d l r c b ini inc p nx) st).st.diagnostics =
      (if r.isNull then st.diagnostics
       else if l.data_type ≠ (analyze_node r { st with symtab := (insert_symbol st.symtab
            (create_symbol st.symtab (d.str_val.getD "") l.data_type
              SymbolKind.SYM_VARIABLE d.line_number)).1 }).node.data_type then
          (analyze_node r { st with symtab := (insert_symbol st.symtab
            (create_symbol st.symtab (d.str_val.getD "") l.data_type
              SymbolKind.SYM_VARIABLE d.line_number)).1 }).st.diagnostics ++
            [(d.line_number, "Type mismatch in initialization")]
       else (analyze_node r { st with symtab := (insert_symbol st.symtab
            (create_symbol st.symtab (d.str_val.getD "") l.data_type
              SymbolKind.SYM_VARIABLE d.line_number)).1 }).st.diagnostics) ∧
    lookup_current (analyze_node (ASTNode.node d l r c b ini inc p nx) st).st.symtab
        (d.str_val.getD "") =
      some (create_symbol st.symtab (d.str_val.getD "") l.data_type
        SymbolKind.SYM_VARIABLE d.line_number) := by
  obtain ⟨hins, hlook⟩ := lookup_current_insert_new hok
    (create_symbol st.symtab (d.str_val.getD "") l.data_type SymbolKind.SYM_VARIABLE
      d.line_number) hnew
  have hrun : (analyze_node (ASTNode.node d l r c b ini inc p nx) st).st =
      (if r.isNull then { st with symtab := (insert_symbol st.symtab
            (create_symbol st.symtab (d.str_val.getD "") l.data_type
              SymbolKind.SYM_VARIABLE d.line_number)).1 }
       else if l.data_type ≠ (analyze_node r { st with symtab := (insert_symbol st.symtab
            (create_symbol st.symtab (d.str_val.getD "") l.data_type
              SymbolKind.SYM_VARIABLE d.line_number)).1 }).node.data_type then
          semantic_error (analyze_node r { st with symtab := (insert_symbol st.symtab
            (create_symbol st.symtab (d.str_val.getD "") l.data_type
              SymbolKind.SYM_VARIABLE d.line_number)).1 }).st d.line_number
            "Type mismatch in initialization"
       else (analyze_node r { st with symtab := (insert_symbol st.symtab
            (create_symbol st.symtab (d.str_val.getD "") l.data_type
              SymbolKind.SYM_VARIABLE d.line_number)).1 }).st) := by
    unfold analyze_node
    rw [analyze_walk]
    simp only [analyze_switch, ASTNode.type, hty, analyze_declaration, ASTNode.name,
      ASTNode.str_val, ASTNode.left, ASTNode.line_number, ASTNode.right, hins, if_true]
    split_ifs <;> first | rfl | (cases r <;> simp_all [ASTNode.set_right, ASTNode.left,
      ASTNode.right, ASTNode.line_number, ASTNode.isNull])
  refine ⟨?_, ?_, ?_⟩
  · intro hr
    subst hr
    rw [hrun]
    simp [ASTNode.isNull]
  · rw [hrun]
    split_ifs <;> simp [semantic_error]
  · rw [hrun]
    have hh := analyze_walk_holds r Walk.single { st with symtab := (insert_symbol st.symtab
      (create_symbol st.symtab (d.str_val.getD "") l.data_type
        SymbolKind.SYM_VARIABLE d.line_number)).1 } _ _ hlook
    split_ifs
    · exact hlook
    · exact hh
    · exact hh

/-- C38, amended: for every function definition that `analyze_function` accepts (its name
is not yet in the current scope, at level `lv`) and whose body is a Block, the parameters
are inserted in a scope at level `lv + 1` whose parent is the scope of the definition (one
level below the global scope for a top-level definition), as Parameter symbols of that
level, and the body Block opens a further, empty scope at level `lv + 2` below it, in which
every name resolves as in the function scope. So a variable declaration among the
statements of the body whose name is not yet declared in the block itself, be it the name
of a parameter, is accepted: `"Variable redeclared"` is not reported (without initialiser
nothing is, with one only its diagnostics and the type check of the initialiser), and before every later
statement of the body `lookup` resolves the name to the local Variable symbol. -/
theorem local_shadows_parameter (st : AnState) (fn : ASTNode) (lv : Int) (pa : Option Nat)
    (hty : fn.type = NodeType.NODE_FUNC_DEF) (hblk : fn.body.type = NodeType.NODE_BLOCK)
    (hw : st.symtab.wf) (hcur : st.symtab.current_place = some (lv, pa))
    (hnew : lookup_current st.symtab fn.name = none) :
    (analyze_node fn st).st.symtab =
      exit_scope (exit_scope
        (analyze_list fn.body.left (body_block_state fn st)).st.symtab) ∧
    (function_scope_state fn st).symtab.current_place =
      some (lv + 1, st.symtab.current_scope) ∧
    (∀ q ∈ siblings fn.params, ∃ s,
      lookup_current (function_scope_state fn st).symtab q.name = some s ∧
      s.kind = SymbolKind.SYM_PARAMETER ∧ s.scope_level = lv + 1) ∧
    (body_block_state fn st).symtab.current_place =
      some (lv + 2, (function_scope_state fn st).symtab.current_scope) ∧
    (∀ x, lookup_current (body_block_state fn st).symtab x = none ∧
      lookup (body_block_state fn st).symtab x =
        lookup (function_scope_state fn st).symtab x) ∧
    (∀ (j : Nat) (dcl : ASTNode), (siblings fn.body.left)[j]? = some dcl →
      dcl.type = NodeType.NODE_VAR_DECL →
      lookup_current (state_before fn.body.left j (body_block_state fn st)).symtab
        dcl.name = none →
      (dcl.right = ASTNode.null →
        (analyze_node dcl (state_before fn.body.left j
          (body_block_state fn st))).st.diagnostics =
          (state_before fn.body.left j (body_block_state fn st)).diagnostics) ∧
      (analyze_node dcl (state_before fn.body.left j
          (body_block_state fn st))).st.diagnostics =
        (if dcl.right.isNull then
          (state_before fn.body.left j (body_block_state fn st)).diagnostics
        else if dcl.left.data_type ≠ (analyze_node dcl.right (declared_state dcl
            (state_before fn.body.left j (body_block_state fn st)))).node.data_type then
          (analyze_node dcl.right (declared_state dcl
            (state_before fn.body.left j (body_block_state fn st)))).st.diagnostics ++
            [(dcl.line_number, "Type mismatch in initialization")]
        else (analyze_node dcl.right (declared_state dcl
            (state_before fn.body.left j (body_block_state fn st)))).st.diagnostics) ∧
      ∀ k, j < k →
        lookup (state_before fn.body.left k (body_block_state fn st)).symtab dcl.name =
          some (create_symbol (state_before fn.body.left j (body_block_state fn st)).symtab
            dcl.name dcl.left.data_type SymbolKind.SYM_VARIABLE dcl.line_number)) := by
  have hok : current_scope_ok st.symtab := by
    apply wf_current_scope_ok hw
    intro hc
    simp [SymTab.current_place, SymTab.current, hc] at hcur
  cases fn with
  | null => simp [ASTNode.type] at hty
  | node d l r c b ini inc p nx =>
    cases b with
    | null => simp [ASTNode.body, ASTNode.type] at hblk
    | node bd sl br bc bb bini binc bp bnx =>
      simp only [ASTNode.type] at hty
      simp only [ASTNode.body, ASTNode.type] at hblk
      simp only [ASTNode.name, ASTNode.str_val] at hnew
      have hsig := lookup_current_set_signature hok
        (create_symbol st.symtab (d.str_val.getD "") l.data_type SymbolKind.SYM_FUNCTION
          d.line_number) hnew (count_params p) (collect_param_types p)
      have hplace1 : (set_signature (insert_symbol st.symtab
          (create_symbol st.symtab (d.str_val.getD "") l.data_type SymbolKind.SYM_FUNCTION
            d.line_number)).1 (d.str_val.getD "") (count_params p)
          (collect_param_types p)).current_place = some (lv, pa) := by
        rw [current_place_set_signature, current_place_insert]
        exact hcur
      have hwf1 : (set_signature (insert_symbol st.symtab
          (create_symbol st.symtab (d.str_val.getD "") l.data_type SymbolKind.SYM_FUNCTION
            d.line_number)).1 (d.str_val.getD "") (count_params p)
          (collect_param_types p)).wf := wf_set_signature (wf_insert_symbol hw _) _ _ _
      have hF : (function_scope_state (ASTNode.node d l r c
          (ASTNode.node bd sl br bc bb bini binc bp bnx) ini inc p nx) st).symtab.current_place
          = some (lv + 1, st.symtab.current_scope) := by
        unfold function_scope_state
        rw [current_place_insert_params]
        simp only [ASTNode.name, ASTNode.str_val, ASTNode.left, ASTNode.line_number,
          ASTNode.params]
        rw [current_place_enter_scope _ lv pa hplace1]
        exact congrArg (fun z => some (lv + 1, z)) hsig.2.1
      have hFwf : (function_scope_state (ASTNode.node d l r c
          (ASTNode.node bd sl br bc bb bini binc bp bnx) ini inc p nx) st).symtab.wf := by
        unfold function_scope_state
        apply insert_params_wf
        exact wf_enter_scope hwf1
      refine ⟨(function_body_run st d bd l r c sl br bc bb bini binc bp bnx ini inc p nx
        hty hblk hok hnew).1, hF, ?_, ?_, ?_, ?_⟩
      · intro q hq
        have hpres := insert_params_present p
          { st with
            symtab := enter_scope (set_signature (insert_symbol st.symtab
              (create_symbol st.symtab (d.str_val.getD "") l.data_type
                SymbolKind.SYM_FUNCTION d.line_number)).1 (d.str_val.getD "")
              (count_params p) (collect_param_types p)),
            current_function := some
              { create_symbol st.symtab (d.str_val.getD "") l.data_type
                  SymbolKind.SYM_FUNCTION d.line_number with
                param_count := count_params p,
                param_types := collect_param_types p } }
          (current_scope_ok_enter _) q hq
        have hkind := insert_params_kinds p
          { st with
            symtab := enter_scope (set_signature (insert_symbol st.symtab
              (create_symbol st.symtab (d.str_val.getD "") l.data_type
                SymbolKind.SYM_FUNCTION d.line_number)).1 (d.str_val.getD "")
              (count_params p) (collect_param_types p)),
            current_function := some
              { create_symbol st.symtab (d.str_val.getD "") l.data_type
                  SymbolKind.SYM_FUNCTION d.line_number with
                param_count := count_params p,
                param_types := collect_param_types p } }
          (lv + 1)
          (by
            simp only
            rw [current_place_enter_scope _ lv pa hplace1]
            rfl)
          (by
            intro x s hx
            simp only at hx
            rw [lookup_current_enter_scope] at hx
            cases hx)
        cases hs : lookup_current (function_scope_state (ASTNode.node d l r c
            (ASTNode.node bd sl br bc bb bini binc bp bnx) ini inc p nx) st).symtab q.name with
        | none => exact absurd hs hpres
        | some s => exact ⟨s, rfl, hkind q.name s hs⟩
      · unfold body_block_state
        simp only
        rw [current_place_enter_scope _ (lv + 1) _ hF]
        have : lv + 1 + 1 = lv + 2 := by ring
        rw [this]
      · intro x
        exact ⟨lookup_current_enter_scope _ x, lookup_enter_scope hFwf x⟩
      · intro j dcl hj hd hfree
        simp only [ASTNode.body, ASTNode.left] at hj hfree ⊢
        cases dcl with
        | null => simp [ASTNode.type] at hd
        | node dd dl dr dc db dini dinc dp dnx =>
          simp only [ASTNode.type] at hd
          simp only [declared_state, ASTNode.name, ASTNode.str_val, ASTNode.right,
            ASTNode.left, ASTNode.line_number] at hfree ⊢
          have hoks : current_scope_ok (state_before sl j (body_block_state
              (ASTNode.node d l r c (ASTNode.node bd sl br bc bb bini binc bp bnx)
                ini inc p nx) st)).symtab :=
            Frame.keeps_ok (state_before_frame sl j _) (current_scope_ok_enter _)
          obtain ⟨h1, h2, h3⟩ := declaration_accepted _ dd dl dr dc db dini dinc dp dnx hd
            hoks hfree
          refine ⟨h1, h2, ?_⟩
          · intro k hjk
            apply lookup_of_lookup_current
            have hstep := state_before_step sl j (body_block_state
              (ASTNode.node d l r c (ASTNode.node bd sl br bc bb bini binc bp bnx)
                ini inc p nx) st) _ hj
            apply state_before_holds sl (j + 1) k _ (by omega)
            rw [hstep]
            exact h3

theorem local_shadows_parameter_witness :
    (semantic_analyze sample_shadow AnState.initial).1.diagnostics =
        [(3, "Return type mismatch")] ∧
      (function_scope_state sample_shadow AnState.initial).symtab.current_place =
        some (0 + 1, AnState.initial.symtab.current_scope) ∧
      (body_block_state sample_shadow AnState.initial).symtab.current_place =
        some (0 + 2, (function_scope_state sample_shadow AnState.initial).symtab.current_scope) ∧
      (lookup (function_scope_state sample_shadow AnState.initial).symtab "a").map
          (fun s => (s.type, s.kind, s.scope_level)) =
        some (DataType.TYPE_INT, SymbolKind.SYM_PARAMETER, 1) ∧
      ∀ k, 0 < k →
        lookup (state_before sample_shadow.body.left k
          (body_block_state sample_shadow AnState.initial)).symtab "a" =
          some (create_symbol (body_block_state sample_shadow AnState.initial).symtab "a"
            DataType.TYPE_CHAR SymbolKind.SYM_VARIABLE 2) :=
  match local_shadows_parameter AnState.initial sample_shadow 0 none rfl rfl
    (wf_enter_scope wf_empty) rfl (by decide) with
  | ⟨_, hf, _, hb, _, hd⟩ =>
    ⟨by decide, hf, hb, by decide,
      (hd 0 sample_shadow.body.left rfl rfl (by decide)).2.2⟩

/-- C38 as stated fails for a definition that is rejected: in `int f;  int f(int a){ char a;
return a; }` the definition on line 2 is reported as `"Function redeclared"` and not
analysed further. After the pass the global scope, at level 0 and holding `f`, is the only
scope ever allocated: no scope was entered for the parameter `a`, which is in no scope, nor
for the body. -/
theorem rejected_definition_counterexample :
    (semantic_analyze sample_rejected_params AnState.initial).1.diagnostics =
        [(2, "Function redeclared")] ∧
      sample_rejected_params.next.type = NodeType.NODE_FUNC_DEF ∧
      sample_rejected_params.next.body.type = NodeType.NODE_BLOCK ∧
      (siblings sample_rejected_params.next.params).map ASTNode.name = ["a"] ∧
      (semantic_analyze sample_rejected_params AnState.initial).1.symtab.heap.map
          (fun sc => (sc.level, sc.symbols.map Symbol.name)) = [(0, ["f"])] := by
  decide
end CompilerDesign
